import Mathlib

/-!
# The field-derivation engine of `parserxml/main.go`

A shallow embedding of the dispatcher (`extractdata`, `parsedata`), of the
`operations` table and of the parser library, followed by the properties
proved about them.

Conventions of the embedding.

* A Go `string` is a Lean `String`.  The records come out of `encoding/json`,
  which only produces valid UTF-8, and on valid UTF-8 the byte-wise functions of
  package `strings` agree with their code-point-wise counterparts used here.
* A Go `map[string]T` is a `GoMap T`: a list of entries in which `GoMap.set`
  keeps every key at most once.
* A Go `error` is its message; a function returning `(interface{}, error)` is a
  function into `Except String Value`.
* A Go `float64` is a `Float64`: a rational number, one of the two infinities,
  or NaN.  The zero stands for both zeros of Go, which compare equal; where
  the program writes a number out (`parseGirth`), the sign of a zero is taken
  from the text it was read from.  `Float64.add` and `Float64.div` give the
  exact sum and quotient, and `Float64.round` takes an exact result to the
  nearest `float64`: 53 bits of mantissa, a tie going to the even mantissa,
  subnormal numbers, an infinity on overflow.  An operation of Go is the exact
  operation followed by `Float64.round`, and `strconv.ParseFloat` returns the
  `float64` nearest to the decimal it reads.
* A decimal constant of the source (`0.005`, `0.01`) is the `float64` nearest
  to the decimal written.
* Go does not fix the order in which a `range` loop visits a map.
  `parseAgatston` visits the map of artery scores in the order its entries
  were stored; `parseAgatstonIn` is the same function with the orders of its
  two loops as parameters.
* A slice is a `List`, and a function reads its slice by pattern: `fields[0]`
  of the list `[f0]` is `f0`.  The namespace `checked` embeds the same
  functions a second time with every read `xs[i]` as Go runs it, a panic when
  `i` is not an index of `xs`; there the outcome of a run is an `Option`, and
  `none` is the panic.
* Functions of the Go standard library (`strings`, `strconv`, `time`, `regexp`)
  are embedded from their documented behaviour, under their Go names.
-/

set_option autoImplicit false

namespace ParserXml

/-! ## Package `strings` -/

namespace strings

/-- The white space of `unicode.IsSpace`: the Latin-1 spaces and the code points
of category Z. -/
def isSpace (c : Char) : Bool :=
  let n := c.toNat
  n == 0x09 || n == 0x0A || n == 0x0B || n == 0x0C || n == 0x0D || n == 0x20 ||
  n == 0x85 || n == 0xA0 || n == 0x1680 || (0x2000 ≤ n && n ≤ 0x200A) ||
  n == 0x2028 || n == 0x2029 || n == 0x202F || n == 0x205F || n == 0x3000

/-- The characters of a string without its leading and trailing white space. -/
def trimChars (cs : List Char) : List Char :=
  ((cs.dropWhile isSpace).reverse.dropWhile isSpace).reverse

/-- Go `strings.TrimSpace`. -/
def TrimSpace (s : String) : String := ⟨trimChars s.data⟩

/-- Whether `sub` occurs in `cs` as a block of consecutive characters. -/
def containsChars : List Char → List Char → Bool
  | [], sub => sub.isEmpty
  | c :: cs, sub => sub.isPrefixOf (c :: cs) || containsChars cs sub

/-- Go `strings.Contains`. -/
def Contains (s substr : String) : Bool := containsChars s.data substr.data

/-- The pieces of `cs` between the occurrences of the separator character. -/
def splitChars (sep : Char) : List Char → List (List Char)
  | [] => [[]]
  | c :: cs =>
    if c = sep then [] :: splitChars sep cs
    else
      match splitChars sep cs with
      | [] => [[c]]
      | p :: ps => (c :: p) :: ps

end strings

/-! ## The type `float64` -/

/-- A non-negative rational rounded to a whole number, a tie going to the
even neighbour. -/
def fmt.roundHalfEven (num den : Nat) : Nat :=
  let q := num / den
  let twice := 2 * (num % den)
  if den < twice ∨ (twice = den ∧ q % 2 = 1) then q + 1 else q

/-- A value of type `float64`: a number, an infinity or NaN.  The numbers a
`float64` holds are those `Float64.round` returns. -/
inductive Float64 where
  | fin (q : ℚ)
  | inf (neg : Bool)
  | nan
  deriving DecidableEq

namespace Float64

/-- The comparison `a < b` of two `float64`: false as soon as one side is NaN. -/
def lt : Float64 → Float64 → Bool
  | fin a, fin b => decide (a < b)
  | fin _, inf neg => !neg
  | inf neg, fin _ => neg
  | inf a, inf b => a && !b
  | _, _ => false

/-- The comparison `a == b` of two `float64`: NaN is equal to nothing. -/
def eq : Float64 → Float64 → Bool
  | fin a, fin b => decide (a = b)
  | inf a, inf b => a == b
  | _, _ => false

/-- The comparison `a <= b`. -/
def le (a b : Float64) : Bool := lt a b || eq a b

/-- The comparison `a > b`. -/
def gt (a b : Float64) : Bool := lt b a

/-- The exact sum `a + b`. -/
def add : Float64 → Float64 → Float64
  | fin a, fin b => fin (a + b)
  | fin _, inf b => inf b
  | inf a, fin _ => inf a
  | inf a, inf b => if a = b then inf a else nan
  | _, _ => nan

/-- The exact quotient `a / b`; a finite non-zero value over zero is an
infinity. -/
def div : Float64 → Float64 → Float64
  | fin a, fin b =>
    if b = 0 then (if a = 0 then nan else inf (decide (a < 0)))
    else fin (a / b)
  | fin _, inf _ => fin 0
  | inf a, fin b => inf (a != decide (b < 0))
  | _, _ => nan

/-- The power of 2 with the exponent `e`. -/
def twoPow (e : Int) : ℚ :=
  if 0 ≤ e then (2 : ℚ) ^ e.toNat else 1 / (2 : ℚ) ^ (-e).toNat

/-- How many times `d` can be doubled without exceeding `n`; `fuel` bounds the
count. -/
def doublings : Nat → Nat → Nat → Nat
  | 0, _, _ => 0
  | fuel + 1, n, d => if 2 * d ≤ n then doublings fuel n (2 * d) + 1 else 0

/-- The binary exponent of the positive rational `n / d`: the `e` with
`2 ^ e ≤ n / d < 2 ^ (e + 1)`. -/
def exponent (n d : Nat) : Int :=
  if d ≤ n then (doublings n n d : Int)
  else if n * 2 ^ doublings d d n = d then -(doublings d d n : Int)
  else -(doublings d d n : Int) - 1

/-- The `float64` nearest to the positive rational `n / d`, were the exponent
unbounded above: a mantissa of 53 bits, an exponent not below -1074, a tie
going to the even mantissa. -/
def nearest (n d : Nat) : ℚ :=
  let e := max (exponent n d - 52) (-1074)
  let mantissa :=
    if 0 ≤ e then fmt.roundHalfEven n (d * 2 ^ e.toNat)
    else fmt.roundHalfEven (n * 2 ^ (-e).toNat) d
  (mantissa : ℚ) * twoPow e

/-- The rounding of an exact result to a `float64`: the nearest one, and an
infinity from `2 ^ 1024` on. -/
def round : Float64 → Float64
  | fin q =>
    if q = 0 then fin 0
    else if 2 ^ 1024 ≤ nearest q.num.natAbs q.den then inf (decide (q < 0))
    else fin (if q < 0 then -nearest q.num.natAbs q.den else nearest q.num.natAbs q.den)
  | inf neg => inf neg
  | nan => nan

/-- The conversion `int(x)` of a finite value: the fraction is dropped
(rounding toward zero).  Go leaves the conversion of other values
unspecified; here it is 0. -/
def toInt : Float64 → Int
  | fin q => Int.tdiv q.num q.den
  | _ => 0

end Float64

/-! ## Package `strconv` -/

namespace strconv

/-- The value of a decimal digit, or of a hexadecimal one when `hex` is set. -/
def digitVal (hex : Bool) (c : Char) : Option Nat :=
  let n := c.toNat
  if 48 ≤ n ∧ n ≤ 57 then some (n - 48)
  else if hex = true ∧ 97 ≤ n ∧ n ≤ 102 then some (n - 87)
  else if hex = true ∧ 65 ≤ n ∧ n ≤ 70 then some (n - 55)
  else none

/-- An ASCII letter in lower case; any other character unchanged. -/
def lower (c : Char) : Char :=
  if 65 ≤ c.toNat ∧ c.toNat ≤ 90 then Char.ofNat (c.toNat + 32) else c

/-- What `readFloat` has seen of a mantissa: a dot, a digit, the digits as a
number, and how many of them stand after the dot. -/
structure Mantissa where
  sawdot : Bool
  sawdigits : Bool
  digits : Nat
  fraction : Nat

/-- The mantissa loop of `readFloat`: underscores are skipped, one dot is
taken, and the loop stops at the first other character. -/
def readMantissa (hex : Bool) : List Char → Mantissa → Mantissa × List Char
  | [], m => (m, [])
  | c :: cs, m =>
    if c = '_' then readMantissa hex cs m
    else if c = '.' then
      if m.sawdot then (m, c :: cs)
      else readMantissa hex cs { m with sawdot := true }
    else
      match digitVal hex c with
      | some d =>
        readMantissa hex cs
          { m with
            sawdigits := true
            digits := m.digits * (if hex then 16 else 10) + d
            fraction := if m.sawdot then m.fraction + 1 else m.fraction }
      | none => (m, c :: cs)

/-- The digits of an exponent; the value stops growing at 10000, as in
`readFloat`. -/
def readExponent : List Char → Nat → Nat × List Char
  | [], e => (e, [])
  | c :: cs, e =>
    if c = '_' then readExponent cs e
    else
      match digitVal false c with
      | some d => readExponent cs (if e < 10000 then e * 10 + d else e)
      | none => (e, c :: cs)

/-- The last character seen by `underscoreOK`. -/
inductive Saw where
  | start
  | digit
  | underscore
  | other
  deriving DecidableEq

/-- The loop of `underscoreOK`: an underscore stands between two digits. -/
def underscoreLoop (hex : Bool) : List Char → Saw → Bool
  | [], saw => decide (saw ≠ Saw.underscore)
  | c :: cs, saw =>
    if (digitVal hex c).isSome then underscoreLoop hex cs Saw.digit
    else if c = '_' then
      if saw = Saw.digit then underscoreLoop hex cs Saw.underscore else false
    else if saw = Saw.underscore then false
    else underscoreLoop hex cs Saw.other

/-- A string without its optional sign. -/
def dropSign : List Char → List Char
  | c :: cs => if c = '+' ∨ c = '-' then cs else c :: cs
  | [] => []

/-- Go `underscoreOK`. -/
def underscoreOK (s : List Char) : Bool :=
  match dropSign s with
  | c0 :: c1 :: rest =>
    if c0 = '0' ∧ (lower c1 = 'b' ∨ lower c1 = 'o' ∨ lower c1 = 'x') then
      underscoreLoop (decide (lower c1 = 'x')) rest Saw.digit
    else underscoreLoop false (c0 :: c1 :: rest) Saw.start
  | cs => underscoreLoop false cs Saw.start

/-- A number read by `readFloat`: its sign, and the digits `digits` scaled by
`10 ^ exp`, or by `2 ^ exp` when `hex` is set. -/
structure Parsed where
  neg : Bool
  digits : Nat
  exp : Int
  hex : Bool
  deriving DecidableEq

/-- The exponent part of `readFloat`: after the exponent letter come an
optional sign and at least one digit. -/
def readExponentPart (cs : List Char) : Option (Int × List Char) :=
  match cs with
  | [] => none
  | c :: rest =>
    let neg := decide (c = '-')
    let digits := if c = '+' ∨ c = '-' then rest else c :: rest
    match digits with
    | [] => none
    | d :: _ =>
      if (digitVal false d).isSome then
        let r := readExponent digits 0
        some (if neg then -(r.1 : Int) else (r.1 : Int), r.2)
      else none

/-- Go `readFloat`, for a string that must be read to its end: a sign, a
decimal or hexadecimal mantissa, an exponent (required after a hexadecimal
mantissa), underscores only where `underscoreOK` allows them. -/
def readFloat (s : List Char) : Option Parsed :=
  match s with
  | [] => none
  | c :: _ =>
    let neg := decide (c = '-')
    let body := dropSign s
    let hex : Bool :=
      match body with
      | c0 :: c1 :: _ :: _ => decide (c0 = '0' ∧ lower c1 = 'x')
      | _ => false
    let r := readMantissa hex (if hex then body.drop 2 else body) ⟨false, false, 0, 0⟩
    let scale : Int := if hex then 4 else 1
    if r.1.sawdigits = false then none
    else
      match r.2 with
      | [] =>
        if hex = false ∧ underscoreOK s = true then
          some ⟨neg, r.1.digits, -(r.1.fraction : Int), false⟩
        else none
      | e :: rest =>
        if lower e = (if hex then 'p' else 'e') then
          match readExponentPart rest with
          | some (x, []) =>
            if underscoreOK s then
              some ⟨neg, r.1.digits, x - scale * (r.1.fraction : Int), hex⟩
            else none
          | _ => none
        else none

/-- The special values of `ParseFloat`: `inf` and `infinity` with an optional
sign, and `nan`, in any mix of cases. -/
def special (s : List Char) : Option Float64 :=
  let low := s.map lower
  if low = "inf".data ∨ low = "infinity".data ∨
      low = "+inf".data ∨ low = "+infinity".data then some (Float64.inf false)
  else if low = "-inf".data ∨ low = "-infinity".data then some (Float64.inf true)
  else if low = "nan".data then some Float64.nan
  else none

/-- The exact number a `Parsed` stands for. -/
def Parsed.value (p : Parsed) : ℚ :=
  (if p.neg then -1 else 1) * (p.digits : ℚ) * (if p.hex then 2 else 10) ^ p.exp

/-- The result of a conversion: the value, and the error if there is one. -/
structure Conv (α : Type) where
  val : α
  err : Option String

/-- The characters beyond ASCII that `unicode.IsPrint` is known to reject: the
controls from U+0080 to U+009F, the separators of category Z, the format
characters, the private-use characters and the noncharacters.  A code point
to which the Unicode version of the Go release assigns no character is
rejected by Go as well; which these are depends on the release, and they are
not listed here. -/
def notPrint (n : Nat) : Bool :=
  (0x80 ≤ n && n ≤ 0x9F) || n == 0xA0 || n == 0xAD ||
  (0x600 ≤ n && n ≤ 0x605) || n == 0x61C || n == 0x6DD || n == 0x70F ||
  (0x890 ≤ n && n ≤ 0x891) || n == 0x8E2 || n == 0x1680 || n == 0x180E ||
  (0x2000 ≤ n && n ≤ 0x200F) || (0x2028 ≤ n && n ≤ 0x202F) ||
  (0x205F ≤ n && n ≤ 0x2064) || (0x2066 ≤ n && n ≤ 0x206F) || n == 0x3000 ||
  (0xE000 ≤ n && n ≤ 0xF8FF) || (0xFDD0 ≤ n && n ≤ 0xFDEF) || n == 0xFEFF ||
  (0xFFF9 ≤ n && n ≤ 0xFFFB) || n % 0x10000 == 0xFFFE || n % 0x10000 == 0xFFFF ||
  n == 0x110BD || n == 0x110CD || (0x13430 ≤ n && n ≤ 0x1343F) ||
  (0x1BCA0 ≤ n && n ≤ 0x1BCA3) || (0x1D173 ≤ n && n ≤ 0x1D17A) ||
  n == 0xE0001 || (0xE0020 ≤ n && n ≤ 0xE007F) || 0xF0000 ≤ n

/-- The last `width` digits of `n` in base 16, in lower case. -/
def lowerHex : Nat → Nat → List Char
  | 0, _ => []
  | width + 1, n => lowerHex width (n / 16) ++ [Nat.digitChar (n % 16)]

/-- One character as Go `Quote` writes it: the quote and the backslash are
escaped; a character that is not printable is written as an escape, a
control of ASCII by its letter or as `\x` and two digits, any other as `\u`
and four digits or `\U` and eight; every other character is written as it
is. -/
def quoteChar (c : Char) : List Char :=
  let n := c.toNat
  if n = 34 then [Char.ofNat 92, Char.ofNat 34]
  else if n = 92 then [Char.ofNat 92, Char.ofNat 92]
  else if n = 7 then [Char.ofNat 92, 'a']
  else if n = 8 then [Char.ofNat 92, 'b']
  else if n = 12 then [Char.ofNat 92, 'f']
  else if n = 10 then [Char.ofNat 92, 'n']
  else if n = 13 then [Char.ofNat 92, 'r']
  else if n = 9 then [Char.ofNat 92, 't']
  else if n = 11 then [Char.ofNat 92, 'v']
  else if n < 32 ∨ n = 127 then
    [Char.ofNat 92, 'x', Nat.digitChar (n / 16), Nat.digitChar (n % 16)]
  else if notPrint n = true then
    if n < 0x10000 then Char.ofNat 92 :: 'u' :: lowerHex 4 n
    else Char.ofNat 92 :: 'U' :: lowerHex 8 n
  else [c]

/-- Go `strconv.Quote`. -/
def Quote (s : String) : String :=
  ⟨Char.ofNat 34 :: (s.data.flatMap quoteChar ++ [Char.ofNat 34])⟩

/-- The message of a `*NumError`. -/
def numError (func num err : String) : String :=
  "strconv." ++ func ++ ": parsing " ++ Quote num ++ ": " ++ err

/-- Go `strconv.ParseFloat(s, 64)`.  A string that is not a number gives 0 and
the error `invalid syntax`.  A number that rounds to a magnitude above the
largest `float64` gives an infinity and the error `value out of range`; one
that rounds to zero gives 0; any other gives the `float64` nearest to it. -/
def ParseFloat (s : String) : Conv Float64 :=
  match special s.data with
  | some x => ⟨x, none⟩
  | none =>
    match readFloat s.data with
    | none => ⟨Float64.fin 0, some (numError "ParseFloat" s "invalid syntax")⟩
    | some p =>
      if (2 : ℚ) ^ 1024 - 2 ^ 970 ≤ |p.value| then
        ⟨Float64.inf p.neg, some (numError "ParseFloat" s "value out of range")⟩
      else if |p.value| ≤ 1 / 2 ^ 1075 then ⟨Float64.fin 0, none⟩
      else ⟨(Float64.fin p.value).round, none⟩

/-- Whether `strconv.ParseFloat(s, 64)` returns the negative zero, which a
`Float64` does not tell from 0: `s` is a number with a minus sign that rounds
to zero. -/
def negativeZero (s : String) : Bool :=
  match special s.data with
  | some _ => false
  | none =>
    match readFloat s.data with
    | none => false
    | some p => p.neg && decide (|p.value| ≤ 1 / 2 ^ 1075)

/-- The digits of a decimal number as a number; `none` when a character is
not a digit or there is none. -/
def decimal : List Char → Option Nat
  | [] => none
  | cs => cs.foldl (fun acc c => acc.bind fun n => (digitVal false c).map fun d => n * 10 + d)
      (some 0)

/-- Go `strconv.Atoi` on a 64-bit platform: an optional sign and decimal
digits.  Anything else gives 0 and `invalid syntax`; a number that does not
fit in an `int` gives the nearest `int` and `value out of range`. -/
def Atoi (s : String) : Conv Int :=
  match s.data with
  | [] => ⟨0, some (numError "Atoi" s "invalid syntax")⟩
  | c :: _ =>
    match decimal (dropSign s.data) with
    | none => ⟨0, some (numError "Atoi" s "invalid syntax")⟩
    | some n =>
      let v : Int := if c = '-' then -(n : Int) else (n : Int)
      if v < -(2 ^ 63) then ⟨-(2 ^ 63), some (numError "Atoi" s "value out of range")⟩
      else if 2 ^ 63 ≤ v then ⟨2 ^ 63 - 1, some (numError "Atoi" s "value out of range")⟩
      else ⟨v, none⟩

end strconv

/-! ## Package `time` -/

namespace time

/-- Go `isLeap`. -/
def isLeap (year : Nat) : Bool :=
  year % 4 == 0 && (year % 100 != 0 || year % 400 == 0)

/-- Go `daysIn`: the number of days of a month of a year. -/
def daysIn (month year : Nat) : Nat :=
  if month = 2 then (if isLeap year then 29 else 28)
  else if month = 4 ∨ month = 6 ∨ month = 9 ∨ month = 11 then 30
  else 31

/-- The number of days of the year that precede the first of the month. -/
def daysBeforeMonth (month year : Nat) : Nat :=
  ((List.range (month - 1)).map fun m => daysIn (m + 1) year).sum

/-- The number of days from 1 January of the year 0 to the given day, in the
proleptic Gregorian calendar. -/
def daysSinceYearZero (year month day : Nat) : Nat :=
  365 * year + (year + 3) / 4 - (year + 99) / 100 + (year + 399) / 400 +
    daysBeforeMonth month year + (day - 1)

/-- A `time.Time` in UTC: the seconds elapsed since the start of the year 0. -/
structure Time where
  sec : Int
  deriving DecidableEq

/-- A `time.Duration`: a number of nanoseconds held in an `int64`. -/
structure Duration where
  ns : Int
  deriving DecidableEq

/-- Go `time.Parse("2006/01/02", value)`: four digits of year, a slash, two
digits of month, a slash, two digits of day and nothing else; the month lies
in 1..12 and the day exists in that month.  The result is midnight UTC. -/
def Parse (value : String) : Option Time :=
  match value.data with
  | [y1, y2, y3, y4, s1, m1, m2, s2, d1, d2] =>
    match strconv.decimal [y1, y2, y3, y4], strconv.decimal [m1, m2],
        strconv.decimal [d1, d2] with
    | some year, some month, some day =>
      if s1 = '/' ∧ s2 = '/' ∧ 1 ≤ month ∧ month ≤ 12 ∧ 1 ≤ day ∧
          day ≤ daysIn month year then
        some ⟨(daysSinceYearZero year month day : Int) * 86400⟩
      else none
    | _, _, _ => none
  | _ => none

/-- Go `Time.Sub`: the elapsed time `t - u` in nanoseconds, replaced by the
largest or smallest `Duration` when it does not fit. -/
def Time.Sub (t u : Time) : Duration :=
  let d := (t.sec - u.sec) * 1000000000
  if 2 ^ 63 ≤ d then ⟨2 ^ 63 - 1⟩
  else if d < -(2 ^ 63) then ⟨-(2 ^ 63)⟩
  else ⟨d⟩

/-- Go `Duration.Hours`: the whole hours and the rest of the nanoseconds are
converted to `float64`, the rest is divided by the nanoseconds of an hour,
and the two are added. -/
def Duration.Hours (d : Duration) : Float64 :=
  let hour := Int.tdiv d.ns 3600000000000
  let nsec := Int.tmod d.ns 3600000000000
  ((Float64.fin hour).round.add
    ((Float64.fin nsec).round.div (Float64.fin 3600000000000)).round).round

end time

/-! ## Package `fmt` -/

namespace fmt

/-- The verb `%d` of a length or count. -/
def d (n : Nat) : String := Nat.repr n

/-- A number written with at least `width` digits. -/
def padded (width n : Nat) : String :=
  ⟨List.replicate (width - (Nat.repr n).length) '0'⟩ ++ Nat.repr n

/-- The verb `%f` of a `float64`: the sign of a negative number, then the
number rounded to six digits after the point, a tie going to the even digit.
A zero is written with a minus sign when it is the negative zero, which
`negZero` tells. -/
def f (negZero : Bool) : Float64 → String
  | Float64.fin q =>
    let n := roundHalfEven (q.num.natAbs * 1000000) q.den
    (if q < 0 ∨ (q = 0 ∧ negZero = true) then "-" else "") ++ Nat.repr (n / 1000000) ++ "." ++
      padded 6 (n % 1000000)
  | Float64.inf neg => if neg then "-Inf" else "+Inf"
  | Float64.nan => "NaN"

end fmt

/-! ## Package `regexp`

The patterns of the program, each read as Go reads it: the match that starts
leftmost, and among those the one a backtracking search finds first. -/

namespace regexp

/-- The class `\d`, which is `[0-9]`. -/
def isDigit (c : Char) : Bool := decide (48 ≤ c.toNat ∧ c.toNat ≤ 57)

/-- The class `\s`, which is `[\t\n\f\r ]`. -/
def isSpace (c : Char) : Bool :=
  c.toNat == 9 || c.toNat == 10 || c.toNat == 12 || c.toNat == 13 || c.toNat == 32

/-- The text after the literal `lit` when the text starts with it. -/
def literal (lit : List Char) (s : List Char) : Option (List Char) :=
  if lit.isPrefixOf s then some (s.drop lit.length) else none

/-- The first result of `m` over the text and its successive tails: the
match that starts leftmost. -/
def leftmost {α : Type} (m : List Char → Option α) : List Char → Option α
  | [] => m []
  | c :: cs =>
    match m (c :: cs) with
    | some r => some r
    | none => leftmost m cs

/-- The pattern `(\d+)` followed by a literal, at the start of the text: the
digits, and the text after the literal. -/
def digitsThen (lit : List Char) (s : List Char) : Option (List Char × List Char) :=
  let ds := s.takeWhile isDigit
  if ds = [] then none
  else (literal lit (s.dropWhile isDigit)).map fun rest => (ds, rest)

/-- The pattern `[0-9]+(?:\.[0-9]+)?` at the start of the text: the number
matched, and the text after it. -/
def number (s : List Char) : Option (List Char × List Char) :=
  let ds := s.takeWhile isDigit
  if ds = [] then none
  else
    match s.dropWhile isDigit with
    | c :: rest =>
      if c = '.' ∧ rest.takeWhile isDigit ≠ [] then
        some (ds ++ c :: rest.takeWhile isDigit, rest.dropWhile isDigit)
      else some (ds, c :: rest)
    | [] => some (ds, [])

/-- The first of the alternatives that the text starts with, and the text
after it. -/
def alternatives (alts : List String) (s : List Char) : Option (String × List Char) :=
  match alts with
  | [] => none
  | a :: rest =>
    match literal a.data s with
    | some tail => some (a, tail)
    | none => alternatives rest s

end regexp

/-! ## Values, maps and results -/

/-- The dynamic values (`interface{}`) the parsers return: an `int` or a
`float64`. -/
inductive Value where
  | int (n : Int)
  | float (x : Float64)
  deriving DecidableEq

/-- A Go map with string keys. -/
abbrev GoMap (α : Type) := List (String × α)

namespace GoMap

/-- The read `m[k]` with its presence flag. -/
def get? {α : Type} : GoMap α → String → Option α
  | [], _ => none
  | (k', v) :: rest, k => if k' = k then some v else get? rest k

/-- The assignment `m[k] = v`. -/
def set {α : Type} : GoMap α → String → α → GoMap α
  | [], k, v => [(k, v)]
  | (k', v') :: rest, k, v =>
    if k' = k then (k, v) :: rest else (k', v') :: set rest k v

/-- The keys of a map. -/
def keys {α : Type} (m : GoMap α) : List String := m.map Prod.fst

end GoMap

/-- The struct `Result`. -/
structure Result where
  Error : String
  ErrorCode : String
  ErrorDetail : String
  Data : GoMap Value
  deriving DecidableEq

/-- Go `initResult`. -/
def initResult : Result :=
  { Error := "", ErrorCode := "", ErrorDetail := "", Data := [] }

/-! ## The dispatcher -/

/-- The loop of `parsedata` that reads the raw fields of a rule: the values in
the order of the field names, or the first field name that is not a key of
the record. -/
def fieldValues (data : GoMap String) : List String → Except String (List String)
  | [] => .ok []
  | colName :: rest =>
    match data.get? colName with
    | some val =>
      match fieldValues data rest with
      | .ok vals => .ok (val :: vals)
      | .error missing => .error missing
    | none => .error colName

/-- Go `parsedata`.  The map behind the pointer `parsedJSON` is passed in and
returned next to the result. -/
def parsedata (parsefunction : String → List String → Except String Value)
    (parsedJSON : GoMap Value) (data : GoMap String)
    (modelcollabel modelcolname : String) (defusedcolname : List String) :
    Result × GoMap Value :=
  if defusedcolname.length < 1 then
    ({ initResult with
        Error := modelcollabel ++ " 必須包含至少一個欄位名稱", ErrorCode := "E010" },
      parsedJSON)
  else
    match fieldValues data defusedcolname with
    | .error colName =>
      ({ initResult with
          Error := "原始資料欄位 " ++ colName ++ " 不存在", ErrorCode := "E011" },
        parsedJSON)
    | .ok vals =>
      match parsefunction modelcollabel vals with
      | .error err =>
        ({ initResult with
            Error := "解析欄位 " ++ modelcolname ++ " 時發生錯誤", ErrorCode := "E012",
            ErrorDetail := err },
          parsedJSON)
      | .ok parsedValue => (initResult, parsedJSON.set modelcolname parsedValue)

/-- A row of the table `operations`. -/
structure Operation where
  parseFunc : String → List String → Except String Value
  colLabel : String
  colName : String
  fields : List String

/-- The loop of `extractdata` over the rows still to do, from the current
`result` and `parsedJSON`. -/
def extractdataLoop (data : GoMap String) :
    List Operation → Result → GoMap Value → Result
  | [], result, parsedJSON => { result with Data := parsedJSON }
  | op :: rest, _, parsedJSON =>
    let r := parsedata op.parseFunc parsedJSON data op.colLabel op.colName op.fields
    if r.1.Error ≠ "" then r.1 else extractdataLoop data rest r.1 r.2

/-- The body of `extractdata` over a given table. -/
def extractdataOver (ops : List Operation) (data : GoMap String) : Result :=
  extractdataLoop data ops initResult []

/-! ## Arithmetic of `int` -/

namespace int64

/-- The value an `int` holds after an operation whose exact result is `n`. -/
def wrap (n : Int) : Int := (n + 2 ^ 63) % 2 ^ 64 - 2 ^ 63

/-- The sum of two `int`. -/
def add (a b : Int) : Int := wrap (a + b)

/-- The product of two `int`. -/
def mul (a b : Int) : Int := wrap (a * b)

end int64

/-! ## The parser library -/

/-- The error of a parser that is given a number of fields other than
`numFields`. -/
def wrongFields (numFields : Nat) (label : String) (n : Nat) : String :=
  "需要確切" ++ fmt.d numFields ++ "個輸入欄位來解析輸出欄位【" ++ label ++ "】，而輸入為" ++
    fmt.d n ++ "個"

/-- The same error, in the wording of `parseGlucoseU`, `parseHsCRP` and
`parseAgatston`. -/
def wrongFieldsShort (numFields : Nat) (label : String) (n : Nat) : String :=
  "需要確切" ++ fmt.d numFields ++ "個欄位來解析" ++ label ++ "，而輸入為" ++ fmt.d n ++ "個"

/-- The pattern `(\d+)小時(\d+)?分鐘?` of `str2Min`, as `FindStringSubmatch`
applies it: the two groups of the leftmost match. -/
def hourMinutePattern (s : List Char) : Option (String × String) :=
  regexp.leftmost (fun t =>
    match regexp.digitsThen "小時".data t with
    | none => none
    | some (hours, rest) =>
      match regexp.literal "分".data (rest.dropWhile regexp.isDigit) with
      | none => none
      | some _ => some (⟨hours⟩, ⟨rest.takeWhile regexp.isDigit⟩)) s

/-- The pattern `(\d+)小時` of `str2Min`: the group of the leftmost match. -/
def hourPattern (s : List Char) : Option String :=
  regexp.leftmost (fun t => (regexp.digitsThen "小時".data t).map fun r => ⟨r.1⟩) s

/-- The pattern `(\d+)分鐘` of `str2Min`: the group of the leftmost match. -/
def minutePattern (s : List Char) : Option String :=
  regexp.leftmost (fun t => (regexp.digitsThen "分鐘".data t).map fun r => ⟨r.1⟩) s

/-- The pattern `(\d+)天` of `str2Day`: the group of the leftmost match. -/
def DayPattern (s : List Char) : Option String :=
  regexp.leftmost (fun t => (regexp.digitsThen "天".data t).map fun r => ⟨r.1⟩) s

/-- Go `str2Min`. -/
def str2Min (timeStr : String) : Except String Int :=
  let timeStr := strings.TrimSpace timeStr
  if timeStr = "" then .ok 0
  else if (strconv.Atoi timeStr).err = none then .ok (strconv.Atoi timeStr).val
  else
    match hourMinutePattern timeStr.data with
    | some (h, m) =>
      let hours := (strconv.Atoi h).val
      let minutes := if m ≠ "" then (strconv.Atoi m).val else 0
      .ok (int64.add (int64.mul hours 60) minutes)
    | none =>
      match hourPattern timeStr.data with
      | some h => .ok (int64.mul (strconv.Atoi h).val 60)
      | none =>
        match minutePattern timeStr.data with
        | some m => .ok (strconv.Atoi m).val
        | none => .error ("無法解析時間字串(分鐘): " ++ timeStr)

/-- Go `str2Day`. -/
def str2Day (timeStr : String) : Except String Int :=
  let timeStr := strings.TrimSpace timeStr
  if timeStr = "" then .ok 0
  else if (strconv.Atoi timeStr).err = none then .ok (strconv.Atoi timeStr).val
  else
    match DayPattern timeStr.data with
    | some d => .ok (strconv.Atoi d).val
    | none => .error ("無法解析時間字串(天): " ++ timeStr)

/-- Go `convertToScore`.  The read `scores[i]` needs `i` to be an index of
`scores`: the function asks for as many scores as categories. -/
def convertToScore (response : String) :
    (categories : List String) → (scores : List Int) →
    categories.length ≤ scores.length → Except String Int
  | [], _, _ => .error ("無法解析回應: " ++ response)
  | _ :: _, [], h => absurd h (by simp)
  | category :: categories, score :: scores, h =>
    if strings.Contains response category then .ok score
    else convertToScore response categories scores (by simpa using h)

/-- Go `calculateAge`. -/
def calculateAge (label : String) (fields : List String) : Except String Value :=
  match fields with
  | [f0, f1] =>
    let birthdate := strings.TrimSpace f0
    let testdate := strings.TrimSpace f1
    match time.Parse birthdate with
    | none => .error ("輸出欄位【" ++ label ++ "】的出生日期無法解析: " ++ birthdate)
    | some birth =>
      match time.Parse testdate with
      | none => .error ("輸出欄位【" ++ label ++ "】的填表日期無法解析: " ++ testdate)
      | some checkup =>
        .ok (Value.int
          ((((checkup.Sub birth).Hours.div (Float64.fin 24)).round.div
            (Float64.fin 365.25)).round.toInt))
  | _ => .error (wrongFields 2 label fields.length)

/-- Go `parseSex`. -/
def parseSex (label : String) (fields : List String) : Except String Value :=
  match fields with
  | [f0] =>
    let gender := strings.TrimSpace f0
    if gender = "男" then .ok (Value.int 1)
    else if gender = "女" then .ok (Value.int 0)
    else .error ("輸出欄位【" ++ label ++ "】無法解析: " ++ gender)
  | _ => .error (wrongFields 1 label fields.length)

/-- Go `parseDiseaseHistory`. -/
def parseDiseaseHistory (_label : String) (fields : List String) : Except String Value :=
  let keywords := ["有", "治療", "藥物", "手術"]
  if fields.any fun field => keywords.any fun keyword => strings.Contains field keyword
  then .ok (Value.int 1)
  else .ok (Value.int 0)

/-- Go `parseFamilyHistory`. -/
def parseFamilyHistory (_label : String) (fields : List String) : Except String Value :=
  let keywords := ["父親", "母親", "祖父母", "外組父母"]
  if fields.any fun field => keywords.any fun keyword => strings.Contains field keyword
  then .ok (Value.int 1)
  else .ok (Value.int 0)

/-- Go `parseBMI`. -/
def parseBMI (label : String) (fields : List String) : Except String Value :=
  match fields with
  | [f0, f1, f2] =>
    let heightStr := strings.TrimSpace f0
    let weightStr := strings.TrimSpace f1
    let bmiStr := strings.TrimSpace f2
    let bmi :=
      if (strconv.ParseFloat bmiStr).err ≠ none then Float64.fin (-1)
      else (strconv.ParseFloat bmiStr).val
    if bmi.gt (Float64.fin 10) && bmi.le (Float64.fin 60) then .ok (Value.float bmi)
    else if (strconv.ParseFloat heightStr).err ≠ none then
      .error ("輸出欄位【" ++ label ++ "】的身高數據無效: " ++ heightStr)
    else if (strconv.ParseFloat weightStr).err ≠ none then
      .error ("輸出欄位【" ++ label ++ "】的體重數據無效: " ++ weightStr)
    else
      let height := (strconv.ParseFloat heightStr).val
      let weight := (strconv.ParseFloat weightStr).val
      let calculatedBMI :=
        ((weight.div (height.div (Float64.fin 100)).round).round.div
          (height.div (Float64.fin 100)).round).round
      if (height.gt (Float64.fin 0) && weight.gt (Float64.fin 0)) &&
          (calculatedBMI.gt (Float64.fin 10) && calculatedBMI.le (Float64.fin 60)) then
        .ok (Value.float calculatedBMI)
      else .error ("輸出欄位【" ++ label ++ "】無法計算有效值")
  | _ => .error (wrongFields 3 label fields.length)

/-- Go `parseGirth`. -/
def parseGirth (label : String) (fields : List String) : Except String Value :=
  match fields with
  | [f0] =>
    let girthStr := strings.TrimSpace f0
    if (strconv.ParseFloat girthStr).err ≠ none then
      .error ("輸出欄位【" ++ label ++ "】數據無效: " ++ girthStr)
    else
      let girth := (strconv.ParseFloat girthStr).val
      if girth.gt (Float64.fin 30) && girth.le (Float64.fin 200) then
        .ok (Value.float girth)
      else
        .error ("輸出欄位【" ++ label ++ "】數據不採用: " ++
          fmt.f (strconv.negativeZero girthStr) girth)
  | _ => .error (wrongFields 1 label fields.length)

/-- Go `parseBP`. -/
def parseBP (label : String) (fields : List String) : Except String Value :=
  match fields with
  | [f0, f1] =>
    let rightBPStr := strings.TrimSpace f0
    let leftBPStr := strings.TrimSpace f1
    let rightBP :=
      if (strconv.ParseFloat rightBPStr).err ≠ none ∨ rightBPStr = "" then Float64.fin 0
      else (strconv.ParseFloat rightBPStr).val
    let leftBP :=
      if (strconv.ParseFloat leftBPStr).err ≠ none ∨ leftBPStr = "" then Float64.fin 0
      else (strconv.ParseFloat leftBPStr).val
    if rightBP.gt (Float64.fin 0) && leftBP.gt (Float64.fin 0) then
      .ok (Value.float ((rightBP.add leftBP).round.div (Float64.fin 2)).round)
    else if rightBP.gt (Float64.fin 0) then .ok (Value.float rightBP)
    else if leftBP.gt (Float64.fin 0) then .ok (Value.float leftBP)
    else .error ("無有效的" ++ label ++ "數據")
  | _ => .error (wrongFields 2 label fields.length)

/-- Go `parsePass`. -/
def parsePass (label : String) (fields : List String) : Except String Value :=
  match fields with
  | [f0] =>
    let valueStr := strings.TrimSpace f0
    if (strconv.ParseFloat valueStr).err ≠ none then
      .error ("輸出欄位【" ++ label ++ "】數據無效，值: " ++ valueStr)
    else .ok (Value.float (strconv.ParseFloat valueStr).val)
  | _ => .error (wrongFields 1 label fields.length)

/-- Go `parseAlcohol`. -/
def parseAlcohol (label : String) (fields : List String) : Except String Value :=
  match fields with
  | [f0, f1, f2, f3, f4, f5, f6, f7] =>
    let frequency := strings.TrimSpace f0
    let daysOfWeek := [f1, f2, f3, f4, f5, f6, f7].map strings.TrimSpace
    let allZero := decide (frequency ≠ "0" ∧ frequency ≠ "")
    let allZero :=
      if daysOfWeek.any fun day => decide (day ≠ "0" ∧ day ≠ "") then false else allZero
    if !allZero then .ok (Value.int 2)
    else if strings.Contains frequency "社交飲酒" then .ok (Value.int 1)
    else if strings.Contains frequency "無飲酒" then .ok (Value.int 0)
    else .error ("輸出欄位【" ++ label ++ "】數據無效")
  | _ => .error (wrongFields 8 label fields.length)

/-- Go `parseCigarette`. -/
def parseCigarette (label : String) (fields : List String) : Except String Value :=
  match fields with
  | [f0, f1, f2, f3] =>
    let dailyAmountStr := strings.TrimSpace f0
    let yearsOfSmokeStr := strings.TrimSpace f1
    let yearsOfQuitStr := strings.TrimSpace f2
    let dailyAmountHistoryStr := strings.TrimSpace f3
    let notSmokeKeyword := "不抽"
    let emptyKeyword := ""
    if (dailyAmountStr ≠ notSmokeKeyword ∧ dailyAmountStr ≠ emptyKeyword) ∨
        (yearsOfSmokeStr ≠ notSmokeKeyword ∧ yearsOfSmokeStr ≠ emptyKeyword) then
      .ok (Value.int 2)
    else if (yearsOfQuitStr ≠ notSmokeKeyword ∧ yearsOfQuitStr ≠ emptyKeyword) ∨
        (dailyAmountHistoryStr ≠ notSmokeKeyword ∧ dailyAmountHistoryStr ≠ emptyKeyword) then
      .ok (Value.int 1)
    else if (dailyAmountStr = notSmokeKeyword ∨ dailyAmountStr = emptyKeyword) ∧
        (yearsOfSmokeStr = notSmokeKeyword ∨ yearsOfSmokeStr = emptyKeyword) ∧
        (yearsOfQuitStr = notSmokeKeyword ∨ yearsOfQuitStr = emptyKeyword) ∧
        (dailyAmountHistoryStr = notSmokeKeyword ∨ dailyAmountHistoryStr = emptyKeyword) then
      .ok (Value.int 0)
    else .error ("輸出欄位【" ++ label ++ "】數據無效")
  | _ => .error (wrongFields 4 label fields.length)

/-- Go `parseBetel`. -/
def parseBetel (label : String) (fields : List String) : Except String Value :=
  match fields with
  | [f0] =>
    let doItOrNotStr := strings.TrimSpace f0
    let notChewKeyword := "不嚼"
    let emptyKeyword := ""
    if doItOrNotStr ≠ notChewKeyword ∧ doItOrNotStr ≠ emptyKeyword then .ok (Value.int 1)
    else if doItOrNotStr = notChewKeyword ∨ doItOrNotStr = emptyKeyword then
      .ok (Value.int 0)
    else .error ("輸出欄位【" ++ label ++ "】數據無效")
  | _ => .error (wrongFields 1 label fields.length)

/-- Go `parseDrink`. -/
def parseDrink (label : String) (fields : List String) : Except String Value :=
  match fields with
  | [f0] =>
    let doItOrNotStr := f0
    let notChewKeyword := "不喝"
    let emptyKeyword := ""
    if doItOrNotStr ≠ notChewKeyword ∧ doItOrNotStr ≠ emptyKeyword then .ok (Value.int 1)
    else if doItOrNotStr = notChewKeyword ∨ doItOrNotStr = emptyKeyword then
      .ok (Value.int 0)
    else .error ("輸出欄位【" ++ label ++ "】數據無效")
  | _ => .error (wrongFields 1 label fields.length)

/-- Go `parseFood`. -/
def parseFood (label : String) (fields : List String) : Except String Value :=
  match fields with
  | [f0] =>
    let eatingStyle := f0
    let vegetarian := "素"
    if strings.Contains eatingStyle vegetarian then .ok (Value.int 0)
    else .ok (Value.int 1)
  | _ => .error (wrongFields 1 label fields.length)

/-- Go `parseExcercise`. -/
def parseExcercise (label : String) (fields : List String) : Except String Value :=
  match fields with
  | [f0, f1, f2, f3] =>
    let daysOfExcerciseStr := strings.TrimSpace f0
    let dueTimeStr := strings.TrimSpace f1
    let daysOfExcerciseMediumStr := strings.TrimSpace f2
    let dueTimeMediumStr := strings.TrimSpace f3
    match str2Day daysOfExcerciseStr with
    | .error err =>
      .error ("費力活動天數【" ++ daysOfExcerciseStr ++ "】無法轉換為數字: " ++ err)
    | .ok daysOfExcercise =>
      match str2Min dueTimeStr with
      | .error err => .error ("費力活動時間【" ++ dueTimeStr ++ "】無法轉換為數字: " ++ err)
      | .ok dueTime =>
        match str2Day daysOfExcerciseMediumStr with
        | .error err =>
          .error ("中等費力活動天數【" ++ daysOfExcerciseMediumStr ++ "】無法轉換為數字: " ++ err)
        | .ok daysOfExcerciseMedium =>
          match str2Min dueTimeMediumStr with
          | .error err =>
            .error ("中等費力活動時間【" ++ dueTimeMediumStr ++ "】無法轉換為數字: " ++ err)
          | .ok dueTimeMedium =>
            .ok (Value.int
              (int64.add (int64.mul (int64.mul daysOfExcercise dueTime) 2)
                (int64.mul daysOfExcerciseMedium dueTimeMedium)))
  | _ => .error (wrongFields 4 label fields.length)

/-- Go `parsePSQI`. -/
def parsePSQI (label : String) (fields : List String) : Except String Value :=
  match fields with
  | [f0, f1, f2, f3, f4, f5, f6] =>
    let totalScore : Int := 0
    let sleepTimeCategories := ["少於5小時", "5-6小時", "6-7小時", "7小時以上"]
    let sleepTimeScores : List Int := [3, 2, 1, 0]
    match convertToScore f0 sleepTimeCategories sleepTimeScores (by decide) with
    | .error err => .error ("輸出欄位【" ++ label ++ "】第1題錯誤: " ++ err)
    | .ok score =>
      let totalScore := totalScore + score
      let sleepLatencyCategories := ["61分鐘以上", "31-60分鐘", "15-30分鐘", "少於15分鐘"]
      let sleepLatencyScores : List Int := [3, 2, 1, 0]
      match convertToScore f1 sleepLatencyCategories sleepLatencyScores (by decide) with
      | .error err => .error ("輸出欄位【" ++ label ++ "】第2題錯誤: " ++ err)
      | .ok score =>
        let totalScore := totalScore + score
        let sleepEfficiencyCategories := ["少於65%", "65-74%", "75-84%", "85%以上"]
        let sleepEfficiencyScores : List Int := [3, 2, 1, 0]
        match convertToScore f2 sleepEfficiencyCategories sleepEfficiencyScores (by decide) with
        | .error err => .error ("輸出欄位【" ++ label ++ "】第3題錯誤: " ++ err)
        | .ok score =>
          let totalScore := totalScore + score
          let sleepDisturbanceCategories := ["每週3次以上", "每週1-2次", "每週少於一次", "從未如此"]
          let sleepDisturbanceScores : List Int := [3, 2, 1, 0]
          match convertToScore f3 sleepDisturbanceCategories sleepDisturbanceScores (by decide) with
          | .error err => .error ("輸出欄位【" ++ label ++ "】第4題錯誤: " ++ err)
          | .ok score =>
            let totalScore := totalScore + score
            let sleepQualityCategories := ["非常不好", "不好", "好", "非常好"]
            let sleepQualityScores : List Int := [3, 2, 1, 0]
            match convertToScore f4 sleepQualityCategories sleepQualityScores (by decide) with
            | .error err => .error ("輸出欄位【" ++ label ++ "】第5題錯誤: " ++ err)
            | .ok score =>
              let totalScore := totalScore + score
              let sleepMedicationCategories := ["每週3次以上", "每週1-2次", "每週少於一次", "從未如此"]
              let sleepMedicationScores : List Int := [3, 2, 1, 0]
              match convertToScore f5 sleepMedicationCategories sleepMedicationScores (by decide) with
              | .error err => .error ("輸出欄位【" ++ label ++ "】第6題錯誤: " ++ err)
              | .ok score =>
                let totalScore := totalScore + score
                let daytimeDysfunctionCategories := ["每週3次以上", "每週1-2次", "每週少於一次", "從未如此"]
                let daytimeDysfunctionScores : List Int := [3, 2, 1, 0]
                match convertToScore f6 daytimeDysfunctionCategories daytimeDysfunctionScores (by decide) with
                | .error err => .error ("輸出欄位【" ++ label ++ "】第7題錯誤: " ++ err)
                | .ok score =>
                  let totalScore := totalScore + score
                  .ok (Value.int totalScore)
  | _ => .error (wrongFields 7 label fields.length)

/-- Go `parseBSRS5`. -/
def parseBSRS5 (label : String) (fields : List String) : Except String Value :=
  match fields with
  | [f0, f1, f2, f3, f4] =>
    let totalScore : Int := 0
    let sleepDifficultyCategories := ["非常厲害", "厲害", "中等", "輕微", "沒有"]
    let sleepDifficultyScores : List Int := [4, 3, 2, 1, 0]
    match convertToScore f0 sleepDifficultyCategories sleepDifficultyScores (by decide) with
    | .error err => .error ("輸出欄位【" ++ label ++ "】第1題錯誤: " ++ err)
    | .ok score =>
      let totalScore := totalScore + score
      let nervousnessCategories := ["非常厲害", "厲害", "中等", "輕微", "沒有"]
      let nervousnessScores : List Int := [4, 3, 2, 1, 0]
      match convertToScore f1 nervousnessCategories nervousnessScores (by decide) with
      | .error err => .error ("輸出欄位【" ++ label ++ "】第2題錯誤: " ++ err)
      | .ok score =>
        let totalScore := totalScore + score
        let angerCategories := ["非常厲害", "厲害", "中等", "輕微", "沒有"]
        let angerScores : List Int := [4, 3, 2, 1, 0]
        match convertToScore f2 angerCategories angerScores (by decide) with
        | .error err => .error ("輸出欄位【" ++ label ++ "】第3題錯誤: " ++ err)
        | .ok score =>
          let totalScore := totalScore + score
          let depressionCategories := ["非常厲害", "厲害", "中等", "輕微", "沒有"]
          let depressionScores : List Int := [4, 3, 2, 1, 0]
          match convertToScore f3 depressionCategories depressionScores (by decide) with
          | .error err => .error ("輸出欄位【" ++ label ++ "】第4題錯誤: " ++ err)
          | .ok score =>
            let totalScore := totalScore + score
            let inferiorityCategories := ["非常厲害", "厲害", "中等", "輕微", "沒有"]
            let inferiorityScores : List Int := [4, 3, 2, 1, 0]
            match convertToScore f4 inferiorityCategories inferiorityScores (by decide) with
            | .error err => .error ("輸出欄位【" ++ label ++ "】第5題錯誤: " ++ err)
            | .ok score =>
              let totalScore := totalScore + score
              .ok (Value.int totalScore)
  | _ => .error (wrongFields 5 label fields.length)

/-- Go `parseZeroDiscard`. -/
def parseZeroDiscard (label : String) (fields : List String) : Except String Value :=
  match fields with
  | [f0] =>
    if (strconv.ParseFloat f0).err ≠ none then
      .error ("欄位【" ++ label ++ "】中的數據無法轉換為浮點數: " ++ f0)
    else
      let value := (strconv.ParseFloat f0).val
      if value.eq (Float64.fin 0) then .error ("欄位【" ++ label ++ "】數據為0，未採用")
      else .ok (Value.float value)
  | _ => .error (wrongFields 1 label fields.length)

/-- Go `parseGlucoseU`. -/
def parseGlucoseU (label : String) (fields : List String) : Except String Value :=
  match fields with
  | [f0] =>
    let glucoseValue := f0
    if strings.Contains glucoseValue "2+" || strings.Contains glucoseValue "3+" ||
        strings.Contains glucoseValue "4+" then .ok (Value.int 3)
    else if strings.Contains glucoseValue "1+" then .ok (Value.int 2)
    else if strings.Contains glucoseValue "+/-" || strings.Contains glucoseValue "+-" then
      .ok (Value.int 1)
    else if strings.Contains glucoseValue "normal" || strings.Contains glucoseValue "NORMAL" ||
        decide (glucoseValue = "0") || decide (glucoseValue = "-") then .ok (Value.int 0)
    else .error ("輸出欄位【" ++ label ++ "】數據無效")
  | _ => .error (wrongFieldsShort 1 label fields.length)

/-- Go `parseHsCRP`. -/
def parseHsCRP (label : String) (fields : List String) : Except String Value :=
  match fields with
  | [f0, f1] =>
    let hsCRPValue := strings.TrimSpace f0
    let hsCRPDeprecatedValue := strings.TrimSpace f1
    if hsCRPValue ≠ "" ∧ hsCRPValue ≠ "0" then
      if hsCRPValue = "<0.01" ∨ hsCRPValue = "&lt;0.01" then
        .ok (Value.float (Float64.fin 0.005).round)
      else if hsCRPValue = "<0.02" ∨ hsCRPValue = "&lt;0.02" then
        .ok (Value.float (Float64.fin 0.01).round)
      else
        match (strconv.ParseFloat hsCRPValue).err with
        | some err =>
          .error ("輸出欄位【" ++ label ++ "】第1個輸入無法轉換為浮點數: " ++ err)
        | none => .ok (Value.float (strconv.ParseFloat hsCRPValue).val)
    else if hsCRPDeprecatedValue ≠ "" ∧ hsCRPDeprecatedValue ≠ "0" then
      if hsCRPDeprecatedValue = "<0.01" then .ok (Value.float (Float64.fin 0.005).round)
      else if hsCRPDeprecatedValue = "<0.02" then .ok (Value.float (Float64.fin 0.01).round)
      else
        match (strconv.ParseFloat hsCRPValue).err with
        | some err =>
          .error ("輸出欄位【" ++ label ++ "】第2個輸入無法轉換為浮點數: " ++ err)
        | none => .ok (Value.float (strconv.ParseFloat hsCRPValue).val)
    else .error ("輸出欄位【" ++ label ++ "】數據無效")
  | _ => .error (wrongFieldsShort 2 label fields.length)

/-- The pattern `agatstonRegex` of `parseAgatston`,
`(?:Agatston score:|心臟冠狀動脈總鈣化積分:|Total:|calcium score:|total score:|coronary artery analysis:)\s*([0-9]+(?:\.[0-9]+)?)`,
as `FindStringSubmatch` applies it: the whole leftmost match and its group. -/
def agatstonRegex (s : List Char) : Option (String × String) :=
  regexp.leftmost (fun t =>
    match regexp.alternatives
        ["Agatston score:", "心臟冠狀動脈總鈣化積分:", "Total:", "calcium score:",
          "total score:", "coronary artery analysis:"] t with
    | none => none
    | some (phrase, rest) =>
      match regexp.number (rest.dropWhile regexp.isSpace) with
      | none => none
      | some (num, _) =>
        some (⟨phrase.data ++ rest.takeWhile regexp.isSpace ++ num⟩, ⟨num⟩)) s

/-- The pattern `arteryRegex` of `parseAgatston`,
`\*\s*(LM|LAD|LCX|RCA):\s*([0-9]+(?:\.[0-9]+)?)`, as `FindStringSubmatch`
applies it: the two groups of the leftmost match. -/
def arteryRegex (s : List Char) : Option (String × String) :=
  regexp.leftmost (fun t =>
    match regexp.literal ['*'] t with
    | none => none
    | some rest =>
      match regexp.alternatives ["LM", "LAD", "LCX", "RCA"]
          (rest.dropWhile regexp.isSpace) with
      | none => none
      | some (artery, rest) =>
        match regexp.literal [':'] rest with
        | none => none
        | some rest =>
          match regexp.number (rest.dropWhile regexp.isSpace) with
          | none => none
          | some (num, _) => some (artery, ⟨num⟩)) s

/-- One of the two inner loops of `parseAgatston`: every piece of the field
between commas that the pattern matches stores its score under its key. -/
def collectScores (pattern : List Char → Option (String × String)) :
    List (List Char) → GoMap Float64 → GoMap Float64
  | [], scores => scores
  | line :: lines, scores =>
    match pattern line with
    | some (key, num) =>
      collectScores pattern lines (scores.set key (strconv.ParseFloat num).val)
    | none => collectScores pattern lines scores

/-- The loop of `parseAgatston` over the fields: the maps `agatstonScore` and
`arteryScores` after it. -/
def collectFields : List String → GoMap Float64 × GoMap Float64 →
    GoMap Float64 × GoMap Float64
  | [], maps => maps
  | field :: fields, (agatstonScore, arteryScores) =>
    collectFields fields
      (collectScores agatstonRegex (strings.splitChars ',' field.data) agatstonScore,
        collectScores arteryRegex (strings.splitChars ',' field.data) arteryScores)

/-- Go `parseAgatston`.  The two loops over the map `arteryScores` visit its
entries in the order they were first stored, which is one of the orders Go
may take. -/
def parseAgatston (label : String) (fields : List String) : Except String Value :=
  if fields.length ≠ 6 then .error (wrongFieldsShort 6 label fields.length)
  else
    let arteryScores := (collectFields fields ([], [])).2
    let totalArteryScore :=
      arteryScores.foldl (fun total entry => (total.add entry.2).round) (Float64.fin 0)
    let maxAgatstonScore :=
      arteryScores.foldl (fun best entry => if entry.2.gt best then entry.2 else best)
        (Float64.fin 0)
    let finalScore :=
      if totalArteryScore.gt maxAgatstonScore then totalArteryScore else maxAgatstonScore
    .ok (Value.float finalScore)

/-- The table `operations`. -/
def operations : List Operation := [
  Operation.mk calculateAge "年齡" "Age"
    ["基本資料-出生日期",
     "基本資料-健檢日期"],
  Operation.mk parseSex "性別" "Sex"
    ["基本資料-性別"],
  Operation.mk parseDiseaseHistory "高血壓" "HT"
    ["過去疾病史-高血壓V3",
     "Medicine : 使用藥物-降血壓藥物V3"],
  Operation.mk parseDiseaseHistory "冠狀動脈疾病" "CAD"
    ["過去疾病史-冠狀動脈疾病V3"],
  Operation.mk parseDiseaseHistory "心律不整" "Arrhythmia"
    ["過去疾病史-心律不整V3"],
  Operation.mk parseDiseaseHistory "心辮膜疾病" "VHD"
    ["過去疾病史-心辮膜疾病V3"],
  Operation.mk parseDiseaseHistory "腦中風" "Stroke"
    ["過去疾病史-腦中風V3"],
  Operation.mk parseDiseaseHistory "糖尿病" "DM"
    ["過去疾病史-糖尿病V3",
     "Medicine : 使用藥物-降血糖藥物V3",
     "Medicine : 使用藥物-施打胰島素V3"],
  Operation.mk parseDiseaseHistory "高血脂症" "Hyperlipidemia"
    ["過去疾病史-高血脂症V3",
     "Medicine : 使用藥物-降血脂藥物V3"],
  Operation.mk parseDiseaseHistory "高尿酸症或痛風" "Gout"
    ["過去疾病史-高尿酸症或痛風V3"],
  Operation.mk parseDiseaseHistory "甲狀腺機能亢進" "Hyperthyroidism"
    ["過去疾病史-甲狀腺機能亢進V3"],
  Operation.mk parseDiseaseHistory "甲狀腺機能低下" "Hypothyroidism"
    ["過去疾病史-甲狀腺機能低下V3"],
  Operation.mk parseDiseaseHistory "膽囊或膽管結石" "gallstones"
    ["過去疾病史-膽囊或膽管結石V3"],
  Operation.mk parseDiseaseHistory "大腸息肉" "colon_polyp"
    ["過去疾病史-大腸息肉V3"],
  Operation.mk parseDiseaseHistory "痔瘡" "hemorrhoid"
    ["過去疾病史-痔瘡V3"],
  Operation.mk parseDiseaseHistory "慢性胰臟炎" "chronic_pancreatitis"
    ["過去疾病史-慢性胰臟炎V3"],
  Operation.mk parseDiseaseHistory "風濕性關節炎" "RA"
    ["過去疾病史-風濕性關節炎V3"],
  Operation.mk parseDiseaseHistory "腎炎" "Nephritis"
    ["過去疾病史-腎炎V3"],
  Operation.mk parseDiseaseHistory "腎病症候群及病變" "Nephrotic_syndrome"
    ["過去疾病史-腎病症候群及病變V3"],
  Operation.mk parseDiseaseHistory "急性腎衰竭" "AKI"
    ["過去疾病史-急性腎衰竭V3"],
  Operation.mk parseDiseaseHistory "慢性腎衰竭" "CKD"
    ["過去疾病史-慢性腎衰竭V3"],
  Operation.mk parseDiseaseHistory "腎結石或尿路結石" "nephrolithiasis"
    ["過去疾病史-腎結石或尿路結石V3"],
  Operation.mk parseDiseaseHistory "泌尿道感染" "UTI"
    ["過去疾病史-泌尿道感染V3"],
  Operation.mk parseDiseaseHistory "攝護腺肥大" "Prostate_hypertrophy"
    ["過去疾病史-攝護腺肥大V3"],
  Operation.mk parseDiseaseHistory "青光眼" "glaucoma"
    ["過去疾病史-青光眼V3"],
  Operation.mk parseDiseaseHistory "白內障" "cataract"
    ["過去疾病史-白內障V3"],
  Operation.mk parseDiseaseHistory "高度近視" "nearsighted"
    ["過去疾病史-高度近視V3"],
  Operation.mk parseDiseaseHistory "視網膜病變" "Retinopathy"
    ["過去疾病史-視網膜病變V3"],
  Operation.mk parseDiseaseHistory "中耳炎" "Otitis_media"
    ["過去疾病史-中耳炎V3"],
  Operation.mk parseDiseaseHistory "梅尼爾氏症-內耳神經失調" "Menieres_disease"
    ["過去疾病史-梅尼爾氏症-內耳神經失調V3"],
  Operation.mk parseDiseaseHistory "肺炎" "pneumonia"
    ["過去疾病史-肺炎V3"],
  Operation.mk parseDiseaseHistory "肺氣腫" "Emphysema"
    ["過去疾病史-肺氣腫V3"],
  Operation.mk parseDiseaseHistory "肺結核" "TB"
    ["過去疾病史-肺結核V3"],
  Operation.mk parseDiseaseHistory "支氣管擴張症" "Bronchiectasis"
    ["過去疾病史-支氣管擴張症V3"],
  Operation.mk parseDiseaseHistory "慢性支氣管炎" "chronic_bronchitis"
    ["過去疾病史-慢性支氣管炎V3"],
  Operation.mk parseDiseaseHistory "氣喘" "asthma"
    ["過去疾病史-氣喘V3"],
  Operation.mk parseDiseaseHistory "紅斑性狼瘡" "SLE"
    ["過去疾病史-紅斑性狼瘡V3"],
  Operation.mk parseDiseaseHistory "逆流性食道炎" "GERD"
    ["過去疾病史-逆流性食道炎V3"],
  Operation.mk parseDiseaseHistory "胃或十二指腸潰瘍" "PUD"
    ["過去疾病史-胃或十二指腸潰瘍V3"],
  Operation.mk parseDiseaseHistory "B型肝炎帶原" "hepatitis_B"
    ["過去疾病史-B型肝炎帶原V3"],
  Operation.mk parseDiseaseHistory "C型肝炎帶原" "hepatitis_C"
    ["過去疾病史-C型肝炎帶原V3"],
  Operation.mk parseDiseaseHistory "肝硬化" "Liver cirrhosis"
    ["過去疾病史-肝硬化V3"],
  Operation.mk parseDiseaseHistory "急性胰臟炎" "Acute_Pancreatitis"
    ["過去疾病史-急性胰臟炎V3"],
  Operation.mk parseDiseaseHistory "聽力障礙" "Hearing_impairments"
    ["過去疾病史-聽力障礙V3"],
  Operation.mk parseDiseaseHistory "鼻中隔彎曲" "NSD"
    ["過去疾病史-鼻中隔彎曲V3"],
  Operation.mk parseDiseaseHistory "過敏性鼻炎" "Allergic_rhinitis"
    ["過去疾病史-過敏性鼻炎V3"],
  Operation.mk parseDiseaseHistory "鼻竇炎" "Sinusitis"
    ["過去疾病史-鼻竇炎V3"],
  Operation.mk parseDiseaseHistory "癲癇" "epilepsy"
    ["過去疾病史-癲癇V3"],
  Operation.mk parseDiseaseHistory "巴金森氏症" "Parkinson"
    ["過去疾病史-巴金森氏症V3"],
  Operation.mk parseDiseaseHistory "躁鬱症" "bipolar_disorder"
    ["過去疾病史-躁鬱症V3"],
  Operation.mk parseDiseaseHistory "憂鬱症" "Depression"
    ["過去疾病史-憂鬱症V3"],
  Operation.mk parseDiseaseHistory "睡眠呼吸中止症候群" "sleep_apnea"
    ["過去疾病史-睡眠呼吸中止症候群V3"],
  Operation.mk parseDiseaseHistory "癌症" "cancer"
    ["Status : 身體狀況-鼻咽癌V3",
     "Status : 身體狀況-口腔癌/下咽癌V3",
     "Status : 身體狀況-肺癌V3",
     "Status : 身體狀況-乳癌V3",
     "Status : 身體狀況-食道癌V3",
     "Status : 身體狀況-胃癌V3",
     "Status : 身體狀況-肝癌V3",
     "Status : 身體狀況-胰臟癌V3",
     "Status : 身體狀況-膽囊癌/膽管癌V3",
     "Status : 身體狀況-大腸直腸癌V3",
     "Status : 身體狀況-卵巢癌V3",
     "Status : 身體狀況-子宮頸癌V3",
     "Status : 身體狀況-攝護腺癌V3",
     "Status : 身體狀況-白血病V3",
     "Status : 身體狀況-淋巴癌V3",
     "Status : 身體狀況-其他惡性腫瘤V3"],
  Operation.mk parseDiseaseHistory "降血糖藥物" "OHA"
    ["Medicine : 使用藥物-降血糖藥物V3"],
  Operation.mk parseDiseaseHistory "施打胰島素" "insulin"
    ["Medicine : 使用藥物-施打胰島素V3"],
  Operation.mk parseDiseaseHistory "降血壓藥物" "antihypertensive"
    ["Medicine : 使用藥物-降血壓藥物V3"],
  Operation.mk parseDiseaseHistory "利尿劑" "diuretic"
    ["Medicine : 使用藥物-利尿劑V3"],
  Operation.mk parseDiseaseHistory "降血脂藥物" "lipid_lowering"
    ["Medicine : 使用藥物-降血脂藥物V3"],
  Operation.mk parseDiseaseHistory "抗凝血劑" "Anticoagulant"
    ["Medicine : 使用藥物-抗凝血劑V3"],
  Operation.mk parseDiseaseHistory "抗血小板藥" "Antiplatelet"
    ["Medicine : 使用藥物-抗血小板藥V3"],
  Operation.mk parseDiseaseHistory "心律不整藥" "Antiarrhythmic"
    ["Medicine : 使用藥物-心律不整藥V3"],
  Operation.mk parseDiseaseHistory "降尿酸藥物" "uricacid_drug"
    ["Medicine : 使用藥物-降尿酸藥物V3"],
  Operation.mk parseDiseaseHistory "氣喘肺氣腫" "asthma_drug"
    ["Medicine : 使用藥物-氣喘肺氣腫V3"],
  Operation.mk parseDiseaseHistory "感冒藥" "cold_drug"
    ["Medicine : 使用藥物-感冒藥V3"],
  Operation.mk parseDiseaseHistory "胃藥物" "Stomach_drug"
    ["Medicine : 使用藥物-胃藥物V3"],
  Operation.mk parseDiseaseHistory "肝臟病藥物" "liver_drug"
    ["Medicine : 使用藥物-肝臟病藥物V3"],
  Operation.mk parseDiseaseHistory "甲狀腺藥物" "thyroid_drug"
    ["Medicine : 使用藥物-甲狀腺藥物V3"],
  Operation.mk parseDiseaseHistory "止痛消炎藥" "anti_inflammatory"
    ["Medicine : 使用藥物-止痛消炎藥V3"],
  Operation.mk parseDiseaseHistory "安眠鎮定劑" "Hypnotic"
    ["Medicine : 使用藥物-安眠鎮定劑V3"],
  Operation.mk parseDiseaseHistory "荷爾蒙補充" "Hormone_sup"
    ["Medicine : 使用藥物-荷爾蒙補充V3"],
  Operation.mk parseDiseaseHistory "骨質疏鬆藥" "osteoporosis_drug"
    ["Medicine : 使用藥物-骨質疏鬆藥V3"],
  Operation.mk parseDiseaseHistory "鐵劑" "iron_sup"
    ["Medicine : 使用藥物-鐵劑V3"],
  Operation.mk parseDiseaseHistory "類固醇" "Steroid"
    ["Medicine : 使用藥物-類固醇V3"],
  Operation.mk parseDiseaseHistory "攝護腺藥物" "Prostate_drug"
    ["Medicine : 使用藥物-攝護腺藥物V3"],
  Operation.mk parseFamilyHistory "高血壓家族史" "fami_HT"
    ["Family History : 家族病史-高血壓V3"],
  Operation.mk parseFamilyHistory "冠狀動脈疾病(心絞痛或心肌梗塞)家族史" "fami_CAD"
    ["Family History : 家族病史-冠狀動脈疾病(心絞痛或心肌梗塞)V3"],
  Operation.mk parseFamilyHistory "腦中風家族史" "fami_Stroke"
    ["Family History : 家族病史-腦中風V3"],
  Operation.mk parseFamilyHistory "糖尿病家族史" "fami_DM"
    ["Family History : 家族病史-糖尿病V3"],
  Operation.mk parseFamilyHistory "高血脂症家族史" "fami_Hyperlipidemia"
    ["Family History : 家族病史-高血脂症V3"],
  Operation.mk parseFamilyHistory "高尿酸症或痛風家族史" "fami_Gout"
    ["Family History : 家族病史-高尿酸症或痛風V3"],
  Operation.mk parseFamilyHistory "逆流性食道炎家族史" "fami_GERD"
    ["Family History : 家族病史-逆流性食道炎V3"],
  Operation.mk parseFamilyHistory "消化性潰瘍(胃潰瘍或十二指腸潰瘍)家族史" "fami_PUD"
    ["Family History : 家族病史-消化性潰瘍(胃潰瘍或十二指腸潰瘍)V3"],
  Operation.mk parseFamilyHistory "B型肝炎帶原家族史" "fami_hepatitis_B"
    ["Family History : 家族病史-B型肝炎帶原V3"],
  Operation.mk parseFamilyHistory "C型肝炎帶原家族史" "fami_hepatitis_C"
    ["Family History : 家族病史-C型肝炎帶原V3"],
  Operation.mk parseFamilyHistory "肝硬化家族史" "fami_Liver_cirrhosis"
    ["Family History : 家族病史-肝硬化V3"],
  Operation.mk parseFamilyHistory "慢性胰臟炎家族史" "fami_pancreatitis"
    ["Family History : 家族病史-慢性胰臟炎V3"],
  Operation.mk parseFamilyHistory "膽囊或膽管結石家族史" "fami_gallstones"
    ["Family History : 家族病史-膽囊或膽管結石V3"],
  Operation.mk parseFamilyHistory "肺氣腫家族史" "fami_Emphysema"
    ["Family History : 家族病史-肺氣腫V3"],
  Operation.mk parseFamilyHistory "氣喘家族史" "fami_asthma"
    ["Family History : 家族病史-氣喘V3"],
  Operation.mk parseFamilyHistory "紅斑性狼瘡家族史" "fami_SLE"
    ["Family History : 家族病史-紅斑性狼瘡V3"],
  Operation.mk parseFamilyHistory "風濕性關節炎家族史" "fami_RA"
    ["Family History : 家族病史-風濕性關節炎V3"],
  Operation.mk parseFamilyHistory "癌症家族史" "fami_cancer"
    ["Family History : 家族病史-鼻咽癌V3",
     "Family History : 家族病史-口腔癌/下咽癌V3",
     "Family History : 家族病史-肺癌V3",
     "Family History : 家族病史-乳癌V3",
     "Family History : 家族病史-食道癌V3",
     "Family History : 家族病史-胃癌V3",
     "Family History : 家族病史-肝癌V3",
     "Family History : 家族病史-胰臟癌V3",
     "Family History : 家族病史-膽管癌V3",
     "Family History : 家族病史-大腸直腸癌V3",
     "Family History : 家族病史-卵巢癌V3",
     "Family History : 家族病史-子宮頸癌V3",
     "Family History : 家族病史-攝護腺癌V3",
     "Family History : 家族病史-白血病V3",
     "Family History : 家族病史-淋巴癌V3",
     "Family History : 家族病史-其他惡性腫瘤V3"],
  Operation.mk parseBMI "身體質量指數" "BMI"
    ["身體理學檢查-Body Height",
     "身體理學檢查-Body Weight",
     "身體理學檢查-BMI"],
  Operation.mk parseGirth "腹圍" "Abd_Girth"
    ["身體理學檢查-Abd_Girth"],
  Operation.mk parseBP "收縮壓" "SBP"
    ["身體理學檢查-Systolic Pressure(R)",
     "身體理學檢查-Systolic Pressure(L)"],
  Operation.mk parseBP "舒張壓" "DBP"
    ["身體理學檢查-Diastolic Pressure(R)",
     "身體理學檢查-Diastolic Pressure(L)"],
  Operation.mk parsePass "脂肪重" "MBF"
    ["身體理學檢查-MBF"],
  Operation.mk parsePass "體脂肪百分比" "PBF"
    ["身體理學檢查-PBF"],
  Operation.mk parsePass "基礎代謝率" "BMR"
    ["身體理學檢查-BMR"],
  Operation.mk parsePass "阻抗係數" "IMP"
    ["身體理學檢查-IMP"],
  Operation.mk parsePass "每日消耗總能量" "calory"
    ["身體理學檢查-calory"],
  Operation.mk parsePass "內臟脂肪程度" "whr_level"
    ["身體理學檢查-whr_level"],
  Operation.mk parsePass "內臟脂肪面積" "vfa"
    ["身體理學檢查-vfa"],
  Operation.mk parsePass "內臟脂肪重量" "mvf_quantity"
    ["身體理學檢查-mvf_quantity"],
  Operation.mk parsePass "皮下脂肪重量" "msf_quantity"
    ["身體理學檢查-msf_quantity"],
  Operation.mk parsePass "細胞內水" "ICF"
    ["身體理學檢查-ICF"],
  Operation.mk parsePass "細胞外水" "ECF"
    ["身體理學檢查-ECF"],
  Operation.mk parsePass "水腫指數" "edema"
    ["身體理學檢查-edema"],
  Operation.mk parsePass "肥胖度" "Fatness"
    ["身體理學檢查-Fatness"],
  Operation.mk parseAlcohol "飲酒狀態" "alcohol_gp"
    ["Hobit : 生活習慣-飲酒頻率V3",
     "Hobit : 生活習慣-每週飲酒天數酒精濃度 ＜10%",
     "Hobit : 生活習慣-每週飲酒天數酒精濃度 11~20%",
     "Hobit : 生活習慣-每週飲酒天數酒精濃度 21~30%",
     "Hobit : 生活習慣-每週飲酒天數酒精濃度 31~40%",
     "Hobit : 生活習慣-每週飲酒天數酒精濃度 41~50%",
     "Hobit : 生活習慣-每週飲酒天數酒精濃度 51~60%",
     "Hobit : 生活習慣-每週飲酒天數酒精濃度 ＞60%"],
  Operation.mk parseCigarette "吸菸狀態" "smoke_gp"
    ["Hobit : 生活習慣-現在平均每日抽菸量",
     "Hobit : 生活習慣-抽菸菸齡",
     "Hobit : 生活習慣-若您已戒菸了，已戒幾年",
     "Hobit : 生活習慣-戒菸前之平均每日抽菸量"],
  Operation.mk parseBetel "檳榔嚼食" "betel_gp"
    ["Hobit : 生活習慣-每日嚼食檳榔量"],
  Operation.mk parseDrink "咖啡習慣" "coffee_gp"
    ["Hobit : 生活習慣-平均每日喝咖啡量"],
  Operation.mk parseDrink "喝茶習慣" "tea_gp"
    ["Hobit : 生活習慣-平均每日喝茶量"],
  Operation.mk parseFood "飲食狀態" "food_gp"
    ["Hobit : 生活習慣-飲食種類"],
  Operation.mk parseExcercise "運動狀態" "excercise_week"
    ["Hobit : 生活習慣-費力活動",
     "Hobit : 生活習慣-費力活動花多少時間",
     "Hobit : 生活習慣-中等費力活動",
     "Hobit : 生活習慣-中等費力活動花多少時間"],
  Operation.mk parsePSQI "匹茲堡睡眠量表分數" "PSQI"
    ["Hobit : 生活習慣-過去一個月來，您每天睡眠的時間大約幾小時",
     "Hobit : 生活習慣-過去一個月來，您在上床後通常多久才能入睡",
     "Hobit : 生活習慣-過去一個月來，您實際每晚睡著時間佔躺床總時間的比例(即睡眠效率)約為多少",
     "Hobit : 生活習慣-過去一個月來，您的睡眠每星期有幾次出現下列困擾情形",
     "Hobit : 生活習慣-過去一個月來，整體而言，您覺得自己的睡眠品質如何",
     "Hobit : 生活習慣-過去一個月來，您有幾次需要使用藥物幫忙睡眠",
     "Hobit : 生活習慣-過去一個月來，您每星期約幾次曾在用餐、開車或社交場合瞌睡而無法保持清醒，或感到無心完成該做的事"],
  Operation.mk parseBSRS5 "簡式健康量表" "BSRS5"
    ["Hobit : 生活習慣-睡眠困難，譬如難以入睡、易醒或早醒",
     "Hobit : 生活習慣-感覺緊張不安",
     "Hobit : 生活習慣-覺得容易苦惱或動怒",
     "Hobit : 生活習慣-感覺憂鬱、心情低落",
     "Hobit : 生活習慣-覺得比不上別人"],
  Operation.mk parseZeroDiscard "Albumin" "Albumin"
    ["血液及實驗室常規檢查-Albumin-ALB"],
  Operation.mk parseZeroDiscard "ALP" "ALP"
    ["血液及實驗室常規檢查-ALP"],
  Operation.mk parseZeroDiscard "ALT" "ALT"
    ["血液及實驗室常規檢查-ALT"],
  Operation.mk parseZeroDiscard "AST" "AST"
    ["血液及實驗室常規檢查-AST"],
  Operation.mk parseZeroDiscard "Creatinine" "Creatinine"
    ["血液及實驗室常規檢查-CRE"],
  Operation.mk parseZeroDiscard "r_GT" "r_GT"
    ["血液及實驗室常規檢查-r-GT"],
  Operation.mk parseZeroDiscard "Glucose_PC" "Glucose_PC"
    ["血液及實驗室常規檢查-GLU PC"],
  Operation.mk parseZeroDiscard "Glucose_AC" "Glucose_AC"
    ["血液及實驗室常規檢查-GLU AC"],
  Operation.mk parseGlucoseU "Glucose_U" "Glucose_U"
    ["血液及實驗室常規檢查-Glucose (U)"],
  Operation.mk parseZeroDiscard "Hemoglobin" "Hemoglobin"
    ["血液及實驗室常規檢查-HB"],
  Operation.mk parseZeroDiscard "HbA1c" "HbA1c"
    ["血液及實驗室常規檢查-HbA1c"],
  Operation.mk parseZeroDiscard "HCT" "HCT"
    ["血液及實驗室常規檢查-HCT"],
  Operation.mk parseZeroDiscard "HDL" "HDL"
    ["血液及實驗室常規檢查-HDL-C"],
  Operation.mk parseHsCRP "hsCRP" "hsCRP"
    ["血液及實驗室常規檢查-hsCRP",
     "血液及實驗室常規檢查-hs-CRP 20160618停用"],
  Operation.mk parseZeroDiscard "LDL" "LDL"
    ["血液及實驗室常規檢查-LDL-C"],
  Operation.mk parseZeroDiscard "Platelet" "Platelet"
    ["血液及實驗室常規檢查-Platelet"],
  Operation.mk parseZeroDiscard "T_BIL" "T_BIL"
    ["血液及實驗室常規檢查-T-BIL"],
  Operation.mk parseZeroDiscard "Total_Cholesterol" "Total_Cholesterol"
    ["血液及實驗室常規檢查-T-CHO"],
  Operation.mk parseZeroDiscard "Triglycerides" "Triglycerides"
    ["血液及實驗室常規檢查-TG"],
  Operation.mk parseZeroDiscard "TP" "TP"
    ["血液及實驗室常規檢查-TP"],
  Operation.mk parseZeroDiscard "Uric_acid" "Uric_acid"
    ["血液及實驗室常規檢查-UA"],
  Operation.mk parseZeroDiscard "BUN" "BUN"
    ["血液及實驗室常規檢查-BUN"],
  Operation.mk parseZeroDiscard "WBC" "WBC"
    ["血液及實驗室常規檢查-WBC"],
  Operation.mk parseZeroDiscard "RBC" "RBC"
    ["血液及實驗室常規檢查-RBC"],
  Operation.mk parseAgatston "冠狀動脈鈣化指數" "Agatston_score"
    ["PACS_相關影像檢查-Chest CT",
     "PACS_相關影像檢查-MDCT",
     "PACS_相關影像檢查-低輻射64切電腦斷層冠狀動脈血管攝影",
     "PACS_相關影像檢查-Low dose Coronary CT Angiography",
     "PACS_相關影像檢查-calcium score",
     "PACS_相關影像檢查-心臟鈣化指數"]]

/-- Go `extractdata`. -/
def extractdata (dataJSON : GoMap String) : Result :=
  extractdataOver operations dataJSON

/-! ## Notions used in the statements -/

instance : DecidableEq (Except String Value) := fun a b =>
  match a, b with
  | .ok x, .ok y =>
    if h : x = y then isTrue (by rw [h]) else isFalse (by intro h'; cases h'; exact h rfl)
  | .error x, .error y =>
    if h : x = y then isTrue (by rw [h]) else isFalse (by intro h'; cases h'; exact h rfl)
  | .ok _, .error _ => isFalse (by intro h; cases h)
  | .error _, .ok _ => isFalse (by intro h; cases h)

/-- A rule fails on a record: it names no field, or one of its fields is not a
key of the record, or its parser returns an error on the values of its
fields. -/
def Operation.Fails (op : Operation) (data : GoMap String) : Prop :=
  op.fields = [] ∨ (∃ f ∈ op.fields, data.get? f = none) ∨
    ∃ vals err, fieldValues data op.fields = .ok vals ∧
      op.parseFunc op.colLabel vals = .error err

/-- The result `parsedata` returns for a rule. -/
def Operation.result (op : Operation) (data : GoMap String) : Result :=
  (parsedata op.parseFunc [] data op.colLabel op.colName op.fields).1

/-- A table of two rules for the examples: the sex, then an age whose second
field is named `x`. -/
def exampleRules : List Operation :=
  [Operation.mk parseSex "性別" "Sex" ["基本資料-性別"],
   Operation.mk calculateAge "年齡" "Age" ["基本資料-出生日期", "x"]]

/-- A record for the examples: it has the sex and the birth date and no
field `x`. -/
def exampleRecord : GoMap String :=
  [("基本資料-性別", "男"), ("基本資料-出生日期", "")]

/-- The first of the field names that is not a key of the record. -/
def firstMissing (data : GoMap String) (fields : List String) : Option String :=
  fields.find? fun colName => (data.get? colName).isNone

/-- A rule succeeds on a record: it names a field, every field it names is a
key of the record, and its parser returns a value on the stored values. -/
def Operation.Succeeds (op : Operation) (data : GoMap String) : Prop :=
  op.fields ≠ [] ∧ ∃ vals v, fieldValues data op.fields = .ok vals ∧
    op.parseFunc op.colLabel vals = .ok v

/-- A record on which every rule of `operations` succeeds. -/
def fullRecord : GoMap String :=
  [
  ("基本資料-出生日期", "1980/01/01"),
   ("基本資料-健檢日期", "2020/01/01"),
   ("基本資料-性別", "男"),
   ("過去疾病史-高血壓V3", "無"),
   ("Medicine : 使用藥物-降血壓藥物V3", "無"),
   ("過去疾病史-冠狀動脈疾病V3", "無"),
   ("過去疾病史-心律不整V3", "無"),
   ("過去疾病史-心辮膜疾病V3", "無"),
   ("過去疾病史-腦中風V3", "無"),
   ("過去疾病史-糖尿病V3", "無"),
   ("Medicine : 使用藥物-降血糖藥物V3", "無"),
   ("Medicine : 使用藥物-施打胰島素V3", "無"),
   ("過去疾病史-高血脂症V3", "無"),
   ("Medicine : 使用藥物-降血脂藥物V3", "無"),
   ("過去疾病史-高尿酸症或痛風V3", "無"),
   ("過去疾病史-甲狀腺機能亢進V3", "無"),
   ("過去疾病史-甲狀腺機能低下V3", "無"),
   ("過去疾病史-膽囊或膽管結石V3", "無"),
   ("過去疾病史-大腸息肉V3", "無"),
   ("過去疾病史-痔瘡V3", "無"),
   ("過去疾病史-慢性胰臟炎V3", "無"),
   ("過去疾病史-風濕性關節炎V3", "無"),
   ("過去疾病史-腎炎V3", "無"),
   ("過去疾病史-腎病症候群及病變V3", "無"),
   ("過去疾病史-急性腎衰竭V3", "無"),
   ("過去疾病史-慢性腎衰竭V3", "無"),
   ("過去疾病史-腎結石或尿路結石V3", "無"),
   ("過去疾病史-泌尿道感染V3", "無"),
   ("過去疾病史-攝護腺肥大V3", "無"),
   ("過去疾病史-青光眼V3", "無"),
   ("過去疾病史-白內障V3", "無"),
   ("過去疾病史-高度近視V3", "無"),
   ("過去疾病史-視網膜病變V3", "無"),
   ("過去疾病史-中耳炎V3", "無"),
   ("過去疾病史-梅尼爾氏症-內耳神經失調V3", "無"),
   ("過去疾病史-肺炎V3", "無"),
   ("過去疾病史-肺氣腫V3", "無"),
   ("過去疾病史-肺結核V3", "無"),
   ("過去疾病史-支氣管擴張症V3", "無"),
   ("過去疾病史-慢性支氣管炎V3", "無"),
   ("過去疾病史-氣喘V3", "無"),
   ("過去疾病史-紅斑性狼瘡V3", "無"),
   ("過去疾病史-逆流性食道炎V3", "無"),
   ("過去疾病史-胃或十二指腸潰瘍V3", "無"),
   ("過去疾病史-B型肝炎帶原V3", "無"),
   ("過去疾病史-C型肝炎帶原V3", "無"),
   ("過去疾病史-肝硬化V3", "無"),
   ("過去疾病史-急性胰臟炎V3", "無"),
   ("過去疾病史-聽力障礙V3", "無"),
   ("過去疾病史-鼻中隔彎曲V3", "無"),
   ("過去疾病史-過敏性鼻炎V3", "無"),
   ("過去疾病史-鼻竇炎V3", "無"),
   ("過去疾病史-癲癇V3", "無"),
   ("過去疾病史-巴金森氏症V3", "無"),
   ("過去疾病史-躁鬱症V3", "無"),
   ("過去疾病史-憂鬱症V3", "無"),
   ("過去疾病史-睡眠呼吸中止症候群V3", "無"),
   ("Status : 身體狀況-鼻咽癌V3", "無"),
   ("Status : 身體狀況-口腔癌/下咽癌V3", "無"),
   ("Status : 身體狀況-肺癌V3", "無"),
   ("Status : 身體狀況-乳癌V3", "無"),
   ("Status : 身體狀況-食道癌V3", "無"),
   ("Status : 身體狀況-胃癌V3", "無"),
   ("Status : 身體狀況-肝癌V3", "無"),
   ("Status : 身體狀況-胰臟癌V3", "無"),
   ("Status : 身體狀況-膽囊癌/膽管癌V3", "無"),
   ("Status : 身體狀況-大腸直腸癌V3", "無"),
   ("Status : 身體狀況-卵巢癌V3", "無"),
   ("Status : 身體狀況-子宮頸癌V3", "無"),
   ("Status : 身體狀況-攝護腺癌V3", "無"),
   ("Status : 身體狀況-白血病V3", "無"),
   ("Status : 身體狀況-淋巴癌V3", "無"),
   ("Status : 身體狀況-其他惡性腫瘤V3", "無"),
   ("Medicine : 使用藥物-利尿劑V3", "無"),
   ("Medicine : 使用藥物-抗凝血劑V3", "無"),
   ("Medicine : 使用藥物-抗血小板藥V3", "無"),
   ("Medicine : 使用藥物-心律不整藥V3", "無"),
   ("Medicine : 使用藥物-降尿酸藥物V3", "無"),
   ("Medicine : 使用藥物-氣喘肺氣腫V3", "無"),
   ("Medicine : 使用藥物-感冒藥V3", "無"),
   ("Medicine : 使用藥物-胃藥物V3", "無"),
   ("Medicine : 使用藥物-肝臟病藥物V3", "無"),
   ("Medicine : 使用藥物-甲狀腺藥物V3", "無"),
   ("Medicine : 使用藥物-止痛消炎藥V3", "無"),
   ("Medicine : 使用藥物-安眠鎮定劑V3", "無"),
   ("Medicine : 使用藥物-荷爾蒙補充V3", "無"),
   ("Medicine : 使用藥物-骨質疏鬆藥V3", "無"),
   ("Medicine : 使用藥物-鐵劑V3", "無"),
   ("Medicine : 使用藥物-類固醇V3", "無"),
   ("Medicine : 使用藥物-攝護腺藥物V3", "無"),
   ("Family History : 家族病史-高血壓V3", "無"),
   ("Family History : 家族病史-冠狀動脈疾病(心絞痛或心肌梗塞)V3", "無"),
   ("Family History : 家族病史-腦中風V3", "無"),
   ("Family History : 家族病史-糖尿病V3", "無"),
   ("Family History : 家族病史-高血脂症V3", "無"),
   ("Family History : 家族病史-高尿酸症或痛風V3", "無"),
   ("Family History : 家族病史-逆流性食道炎V3", "無"),
   ("Family History : 家族病史-消化性潰瘍(胃潰瘍或十二指腸潰瘍)V3", "無"),
   ("Family History : 家族病史-B型肝炎帶原V3", "無"),
   ("Family History : 家族病史-C型肝炎帶原V3", "無"),
   ("Family History : 家族病史-肝硬化V3", "無"),
   ("Family History : 家族病史-慢性胰臟炎V3", "無"),
   ("Family History : 家族病史-膽囊或膽管結石V3", "無"),
   ("Family History : 家族病史-肺氣腫V3", "無"),
   ("Family History : 家族病史-氣喘V3", "無"),
   ("Family History : 家族病史-紅斑性狼瘡V3", "無"),
   ("Family History : 家族病史-風濕性關節炎V3", "無"),
   ("Family History : 家族病史-鼻咽癌V3", "無"),
   ("Family History : 家族病史-口腔癌/下咽癌V3", "無"),
   ("Family History : 家族病史-肺癌V3", "無"),
   ("Family History : 家族病史-乳癌V3", "無"),
   ("Family History : 家族病史-食道癌V3", "無"),
   ("Family History : 家族病史-胃癌V3", "無"),
   ("Family History : 家族病史-肝癌V3", "無"),
   ("Family History : 家族病史-胰臟癌V3", "無"),
   ("Family History : 家族病史-膽管癌V3", "無"),
   ("Family History : 家族病史-大腸直腸癌V3", "無"),
   ("Family History : 家族病史-卵巢癌V3", "無"),
   ("Family History : 家族病史-子宮頸癌V3", "無"),
   ("Family History : 家族病史-攝護腺癌V3", "無"),
   ("Family History : 家族病史-白血病V3", "無"),
   ("Family History : 家族病史-淋巴癌V3", "無"),
   ("Family History : 家族病史-其他惡性腫瘤V3", "無"),
   ("身體理學檢查-Body Height", "170"),
   ("身體理學檢查-Body Weight", "65"),
   ("身體理學檢查-BMI", "22.5"),
   ("身體理學檢查-Abd_Girth", "80"),
   ("身體理學檢查-Systolic Pressure(R)", "120"),
   ("身體理學檢查-Systolic Pressure(L)", "118"),
   ("身體理學檢查-Diastolic Pressure(R)", "120"),
   ("身體理學檢查-Diastolic Pressure(L)", "118"),
   ("身體理學檢查-MBF", "1.5"),
   ("身體理學檢查-PBF", "1.5"),
   ("身體理學檢查-BMR", "1.5"),
   ("身體理學檢查-IMP", "1.5"),
   ("身體理學檢查-calory", "1.5"),
   ("身體理學檢查-whr_level", "1.5"),
   ("身體理學檢查-vfa", "1.5"),
   ("身體理學檢查-mvf_quantity", "1.5"),
   ("身體理學檢查-msf_quantity", "1.5"),
   ("身體理學檢查-ICF", "1.5"),
   ("身體理學檢查-ECF", "1.5"),
   ("身體理學檢查-edema", "1.5"),
   ("身體理學檢查-Fatness", "1.5"),
   ("Hobit : 生活習慣-飲酒頻率V3", "無飲酒"),
   ("Hobit : 生活習慣-每週飲酒天數酒精濃度 ＜10%", ""),
   ("Hobit : 生活習慣-每週飲酒天數酒精濃度 11~20%", ""),
   ("Hobit : 生活習慣-每週飲酒天數酒精濃度 21~30%", ""),
   ("Hobit : 生活習慣-每週飲酒天數酒精濃度 31~40%", ""),
   ("Hobit : 生活習慣-每週飲酒天數酒精濃度 41~50%", ""),
   ("Hobit : 生活習慣-每週飲酒天數酒精濃度 51~60%", ""),
   ("Hobit : 生活習慣-每週飲酒天數酒精濃度 ＞60%", ""),
   ("Hobit : 生活習慣-現在平均每日抽菸量", "不抽"),
   ("Hobit : 生活習慣-抽菸菸齡", "不抽"),
   ("Hobit : 生活習慣-若您已戒菸了，已戒幾年", "不抽"),
   ("Hobit : 生活習慣-戒菸前之平均每日抽菸量", "不抽"),
   ("Hobit : 生活習慣-每日嚼食檳榔量", "不嚼"),
   ("Hobit : 生活習慣-平均每日喝咖啡量", "不喝"),
   ("Hobit : 生活習慣-平均每日喝茶量", "不喝"),
   ("Hobit : 生活習慣-飲食種類", "葷食"),
   ("Hobit : 生活習慣-費力活動", "3天"),
   ("Hobit : 生活習慣-費力活動花多少時間", "1小時"),
   ("Hobit : 生活習慣-中等費力活動", "2"),
   ("Hobit : 生活習慣-中等費力活動花多少時間", "30分鐘"),
   ("Hobit : 生活習慣-過去一個月來，您每天睡眠的時間大約幾小時", "7小時以上"),
   ("Hobit : 生活習慣-過去一個月來，您在上床後通常多久才能入睡", "少於15分鐘"),
   ("Hobit : 生活習慣-過去一個月來，您實際每晚睡著時間佔躺床總時間的比例(即睡眠效率)約為多少", "85%以上"),
   ("Hobit : 生活習慣-過去一個月來，您的睡眠每星期有幾次出現下列困擾情形", "從未如此"),
   ("Hobit : 生活習慣-過去一個月來，整體而言，您覺得自己的睡眠品質如何", "非常好"),
   ("Hobit : 生活習慣-過去一個月來，您有幾次需要使用藥物幫忙睡眠", "從未如此"),
   ("Hobit : 生活習慣-過去一個月來，您每星期約幾次曾在用餐、開車或社交場合瞌睡而無法保持清醒，或感到無心完成該做的事", "從未如此"),
   ("Hobit : 生活習慣-睡眠困難，譬如難以入睡、易醒或早醒", "沒有"),
   ("Hobit : 生活習慣-感覺緊張不安", "沒有"),
   ("Hobit : 生活習慣-覺得容易苦惱或動怒", "沒有"),
   ("Hobit : 生活習慣-感覺憂鬱、心情低落", "沒有"),
   ("Hobit : 生活習慣-覺得比不上別人", "沒有"),
   ("血液及實驗室常規檢查-Albumin-ALB", "4.5"),
   ("血液及實驗室常規檢查-ALP", "4.5"),
   ("血液及實驗室常規檢查-ALT", "4.5"),
   ("血液及實驗室常規檢查-AST", "4.5"),
   ("血液及實驗室常規檢查-CRE", "4.5"),
   ("血液及實驗室常規檢查-r-GT", "4.5"),
   ("血液及實驗室常規檢查-GLU PC", "4.5"),
   ("血液及實驗室常規檢查-GLU AC", "4.5"),
   ("血液及實驗室常規檢查-Glucose (U)", "normal"),
   ("血液及實驗室常規檢查-HB", "4.5"),
   ("血液及實驗室常規檢查-HbA1c", "4.5"),
   ("血液及實驗室常規檢查-HCT", "4.5"),
   ("血液及實驗室常規檢查-HDL-C", "4.5"),
   ("血液及實驗室常規檢查-hsCRP", "0.3"),
   ("血液及實驗室常規檢查-hs-CRP 20160618停用", ""),
   ("血液及實驗室常規檢查-LDL-C", "4.5"),
   ("血液及實驗室常規檢查-Platelet", "4.5"),
   ("血液及實驗室常規檢查-T-BIL", "4.5"),
   ("血液及實驗室常規檢查-T-CHO", "4.5"),
   ("血液及實驗室常規檢查-TG", "4.5"),
   ("血液及實驗室常規檢查-TP", "4.5"),
   ("血液及實驗室常規檢查-UA", "4.5"),
   ("血液及實驗室常規檢查-BUN", "4.5"),
   ("血液及實驗室常規檢查-WBC", "4.5"),
   ("血液及實驗室常規檢查-RBC", "4.5"),
   ("PACS_相關影像檢查-Chest CT", "* LAD: 120, * LCX: 30"),
   ("PACS_相關影像檢查-MDCT", ""),
   ("PACS_相關影像檢查-低輻射64切電腦斷層冠狀動脈血管攝影", ""),
   ("PACS_相關影像檢查-Low dose Coronary CT Angiography", ""),
   ("PACS_相關影像檢查-calcium score", ""),
   ("PACS_相關影像檢查-心臟鈣化指數", "")]

/-- A message is a wrong-number-of-fields error of a parser, in one of its
two wordings. -/
def IsWrongFields (msg : String) : Prop :=
  ∃ (numFields : Nat) (label : String) (n : Nat),
    msg = wrongFields numFields label n ∨ msg = wrongFieldsShort numFields label n

/-- The parser `f` requires exactly `n` fields: it returns the
wrong-number-of-fields error on the lists of any other length, and on those
only. -/
def Requires (f : String → List String → Except String Value) (n : Nat) : Prop :=
  ∀ (label : String) (fields : List String),
    (∃ err, f label fields = .error err ∧ IsWrongFields err) ↔ fields.length ≠ n

end ParserXml

namespace ParserXml

/-- A row feeds its parser well: it names at least one field, and on as many
values as it names fields its parser never returns the
wrong-number-of-fields error. -/
def Operation.WellFed (op : Operation) : Prop :=
  1 ≤ op.fields.length ∧
    ∀ (label : String) (fields : List String) (err : String),
      fields.length = op.fields.length → op.parseFunc label fields = .error err →
      ¬ IsWrongFields err

/-- The variable `calculatedBMI` of `parseBMI`, the value of
`weight / (height / 100) / (height / 100)`: three quotients, each rounded to
a `float64`. -/
def calculatedBMI (height weight : Float64) : Float64 :=
  ((weight.div (height.div (Float64.fin 100)).round).round.div
    (height.div (Float64.fin 100)).round).round

/-- A side of a blood pressure as `parseBP` counts it: the trimmed input read
as a number, and 0 when it does not parse or is blank. -/
def bpSide (input : String) : Float64 :=
  if (strconv.ParseFloat (strings.TrimSpace input)).err ≠ none ∨
      strings.TrimSpace input = "" then Float64.fin 0
  else (strconv.ParseFloat (strings.TrimSpace input)).val

/-- The variable `averageBP` of `parseBP`, the value of
`(rightBP + leftBP) / 2`: a sum and a quotient, each rounded to a `float64`. -/
def averageBP (rightBP leftBP : Float64) : Float64 :=
  ((rightBP.add leftBP).round.div (Float64.fin 2)).round

/-- A weekly day count of `parseAlcohol` that counts as none: blank or `0`
once trimmed. -/
def noDays (input : String) : Prop :=
  strings.TrimSpace input = "" ∨ strings.TrimSpace input = "0"

/-- A field of `parseCigarette` that says no: blank or the marker 不抽 once
trimmed. -/
def notSmoking (input : String) : Prop :=
  strings.TrimSpace input = "" ∨ strings.TrimSpace input = "不抽"

instance : DecidableEq (Except String Int) := fun a b =>
  match a, b with
  | .ok x, .ok y =>
    if h : x = y then isTrue (by rw [h]) else isFalse (by intro h'; cases h'; exact h rfl)
  | .error x, .error y =>
    if h : x = y then isTrue (by rw [h]) else isFalse (by intro h'; cases h'; exact h rfl)
  | .ok _, .error _ => isFalse (by intro h; cases h)
  | .error _, .ok _ => isFalse (by intro h; cases h)

/-- A digit immediately followed by the text `unit` occurs in `t`. -/
def digitBefore (unit : String) (t : List Char) : Prop :=
  ∃ d, regexp.isDigit d = true ∧ (d :: unit.data) <:+: t

/-- The text is blank, a bare integer, or a decimal number followed by
`unit` and nothing else, once trimmed. -/
def countForm (unit : String) (s : String) : Prop :=
  strings.TrimSpace s = "" ∨ (strconv.Atoi (strings.TrimSpace s)).err = none ∨
    ∃ ds n, strconv.decimal ds = some n ∧ (strings.TrimSpace s).data = ds ++ unit.data

/-- The text is blank, a bare integer, or one of the forms `H小時M分鐘`,
`H小時` and `M分鐘` with decimal numbers `H` and `M`, once trimmed. -/
def durationForm (s : String) : Prop :=
  countForm "小時" s ∨ countForm "分鐘" s ∨
    ∃ hs ms h m, strconv.decimal hs = some h ∧ strconv.decimal ms = some m ∧
      (strings.TrimSpace s).data = hs ++ "小時".data ++ ms ++ "分鐘".data

/-- The score paired with the first category that the answer contains. -/
def firstScore (answer : String) (categories : List String) (scores : List Int) :
    Option Int :=
  ((categories.zip scores).find? fun p => strings.Contains answer p.1).map fun p => p.2

/-- The categories of the seven questions of `parsePSQI`, in order. -/
def psqiCategories : List (List String) :=
  [["少於5小時", "5-6小時", "6-7小時", "7小時以上"],
   ["61分鐘以上", "31-60分鐘", "15-30分鐘", "少於15分鐘"],
   ["少於65%", "65-74%", "75-84%", "85%以上"],
   ["每週3次以上", "每週1-2次", "每週少於一次", "從未如此"],
   ["非常不好", "不好", "好", "非常好"],
   ["每週3次以上", "每週1-2次", "每週少於一次", "從未如此"],
   ["每週3次以上", "每週1-2次", "每週少於一次", "從未如此"]]

/-- The categories of the five questions of `parseBSRS5`, in order. -/
def bsrs5Categories : List (List String) :=
  List.replicate 5 ["非常厲害", "厲害", "中等", "輕微", "沒有"]

/-- The answer to question `i` (counted from 0) contains a category of that
question. -/
def Answered (questions : List (List String)) (answers : List String) (i : Nat) : Prop :=
  ∃ categories answer, questions.get? i = some categories ∧ answers.get? i = some answer ∧
    ∃ c ∈ categories, c.data <:+: answer.data

/-- A questionnaire as the specification words it: the answers are scored
one after the other, each by the first category of its question that it
contains, and the scores are added to `total`; the first answer that
contains no category of its question stops the scoring with an error that
names the number of that question, counted from `n`. -/
def scoreAnswers (label : String) (scores : List Int) :
    List (List String) → List String → Nat → Int → Except String Value
  | categories :: questions, answer :: answers, n, total =>
    match firstScore answer categories scores with
    | none =>
      .error ("輸出欄位【" ++ label ++ "】第" ++ fmt.d n ++ "題錯誤: " ++
        ("無法解析回應: " ++ answer))
    | some score => scoreAnswers label scores questions answers (n + 1) (total + score)
  | _, _, _, total => .ok (Value.int total)

/-! ## Notions for the laboratory values and the Agatston score -/

/-- The primary or fallback text of `parseHsCRP` cannot be used: trimmed, it
is blank or `0`. -/
def hsCRPUnusable (input : String) : Prop :=
  strings.TrimSpace input = "" ∨ strings.TrimSpace input = "0"

/-- The pieces of the report texts between commas, in reading order: field
after field, and piece after piece within a field. -/
def reportSegments (fields : List String) : List (List Char) :=
  fields.flatMap fun field => strings.splitChars ',' field.data

/-- The artery matches of the report texts in reading order: for every piece
that `arteryRegex` matches, the artery named and the text of its number. -/
def arteryMatches (fields : List String) : List (String × String) :=
  (reportSegments fields).filterMap arteryRegex

/-- The map `arteryScores` of `parseAgatston` after the loop over the
fields. -/
def arteryScores (fields : List String) : GoMap Float64 :=
  (collectFields fields ([], [])).2

/-- The sub-score retained for an artery: the number of its last match in
reading order, if it has one. -/
def retainedScore (fields : List String) (artery : String) : Option Float64 :=
  ((arteryMatches fields).reverse.find? fun m => m.1 = artery).map fun m =>
    (strconv.ParseFloat m.2).val

/-- The variable `totalArteryScore` of `parseAgatston` after its loop over the
map. -/
def totalArteryScore (scores : GoMap Float64) : Float64 :=
  scores.foldl (fun total entry => (total.add entry.2).round) (Float64.fin 0)

/-- The variable `maxAgatstonScore` of `parseAgatston` after its loop over
the map. -/
def maxAgatstonScore (scores : GoMap Float64) : Float64 :=
  scores.foldl (fun best entry => if entry.2.gt best then entry.2 else best) (Float64.fin 0)

/-- The exact sum of the sub-scores of a map, those that are numbers. -/
def exactSum (scores : GoMap Float64) : ℚ :=
  (scores.map fun entry =>
    match entry.2 with
    | Float64.fin q => q
    | _ => 0).sum

/-- A `float64` that is a number not below 0, or the positive infinity. -/
def Float64.NonNeg : Float64 → Prop
  | Float64.fin q => 0 ≤ q
  | Float64.inf neg => neg = false
  | Float64.nan => False

/-- The store `arteryScores[artery] = score` of one match, the score being
what `strconv.ParseFloat` reads in the text of the number. -/
def storeMatch (scores : GoMap Float64) (m : String × String) : GoMap Float64 :=
  GoMap.set scores m.1 (strconv.ParseFloat m.2).val

/-! ## The Agatston score and the order of a loop over a map -/

instance : DecidableEq (Except String (List String)) := fun a b =>
  match a, b with
  | .ok x, .ok y =>
    if h : x = y then isTrue (by rw [h]) else isFalse (by intro h'; cases h'; exact h rfl)
  | .error x, .error y =>
    if h : x = y then isTrue (by rw [h]) else isFalse (by intro h'; cases h'; exact h rfl)
  | .ok _, .error _ => isFalse (by intro h; cases h)
  | .error _, .ok _ => isFalse (by intro h; cases h)

/-- Go `parseAgatston` with the orders of its two loops
`for _, score := range arteryScores` as parameters: the loop of the sum
visits the map in the order `sumOrder`, the loop of the largest sub-score in
the order `maxOrder`.  Go does not fix these orders; `parseAgatston` is the
case in which both are the order stored. -/
def parseAgatstonIn (sumOrder maxOrder : GoMap Float64 → GoMap Float64)
    (label : String) (fields : List String) : Except String Value :=
  if fields.length ≠ 6 then .error (wrongFieldsShort 6 label fields.length)
  else
    let arteryScores : GoMap Float64 := (collectFields fields ([], [])).2
    let totalArteryScore :=
      (sumOrder arteryScores).foldl (fun total entry => (total.add entry.2).round)
        (Float64.fin 0)
    let maxAgatstonScore :=
      (maxOrder arteryScores).foldl (fun best entry => if entry.2.gt best then entry.2 else best)
        (Float64.fin 0)
    let finalScore :=
      if totalArteryScore.gt maxAgatstonScore then totalArteryScore else maxAgatstonScore
    .ok (Value.float finalScore)

/-- The table `operations` with the rule of the Agatston score run by
`parseAgatstonIn`. -/
def operationsIn (sumOrder maxOrder : GoMap Float64 → GoMap Float64) : List Operation :=
  operations.map fun op =>
    if op.colName = "Agatston_score" then
      Operation.mk (parseAgatstonIn sumOrder maxOrder) op.colLabel op.colName op.fields
    else op

/-- Go `extractdata` when the loops of `parseAgatston` visit their map in the
orders `sumOrder` and `maxOrder`. -/
def extractdataIn (sumOrder maxOrder : GoMap Float64 → GoMap Float64)
    (dataJSON : GoMap String) : Result :=
  extractdataOver (operationsIn sumOrder maxOrder) dataJSON

/-- An order in which a loop may visit a map: the entries of the map, each
once. -/
def IsVisitOrder (order : GoMap Float64 → GoMap Float64) : Prop :=
  ∀ m, (order m).Perm m

/-- The order that starts at the second entry stored and ends with the
first. -/
def fromSecond (m : GoMap Float64) : GoMap Float64 := m.rotate 1

/-- The record `fullRecord` with three artery sub-scores in its first report
text. -/
def threeArteries : GoMap String :=
  GoMap.set fullRecord "PACS_相關影像檢查-Chest CT" "* LM: 0.1, * LAD: 0.2, * LCX: 0.3"

/-- Two rules that differ at most by the value their parsers return under the
output key `key`: where they do not return the same, both return a value
and the output key is `key`. -/
def SameButValue (key : String) (op op' : Operation) : Prop :=
  op.colLabel = op'.colLabel ∧ op.colName = op'.colName ∧ op.fields = op'.fields ∧
    ∀ vals, op.parseFunc op.colLabel vals = op'.parseFunc op.colLabel vals ∨
      (op.colName = key ∧ ∃ v v', op.parseFunc op.colLabel vals = .ok v ∧
        op'.parseFunc op.colLabel vals = .ok v')

/-! ## The program with its reads of slices checked

The functions above read their slices by pattern: `fields[0]` of a list
`[f0]` is `f0`.  Here every read `xs[i]` and every slice `xs[i:]` of the
program is embedded as Go runs it: the run stops with the panic `index out
of range` when the index is not one of the slice.  The outcome of a run is
an `Option`, and `none` is the panic.  What a function does between its
reads is taken from its embedding above. -/

namespace checked

/-- The read `xs[i]`. -/
def index {α : Type} (xs : List α) (i : Nat) : Option α := xs.get? i

/-- The slice `xs[i:]`. -/
def sliceFrom {α : Type} (xs : List α) (i : Nat) : Option (List α) :=
  if i ≤ xs.length then some (xs.drop i) else none

/-- `FindStringSubmatch` for the pattern `(\d+)` followed by the literal
`lit`: the text of the leftmost match and the text of its group, or no
string at all when there is no match. -/
def digitsThenSubmatch (lit : String) (s : List Char) : List String :=
  match regexp.leftmost (fun t =>
      (regexp.digitsThen lit.data t).map fun r =>
        [String.mk (r.1 ++ lit.data), String.mk r.1]) s with
  | some submatches => submatches
  | none => []

/-- `hourMinutePattern.FindStringSubmatch`, for `(\d+)小時(\d+)?分鐘?`: the
text of the leftmost match and the texts of its two groups, the second one
empty when the group matches nothing. -/
def hourMinuteSubmatch (s : List Char) : List String :=
  match regexp.leftmost (fun t =>
      match regexp.digitsThen "小時".data t with
      | none => none
      | some (hours, rest) =>
        match regexp.literal "分".data (rest.dropWhile regexp.isDigit) with
        | none => none
        | some after =>
          let minutes := rest.takeWhile regexp.isDigit
          let bell := if (regexp.literal "鐘".data after).isSome then "鐘".data else []
          some [String.mk (hours ++ "小時".data ++ minutes ++ "分".data ++ bell),
            String.mk hours, String.mk minutes]) s with
  | some submatches => submatches
  | none => []

/-- `agatstonRegex.FindStringSubmatch`: the text of the leftmost match and
the text of its group. -/
def agatstonSubmatch (s : List Char) : List String :=
  match agatstonRegex s with
  | some (whole, number) => [whole, number]
  | none => []

/-- `arteryRegex.FindStringSubmatch`, for
`\*\s*(LM|LAD|LCX|RCA):\s*([0-9]+(?:\.[0-9]+)?)`: the text of the leftmost
match and the texts of its two groups. -/
def arterySubmatch (s : List Char) : List String :=
  match regexp.leftmost (fun t =>
      match regexp.literal ['*'] t with
      | none => none
      | some rest =>
        match regexp.alternatives ["LM", "LAD", "LCX", "RCA"]
            (rest.dropWhile regexp.isSpace) with
        | none => none
        | some (artery, rest2) =>
          match regexp.literal [':'] rest2 with
          | none => none
          | some rest3 =>
            match regexp.number (rest3.dropWhile regexp.isSpace) with
            | none => none
            | some (num, _) =>
              some [String.mk ('*' :: (rest.takeWhile regexp.isSpace ++ artery.data ++
                  ':' :: (rest3.takeWhile regexp.isSpace ++ num))),
                artery, String.mk num]) s with
  | some submatches => submatches
  | none => []

/-- Go `str2Min`, with its reads of `matches`. -/
def str2Min (timeStr : String) : Option (Except String Int) :=
  let timeStr := strings.TrimSpace timeStr
  if timeStr = "" then some (.ok 0)
  else if (strconv.Atoi timeStr).err = none then some (.ok (strconv.Atoi timeStr).val)
  else
    if hourMinuteSubmatch timeStr.data ≠ [] then do
      let hours := (strconv.Atoi (← index (hourMinuteSubmatch timeStr.data) 1)).val
      let minutes ←
        if (← index (hourMinuteSubmatch timeStr.data) 2) ≠ "" then do
          pure (strconv.Atoi (← index (hourMinuteSubmatch timeStr.data) 2)).val
        else pure 0
      pure (.ok (int64.add (int64.mul hours 60) minutes))
    else if digitsThenSubmatch "小時" timeStr.data ≠ [] then do
      let hours := (strconv.Atoi (← index (digitsThenSubmatch "小時" timeStr.data) 1)).val
      pure (.ok (int64.mul hours 60))
    else if digitsThenSubmatch "分鐘" timeStr.data ≠ [] then do
      let minutes := (strconv.Atoi (← index (digitsThenSubmatch "分鐘" timeStr.data) 1)).val
      pure (.ok minutes)
    else some (.error ("無法解析時間字串(分鐘): " ++ timeStr))

/-- Go `str2Day`, with its read of `matches`. -/
def str2Day (timeStr : String) : Option (Except String Int) :=
  let timeStr := strings.TrimSpace timeStr
  if timeStr = "" then some (.ok 0)
  else if (strconv.Atoi timeStr).err = none then some (.ok (strconv.Atoi timeStr).val)
  else
    if digitsThenSubmatch "天" timeStr.data ≠ [] then do
      let days := (strconv.Atoi (← index (digitsThenSubmatch "天" timeStr.data) 1)).val
      pure (.ok days)
    else some (.error ("無法解析時間字串(天): " ++ timeStr))

/-- The loop of Go `convertToScore` from the index `i` on, with its read
`scores[i]`. -/
def convertToScoreFrom (response : String) (scores : List Int) :
    List String → Nat → Option (Except String Int)
  | [], _ => some (.error ("無法解析回應: " ++ response))
  | category :: categories, i =>
    if strings.Contains response category then (index scores i).map .ok
    else convertToScoreFrom response scores categories (i + 1)

/-- Go `convertToScore`, with its read `scores[i]`. -/
def convertToScore (response : String) (categories : List String) (scores : List Int) :
    Option (Except String Int) :=
  convertToScoreFrom response scores categories 0

/-- Go `calculateAge`: the test of `len(fields)`, then its reads of `fields`. -/
def calculateAge (label : String) (fields : List String) : Option (Except String Value) :=
  if fields.length ≠ 2 then some (.error (wrongFields 2 label fields.length))
  else do
    let f0 ← index fields 0
    let f1 ← index fields 1
    pure (ParserXml.calculateAge label [f0, f1])

/-- Go `parseSex`: the test of `len(fields)`, then its read of `fields`. -/
def parseSex (label : String) (fields : List String) : Option (Except String Value) :=
  if fields.length ≠ 1 then some (.error (wrongFields 1 label fields.length))
  else do
    let f0 ← index fields 0
    pure (ParserXml.parseSex label [f0])

/-- Go `parseBMI`: the test of `len(fields)`, then its reads of `fields`. -/
def parseBMI (label : String) (fields : List String) : Option (Except String Value) :=
  if fields.length ≠ 3 then some (.error (wrongFields 3 label fields.length))
  else do
    let f0 ← index fields 0
    let f1 ← index fields 1
    let f2 ← index fields 2
    pure (ParserXml.parseBMI label [f0, f1, f2])

/-- Go `parseGirth`: the test of `len(fields)`, then its read of `fields`. -/
def parseGirth (label : String) (fields : List String) : Option (Except String Value) :=
  if fields.length ≠ 1 then some (.error (wrongFields 1 label fields.length))
  else do
    let f0 ← index fields 0
    pure (ParserXml.parseGirth label [f0])

/-- Go `parseBP`: the test of `len(fields)`, then its reads of `fields`. -/
def parseBP (label : String) (fields : List String) : Option (Except String Value) :=
  if fields.length ≠ 2 then some (.error (wrongFields 2 label fields.length))
  else do
    let f0 ← index fields 0
    let f1 ← index fields 1
    pure (ParserXml.parseBP label [f0, f1])

/-- Go `parsePass`: the test of `len(fields)`, then its read of `fields`. -/
def parsePass (label : String) (fields : List String) : Option (Except String Value) :=
  if fields.length ≠ 1 then some (.error (wrongFields 1 label fields.length))
  else do
    let f0 ← index fields 0
    pure (ParserXml.parsePass label [f0])

/-- Go `parseCigarette`: the test of `len(fields)`, then its reads of `fields`. -/
def parseCigarette (label : String) (fields : List String) : Option (Except String Value) :=
  if fields.length ≠ 4 then some (.error (wrongFields 4 label fields.length))
  else do
    let f0 ← index fields 0
    let f1 ← index fields 1
    let f2 ← index fields 2
    let f3 ← index fields 3
    pure (ParserXml.parseCigarette label [f0, f1, f2, f3])

/-- Go `parseBetel`: the test of `len(fields)`, then its read of `fields`. -/
def parseBetel (label : String) (fields : List String) : Option (Except String Value) :=
  if fields.length ≠ 1 then some (.error (wrongFields 1 label fields.length))
  else do
    let f0 ← index fields 0
    pure (ParserXml.parseBetel label [f0])

/-- Go `parseDrink`: the test of `len(fields)`, then its read of `fields`. -/
def parseDrink (label : String) (fields : List String) : Option (Except String Value) :=
  if fields.length ≠ 1 then some (.error (wrongFields 1 label fields.length))
  else do
    let f0 ← index fields 0
    pure (ParserXml.parseDrink label [f0])

/-- Go `parseFood`: the test of `len(fields)`, then its read of `fields`. -/
def parseFood (label : String) (fields : List String) : Option (Except String Value) :=
  if fields.length ≠ 1 then some (.error (wrongFields 1 label fields.length))
  else do
    let f0 ← index fields 0
    pure (ParserXml.parseFood label [f0])

/-- Go `parseGlucoseU`: the test of `len(fields)`, then its read of `fields`. -/
def parseGlucoseU (label : String) (fields : List String) : Option (Except String Value) :=
  if fields.length ≠ 1 then some (.error (wrongFieldsShort 1 label fields.length))
  else do
    let f0 ← index fields 0
    pure (ParserXml.parseGlucoseU label [f0])

/-- Go `parseHsCRP`: the test of `len(fields)`, then its reads of `fields`. -/
def parseHsCRP (label : String) (fields : List String) : Option (Except String Value) :=
  if fields.length ≠ 2 then some (.error (wrongFieldsShort 2 label fields.length))
  else do
    let f0 ← index fields 0
    let f1 ← index fields 1
    pure (ParserXml.parseHsCRP label [f0, f1])

/-- Go `parseZeroDiscard`: the test of `len(fields)`, then its two reads of
`fields[0]`, the second one for the error message. -/
def parseZeroDiscard (label : String) (fields : List String) : Option (Except String Value) :=
  if fields.length ≠ 1 then some (.error (wrongFields 1 label fields.length))
  else do
    let f0 ← index fields 0
    if (strconv.ParseFloat f0).err ≠ none then do
      let shown ← index fields 0
      pure (.error ("欄位【" ++ label ++ "】中的數據無法轉換為浮點數: " ++ shown))
    else pure (ParserXml.parseZeroDiscard label [f0])

/-- Go `parseDiseaseHistory`: it reads `fields` by `range` only. -/
def parseDiseaseHistory (label : String) (fields : List String) :
    Option (Except String Value) :=
  some (ParserXml.parseDiseaseHistory label fields)

/-- Go `parseFamilyHistory`: it reads `fields` by `range` only. -/
def parseFamilyHistory (label : String) (fields : List String) :
    Option (Except String Value) :=
  some (ParserXml.parseFamilyHistory label fields)

/-- Go `parseAlcohol`: the test of `len(fields)`, the read `fields[0]`, the
slice `fields[1:]`, and the loop that reads `daysOfWeek[key]` for every
`key` of `range daysOfWeek`. -/
def parseAlcohol (label : String) (fields : List String) : Option (Except String Value) :=
  if fields.length ≠ 8 then some (.error (wrongFields 8 label fields.length))
  else do
    let f0 ← index fields 0
    let daysOfWeek ← sliceFrom fields 1
    let days ← (List.range daysOfWeek.length).mapM fun key => index daysOfWeek key
    pure (ParserXml.parseAlcohol label (f0 :: days))

/-- Go `parseExcercise`: the test of `len(fields)`, its reads of `fields`,
and the calls of `str2Day` and `str2Min`. -/
def parseExcercise (label : String) (fields : List String) : Option (Except String Value) :=
  if fields.length ≠ 4 then some (.error (wrongFields 4 label fields.length))
  else do
    let daysOfExcerciseStr := strings.TrimSpace (← index fields 0)
    let dueTimeStr := strings.TrimSpace (← index fields 1)
    let daysOfExcerciseMediumStr := strings.TrimSpace (← index fields 2)
    let dueTimeMediumStr := strings.TrimSpace (← index fields 3)
    match ← str2Day daysOfExcerciseStr with
    | .error err =>
      pure (.error ("費力活動天數【" ++ daysOfExcerciseStr ++ "】無法轉換為數字: " ++ err))
    | .ok daysOfExcercise =>
      match ← str2Min dueTimeStr with
      | .error err =>
        pure (.error ("費力活動時間【" ++ dueTimeStr ++ "】無法轉換為數字: " ++ err))
      | .ok dueTime =>
        match ← str2Day daysOfExcerciseMediumStr with
        | .error err =>
          pure (.error
            ("中等費力活動天數【" ++ daysOfExcerciseMediumStr ++ "】無法轉換為數字: " ++ err))
        | .ok daysOfExcerciseMedium =>
          match ← str2Min dueTimeMediumStr with
          | .error err =>
            pure (.error
              ("中等費力活動時間【" ++ dueTimeMediumStr ++ "】無法轉換為數字: " ++ err))
          | .ok dueTimeMedium =>
            pure (.ok (Value.int
              (int64.add (int64.mul (int64.mul daysOfExcercise dueTime) 2)
                (int64.mul daysOfExcerciseMedium dueTimeMedium))))

/-- Go `parsePSQI`: the test of `len(fields)`, its reads of `fields`, and the
calls of `convertToScore`; a panic of a read or of a call is the panic of
the function. -/
def parsePSQI (label : String) (fields : List String) : Option (Except String Value) :=
  if fields.length ≠ 7 then some (.error (wrongFields 7 label fields.length))
  else
    let totalScore : Int := 0
    match index fields 0 with
    | none => none
    | some f0 =>
      match convertToScore f0 ["少於5小時", "5-6小時", "6-7小時", "7小時以上"]
          [3, 2, 1, 0] with
      | none => none
      | some (.error err) => some (.error ("輸出欄位【" ++ label ++ "】第1題錯誤: " ++ err))
      | some (.ok score) =>
        let totalScore := totalScore + score
        match index fields 1 with
        | none => none
        | some f1 =>
          match convertToScore f1 ["61分鐘以上", "31-60分鐘", "15-30分鐘", "少於15分鐘"]
              [3, 2, 1, 0] with
          | none => none
          | some (.error err) => some (.error ("輸出欄位【" ++ label ++ "】第2題錯誤: " ++ err))
          | some (.ok score) =>
            let totalScore := totalScore + score
            match index fields 2 with
            | none => none
            | some f2 =>
              match convertToScore f2 ["少於65%", "65-74%", "75-84%", "85%以上"]
                  [3, 2, 1, 0] with
              | none => none
              | some (.error err) => some (.error ("輸出欄位【" ++ label ++ "】第3題錯誤: " ++ err))
              | some (.ok score) =>
                let totalScore := totalScore + score
                match index fields 3 with
                | none => none
                | some f3 =>
                  match convertToScore f3 ["每週3次以上", "每週1-2次", "每週少於一次", "從未如此"]
                      [3, 2, 1, 0] with
                  | none => none
                  | some (.error err) => some (.error ("輸出欄位【" ++ label ++ "】第4題錯誤: " ++ err))
                  | some (.ok score) =>
                    let totalScore := totalScore + score
                    match index fields 4 with
                    | none => none
                    | some f4 =>
                      match convertToScore f4 ["非常不好", "不好", "好", "非常好"]
                          [3, 2, 1, 0] with
                      | none => none
                      | some (.error err) => some (.error ("輸出欄位【" ++ label ++ "】第5題錯誤: " ++ err))
                      | some (.ok score) =>
                        let totalScore := totalScore + score
                        match index fields 5 with
                        | none => none
                        | some f5 =>
                          match convertToScore f5 ["每週3次以上", "每週1-2次", "每週少於一次", "從未如此"]
                              [3, 2, 1, 0] with
                          | none => none
                          | some (.error err) => some (.error ("輸出欄位【" ++ label ++ "】第6題錯誤: " ++ err))
                          | some (.ok score) =>
                            let totalScore := totalScore + score
                            match index fields 6 with
                            | none => none
                            | some f6 =>
                              match convertToScore f6 ["每週3次以上", "每週1-2次", "每週少於一次", "從未如此"]
                                  [3, 2, 1, 0] with
                              | none => none
                              | some (.error err) => some (.error ("輸出欄位【" ++ label ++ "】第7題錯誤: " ++ err))
                              | some (.ok score) =>
                                let totalScore := totalScore + score
                                some (.ok (Value.int totalScore))

/-- Go `parseBSRS5`: the test of `len(fields)`, its reads of `fields`, and the
calls of `convertToScore`; a panic of a read or of a call is the panic of
the function. -/
def parseBSRS5 (label : String) (fields : List String) : Option (Except String Value) :=
  if fields.length ≠ 5 then some (.error (wrongFields 5 label fields.length))
  else
    let totalScore : Int := 0
    match index fields 0 with
    | none => none
    | some f0 =>
      match convertToScore f0 ["非常厲害", "厲害", "中等", "輕微", "沒有"]
          [4, 3, 2, 1, 0] with
      | none => none
      | some (.error err) => some (.error ("輸出欄位【" ++ label ++ "】第1題錯誤: " ++ err))
      | some (.ok score) =>
        let totalScore := totalScore + score
        match index fields 1 with
        | none => none
        | some f1 =>
          match convertToScore f1 ["非常厲害", "厲害", "中等", "輕微", "沒有"]
              [4, 3, 2, 1, 0] with
          | none => none
          | some (.error err) => some (.error ("輸出欄位【" ++ label ++ "】第2題錯誤: " ++ err))
          | some (.ok score) =>
            let totalScore := totalScore + score
            match index fields 2 with
            | none => none
            | some f2 =>
              match convertToScore f2 ["非常厲害", "厲害", "中等", "輕微", "沒有"]
                  [4, 3, 2, 1, 0] with
              | none => none
              | some (.error err) => some (.error ("輸出欄位【" ++ label ++ "】第3題錯誤: " ++ err))
              | some (.ok score) =>
                let totalScore := totalScore + score
                match index fields 3 with
                | none => none
                | some f3 =>
                  match convertToScore f3 ["非常厲害", "厲害", "中等", "輕微", "沒有"]
                      [4, 3, 2, 1, 0] with
                  | none => none
                  | some (.error err) => some (.error ("輸出欄位【" ++ label ++ "】第4題錯誤: " ++ err))
                  | some (.ok score) =>
                    let totalScore := totalScore + score
                    match index fields 4 with
                    | none => none
                    | some f4 =>
                      match convertToScore f4 ["非常厲害", "厲害", "中等", "輕微", "沒有"]
                          [4, 3, 2, 1, 0] with
                      | none => none
                      | some (.error err) => some (.error ("輸出欄位【" ++ label ++ "】第5題錯誤: " ++ err))
                      | some (.ok score) =>
                        let totalScore := totalScore + score
                        some (.ok (Value.int totalScore))

/-- One of the two inner loops of Go `parseAgatston`, with its reads of
`matches`: the key is `matches[key]` and the number is `matches[value]`. -/
def collectScores (submatch : List Char → List String) (key value : Nat) :
    List (List Char) → GoMap Float64 → Option (GoMap Float64)
  | [], scores => some scores
  | line :: lines, scores =>
    if 0 < (submatch line).length then do
      let name ← index (submatch line) key
      let number ← index (submatch line) value
      collectScores submatch key value lines
        (GoMap.set scores name (strconv.ParseFloat number).val)
    else collectScores submatch key value lines scores

/-- The loop of Go `parseAgatston` over the fields. -/
def collectFields : List String → GoMap Float64 × GoMap Float64 →
    Option (GoMap Float64 × GoMap Float64)
  | [], maps => some maps
  | field :: fields, (agatstonScore, arteryScores) => do
    let agatstonScore ←
      collectScores agatstonSubmatch 0 1 (strings.splitChars ',' field.data) agatstonScore
    let arteryScores ←
      collectScores arterySubmatch 1 2 (strings.splitChars ',' field.data) arteryScores
    collectFields fields (agatstonScore, arteryScores)

/-- Go `parseAgatston`: the test of `len(fields)` and the loops with their
reads of `matches`. -/
def parseAgatston (label : String) (fields : List String) : Option (Except String Value) :=
  if fields.length ≠ 6 then some (.error (wrongFieldsShort 6 label fields.length))
  else do
    let maps ← collectFields fields ([], [])
    let totalArteryScore :=
      maps.2.foldl (fun total entry => (total.add entry.2).round) (Float64.fin 0)
    let maxAgatstonScore :=
      maps.2.foldl (fun best entry => if entry.2.gt best then entry.2 else best)
        (Float64.fin 0)
    let finalScore :=
      if totalArteryScore.gt maxAgatstonScore then totalArteryScore else maxAgatstonScore
    pure (.ok (Value.float finalScore))

/-- Go `parsedata` around a parser that may panic. -/
def parsedata (parsefunction : String → List String → Option (Except String Value))
    (parsedJSON : GoMap Value) (data : GoMap String)
    (modelcollabel modelcolname : String) (defusedcolname : List String) :
    Option (Result × GoMap Value) :=
  if defusedcolname.length < 1 then
    some ({ initResult with
        Error := modelcollabel ++ " 必須包含至少一個欄位名稱", ErrorCode := "E010" },
      parsedJSON)
  else
    match fieldValues data defusedcolname with
    | .error colName =>
      some ({ initResult with
          Error := "原始資料欄位 " ++ colName ++ " 不存在", ErrorCode := "E011" },
        parsedJSON)
    | .ok vals => do
      match ← parsefunction modelcollabel vals with
      | .error err =>
        pure ({ initResult with
            Error := "解析欄位 " ++ modelcolname ++ " 時發生錯誤", ErrorCode := "E012",
            ErrorDetail := err },
          parsedJSON)
      | .ok parsedValue => pure (initResult, parsedJSON.set modelcolname parsedValue)

/-- A row of the table `operations` whose parser may panic. -/
structure Operation where
  parseFunc : String → List String → Option (Except String Value)
  colLabel : String
  colName : String
  fields : List String

/-- The loop of Go `extractdata` over rows whose parsers may panic. -/
def extractdataLoop (data : GoMap String) :
    List Operation → Result → GoMap Value → Option Result
  | [], result, parsedJSON => some { result with Data := parsedJSON }
  | op :: rest, _, parsedJSON => do
    let r ← parsedata op.parseFunc parsedJSON data op.colLabel op.colName op.fields
    if r.1.Error ≠ "" then pure r.1 else extractdataLoop data rest r.1 r.2

end checked

/-- The parsers of the library, by name. -/
inductive ParserName where
  | calculateAge
  | parseSex
  | parseDiseaseHistory
  | parseFamilyHistory
  | parseBMI
  | parseGirth
  | parseBP
  | parsePass
  | parseAlcohol
  | parseCigarette
  | parseBetel
  | parseDrink
  | parseFood
  | parseExcercise
  | parsePSQI
  | parseBSRS5
  | parseZeroDiscard
  | parseGlucoseU
  | parseHsCRP
  | parseAgatston
  deriving DecidableEq

/-- The parser of a name. -/
def ParserName.run : ParserName → String → List String → Except String Value
  | .calculateAge => ParserXml.calculateAge
  | .parseSex => ParserXml.parseSex
  | .parseDiseaseHistory => ParserXml.parseDiseaseHistory
  | .parseFamilyHistory => ParserXml.parseFamilyHistory
  | .parseBMI => ParserXml.parseBMI
  | .parseGirth => ParserXml.parseGirth
  | .parseBP => ParserXml.parseBP
  | .parsePass => ParserXml.parsePass
  | .parseAlcohol => ParserXml.parseAlcohol
  | .parseCigarette => ParserXml.parseCigarette
  | .parseBetel => ParserXml.parseBetel
  | .parseDrink => ParserXml.parseDrink
  | .parseFood => ParserXml.parseFood
  | .parseExcercise => ParserXml.parseExcercise
  | .parsePSQI => ParserXml.parsePSQI
  | .parseBSRS5 => ParserXml.parseBSRS5
  | .parseZeroDiscard => ParserXml.parseZeroDiscard
  | .parseGlucoseU => ParserXml.parseGlucoseU
  | .parseHsCRP => ParserXml.parseHsCRP
  | .parseAgatston => ParserXml.parseAgatston

/-- The parser of a name, with its reads of slices checked. -/
def ParserName.checked : ParserName → String → List String → Option (Except String Value)
  | .calculateAge => ParserXml.checked.calculateAge
  | .parseSex => ParserXml.checked.parseSex
  | .parseDiseaseHistory => ParserXml.checked.parseDiseaseHistory
  | .parseFamilyHistory => ParserXml.checked.parseFamilyHistory
  | .parseBMI => ParserXml.checked.parseBMI
  | .parseGirth => ParserXml.checked.parseGirth
  | .parseBP => ParserXml.checked.parseBP
  | .parsePass => ParserXml.checked.parsePass
  | .parseAlcohol => ParserXml.checked.parseAlcohol
  | .parseCigarette => ParserXml.checked.parseCigarette
  | .parseBetel => ParserXml.checked.parseBetel
  | .parseDrink => ParserXml.checked.parseDrink
  | .parseFood => ParserXml.checked.parseFood
  | .parseExcercise => ParserXml.checked.parseExcercise
  | .parsePSQI => ParserXml.checked.parsePSQI
  | .parseBSRS5 => ParserXml.checked.parseBSRS5
  | .parseZeroDiscard => ParserXml.checked.parseZeroDiscard
  | .parseGlucoseU => ParserXml.checked.parseGlucoseU
  | .parseHsCRP => ParserXml.checked.parseHsCRP
  | .parseAgatston => ParserXml.checked.parseAgatston

/-- The value of `numFields` in a parser: the number of fields it asks for
before it reads any.  The two parsers without one read `fields` by `range`
only. -/
def ParserName.numFields : ParserName → Option Nat
  | .calculateAge => some 2
  | .parseSex => some 1
  | .parseDiseaseHistory => none
  | .parseFamilyHistory => none
  | .parseBMI => some 3
  | .parseGirth => some 1
  | .parseBP => some 2
  | .parsePass => some 1
  | .parseAlcohol => some 8
  | .parseCigarette => some 4
  | .parseBetel => some 1
  | .parseDrink => some 1
  | .parseFood => some 1
  | .parseExcercise => some 4
  | .parsePSQI => some 7
  | .parseBSRS5 => some 5
  | .parseZeroDiscard => some 1
  | .parseGlucoseU => some 1
  | .parseHsCRP => some 2
  | .parseAgatston => some 6

/-- The first column of the table `operations`: the parser of every row, in
the order of the rows. -/
def operationParsers : List ParserName := [
  ParserName.calculateAge, ParserName.parseSex, ParserName.parseDiseaseHistory,
  ParserName.parseDiseaseHistory, ParserName.parseDiseaseHistory,
  ParserName.parseDiseaseHistory, ParserName.parseDiseaseHistory,
  ParserName.parseDiseaseHistory, ParserName.parseDiseaseHistory,
  ParserName.parseDiseaseHistory, ParserName.parseDiseaseHistory,
  ParserName.parseDiseaseHistory, ParserName.parseDiseaseHistory,
  ParserName.parseDiseaseHistory, ParserName.parseDiseaseHistory,
  ParserName.parseDiseaseHistory, ParserName.parseDiseaseHistory,
  ParserName.parseDiseaseHistory, ParserName.parseDiseaseHistory,
  ParserName.parseDiseaseHistory, ParserName.parseDiseaseHistory,
  ParserName.parseDiseaseHistory, ParserName.parseDiseaseHistory,
  ParserName.parseDiseaseHistory, ParserName.parseDiseaseHistory,
  ParserName.parseDiseaseHistory, ParserName.parseDiseaseHistory,
  ParserName.parseDiseaseHistory, ParserName.parseDiseaseHistory,
  ParserName.parseDiseaseHistory, ParserName.parseDiseaseHistory,
  ParserName.parseDiseaseHistory, ParserName.parseDiseaseHistory,
  ParserName.parseDiseaseHistory, ParserName.parseDiseaseHistory,
  ParserName.parseDiseaseHistory, ParserName.parseDiseaseHistory,
  ParserName.parseDiseaseHistory, ParserName.parseDiseaseHistory,
  ParserName.parseDiseaseHistory, ParserName.parseDiseaseHistory,
  ParserName.parseDiseaseHistory, ParserName.parseDiseaseHistory,
  ParserName.parseDiseaseHistory, ParserName.parseDiseaseHistory,
  ParserName.parseDiseaseHistory, ParserName.parseDiseaseHistory,
  ParserName.parseDiseaseHistory, ParserName.parseDiseaseHistory,
  ParserName.parseDiseaseHistory, ParserName.parseDiseaseHistory,
  ParserName.parseDiseaseHistory, ParserName.parseDiseaseHistory,
  ParserName.parseDiseaseHistory, ParserName.parseDiseaseHistory,
  ParserName.parseDiseaseHistory, ParserName.parseDiseaseHistory,
  ParserName.parseDiseaseHistory, ParserName.parseDiseaseHistory,
  ParserName.parseDiseaseHistory, ParserName.parseDiseaseHistory,
  ParserName.parseDiseaseHistory, ParserName.parseDiseaseHistory,
  ParserName.parseDiseaseHistory, ParserName.parseDiseaseHistory,
  ParserName.parseDiseaseHistory, ParserName.parseDiseaseHistory,
  ParserName.parseDiseaseHistory, ParserName.parseDiseaseHistory,
  ParserName.parseDiseaseHistory, ParserName.parseDiseaseHistory,
  ParserName.parseDiseaseHistory, ParserName.parseDiseaseHistory,
  ParserName.parseDiseaseHistory, ParserName.parseFamilyHistory, ParserName.parseFamilyHistory,
  ParserName.parseFamilyHistory, ParserName.parseFamilyHistory, ParserName.parseFamilyHistory,
  ParserName.parseFamilyHistory, ParserName.parseFamilyHistory, ParserName.parseFamilyHistory,
  ParserName.parseFamilyHistory, ParserName.parseFamilyHistory, ParserName.parseFamilyHistory,
  ParserName.parseFamilyHistory, ParserName.parseFamilyHistory, ParserName.parseFamilyHistory,
  ParserName.parseFamilyHistory, ParserName.parseFamilyHistory, ParserName.parseFamilyHistory,
  ParserName.parseFamilyHistory, ParserName.parseBMI, ParserName.parseGirth,
  ParserName.parseBP, ParserName.parseBP, ParserName.parsePass, ParserName.parsePass,
  ParserName.parsePass, ParserName.parsePass, ParserName.parsePass, ParserName.parsePass,
  ParserName.parsePass, ParserName.parsePass, ParserName.parsePass, ParserName.parsePass,
  ParserName.parsePass, ParserName.parsePass, ParserName.parsePass, ParserName.parseAlcohol,
  ParserName.parseCigarette, ParserName.parseBetel, ParserName.parseDrink,
  ParserName.parseDrink, ParserName.parseFood, ParserName.parseExcercise, ParserName.parsePSQI,
  ParserName.parseBSRS5, ParserName.parseZeroDiscard, ParserName.parseZeroDiscard,
  ParserName.parseZeroDiscard, ParserName.parseZeroDiscard, ParserName.parseZeroDiscard,
  ParserName.parseZeroDiscard, ParserName.parseZeroDiscard, ParserName.parseZeroDiscard,
  ParserName.parseGlucoseU, ParserName.parseZeroDiscard, ParserName.parseZeroDiscard,
  ParserName.parseZeroDiscard, ParserName.parseZeroDiscard, ParserName.parseHsCRP,
  ParserName.parseZeroDiscard, ParserName.parseZeroDiscard, ParserName.parseZeroDiscard,
  ParserName.parseZeroDiscard, ParserName.parseZeroDiscard, ParserName.parseZeroDiscard,
  ParserName.parseZeroDiscard, ParserName.parseZeroDiscard, ParserName.parseZeroDiscard,
  ParserName.parseZeroDiscard, ParserName.parseAgatston]

/-- The table `operations` with the parser of every row replaced by the one
that checks its reads. -/
def checked.operations : List checked.Operation :=
  List.zipWith
    (fun name op => checked.Operation.mk name.checked op.colLabel op.colName op.fields)
    operationParsers ParserXml.operations

/-- Go `extractdata` with every read of a slice checked. -/
def checked.extractdata (dataJSON : GoMap String) : Option Result :=
  checked.extractdataLoop dataJSON checked.operations initResult []

/-- A row with a checked parser stands for a row of `operations`: the same
label, output key and fields, and a parser that never panics and returns
what the parser of the row returns. -/
def Refines (row : checked.Operation) (op : Operation) : Prop :=
  row.colLabel = op.colLabel ∧ row.colName = op.colName ∧ row.fields = op.fields ∧
    ∀ label fields, row.parseFunc label fields = some (op.parseFunc label fields)

/-! ## Rounding to a `float64` -/

theorem twoPow_pos (e : Int) : 0 < Float64.twoPow e := by
  unfold Float64.twoPow
  split_ifs <;> positivity

theorem nearest_nonneg (n d : Nat) : 0 ≤ Float64.nearest n d := by
  unfold Float64.nearest
  exact mul_nonneg (Nat.cast_nonneg _) (le_of_lt (twoPow_pos _))

/-- Rounding keeps a number that is not below 0 not below 0. -/
theorem round_nonneg (x : Float64) (h : x.NonNeg) : x.round.NonNeg := by
  cases x with
  | nan => exact h
  | inf neg => exact h
  | fin q =>
    have hq : 0 ≤ q := h
    have hlt : ¬ q < 0 := not_lt.mpr hq
    simp only [Float64.round, if_neg hlt]
    split_ifs
    · exact le_refl (0 : ℚ)
    · show decide (q < 0) = false
      simp [hlt]
    · exact nearest_nonneg _ _

theorem twoPow_eq (e : Int) : Float64.twoPow e = (2 : ℚ) ^ e := by
  unfold Float64.twoPow
  split_ifs with h
  · obtain ⟨k, rfl⟩ := Int.eq_ofNat_of_zero_le h
    simp
  · obtain ⟨k, hk⟩ := Int.exists_eq_neg_ofNat (le_of_lt (not_le.mp h))
    subst hk
    simp

/-- Doubling `d` stops at the last power of 2 with `d * 2 ^ k ≤ n`. -/
theorem doublings_spec (fuel n d : Nat) (hdn : d ≤ n) (hf : n < d * 2 ^ fuel) :
    d * 2 ^ Float64.doublings fuel n d ≤ n ∧ n < d * 2 ^ (Float64.doublings fuel n d + 1) := by
  induction fuel generalizing d with
  | zero =>
    simp only [pow_zero, mul_one] at hf
    omega
  | succ fuel ih =>
    unfold Float64.doublings
    split_ifs with h2
    · have hf2 : n < 2 * d * 2 ^ fuel := by
        rw [pow_succ] at hf
        calc n < d * (2 ^ fuel * 2) := hf
          _ = 2 * d * 2 ^ fuel := by ring
      obtain ⟨i1, i2⟩ := ih (2 * d) h2 hf2
      constructor
      · calc d * 2 ^ (Float64.doublings fuel n (2 * d) + 1)
            = 2 * d * 2 ^ Float64.doublings fuel n (2 * d) := by rw [pow_succ]; ring
          _ ≤ n := i1
      · calc n < 2 * d * 2 ^ (Float64.doublings fuel n (2 * d) + 1) := i2
          _ = d * 2 ^ (Float64.doublings fuel n (2 * d) + 1 + 1) := by
            rw [pow_succ _ (Float64.doublings fuel n (2 * d) + 1)]; ring
    · constructor
      · simpa using hdn
      · simp only [zero_add, pow_one]
        omega

theorem doublings_self (n d : Nat) (hd : 0 < d) (hdn : d ≤ n) :
    d * 2 ^ Float64.doublings n n d ≤ n ∧ n < d * 2 ^ (Float64.doublings n n d + 1) := by
  apply doublings_spec n n d hdn
  calc n < 2 ^ n := Nat.lt_two_pow n
    _ = 1 * 2 ^ n := (one_mul _).symm
    _ ≤ d * 2 ^ n := Nat.mul_le_mul_right _ hd

/-- The binary exponent of a positive rational. -/
theorem exponent_spec (n d : Nat) (hn : 0 < n) (hd : 0 < d) :
    (2 : ℚ) ^ Float64.exponent n d ≤ (n : ℚ) / d ∧
      (n : ℚ) / d < (2 : ℚ) ^ (Float64.exponent n d + 1) := by
  have hdq : (0 : ℚ) < d := by exact_mod_cast hd
  have hnq : (0 : ℚ) < n := by exact_mod_cast hn
  unfold Float64.exponent
  split_ifs with h1 h2
  · obtain ⟨i1, i2⟩ := doublings_self n d hd h1
    have j1 : (d : ℚ) * 2 ^ Float64.doublings n n d ≤ n := by exact_mod_cast i1
    have j2 : (n : ℚ) < d * 2 ^ (Float64.doublings n n d + 1) := by exact_mod_cast i2
    constructor
    · rw [zpow_natCast, le_div_iff₀ hdq]
      linarith
    · rw [show ((Float64.doublings n n d : ℤ) + 1) = ((Float64.doublings n n d + 1 : ℕ) : ℤ) from by
        push_cast; ring, zpow_natCast, div_lt_iff₀ hdq]
      linarith
  · have j : (n : ℚ) * 2 ^ Float64.doublings d d n = d := by exact_mod_cast h2
    have hx : (n : ℚ) / d = ((2 : ℚ) ^ Float64.doublings d d n)⁻¹ := by
      rw [← j]
      field_simp
    rw [hx, zpow_neg, zpow_natCast]
    refine ⟨le_refl _, ?_⟩
    rw [zpow_add₀ (by norm_num : (2 : ℚ) ≠ 0), zpow_neg, zpow_natCast, zpow_one]
    have : (0 : ℚ) < ((2 : ℚ) ^ Float64.doublings d d n)⁻¹ := by positivity
    linarith
  · obtain ⟨i1, i2⟩ := doublings_self d n hn (le_of_lt (not_le.mp h1))
    have i1' : n * 2 ^ Float64.doublings d d n < d := lt_of_le_of_ne i1 h2
    have j1 : (n : ℚ) * 2 ^ Float64.doublings d d n < d := by exact_mod_cast i1'
    have j2 : (d : ℚ) < n * 2 ^ (Float64.doublings d d n + 1) := by exact_mod_cast i2
    have hp : (0 : ℚ) < 2 ^ Float64.doublings d d n := by positivity
    constructor
    · rw [show (-(Float64.doublings d d n : ℤ) - 1) = -((Float64.doublings d d n + 1 : ℕ) : ℤ) from by
        push_cast; ring, zpow_neg, zpow_natCast, le_div_iff₀ hdq, inv_mul_le_iff₀ (by positivity)]
      linarith
    · rw [show (-(Float64.doublings d d n : ℤ) - 1 + 1) = -((Float64.doublings d d n : ℕ) : ℤ) from by
        ring, zpow_neg, zpow_natCast, div_lt_iff₀ hdq, lt_inv_mul_iff₀ hp]
      linarith

/-- The whole number `roundHalfEven` returns is a nearest one to the
quotient, and an even one when two are as near. -/
theorem roundHalfEven_spec (a b : Nat) (hb : 0 < b) :
    ((fmt.roundHalfEven a b : ℕ) : ℚ) - 1 / 2 ≤ (a : ℚ) / b ∧
      (a : ℚ) / b ≤ (fmt.roundHalfEven a b : ℕ) + 1 / 2 ∧
      ((a : ℚ) / b = (fmt.roundHalfEven a b : ℕ) + 1 / 2 → Even (fmt.roundHalfEven a b)) ∧
      ((a : ℚ) / b = (fmt.roundHalfEven a b : ℕ) - 1 / 2 → Even (fmt.roundHalfEven a b)) := by
  have hbq : (0 : ℚ) < b := by exact_mod_cast hb
  have hdm : b * (a / b) + a % b = a := Nat.div_add_mod a b
  have hr : a % b < b := Nat.mod_lt a hb
  have hdmq : (b : ℚ) * ((a / b : ℕ) : ℚ) + ((a % b : ℕ) : ℚ) = a := by exact_mod_cast hdm
  have hrq : ((a % b : ℕ) : ℚ) < b := by exact_mod_cast hr
  have hr0 : (0 : ℚ) ≤ ((a % b : ℕ) : ℚ) := Nat.cast_nonneg _
  unfold fmt.roundHalfEven
  dsimp only
  split_ifs with hup
  · have h2 : b ≤ 2 * (a % b) := by
      rcases hup with h | ⟨h, -⟩
      · exact le_of_lt h
      · exact le_of_eq h.symm
    have h2q : (b : ℚ) ≤ 2 * ((a % b : ℕ) : ℚ) := by exact_mod_cast h2
    push_cast
    refine ⟨?_, ?_, ?_, ?_⟩
    · rw [le_div_iff₀ hbq]; nlinarith
    · rw [div_le_iff₀ hbq]; nlinarith
    · intro he
      rw [div_eq_iff (ne_of_gt hbq)] at he
      nlinarith
    · intro he
      rw [div_eq_iff (ne_of_gt hbq)] at he
      have h3q : 2 * ((a % b : ℕ) : ℚ) = b := by nlinarith
      have h3 : 2 * (a % b) = b := by exact_mod_cast h3q
      rcases hup with h | ⟨-, h⟩
      · omega
      · rw [Nat.even_add_one, Nat.even_iff]
        omega
  · have hnot := not_or.mp hup
    have h2 : 2 * (a % b) ≤ b := not_lt.mp hnot.1
    have h2q : 2 * ((a % b : ℕ) : ℚ) ≤ b := by exact_mod_cast h2
    refine ⟨?_, ?_, ?_, ?_⟩
    · rw [le_div_iff₀ hbq]; nlinarith
    · rw [div_le_iff₀ hbq]; nlinarith
    · intro he
      rw [div_eq_iff (ne_of_gt hbq)] at he
      have h3q : 2 * ((a % b : ℕ) : ℚ) = b := by nlinarith
      have h3 : 2 * (a % b) = b := by exact_mod_cast h3q
      have : ¬ (a / b) % 2 = 1 := fun h => hnot.2 ⟨h3, h⟩
      rw [Nat.even_iff]
      omega
    · intro he
      rw [div_eq_iff (ne_of_gt hbq)] at he
      nlinarith

/-- Rounding to a whole number keeps the order of the quotients. -/
theorem roundHalfEven_mono (a b c d : Nat) (hb : 0 < b) (hd : 0 < d)
    (h : (a : ℚ) / b ≤ (c : ℚ) / d) : fmt.roundHalfEven a b ≤ fmt.roundHalfEven c d := by
  obtain ⟨a1, -, -, a4⟩ := roundHalfEven_spec a b hb
  obtain ⟨-, c2, c3, -⟩ := roundHalfEven_spec c d hd
  by_contra hlt
  have hlt' : fmt.roundHalfEven c d + 1 ≤ fmt.roundHalfEven a b := by omega
  have hq : ((fmt.roundHalfEven c d : ℕ) : ℚ) + 1 ≤ (fmt.roundHalfEven a b : ℕ) := by
    exact_mod_cast hlt'
  have e1 : (a : ℚ) / b = (fmt.roundHalfEven a b : ℕ) - 1 / 2 := by linarith
  have e2 : (c : ℚ) / d = (fmt.roundHalfEven c d : ℕ) + 1 / 2 := by linarith
  have e3 : ((fmt.roundHalfEven a b : ℕ) : ℚ) = (fmt.roundHalfEven c d : ℕ) + 1 := by linarith
  have e4 : fmt.roundHalfEven a b = fmt.roundHalfEven c d + 1 := by exact_mod_cast e3
  have ev1 := a4 e1
  have ev2 := c3 e2
  rw [e4, Nat.even_add_one] at ev1
  exact ev1 ev2

/-- A quotient that is a whole number is kept. -/
theorem roundHalfEven_whole (a b j : Nat) (hb : 0 < b) (h : (a : ℚ) / b = j) :
    fmt.roundHalfEven a b = j := by
  obtain ⟨a1, a2, -, -⟩ := roundHalfEven_spec a b hb
  rw [h] at a1 a2
  have h1 : ((fmt.roundHalfEven a b : ℕ) : ℚ) < (j : ℚ) + 1 := by linarith
  have h2 : (j : ℚ) < (fmt.roundHalfEven a b : ℕ) + 1 := by linarith
  have h1' : fmt.roundHalfEven a b < j + 1 := by exact_mod_cast h1
  have h2' : j < fmt.roundHalfEven a b + 1 := by exact_mod_cast h2
  omega

/-- The value `nearest` returns: a whole number of units `2 ^ e`, the
nearest to the quotient, where `e` is 52 below the binary exponent and not
below -1074. -/
theorem nearest_eq (n d : Nat) (hd : 0 < d) :
    ∃ a b : Nat, 0 < b ∧
      (a : ℚ) / b = (n : ℚ) / d / (2 : ℚ) ^ max (Float64.exponent n d - 52) (-1074) ∧
      Float64.nearest n d =
        (fmt.roundHalfEven a b : ℕ) * (2 : ℚ) ^ max (Float64.exponent n d - 52) (-1074) := by
  have hdq : (0 : ℚ) < d := by exact_mod_cast hd
  unfold Float64.nearest
  dsimp only
  rw [twoPow_eq]
  generalize max (Float64.exponent n d - 52) (-1074) = e
  split_ifs with h
  · obtain ⟨k, rfl⟩ := Int.eq_ofNat_of_zero_le h
    refine ⟨n, d * 2 ^ k, by positivity, ?_, ?_⟩
    · push_cast
      rw [zpow_natCast, div_div]
    · simp
  · obtain ⟨k, hk⟩ := Int.exists_eq_neg_ofNat (le_of_lt (not_le.mp h))
    subst hk
    refine ⟨n * 2 ^ k, d, hd, ?_, ?_⟩
    · push_cast
      rw [zpow_neg, zpow_natCast]
      field_simp
    · simp

/-- Rounding to a whole number does not pass a whole number. -/
theorem roundHalfEven_le (a b j : Nat) (hb : 0 < b) (h : (a : ℚ) / b ≤ j) :
    fmt.roundHalfEven a b ≤ j := by
  have := roundHalfEven_mono a b j 1 hb Nat.one_pos (by rw [Nat.cast_one, div_one]; exact h)
  rwa [roundHalfEven_whole j 1 j Nat.one_pos (by rw [Nat.cast_one, div_one])] at this

theorem roundHalfEven_ge (a b j : Nat) (hb : 0 < b) (h : (j : ℚ) ≤ (a : ℚ) / b) :
    j ≤ fmt.roundHalfEven a b := by
  have := roundHalfEven_mono j 1 a b Nat.one_pos hb (by rw [Nat.cast_one, div_one]; exact h)
  rwa [roundHalfEven_whole j 1 j Nat.one_pos (by rw [Nat.cast_one, div_one])] at this

/-- Rounding to the nearest `float64` keeps the order of positive numbers. -/
theorem nearest_mono (n d n' d' : Nat) (hn : 0 < n) (hd : 0 < d) (hn' : 0 < n') (hd' : 0 < d')
    (h : (n : ℚ) / d ≤ (n' : ℚ) / d') : Float64.nearest n d ≤ Float64.nearest n' d' := by
  obtain ⟨s1, s2⟩ := exponent_spec n d hn hd
  obtain ⟨t1, t2⟩ := exponent_spec n' d' hn' hd'
  obtain ⟨a, b, hb, hab, hN⟩ := nearest_eq n d hd
  obtain ⟨a', b', hb', hab', hN'⟩ := nearest_eq n' d' hd'
  have h2 : (1 : ℚ) < 2 := by norm_num
  have hE : Float64.exponent n d ≤ Float64.exponent n' d' := by
    have : (2 : ℚ) ^ Float64.exponent n d < 2 ^ (Float64.exponent n' d' + 1) :=
      lt_of_le_of_lt (le_trans s1 h) t2
    have := (zpow_lt_zpow_iff_right₀ h2).mp this
    omega
  rw [hN, hN']
  generalize hE1 : Float64.exponent n d = E at *
  generalize hE2 : Float64.exponent n' d' = E' at *
  have hle : max (E - 52) (-1074) ≤ max (E' - 52) (-1074) :=
    max_le_max (by omega) (le_refl _)
  rcases eq_or_lt_of_le hle with he | he
  · rw [← he] at hab' ⊢
    have hpos : (0 : ℚ) < 2 ^ max (E - 52) (-1074) := by positivity
    have hq : (a : ℚ) / b ≤ (a' : ℚ) / b' := by
      rw [hab, hab']
      exact div_le_div_of_nonneg_right h (le_of_lt hpos)
    have := roundHalfEven_mono a b a' b' hb hb' hq
    have hc : ((fmt.roundHalfEven a b : ℕ) : ℚ) ≤ (fmt.roundHalfEven a' b' : ℕ) := by
      exact_mod_cast this
    exact mul_le_mul_of_nonneg_right hc (le_of_lt hpos)
  · have he' : max (E' - 52) (-1074) = E' - 52 := by
      rcases le_total (E' - 52) (-1074) with hh | hh
      · rw [max_eq_right hh] at he
        have : (-1074 : ℤ) ≤ max (E - 52) (-1074) := le_max_right _ _
        omega
      · exact max_eq_left hh
    have hge : E - 52 ≤ max (E - 52) (-1074) := le_max_left _ _
    rw [he'] at he hab' ⊢
    generalize max (E - 52) (-1074) = e at *
    have hpos : (0 : ℚ) < 2 ^ e := by positivity
    have hpos' : (0 : ℚ) < 2 ^ (E' - 52) := by positivity
    obtain ⟨K, hK⟩ := Int.eq_ofNat_of_zero_le (show 0 ≤ E' - e by omega)
    have hx : (n : ℚ) / d < 2 ^ E' :=
      lt_of_lt_of_le s2 (zpow_le_zpow_right₀ (le_of_lt h2) (by omega))
    have hsplit : (2 : ℚ) ^ E' = 2 ^ K * 2 ^ e := by
      rw [← zpow_natCast, ← hK, ← zpow_add₀ (by norm_num : (2 : ℚ) ≠ 0)]
      congr 1
      omega
    have hsplit' : (2 : ℚ) ^ E' = ((2 ^ 52 : ℕ) : ℚ) * 2 ^ (E' - 52) := by
      rw [Nat.cast_pow, Nat.cast_ofNat, ← zpow_natCast, ← zpow_add₀ (by norm_num : (2 : ℚ) ≠ 0)]
      congr 1
      push_cast
      omega
    have hsplitK : (2 : ℚ) ^ E' = ((2 ^ K : ℕ) : ℚ) * 2 ^ e := by
      rw [Nat.cast_pow, Nat.cast_ofNat]
      exact hsplit
    have hr1 : fmt.roundHalfEven a b ≤ 2 ^ K := by
      apply roundHalfEven_le a b _ hb
      rw [hab, div_le_iff₀ hpos, ← hsplitK]
      exact le_of_lt hx
    have hr2 : 2 ^ 52 ≤ fmt.roundHalfEven a' b' := by
      apply roundHalfEven_ge a' b' _ hb'
      rw [hab', le_div_iff₀ hpos', ← hsplit']
      exact t1
    have hc1 : ((fmt.roundHalfEven a b : ℕ) : ℚ) ≤ ((2 ^ K : ℕ) : ℚ) := Nat.cast_le.mpr hr1
    have hc2 : ((2 ^ 52 : ℕ) : ℚ) ≤ (fmt.roundHalfEven a' b' : ℕ) := Nat.cast_le.mpr hr2
    calc ((fmt.roundHalfEven a b : ℕ) : ℚ) * 2 ^ e ≤ ((2 ^ K : ℕ) : ℚ) * 2 ^ e :=
          mul_le_mul_of_nonneg_right hc1 (le_of_lt hpos)
      _ = 2 ^ E' := hsplitK.symm
      _ = ((2 ^ 52 : ℕ) : ℚ) * 2 ^ (E' - 52) := hsplit'
      _ ≤ (fmt.roundHalfEven a' b' : ℕ) * 2 ^ (E' - 52) :=
          mul_le_mul_of_nonneg_right hc2 (le_of_lt hpos')

/-- A number with a mantissa of at most 53 bits and an exponent not below
-1074 is kept by `nearest`. -/
theorem nearest_fixed (n d m : Nat) (k : Int) (hn : 0 < n) (hd : 0 < d) (hm : m ≤ 2 ^ 53)
    (hk : -1074 ≤ k) (hx : (n : ℚ) / d = m * 2 ^ k) : Float64.nearest n d = (n : ℚ) / d := by
  obtain ⟨s1, s2⟩ := exponent_spec n d hn hd
  obtain ⟨a, b, hb, hab, hN⟩ := nearest_eq n d hd
  have h2 : (1 : ℚ) < 2 := by norm_num
  have h20 : (2 : ℚ) ≠ 0 := by norm_num
  rw [hN]
  generalize Float64.exponent n d = E at *
  have hge : E - 52 ≤ max (E - 52) (-1074) := le_max_left _ _
  have hge' : (-1074 : ℤ) ≤ max (E - 52) (-1074) := le_max_right _ _
  have hpos : (0 : ℚ) < 2 ^ max (E - 52) (-1074) := by positivity
  have hwhole : ∃ j : ℕ, (n : ℚ) / d / 2 ^ max (E - 52) (-1074) = j := by
    rcases le_or_lt (max (E - 52) (-1074)) k with hek | hek
    · obtain ⟨i, hi⟩ := Int.eq_ofNat_of_zero_le (show 0 ≤ k - max (E - 52) (-1074) by omega)
      refine ⟨m * 2 ^ i, ?_⟩
      rw [hx, div_eq_iff (ne_of_gt hpos)]
      push_cast
      rw [mul_assoc, ← zpow_natCast, ← hi, ← zpow_add₀ h20]
      congr 2
      omega
    · have hmax : max (E - 52) (-1074) = E - 52 := by
        rcases le_total (E - 52) (-1074) with hh | hh
        · rw [max_eq_right hh] at hek
          omega
        · exact max_eq_left hh
      rw [hmax] at hek ⊢
      have hkpos : (0 : ℚ) < 2 ^ k := by positivity
      have h53 : (2 : ℚ) ^ (k + 53) ≤ m * 2 ^ k := by
        rw [← hx]
        exact le_trans (zpow_le_zpow_right₀ (le_of_lt h2) (by omega)) s1
      have e53 : ((2 ^ 53 : ℕ) : ℚ) = (2 : ℚ) ^ (53 : ℤ) := by norm_num
      have e52 : ((2 ^ 52 : ℕ) : ℚ) = (2 : ℚ) ^ (52 : ℤ) := by norm_num
      have hm53 : ((2 ^ 53 : ℕ) : ℚ) ≤ m := by
        rw [zpow_add₀ h20, mul_comm] at h53
        rw [e53]
        exact le_of_mul_le_mul_right h53 hkpos
      have hm53' : 2 ^ 53 ≤ m := Nat.cast_le.mp hm53
      have hmeq : m = 2 ^ 53 := le_antisymm hm hm53'
      have hxe : (n : ℚ) / d = 2 ^ (k + 53) := by
        rw [hx, hmeq, e53, zpow_add₀ h20, mul_comm]
      have hEk : E = k + 53 := by
        rw [hxe] at s1 s2
        have a1 := (zpow_le_zpow_iff_right₀ h2).mp s1
        have a2 := (zpow_lt_zpow_iff_right₀ h2).mp s2
        omega
      refine ⟨2 ^ 52, ?_⟩
      rw [hxe, div_eq_iff (by positivity), e52, ← zpow_add₀ h20]
      congr 1
      omega
  obtain ⟨j, hj⟩ := hwhole
  rw [roundHalfEven_whole a b j hb (hab.trans hj), ← hj]
  exact div_mul_cancel₀ _ (ne_of_gt hpos)

/-- What `nearest` returns has a mantissa of at most 53 bits and an exponent
not below -1074. -/
theorem nearest_mantissa (n d : Nat) (hn : 0 < n) (hd : 0 < d) :
    ∃ (m : Nat) (k : Int), m ≤ 2 ^ 53 ∧ -1074 ≤ k ∧ Float64.nearest n d = m * 2 ^ k := by
  obtain ⟨s1, s2⟩ := exponent_spec n d hn hd
  obtain ⟨a, b, hb, hab, hN⟩ := nearest_eq n d hd
  have h2 : (1 : ℚ) < 2 := by norm_num
  have h20 : (2 : ℚ) ≠ 0 := by norm_num
  refine ⟨fmt.roundHalfEven a b, max (Float64.exponent n d - 52) (-1074), ?_, le_max_right _ _, hN⟩
  generalize Float64.exponent n d = E at *
  have hge : E - 52 ≤ max (E - 52) (-1074) := le_max_left _ _
  have hpos : (0 : ℚ) < 2 ^ max (E - 52) (-1074) := by positivity
  have e53 : ((2 ^ 53 : ℕ) : ℚ) = (2 : ℚ) ^ (53 : ℤ) := by norm_num
  apply roundHalfEven_le a b _ hb
  rw [hab, div_le_iff₀ hpos, e53, ← zpow_add₀ h20]
  exact le_trans (le_of_lt s2) (zpow_le_zpow_right₀ (le_of_lt h2) (by omega))

theorem natAbs_div_den (q : ℚ) :
    ((q.num.natAbs : ℕ) : ℚ) / q.den = |q| := by
  have hden : (0 : ℚ) < q.den := by exact_mod_cast q.den_pos
  have h1 : ((q.num.natAbs : ℕ) : ℚ) = |(q.num : ℚ)| := by
    rw [Nat.cast_natAbs, Int.cast_abs]
  rw [h1]
  conv_rhs => rw [← Rat.num_div_den q]
  rw [abs_div, abs_of_pos hden]

theorem natAbs_pos_of_ne (q : ℚ) (hq : q ≠ 0) : 0 < q.num.natAbs :=
  Int.natAbs_pos.mpr (Rat.num_ne_zero.mpr hq)

/-- The rounding of a number other than 0, through its absolute value. -/
theorem round_fin (q : ℚ) (hq : q ≠ 0) :
    (Float64.fin q).round =
      if 2 ^ 1024 ≤ Float64.nearest q.num.natAbs q.den then Float64.inf (decide (q < 0))
      else Float64.fin
        (if q < 0 then -Float64.nearest q.num.natAbs q.den
          else Float64.nearest q.num.natAbs q.den) := by
  simp only [Float64.round, if_neg hq]

/-- A number with a mantissa of at most 53 bits, an exponent not below
-1074 and a magnitude below `2 ^ 1024` is a `float64`: rounding keeps it. -/
theorem round_fixed (q : ℚ) (m : Nat) (k : Int) (hm : m ≤ 2 ^ 53) (hk : -1074 ≤ k)
    (hq : |q| = m * 2 ^ k) (hlt : |q| < 2 ^ 1024) : (Float64.fin q).round = Float64.fin q := by
  by_cases h0 : q = 0
  · subst h0
    simp [Float64.round]
  · have hn := natAbs_pos_of_ne q h0
    have hfix := nearest_fixed q.num.natAbs q.den m k hn q.den_pos hm hk
      ((natAbs_div_den q).trans hq)
    rw [natAbs_div_den] at hfix
    rw [round_fin q h0, hfix, if_neg (not_le.mpr hlt)]
    congr 1
    split_ifs with hneg
    · rw [abs_of_neg hneg, neg_neg]
    · exact abs_of_nonneg (not_lt.mp hneg)

/-- What rounding returns is a `float64`: rounding it again changes
nothing. -/
theorem round_round (x : Float64) : x.round.round = x.round := by
  cases x with
  | nan => rfl
  | inf neg => rfl
  | fin q =>
    by_cases h0 : q = 0
    · subst h0
      simp [Float64.round]
    · have hn := natAbs_pos_of_ne q h0
      obtain ⟨m, k, hm, hk, hN⟩ := nearest_mantissa q.num.natAbs q.den hn q.den_pos
      rw [round_fin q h0]
      split_ifs with hbig hneg
      · rfl
      · apply round_fixed _ m k hm hk
        · rw [abs_neg, abs_of_nonneg (nearest_nonneg _ _), hN]
        · rw [abs_neg, abs_of_nonneg (nearest_nonneg _ _)]
          exact not_le.mp hbig
      · apply round_fixed _ m k hm hk
        · rw [abs_of_nonneg (nearest_nonneg _ _), hN]
        · rw [abs_of_nonneg (nearest_nonneg _ _)]
          exact not_le.mp hbig

/-- Rounding keeps the order of two numbers not below 0. -/
theorem round_mono (p q : ℚ) (hp : 0 ≤ p) (hpq : p ≤ q) :
    ((Float64.fin q).round).lt ((Float64.fin p).round) = false := by
  have hq : 0 ≤ q := le_trans hp hpq
  rcases eq_or_lt_of_le hp with hp0 | hp0
  · subst hp0
    have hnn := round_nonneg (Float64.fin q) hq
    have h0 : (Float64.fin 0).round = Float64.fin 0 := by simp [Float64.round]
    rw [h0]
    cases hr : (Float64.fin q).round with
    | nan => rfl
    | inf neg =>
      rw [hr] at hnn
      have : neg = false := hnn
      subst this
      rfl
    | fin r =>
      rw [hr] at hnn
      have : 0 ≤ r := hnn
      simp [Float64.lt, this]
  · have hq0 : 0 < q := lt_of_lt_of_le hp0 hpq
    have hmono := nearest_mono p.num.natAbs p.den q.num.natAbs q.den
      (natAbs_pos_of_ne p (ne_of_gt hp0)) p.den_pos
      (natAbs_pos_of_ne q (ne_of_gt hq0)) q.den_pos
      (by rw [natAbs_div_den, natAbs_div_den, abs_of_pos hp0, abs_of_pos hq0]; exact hpq)
    rw [round_fin p (ne_of_gt hp0), round_fin q (ne_of_gt hq0),
      if_neg (not_lt.mpr hp), if_neg (not_lt.mpr hq)]
    have dp : decide (p < 0) = false := by simp [hp]
    have dq : decide (q < 0) = false := by simp [hq]
    rw [dp, dq]
    split_ifs with h1 h2 h2
    · rfl
    · rfl
    · exact absurd (le_trans h2 hmono) h1
    · simp [Float64.lt, hmono]

/-- The rounding of a number above 0. -/
theorem round_pos (q : ℚ) (hq : 0 < q) :
    (Float64.fin q).round =
      if 2 ^ 1024 ≤ Float64.nearest q.num.natAbs q.den then Float64.inf false
      else Float64.fin (Float64.nearest q.num.natAbs q.den) := by
  rw [round_fin q (ne_of_gt hq), if_neg (not_lt.mpr (le_of_lt hq))]
  simp [not_lt.mpr (le_of_lt hq)]

theorem nearest_rat_mono (p q : ℚ) (hp : 0 < p) (hpq : p ≤ q) :
    Float64.nearest p.num.natAbs p.den ≤ Float64.nearest q.num.natAbs q.den := by
  have hq : 0 < q := lt_of_lt_of_le hp hpq
  exact nearest_mono p.num.natAbs p.den q.num.natAbs q.den
    (natAbs_pos_of_ne p (ne_of_gt hp)) p.den_pos (natAbs_pos_of_ne q (ne_of_gt hq)) q.den_pos
    (by rw [natAbs_div_den, natAbs_div_den, abs_of_pos hp, abs_of_pos hq]; exact hpq)

theorem nearest_rat_fixed (q : ℚ) (m : Nat) (k : Int) (hq : 0 < q) (hm : m ≤ 2 ^ 53)
    (hk : -1074 ≤ k) (h : q = m * 2 ^ k) : Float64.nearest q.num.natAbs q.den = q := by
  have := nearest_fixed q.num.natAbs q.den m k (natAbs_pos_of_ne q (ne_of_gt hq)) q.den_pos hm hk
    (by rw [natAbs_div_den, abs_of_pos hq]; exact h)
  rw [natAbs_div_den, abs_of_pos hq] at this
  exact this

/-- A number above 0 that rounding keeps: its mantissa, its exponent and its
bound. -/
theorem mantissa_of_round (a : ℚ) (ha : 0 < a) (h : (Float64.fin a).round = Float64.fin a) :
    ∃ (m : Nat) (k : Int), m ≤ 2 ^ 53 ∧ -1074 ≤ k ∧ a = m * 2 ^ k ∧ a < 2 ^ 1024 ∧
      Float64.nearest a.num.natAbs a.den = a := by
  rw [round_pos a ha] at h
  split_ifs at h with hbig
  have hN : Float64.nearest a.num.natAbs a.den = a := Float64.fin.inj h
  obtain ⟨m, k, hm, hk, hmk⟩ := nearest_mantissa a.num.natAbs a.den
    (natAbs_pos_of_ne a (ne_of_gt ha)) a.den_pos
  rw [hN] at hmk hbig
  exact ⟨m, k, hm, hk, hmk, not_le.mp hbig, hN⟩

/-- The distance from a positive number to its rounding is at most half a
unit of the last place. -/
theorem nearest_error (n d : Nat) (hd : 0 < d) :
    |Float64.nearest n d - (n : ℚ) / d| ≤
      (2 : ℚ) ^ max (Float64.exponent n d - 52) (-1074) / 2 := by
  obtain ⟨a, b, hb, hab, hN⟩ := nearest_eq n d hd
  obtain ⟨s1, s2, -, -⟩ := roundHalfEven_spec a b hb
  rw [hN]
  generalize max (Float64.exponent n d - 52) (-1074) = e at *
  have hpos : (0 : ℚ) < 2 ^ e := by positivity
  have hx : (n : ℚ) / d = (a : ℚ) / b * 2 ^ e := by
    rw [hab, div_mul_cancel₀ _ (ne_of_gt hpos)]
  rw [hx, ← sub_mul, abs_mul, abs_of_pos hpos]
  have : |((fmt.roundHalfEven a b : ℕ) : ℚ) - (a : ℚ) / b| ≤ 1 / 2 := by
    rw [abs_le]
    constructor <;> linarith
  calc |((fmt.roundHalfEven a b : ℕ) : ℚ) - (a : ℚ) / b| * 2 ^ e ≤ 1 / 2 * 2 ^ e :=
        mul_le_mul_of_nonneg_right this (le_of_lt hpos)
    _ = 2 ^ e / 2 := by ring

/-- The rounding of a positive number not below `2 ^ (-1022)` is within one
part in `2 ^ 53` of it. -/
theorem nearest_rel_error (q : ℚ) (hq : (2 : ℚ) ^ (-1022 : ℤ) ≤ q) :
    |Float64.nearest q.num.natAbs q.den - q| ≤ q / 2 ^ 53 := by
  have hq0 : 0 < q := lt_of_lt_of_le (by positivity) hq
  have hn := natAbs_pos_of_ne q (ne_of_gt hq0)
  have herr := nearest_error q.num.natAbs q.den q.den_pos
  obtain ⟨s1, s2⟩ := exponent_spec q.num.natAbs q.den hn q.den_pos
  rw [natAbs_div_den, abs_of_pos hq0] at herr s1 s2
  generalize Float64.exponent q.num.natAbs q.den = E at *
  have h2 : (1 : ℚ) < 2 := by norm_num
  have hE : -1022 ≤ E := by
    have := (zpow_lt_zpow_iff_right₀ h2).mp (lt_of_le_of_lt hq s2)
    omega
  rw [max_eq_left (by omega)] at herr
  refine le_trans herr ?_
  rw [zpow_sub₀ (by norm_num : (2 : ℚ) ≠ 0), div_div]
  have e52 : (2 : ℚ) ^ (52 : ℤ) * 2 = 2 ^ 53 := by norm_num
  rw [e52]
  exact div_le_div_of_nonneg_right s1 (by positivity)

/-- The rounding of a number between `2 ^ (-1022)` and `2 ^ 1023` is a number
within one part in `2 ^ 53` of it. -/
theorem round_rel (x : ℚ) (hlo : (2 : ℚ) ^ (-1022 : ℤ) ≤ x) (hhi : x ≤ 2 ^ 1023) :
    ∃ y : ℚ, (Float64.fin x).round = Float64.fin y ∧
      x * (1 - 1 / 2 ^ 53) ≤ y ∧ y ≤ x * (1 + 1 / 2 ^ 53) := by
  have hx : 0 < x := lt_of_lt_of_le (by positivity) hlo
  have top : Float64.nearest ((2 : ℚ) ^ 1023).num.natAbs ((2 : ℚ) ^ 1023).den = 2 ^ 1023 :=
    nearest_rat_fixed _ 1 1023 (by positivity) (by norm_num) (by norm_num) (by norm_num)
  have hN := nearest_rat_mono _ _ hx hhi
  rw [top] at hN
  have herr := nearest_rel_error x hlo
  rw [abs_le] at herr
  refine ⟨Float64.nearest x.num.natAbs x.den, ?_, ?_, ?_⟩
  · rw [round_pos x hx, if_neg (not_le.mpr (lt_of_le_of_lt hN (by norm_num)))]
  · have := herr.1
    have e : x * (1 - 1 / 2 ^ 53) = x - x / 2 ^ 53 := by ring
    rw [e]
    linarith
  · have := herr.2
    have e : x * (1 + 1 / 2 ^ 53) = x + x / 2 ^ 53 := by ring
    rw [e]
    linarith

/-- What `strconv.ParseFloat` returns is a `float64`: rounding keeps it. -/
theorem ParseFloat_round (s : String) :
    (strconv.ParseFloat s).val.round = (strconv.ParseFloat s).val := by
  unfold strconv.ParseFloat
  cases hs : strconv.special s.data with
  | some x =>
    dsimp only
    unfold strconv.special at hs
    dsimp only at hs
    split_ifs at hs <;> cases hs <;> rfl
  | none =>
    dsimp only
    cases strconv.readFloat s.data with
    | none => simp [Float64.round]
    | some p =>
      dsimp only
      split_ifs
      · rfl
      · simp [Float64.round]
      · exact round_round (Float64.fin p.value)


/-! ## Properties of the library models -/

theorem dropWhile_append_all (p : Char → Bool) (l rest : List Char)
    (h : ∀ c ∈ l, p c = true) : (l ++ rest).dropWhile p = rest.dropWhile p := by
  induction l with
  | nil => rfl
  | cons a l ih =>
    have ha : p a = true := h a (List.mem_cons_self _ _)
    simp only [List.cons_append, List.dropWhile_cons, ha, if_true]
    exact ih fun c hc => h c (List.mem_cons_of_mem _ hc)

theorem dropWhile_head (p : Char → Bool) (a : Char) (t : List Char) (h : p a = false) :
    (a :: t).dropWhile p = a :: t := by
  simp [List.dropWhile_cons, h]

/-- The characters a trim removes are white space: every text is white space,
then its trimmed text, then white space. -/
theorem trimChars_split (cs : List Char) :
    ∃ l r : List Char, (∀ c ∈ l, strings.isSpace c = true) ∧
      (∀ c ∈ r, strings.isSpace c = true) ∧ cs = l ++ strings.trimChars cs ++ r := by
  refine ⟨cs.takeWhile strings.isSpace,
    (((cs.dropWhile strings.isSpace).reverse).takeWhile strings.isSpace).reverse, ?_, ?_, ?_⟩
  · intro c hc
    exact (List.mem_takeWhile_imp hc)
  · intro c hc
    rw [List.mem_reverse] at hc
    exact (List.mem_takeWhile_imp hc)
  · unfold strings.trimChars
    rw [List.append_assoc, ← List.reverse_append, List.takeWhile_append_dropWhile,
      List.reverse_reverse, List.takeWhile_append_dropWhile]

/-- A text between two runs of white space that does not itself start or end
with white space is what the trim keeps. -/
theorem trimChars_of_split (l r : List Char) (a b : Char) (mid : List Char)
    (hl : ∀ c ∈ l, strings.isSpace c = true) (hr : ∀ c ∈ r, strings.isSpace c = true)
    (ha : strings.isSpace a = false) (hb : strings.isSpace b = false) :
    strings.trimChars (l ++ (a :: mid ++ [b]) ++ r) = a :: mid ++ [b] ∧
      strings.trimChars (l ++ [a] ++ r) = [a] := by
  have key : ∀ (t : List Char) (x y : Char) (t' : List Char), t = x :: t' →
      t.reverse.head? = some y → strings.isSpace x = false → strings.isSpace y = false →
      strings.trimChars (l ++ t ++ r) = t := by
    intro t x y t' ht hy hx hy'
    unfold strings.trimChars
    rw [List.append_assoc, dropWhile_append_all _ _ _ hl, ht, List.cons_append,
      dropWhile_head _ _ _ hx, ← List.cons_append, ← ht, List.reverse_append,
      dropWhile_append_all _ _ _ (fun c hc => hr c (List.mem_reverse.mp hc))]
    cases htr : t.reverse with
    | nil =>
      rw [htr] at hy
      cases hy
    | cons z zs =>
      rw [htr] at hy
      cases hy
      rw [dropWhile_head _ _ _ hy', ← htr, List.reverse_reverse]
  constructor
  · exact key (a :: mid ++ [b]) a b (mid ++ [b]) rfl (by simp) ha hb
  · exact key [a] a a [] rfl rfl ha ha

theorem trimChars_eq_nil (cs : List Char) :
    strings.trimChars cs = [] ↔ ∀ c ∈ cs, strings.isSpace c = true := by
  constructor
  · intro h
    obtain ⟨l, r, hl, hr, hcs⟩ := trimChars_split cs
    rw [h, List.append_nil] at hcs
    intro c hc
    rw [hcs] at hc
    rcases List.mem_append.mp hc with hc | hc
    · exact hl c hc
    · exact hr c hc
  · intro h
    unfold strings.trimChars
    have := dropWhile_append_all strings.isSpace cs [] h
    rw [List.append_nil] at this
    rw [this]
    rfl

theorem TrimSpace_eq_char (s : String) (a : Char) (ha : strings.isSpace a = false) :
    strings.TrimSpace s = String.mk [a] ↔
      ∃ l r : List Char, (∀ c ∈ l, strings.isSpace c = true) ∧
        (∀ c ∈ r, strings.isSpace c = true) ∧ s.data = l ++ [a] ++ r := by
  unfold strings.TrimSpace
  constructor
  · intro h
    have h' : strings.trimChars s.data = [a] := congrArg String.data h
    obtain ⟨l, r, hl, hr, hs⟩ := trimChars_split s.data
    rw [h'] at hs
    exact ⟨l, r, hl, hr, hs⟩
  · rintro ⟨l, r, hl, hr, hs⟩
    rw [hs, (trimChars_of_split l r a a [] hl hr ha ha).2]


/-! ## Properties of the dispatcher -/

theorem append_ne_empty_left (a b : String) (h : a ≠ "") : a ++ b ≠ "" := by
  intro hab
  apply h
  have h1 : a.data ++ b.data = [] := by
    rw [← String.data_append, hab]
  exact String.ext (List.append_eq_nil.mp h1).1

theorem append_ne_empty_right (a b : String) (h : b ≠ "") : a ++ b ≠ "" := by
  intro hab
  apply h
  have h1 : a.data ++ b.data = [] := by
    rw [← String.data_append, hab]
  exact String.ext (List.append_eq_nil.mp h1).2

theorem fieldValues_ok_iff (data : GoMap String) (fields : List String) :
    (∃ vals, fieldValues data fields = .ok vals) ↔ ∀ f ∈ fields, data.get? f ≠ none := by
  induction fields with
  | nil => simp [fieldValues]
  | cons f rest ih =>
    cases hf : data.get? f with
    | none => simp [fieldValues, hf]
    | some v =>
      cases hr : fieldValues data rest with
      | error e =>
        have : ¬ ∀ f ∈ rest, data.get? f ≠ none := by
          rw [← ih, hr]; simp
        simp [fieldValues, hf, hr]
        simpa using this
      | ok vals =>
        have : ∀ f ∈ rest, data.get? f ≠ none := by
          rw [← ih, hr]; exact ⟨vals, rfl⟩
        simp [fieldValues, hf, hr]
        simpa using this

theorem parsedata_fst (f : String → List String → Except String Value)
    (m m' : GoMap Value) (data : GoMap String) (label name : String)
    (fields : List String) :
    (parsedata f m data label name fields).1 = (parsedata f m' data label name fields).1 := by
  unfold parsedata
  split
  · rfl
  · split
    · rfl
    · split <;> rfl

theorem result_error_iff (op : Operation) (data : GoMap String) :
    (op.result data).Error ≠ "" ↔ op.Fails data := by
  unfold Operation.result Operation.Fails parsedata
  by_cases h0 : op.fields.length < 1
  · have hnil : op.fields = [] := List.length_eq_zero.mp (by omega)
    simp only [h0, if_true]
    exact ⟨fun _ => Or.inl hnil, fun _ => append_ne_empty_right _ _ (by decide)⟩
  · have hne : op.fields ≠ [] := fun h => h0 (by simp [h])
    simp only [h0, if_false]
    cases hv : fieldValues data op.fields with
    | error colName =>
      have hmiss : ∃ f ∈ op.fields, data.get? f = none := by
        by_contra hcon
        push_neg at hcon
        obtain ⟨vals, hvals⟩ := (fieldValues_ok_iff data op.fields).mpr hcon
        rw [hv] at hvals
        cases hvals
      exact ⟨fun _ => Or.inr (Or.inl hmiss),
        fun _ => append_ne_empty_left _ _ (append_ne_empty_left _ _ (by decide))⟩
    | ok vals =>
      have hall := (fieldValues_ok_iff data op.fields).mp ⟨vals, hv⟩
      dsimp only
      cases hp : op.parseFunc op.colLabel vals with
      | error err =>
        dsimp only
        exact ⟨fun _ => Or.inr (Or.inr ⟨vals, err, rfl, hp⟩),
          fun _ => append_ne_empty_left _ _ (append_ne_empty_left _ _ (by decide))⟩
      | ok v =>
        dsimp only
        constructor
        · intro h
          exact absurd rfl h
        · rintro (h | ⟨f, hf, hnone⟩ | ⟨vals', err, hvals', herr⟩)
          · exact absurd h hne
          · exact absurd hnone (hall f hf)
          · cases hvals'
            rw [hp] at herr
            cases herr

theorem parsedata_result (op : Operation) (m : GoMap Value) (data : GoMap String) :
    (parsedata op.parseFunc m data op.colLabel op.colName op.fields).1 = op.result data :=
  parsedata_fst _ _ _ _ _ _ _

theorem result_data (op : Operation) (data : GoMap String) : (op.result data).Data = [] := by
  unfold Operation.result parsedata
  split
  · rfl
  · split
    · rfl
    · split <;> rfl

theorem extractdataLoop_fail (data : GoMap String) :
    ∀ (ops : List Operation) (r : Result) (m : GoMap Value) (i : Nat) (hi : i < ops.length),
      (ops.get ⟨i, hi⟩).Fails data →
      (∀ j (hj : j < ops.length), j < i → ¬ (ops.get ⟨j, hj⟩).Fails data) →
      extractdataLoop data ops r m = (ops.get ⟨i, hi⟩).result data := by
  intro ops
  induction ops with
  | nil => intro r m i hi; simp at hi
  | cons op rest ih =>
    intro r m i hi hfail hbefore
    cases i with
    | zero =>
      have h : (op.result data).Error ≠ "" := (result_error_iff op data).mpr hfail
      simp only [extractdataLoop, parsedata_result]
      simp [h]
    | succ k =>
      have h0 : ¬ op.Fails data := hbefore 0 (by simp) (by omega)
      have h : (op.result data).Error = "" := by
        by_contra hne
        exact h0 ((result_error_iff op data).mp hne)
      simp only [extractdataLoop, parsedata_result]
      simp only [h, ne_eq, not_true_eq_false, if_false]
      have hk : k < rest.length := by simpa using hi
      exact ih _ _ k hk hfail (fun j hj hjk => hbefore (j + 1) (by simpa using hj) (by omega))

theorem extractdataLoop_take (data : GoMap String) :
    ∀ (ops ops' : List Operation) (r : Result) (m : GoMap Value) (i : Nat)
      (hi : i < ops.length),
      (ops.get ⟨i, hi⟩).Fails data →
      (∀ j (hj : j < ops.length), j < i → ¬ (ops.get ⟨j, hj⟩).Fails data) →
      ops'.take (i + 1) = ops.take (i + 1) →
      extractdataLoop data ops' r m = extractdataLoop data ops r m := by
  intro ops
  induction ops with
  | nil => intro ops' r m i hi; simp at hi
  | cons op rest ih =>
    intro ops' r m i hi hfail hbefore htake
    cases ops' with
    | nil => simp at htake
    | cons op' rest' =>
      simp only [List.take_succ_cons, List.cons.injEq] at htake
      obtain ⟨rfl, hrest⟩ := htake
      cases i with
      | zero =>
        have h : (op'.result data).Error ≠ "" := (result_error_iff op' data).mpr hfail
        simp only [extractdataLoop, parsedata_result]
        simp [h]
      | succ k =>
        have h0 : ¬ op'.Fails data := hbefore 0 (by simp) (by omega)
        have h : (op'.result data).Error = "" := by
          by_contra hne
          exact h0 ((result_error_iff op' data).mp hne)
        simp only [extractdataLoop, parsedata_result]
        simp only [h, ne_eq, not_true_eq_false, if_false]
        have hk : k < rest.length := by simpa using hi
        exact ih rest' _ _ k hk hfail
          (fun j hj hjk => hbefore (j + 1) (by simpa using hj) (by omega)) hrest

/-- C1 (fail-fast dispatch).  For every record and every rule table, let `i` be
the lowest index whose rule fails (it names no field, a field it names is
not a key of the record, or its parser returns an error).  Then
`extractdata` over the table returns exactly the result `parsedata` gives
for rule `i`, whatever the output map holds at that point; the `Data` map of
that result is empty; and the result is the same over every table that has
the same rows up to index `i`, so no later rule has a share in it. -/
theorem extractdata_fail_fast (ops : List Operation) (data : GoMap String) (i : Nat)
    (hi : i < ops.length) (hfail : (ops.get ⟨i, hi⟩).Fails data)
    (hlowest : ∀ j (hj : j < ops.length), j < i → ¬ (ops.get ⟨j, hj⟩).Fails data) :
    (∀ m : GoMap Value, extractdataOver ops data =
        (parsedata (ops.get ⟨i, hi⟩).parseFunc m data (ops.get ⟨i, hi⟩).colLabel
          (ops.get ⟨i, hi⟩).colName (ops.get ⟨i, hi⟩).fields).1) ∧
      (extractdataOver ops data).Error ≠ "" ∧
      (extractdataOver ops data).Data = [] ∧
      ∀ ops' : List Operation, ops'.take (i + 1) = ops.take (i + 1) →
        extractdataOver ops' data = extractdataOver ops data := by
  have hres : extractdataOver ops data = (ops.get ⟨i, hi⟩).result data :=
    extractdataLoop_fail data ops initResult [] i hi hfail hlowest
  refine ⟨fun m => ?_, ?_, ?_, fun ops' htake => ?_⟩
  · rw [hres, parsedata_result]
  · rw [hres]
    exact (result_error_iff _ data).mpr hfail
  · rw [hres]
    exact result_data _ data
  · exact extractdataLoop_take data ops ops' initResult [] i hi hfail hlowest htake

theorem extractdata_fail_fast_witness :
    (∀ m : GoMap Value, extractdataOver exampleRules exampleRecord =
        (parsedata calculateAge m exampleRecord "年齡" "Age" ["基本資料-出生日期", "x"]).1) ∧
      (extractdataOver exampleRules exampleRecord).Error ≠ "" ∧
      (extractdataOver exampleRules exampleRecord).Data = [] ∧
      ∀ ops' : List Operation, ops'.take 2 = exampleRules.take 2 →
        extractdataOver ops' exampleRecord = extractdataOver exampleRules exampleRecord :=
  extractdata_fail_fast exampleRules exampleRecord 1 (by decide)
    (Or.inr (Or.inl ⟨"x", by decide, by decide⟩))
    (fun j hj hj1 => by
      have h0 : j = 0 := by omega
      subst h0
      rw [← result_error_iff]
      show ¬ ((Operation.mk parseSex "性別" "Sex" ["基本資料-性別"]).result
        exampleRecord).Error ≠ ""
      decide)

theorem keys_set_of_not_mem {α : Type} (m : GoMap α) (k : String) (v : α)
    (h : k ∉ m.keys) : (m.set k v).keys = m.keys ++ [k] := by
  induction m with
  | nil => rfl
  | cons e rest ih =>
    obtain ⟨k', v'⟩ := e
    have hk : k' ≠ k := by
      intro hk
      apply h
      simp [GoMap.keys, hk]
    have hrest : k ∉ GoMap.keys rest := by
      intro hmem
      apply h
      simp only [GoMap.keys, List.map_cons, List.mem_cons]
      exact Or.inr hmem
    simp only [GoMap.set, hk, if_false]
    simp only [GoMap.keys, List.map_cons, List.cons_append, List.cons.injEq, true_and]
    exact ih hrest

theorem get?_set_self {α : Type} (m : GoMap α) (k : String) (v : α) :
    (m.set k v).get? k = some v := by
  induction m with
  | nil => simp [GoMap.set, GoMap.get?]
  | cons e rest ih =>
    obtain ⟨k', v'⟩ := e
    by_cases hk : k' = k
    · simp [GoMap.set, GoMap.get?, hk]
    · simp [GoMap.set, GoMap.get?, hk, ih]

theorem get?_set_ne {α : Type} (m : GoMap α) (k k' : String) (v : α) (h : k' ≠ k) :
    (m.set k v).get? k' = m.get? k' := by
  induction m with
  | nil => simp [GoMap.set, GoMap.get?, Ne.symm h]
  | cons e rest ih =>
    obtain ⟨k0, v0⟩ := e
    by_cases hk : k0 = k
    · subst hk
      simp [GoMap.set, GoMap.get?, Ne.symm h]
    · by_cases hk' : k0 = k'
      · subst hk'
        simp [GoMap.set, GoMap.get?, h]
      · simp [GoMap.set, GoMap.get?, hk, hk', ih]

theorem parsedata_succeeds (op : Operation) (m : GoMap Value) (data : GoMap String)
    (vals : List String) (v : Value) (hne : op.fields ≠ [])
    (hvals : fieldValues data op.fields = .ok vals)
    (hv : op.parseFunc op.colLabel vals = .ok v) :
    parsedata op.parseFunc m data op.colLabel op.colName op.fields =
      (initResult, m.set op.colName v) := by
  have hlen : ¬ op.fields.length < 1 := by
    intro h
    exact hne (List.length_eq_zero.mp (by omega))
  unfold parsedata
  simp only [hlen, if_false, hvals, hv]

theorem extractdataLoop_success (data : GoMap String) :
    ∀ (ops : List Operation) (r : Result) (m : GoMap Value),
      (∀ op ∈ ops, op.Succeeds data) →
      (m.keys ++ ops.map fun op => op.colName).Nodup →
      r.Error = "" → r.ErrorCode = "" → r.ErrorDetail = "" →
      (extractdataLoop data ops r m).Error = "" ∧
      (extractdataLoop data ops r m).ErrorCode = "" ∧
      (extractdataLoop data ops r m).ErrorDetail = "" ∧
      (extractdataLoop data ops r m).Data.keys = m.keys ++ ops.map (fun op => op.colName) ∧
      (∀ k, k ∉ ops.map (fun op => op.colName) →
        (extractdataLoop data ops r m).Data.get? k = m.get? k) ∧
      (∀ op ∈ ops, ∀ vals v, fieldValues data op.fields = .ok vals →
        op.parseFunc op.colLabel vals = .ok v →
        (extractdataLoop data ops r m).Data.get? op.colName = some v) := by
  intro ops
  induction ops with
  | nil =>
    intro r m _ _ h1 h2 h3
    refine ⟨h1, h2, h3, ?_, fun _ _ => rfl, fun op hop => absurd hop (List.not_mem_nil _)⟩
    simp [extractdataLoop]
  | cons op rest ih =>
    intro r m hall hnodup _ _ _
    obtain ⟨hne, vals, v, hvals, hv⟩ := hall op (List.mem_cons_self _ _)
    have hstep := parsedata_succeeds op m data vals v hne hvals hv
    have hnot : op.colName ∉ m.keys := by
      intro hmem
      have := List.nodup_append.mp hnodup
      exact this.2.2 hmem (by simp)
    have hnotrest : op.colName ∉ rest.map (fun o => o.colName) := by
      have := (List.nodup_append.mp hnodup).2.1
      simp only [List.map_cons, List.nodup_cons] at this
      exact this.1
    have hkeys : (m.set op.colName v).keys = m.keys ++ [op.colName] :=
      keys_set_of_not_mem m op.colName v hnot
    have hnodup' : ((m.set op.colName v).keys ++ rest.map fun o => o.colName).Nodup := by
      rw [hkeys, List.append_assoc]
      simpa using hnodup
    have hinit : (initResult.Error ≠ "") = False := by
      simp [initResult]
    obtain ⟨g1, g2, g3, g4, g5, g6⟩ :=
      ih initResult (m.set op.colName v) (fun o ho => hall o (List.mem_cons_of_mem _ ho))
        hnodup' rfl rfl rfl
    simp only [extractdataLoop, hstep, hinit, if_false]
    refine ⟨g1, g2, g3, ?_, ?_, ?_⟩
    · rw [g4, hkeys]
      simp
    · intro k hk
      simp only [List.map_cons, List.mem_cons, not_or] at hk
      rw [g5 k hk.2, get?_set_ne _ _ _ _ hk.1]
    · intro o ho vals' v' hvals' hv'
      rcases List.mem_cons.mp ho with rfl | ho'
      · rw [g5 _ hnotrest, get?_set_self]
        rw [hvals] at hvals'
        cases hvals'
        rw [hv] at hv'
        cases hv'
        rfl
      · exact g6 o ho' vals' v' hvals' hv'

set_option maxRecDepth 100000 in
theorem operations_colName_nodup : (operations.map fun op => op.colName).Nodup := by
  decide

theorem succeeds_iff (op : Operation) (data : GoMap String) :
    op.Succeeds data ↔ (op.result data).Error = "" := by
  have h := result_error_iff op data
  have h' : (op.result data).Error = "" ↔ ¬ op.Fails data := by
    rw [← h]
    exact not_not.symm
  rw [h']
  unfold Operation.Succeeds Operation.Fails
  constructor
  · rintro ⟨hne, vals, v, hvals, hv⟩ (h | ⟨f, hf, hnone⟩ | ⟨vals', err, hvals', herr⟩)
    · exact hne h
    · exact (fieldValues_ok_iff data op.fields).mp ⟨vals, hvals⟩ f hf hnone
    · rw [hvals] at hvals'
      cases hvals'
      rw [hv] at herr
      cases herr
  · intro hnot
    push_neg at hnot
    obtain ⟨hne, hall, hok⟩ := hnot
    obtain ⟨vals, hvals⟩ := (fieldValues_ok_iff data op.fields).mpr hall
    cases hp : op.parseFunc op.colLabel vals with
    | error err => exact absurd hp (hok vals err hvals)
    | ok v => exact ⟨hne, vals, v, hvals, hp⟩

set_option maxRecDepth 1000000 in
theorem fullRecord_succeeds : ∀ op ∈ operations, (op.result fullRecord).Error = "" := by
  decide!

set_option maxRecDepth 100000 in
theorem operations_length : operations.length = 143 := by
  decide

/-- C2 (a success is complete and one to one).  On a record on which every
rule of the table `operations` succeeds, `extractdata` returns empty
`Error`, `ErrorCode` and `ErrorDetail`, and a `Data` map whose keys are
exactly the output keys of the table, in the order of the rows: they are
pairwise distinct, so the map has one entry for each of the 143 rows, and
the entry under the output key of a rule is the value its parser returned. -/
theorem extractdata_success (data : GoMap String)
    (hall : ∀ op ∈ operations, op.Succeeds data) :
    (extractdata data).Error = "" ∧ (extractdata data).ErrorCode = "" ∧
      (extractdata data).ErrorDetail = "" ∧
      (extractdata data).Data.keys = operations.map (fun op => op.colName) ∧
      (extractdata data).Data.keys.Nodup ∧
      (extractdata data).Data.length = operations.length ∧
      operations.length = 143 ∧
      ∀ op ∈ operations, ∀ vals v, fieldValues data op.fields = .ok vals →
        op.parseFunc op.colLabel vals = .ok v →
        (extractdata data).Data.get? op.colName = some v := by
  obtain ⟨g1, g2, g3, g4, -, g6⟩ :=
    extractdataLoop_success data operations initResult [] hall
      (by simpa [GoMap.keys] using operations_colName_nodup) rfl rfl rfl
  have hkeys : (extractdata data).Data.keys = operations.map (fun op => op.colName) := by
    simpa [GoMap.keys] using g4
  refine ⟨g1, g2, g3, hkeys, ?_, ?_, operations_length, g6⟩
  · rw [hkeys]
    exact operations_colName_nodup
  · have := congrArg List.length hkeys
    simpa [GoMap.keys] using this

theorem extractdata_success_witness :
    (extractdata fullRecord).Error = "" ∧ (extractdata fullRecord).ErrorCode = "" ∧
      (extractdata fullRecord).ErrorDetail = "" ∧
      (extractdata fullRecord).Data.keys = operations.map (fun op => op.colName) ∧
      (extractdata fullRecord).Data.keys.Nodup ∧
      (extractdata fullRecord).Data.length = operations.length ∧
      operations.length = 143 ∧
      ∀ op ∈ operations, ∀ vals v, fieldValues fullRecord op.fields = .ok vals →
        op.parseFunc op.colLabel vals = .ok v →
        (extractdata fullRecord).Data.get? op.colName = some v :=
  extractdata_success fullRecord
    (fun op hop => (succeeds_iff op fullRecord).mpr (fullRecord_succeeds op hop))

theorem fieldValues_eq (data : GoMap String) (fields : List String) :
    fieldValues data fields =
      match firstMissing data fields with
      | some colName => .error colName
      | none => .ok (fields.map fun colName => (data.get? colName).getD "") := by
  induction fields with
  | nil => rfl
  | cons f rest ih =>
    unfold firstMissing at ih ⊢
    cases hf : data.get? f with
    | none => simp [fieldValues, hf, List.find?]
    | some v =>
      simp only [fieldValues, hf, List.find?, Option.isNone_some, List.map_cons, Option.getD_some]
      rw [ih]
      cases List.find? (fun colName => (data.get? colName).isNone) rest <;> rfl

theorem firstMissing_eq_none (data : GoMap String) (fields : List String) :
    firstMissing data fields = none ↔ ∀ c ∈ fields, data.get? c ≠ none := by
  unfold firstMissing
  rw [List.find?_eq_none]
  constructor
  · intro h c hc hnone
    exact h c hc (by simp [hnone])
  · intro h c hc
    have := h c hc
    cases hg : data.get? c with
    | none => exact absurd hg this
    | some v => simp

theorem firstMissing_eq_some (data : GoMap String) (fields : List String) (c : String) :
    firstMissing data fields = some c ↔
      data.get? c = none ∧ ∃ before after, fields = before ++ c :: after ∧
        ∀ b ∈ before, data.get? b ≠ none := by
  unfold firstMissing
  rw [List.find?_eq_some]
  simp only [Option.isNone_iff_eq_none, Bool.not_eq_true', ne_eq]
  constructor
  · rintro ⟨h, as, bs, hf, hall⟩
    refine ⟨h, as, bs, hf, fun b hb hnone => ?_⟩
    have := hall b hb
    rw [hnone] at this
    cases this
  · rintro ⟨h, as, bs, hf, hall⟩
    refine ⟨h, as, bs, hf, fun b hb => ?_⟩
    cases hg : data.get? b with
    | none => exact absurd hg (hall b hb)
    | some v => rfl

theorem parsedata_eq (f : String → List String → Except String Value)
    (m : GoMap Value) (data : GoMap String) (label name : String) (fields : List String)
    (hne : fields ≠ []) :
    parsedata f m data label name fields =
      match firstMissing data fields with
      | some c =>
        ({ Error := "原始資料欄位 " ++ c ++ " 不存在", ErrorCode := "E011", ErrorDetail := "",
           Data := [] }, m)
      | none =>
        match f label (fields.map fun c => (data.get? c).getD "") with
        | .error err =>
          ({ Error := "解析欄位 " ++ name ++ " 時發生錯誤", ErrorCode := "E012",
             ErrorDetail := err, Data := [] }, m)
        | .ok v => (initResult, m.set name v) := by
  have hlen : ¬ fields.length < 1 := by
    intro h
    exact hne (List.length_eq_zero.mp (by omega))
  unfold parsedata
  simp only [hlen, if_false]
  rw [fieldValues_eq]
  cases firstMissing data fields with
  | some c => rfl
  | none =>
    dsimp only
    cases f label (fields.map fun c => (data.get? c).getD "") <;> rfl

/-- C3 (missing versus empty).  For a rule with at least one field name:
`parsedata` returns the code `E011` exactly when some field name is not a key
of the record, which is when the field names have a first one that is not a
key; the result is then the missing-field failure whose message names that
first field name, it is the same for every parser, and the output map is
returned as it was; and when every field name is a key, the
parser is applied to the stored values in order, an empty string included,
so that on the record that holds the key `k` with the value `""` the parser
is applied to `[""]`. -/
theorem parsedata_missing_field (f : String → List String → Except String Value)
    (m : GoMap Value) (data : GoMap String) (label name : String) (fields : List String)
    (hne : fields ≠ []) :
    ((parsedata f m data label name fields).1.ErrorCode = "E011" ↔
        ∃ c ∈ fields, data.get? c = none) ∧
      ((∃ c ∈ fields, data.get? c = none) ↔ ∃ c, firstMissing data fields = some c) ∧
      (∀ c, firstMissing data fields = some c ↔
        data.get? c = none ∧ ∃ before after, fields = before ++ c :: after ∧
          ∀ b ∈ before, data.get? b ≠ none) ∧
      (∀ c, firstMissing data fields = some c →
        parsedata f m data label name fields =
          ({ Error := "原始資料欄位 " ++ c ++ " 不存在", ErrorCode := "E011", ErrorDetail := "",
             Data := [] }, m)) ∧
      ((∀ c ∈ fields, data.get? c ≠ none) →
        parsedata f m data label name fields =
          match f label (fields.map fun c => (data.get? c).getD "") with
          | .error err =>
            ({ Error := "解析欄位 " ++ name ++ " 時發生錯誤", ErrorCode := "E012",
               ErrorDetail := err, Data := [] }, m)
          | .ok v => (initResult, m.set name v)) ∧
      parsedata f m [("k", "")] label name ["k"] =
        match f label [""] with
        | .error err =>
          ({ Error := "解析欄位 " ++ name ++ " 時發生錯誤", ErrorCode := "E012",
             ErrorDetail := err, Data := [] }, m)
        | .ok v => (initResult, m.set name v) := by
  have hmain := parsedata_eq f m data label name fields hne
  have hsome : (∃ c ∈ fields, data.get? c = none) ↔
      ∃ c, firstMissing data fields = some c := by
    constructor
    · rintro ⟨c, hc, hnone⟩
      cases hfm : firstMissing data fields with
      | some c' => exact ⟨c', rfl⟩
      | none => exact absurd hnone ((firstMissing_eq_none data fields).mp hfm c hc)
    · rintro ⟨c, hfm⟩
      refine ⟨c, List.mem_of_find?_eq_some hfm, ?_⟩
      have := List.find?_some hfm
      simpa using this
  refine ⟨?_, hsome, firstMissing_eq_some data fields, ?_, ?_, ?_⟩
  · rw [hmain]
    cases hfm : firstMissing data fields with
    | some c =>
      have hmem := List.mem_of_find?_eq_some hfm
      have hnone : data.get? c = none := by
        have := List.find?_some hfm
        simpa using this
      simp only [true_iff]
      exact ⟨c, hmem, hnone⟩
    | none =>
      have hall := (firstMissing_eq_none data fields).mp hfm
      dsimp only
      constructor
      · intro h
        exfalso
        cases hp : f label (fields.map fun c => (data.get? c).getD "") with
        | error err =>
          rw [hp] at h
          have h' : ("E012" : String) = "E011" := h
          exact absurd h' (by decide)
        | ok v =>
          rw [hp] at h
          have h' : ("" : String) = "E011" := h
          exact absurd h' (by decide)
      · rintro ⟨c, hc, hnone⟩
        exact absurd hnone (hall c hc)
  · intro c hc
    rw [hmain, hc]
  · intro hall
    rw [hmain, (firstMissing_eq_none data fields).mpr hall]
  · rw [parsedata_eq f m [("k", "")] label name ["k"] (by simp)]
    rfl

theorem parsedata_missing_field_witness :
    ((parsedata calculateAge [] exampleRecord "年齡" "Age"
          ["基本資料-出生日期", "x"]).1.ErrorCode = "E011" ↔
        ∃ c ∈ ["基本資料-出生日期", "x"], exampleRecord.get? c = none) ∧
      ((∃ c ∈ ["基本資料-出生日期", "x"], exampleRecord.get? c = none) ↔
        ∃ c, firstMissing exampleRecord ["基本資料-出生日期", "x"] = some c) ∧
      (∀ c, firstMissing exampleRecord ["基本資料-出生日期", "x"] = some c ↔
        exampleRecord.get? c = none ∧ ∃ before after,
          ["基本資料-出生日期", "x"] = before ++ c :: after ∧
          ∀ b ∈ before, exampleRecord.get? b ≠ none) ∧
      (∀ c, firstMissing exampleRecord ["基本資料-出生日期", "x"] = some c →
        parsedata calculateAge [] exampleRecord "年齡" "Age" ["基本資料-出生日期", "x"] =
          ({ Error := "原始資料欄位 " ++ c ++ " 不存在", ErrorCode := "E011", ErrorDetail := "",
             Data := [] }, [])) ∧
      ((∀ c ∈ ["基本資料-出生日期", "x"], exampleRecord.get? c ≠ none) →
        parsedata calculateAge [] exampleRecord "年齡" "Age" ["基本資料-出生日期", "x"] =
          match calculateAge "年齡"
              (["基本資料-出生日期", "x"].map fun c => (exampleRecord.get? c).getD "") with
          | .error err =>
            ({ Error := "解析欄位 " ++ "Age" ++ " 時發生錯誤", ErrorCode := "E012",
               ErrorDetail := err, Data := [] }, [])
          | .ok v => (initResult, GoMap.set [] "Age" v)) ∧
      parsedata calculateAge [] [("k", "")] "年齡" "Age" ["k"] =
        match calculateAge "年齡" [""] with
        | .error err =>
          ({ Error := "解析欄位 " ++ "Age" ++ " 時發生錯誤", ErrorCode := "E012",
             ErrorDetail := err, Data := [] }, [])
        | .ok v => (initResult, GoMap.set [] "Age" v) :=
  parsedata_missing_field calculateAge [] exampleRecord "年齡" "Age"
    ["基本資料-出生日期", "x"] (by decide)

/-- C4, as stated, fails.  The age rule (label 年齡) on a record without its
field `x` gives the `E011` result, and the exercise rule (label 運動狀態) on
an unreadable day count gives an `E012` result; in neither does the label
occur in `Error`, `ErrorCode` or `ErrorDetail`. -/
theorem parsedata_label_counterexample :
    (parsedata calculateAge [] exampleRecord "年齡" "Age" ["基本資料-出生日期", "x"]).1 =
        { Error := "原始資料欄位 x 不存在", ErrorCode := "E011", ErrorDetail := "", Data := [] } ∧
      strings.Contains "原始資料欄位 x 不存在" "年齡" = false ∧
      strings.Contains "E011" "年齡" = false ∧
      strings.Contains "" "年齡" = false ∧
      (parsedata parseExcercise [] [("a", "abc")] "運動狀態" "excercise_week"
          ["a", "a", "a", "a"]).1 =
        { Error := "解析欄位 excercise_week 時發生錯誤", ErrorCode := "E012",
          ErrorDetail := "費力活動天數【abc】無法轉換為數字: 無法解析時間字串(天): abc", Data := [] } ∧
      strings.Contains "解析欄位 excercise_week 時發生錯誤" "運動狀態" = false ∧
      strings.Contains "E012" "運動狀態" = false ∧
      strings.Contains "費力活動天數【abc】無法轉換為數字: 無法解析時間字串(天): abc" "運動狀態" = false := by
  decide

/-- C4, amended.  For a rule with at least one field name: when a field name
is not a key of the record, the result of `parsedata` has the code `E011`,
the message `原始資料欄位 c 不存在` for the first such field name `c`, and an
empty `ErrorDetail`; when the parser returns an error on the values of the
fields, the result has the code `E012`, the message `解析欄位 name 時發生錯誤`
for the output key `name` of the rule, and the message of the parser as
`ErrorDetail`.  The label of the rule is not a part of either result. -/
theorem parsedata_failure_report (f : String → List String → Except String Value)
    (m : GoMap Value) (data : GoMap String) (label name : String) (fields : List String)
    (hne : fields ≠ []) :
    (∀ c, firstMissing data fields = some c →
        (parsedata f m data label name fields).1 =
          { Error := "原始資料欄位 " ++ c ++ " 不存在", ErrorCode := "E011", ErrorDetail := "",
            Data := [] }) ∧
      (∀ vals err, fieldValues data fields = .ok vals → f label vals = .error err →
        (parsedata f m data label name fields).1 =
          { Error := "解析欄位 " ++ name ++ " 時發生錯誤", ErrorCode := "E012",
            ErrorDetail := err, Data := [] }) := by
  constructor
  · intro c hc
    rw [parsedata_eq f m data label name fields hne, hc]
  · intro vals err hvals herr
    have hlen : ¬ fields.length < 1 := by
      intro h
      exact hne (List.length_eq_zero.mp (by omega))
    unfold parsedata
    simp only [hlen, if_false, hvals, herr]
    rfl

theorem parsedata_failure_report_witness :
    (∀ c, firstMissing exampleRecord ["基本資料-出生日期", "x"] = some c →
        (parsedata calculateAge [] exampleRecord "年齡" "Age" ["基本資料-出生日期", "x"]).1 =
          { Error := "原始資料欄位 " ++ c ++ " 不存在", ErrorCode := "E011", ErrorDetail := "",
            Data := [] }) ∧
      (∀ vals err, fieldValues exampleRecord ["基本資料-出生日期", "x"] = .ok vals →
        calculateAge "年齡" vals = .error err →
        (parsedata calculateAge [] exampleRecord "年齡" "Age" ["基本資料-出生日期", "x"]).1 =
          { Error := "解析欄位 " ++ "Age" ++ " 時發生錯誤", ErrorCode := "E012",
            ErrorDetail := err, Data := [] }) :=
  parsedata_failure_report calculateAge [] exampleRecord "年齡" "Age"
    ["基本資料-出生日期", "x"] (by decide)

theorem head_append (a b : String) (c : Char) (h : a.data.head? = some c) :
    (a ++ b).data.head? = some c := by
  rw [String.data_append]
  cases ha : a.data with
  | nil => rw [ha] at h; cases h
  | cons x xs => rw [ha] at h; exact h

theorem wrongFields_head (msg : String) (h : IsWrongFields msg) :
    msg.data.head? = some '需' := by
  obtain ⟨numFields, label, n, h | h⟩ := h
  · rw [h]
    unfold wrongFields
    exact head_append _ _ _ (head_append _ _ _ (head_append _ _ _ (head_append _ _ _
      (head_append _ _ _ (head_append _ _ _ (by decide))))))
  · rw [h]
    unfold wrongFieldsShort
    exact head_append _ _ _ (head_append _ _ _ (head_append _ _ _ (head_append _ _ _
      (head_append _ _ _ (head_append _ _ _ (by decide))))))

theorem nw0 (l : String) (c : Char) (h : l.data.head? = some c ∧ c ≠ '需') :
    ¬ IsWrongFields l := by
  intro hw
  have h1 := wrongFields_head _ hw
  rw [h.1] at h1
  exact h.2 (Option.some.inj h1)

theorem nw1 (l a : String) (c : Char) (h : l.data.head? = some c ∧ c ≠ '需') :
    ¬ IsWrongFields (l ++ a) :=
  nw0 _ c ⟨head_append _ _ _ h.1, h.2⟩

theorem nw2 (l a b : String) (c : Char) (h : l.data.head? = some c ∧ c ≠ '需') :
    ¬ IsWrongFields (l ++ a ++ b) :=
  nw1 _ _ c ⟨head_append _ _ _ h.1, h.2⟩

theorem nw3 (l a b d : String) (c : Char) (h : l.data.head? = some c ∧ c ≠ '需') :
    ¬ IsWrongFields (l ++ a ++ b ++ d) :=
  nw2 _ _ _ c ⟨head_append _ _ _ h.1, h.2⟩

theorem nw4 (l a b d e : String) (c : Char) (h : l.data.head? = some c ∧ c ≠ '需') :
    ¬ IsWrongFields (l ++ a ++ b ++ d ++ e) :=
  nw3 _ _ _ _ c ⟨head_append _ _ _ h.1, h.2⟩

theorem length_eq_four (l : List String) (h : l.length = 4) :
    ∃ f0 f1 f2 f3, l = [f0, f1, f2, f3] := by
  rcases l with _ | ⟨f0, _ | ⟨f1, _ | ⟨f2, _ | ⟨f3, _ | ⟨x, l⟩⟩⟩⟩⟩
  all_goals first
    | exact ⟨_, _, _, _, rfl⟩
    | (simp at h)
    | (exfalso; simp only [List.length_cons] at h; omega)

theorem length_eq_five (l : List String) (h : l.length = 5) :
    ∃ f0 f1 f2 f3 f4, l = [f0, f1, f2, f3, f4] := by
  rcases l with _ | ⟨f0, _ | ⟨f1, _ | ⟨f2, _ | ⟨f3, _ | ⟨f4, _ | ⟨x, l⟩⟩⟩⟩⟩⟩
  all_goals first
    | exact ⟨_, _, _, _, _, rfl⟩
    | (simp at h)
    | (exfalso; simp only [List.length_cons] at h; omega)

theorem length_eq_six (l : List String) (h : l.length = 6) :
    ∃ f0 f1 f2 f3 f4 f5, l = [f0, f1, f2, f3, f4, f5] := by
  rcases l with _ | ⟨f0, _ | ⟨f1, _ | ⟨f2, _ | ⟨f3, _ | ⟨f4, _ | ⟨f5, _ | ⟨x, l⟩⟩⟩⟩⟩⟩⟩
  all_goals first
    | exact ⟨_, _, _, _, _, _, rfl⟩
    | (simp at h)
    | (exfalso; simp only [List.length_cons] at h; omega)

theorem length_eq_seven (l : List String) (h : l.length = 7) :
    ∃ f0 f1 f2 f3 f4 f5 f6, l = [f0, f1, f2, f3, f4, f5, f6] := by
  rcases l with _ | ⟨f0, _ | ⟨f1, _ | ⟨f2, _ | ⟨f3, _ | ⟨f4, _ | ⟨f5, _ | ⟨f6, _ | ⟨x, l⟩⟩⟩⟩⟩⟩⟩⟩
  all_goals first
    | exact ⟨_, _, _, _, _, _, _, rfl⟩
    | (simp at h)
    | (exfalso; simp only [List.length_cons] at h; omega)

theorem length_eq_eight (l : List String) (h : l.length = 8) :
    ∃ f0 f1 f2 f3 f4 f5 f6 f7, l = [f0, f1, f2, f3, f4, f5, f6, f7] := by
  rcases l with _ | ⟨f0, _ | ⟨f1, _ | ⟨f2, _ | ⟨f3, _ | ⟨f4, _ | ⟨f5, _ | ⟨f6, _ | ⟨f7, _ | ⟨x, l⟩⟩⟩⟩⟩⟩⟩⟩⟩
  all_goals first
    | exact ⟨_, _, _, _, _, _, _, _, rfl⟩
    | (simp at h)
    | (exfalso; simp only [List.length_cons] at h; omega)

theorem calculateAge_requires : Requires calculateAge 2 := by
  intro label fs
  constructor
  · rintro ⟨e, he, hw⟩ hlen
    obtain ⟨f0, f1, rfl⟩ := List.length_eq_two.mp hlen
    revert hw
    unfold calculateAge at he
    dsimp only at he
    repeat' split at he
    all_goals first
      | (cases he; first
          | exact nw1 _ _ '輸' (by decide)
          | exact nw2 _ _ _ '輸' (by decide)
          | exact nw3 _ _ _ _ '輸' (by decide)
          | exact nw4 _ _ _ _ _ '輸' (by decide))
      | cases he
  · intro hlen
    refine ⟨wrongFields 2 label fs.length, ?_, ⟨2, label, fs.length, Or.inl rfl⟩⟩
    unfold calculateAge
    split
    · simp at hlen
    · rfl

theorem parseSex_requires : Requires parseSex 1 := by
  intro label fs
  constructor
  · rintro ⟨e, he, hw⟩ hlen
    obtain ⟨f0, rfl⟩ := List.length_eq_one.mp hlen
    revert hw
    unfold parseSex at he
    dsimp only at he
    repeat' split at he
    all_goals first
      | (cases he; first
          | exact nw1 _ _ '輸' (by decide)
          | exact nw2 _ _ _ '輸' (by decide)
          | exact nw3 _ _ _ _ '輸' (by decide)
          | exact nw4 _ _ _ _ _ '輸' (by decide))
      | cases he
  · intro hlen
    refine ⟨wrongFields 1 label fs.length, ?_, ⟨1, label, fs.length, Or.inl rfl⟩⟩
    unfold parseSex
    split
    · simp at hlen
    · rfl

theorem parseBMI_requires : Requires parseBMI 3 := by
  intro label fs
  constructor
  · rintro ⟨e, he, hw⟩ hlen
    obtain ⟨f0, f1, f2, rfl⟩ := List.length_eq_three.mp hlen
    revert hw
    unfold parseBMI at he
    dsimp only at he
    repeat' split at he
    all_goals first
      | (cases he; first
          | exact nw1 _ _ '輸' (by decide)
          | exact nw2 _ _ _ '輸' (by decide)
          | exact nw3 _ _ _ _ '輸' (by decide)
          | exact nw4 _ _ _ _ _ '輸' (by decide))
      | cases he
  · intro hlen
    refine ⟨wrongFields 3 label fs.length, ?_, ⟨3, label, fs.length, Or.inl rfl⟩⟩
    unfold parseBMI
    split
    · simp at hlen
    · rfl

theorem parseGirth_requires : Requires parseGirth 1 := by
  intro label fs
  constructor
  · rintro ⟨e, he, hw⟩ hlen
    obtain ⟨f0, rfl⟩ := List.length_eq_one.mp hlen
    revert hw
    unfold parseGirth at he
    dsimp only at he
    repeat' split at he
    all_goals first
      | (cases he; first
          | exact nw1 _ _ '輸' (by decide)
          | exact nw2 _ _ _ '輸' (by decide)
          | exact nw3 _ _ _ _ '輸' (by decide)
          | exact nw4 _ _ _ _ _ '輸' (by decide))
      | cases he
  · intro hlen
    refine ⟨wrongFields 1 label fs.length, ?_, ⟨1, label, fs.length, Or.inl rfl⟩⟩
    unfold parseGirth
    split
    · simp at hlen
    · rfl

theorem parseBP_requires : Requires parseBP 2 := by
  intro label fs
  constructor
  · rintro ⟨e, he, hw⟩ hlen
    obtain ⟨f0, f1, rfl⟩ := List.length_eq_two.mp hlen
    revert hw
    unfold parseBP at he
    dsimp only at he
    repeat' split at he
    all_goals first
      | (cases he; first
          | exact nw1 _ _ '無' (by decide)
          | exact nw2 _ _ _ '無' (by decide)
          | exact nw3 _ _ _ _ '無' (by decide)
          | exact nw4 _ _ _ _ _ '無' (by decide))
      | cases he
  · intro hlen
    refine ⟨wrongFields 2 label fs.length, ?_, ⟨2, label, fs.length, Or.inl rfl⟩⟩
    unfold parseBP
    split
    · simp at hlen
    · rfl

theorem parsePass_requires : Requires parsePass 1 := by
  intro label fs
  constructor
  · rintro ⟨e, he, hw⟩ hlen
    obtain ⟨f0, rfl⟩ := List.length_eq_one.mp hlen
    revert hw
    unfold parsePass at he
    dsimp only at he
    repeat' split at he
    all_goals first
      | (cases he; first
          | exact nw1 _ _ '輸' (by decide)
          | exact nw2 _ _ _ '輸' (by decide)
          | exact nw3 _ _ _ _ '輸' (by decide)
          | exact nw4 _ _ _ _ _ '輸' (by decide))
      | cases he
  · intro hlen
    refine ⟨wrongFields 1 label fs.length, ?_, ⟨1, label, fs.length, Or.inl rfl⟩⟩
    unfold parsePass
    split
    · simp at hlen
    · rfl

theorem parseAlcohol_requires : Requires parseAlcohol 8 := by
  intro label fs
  constructor
  · rintro ⟨e, he, hw⟩ hlen
    obtain ⟨f0, f1, f2, f3, f4, f5, f6, f7, rfl⟩ := length_eq_eight _ hlen
    revert hw
    unfold parseAlcohol at he
    dsimp only at he
    repeat' split at he
    all_goals first
      | (cases he; first
          | exact nw1 _ _ '輸' (by decide)
          | exact nw2 _ _ _ '輸' (by decide)
          | exact nw3 _ _ _ _ '輸' (by decide)
          | exact nw4 _ _ _ _ _ '輸' (by decide))
      | cases he
  · intro hlen
    refine ⟨wrongFields 8 label fs.length, ?_, ⟨8, label, fs.length, Or.inl rfl⟩⟩
    unfold parseAlcohol
    split
    · simp at hlen
    · rfl

theorem parseCigarette_requires : Requires parseCigarette 4 := by
  intro label fs
  constructor
  · rintro ⟨e, he, hw⟩ hlen
    obtain ⟨f0, f1, f2, f3, rfl⟩ := length_eq_four _ hlen
    revert hw
    unfold parseCigarette at he
    dsimp only at he
    repeat' split at he
    all_goals first
      | (cases he; first
          | exact nw1 _ _ '輸' (by decide)
          | exact nw2 _ _ _ '輸' (by decide)
          | exact nw3 _ _ _ _ '輸' (by decide)
          | exact nw4 _ _ _ _ _ '輸' (by decide))
      | cases he
  · intro hlen
    refine ⟨wrongFields 4 label fs.length, ?_, ⟨4, label, fs.length, Or.inl rfl⟩⟩
    unfold parseCigarette
    split
    · simp at hlen
    · rfl

theorem parseBetel_requires : Requires parseBetel 1 := by
  intro label fs
  constructor
  · rintro ⟨e, he, hw⟩ hlen
    obtain ⟨f0, rfl⟩ := List.length_eq_one.mp hlen
    revert hw
    unfold parseBetel at he
    dsimp only at he
    repeat' split at he
    all_goals first
      | (cases he; first
          | exact nw1 _ _ '輸' (by decide)
          | exact nw2 _ _ _ '輸' (by decide)
          | exact nw3 _ _ _ _ '輸' (by decide)
          | exact nw4 _ _ _ _ _ '輸' (by decide))
      | cases he
  · intro hlen
    refine ⟨wrongFields 1 label fs.length, ?_, ⟨1, label, fs.length, Or.inl rfl⟩⟩
    unfold parseBetel
    split
    · simp at hlen
    · rfl

theorem parseDrink_requires : Requires parseDrink 1 := by
  intro label fs
  constructor
  · rintro ⟨e, he, hw⟩ hlen
    obtain ⟨f0, rfl⟩ := List.length_eq_one.mp hlen
    revert hw
    unfold parseDrink at he
    dsimp only at he
    repeat' split at he
    all_goals first
      | (cases he; first
          | exact nw1 _ _ '輸' (by decide)
          | exact nw2 _ _ _ '輸' (by decide)
          | exact nw3 _ _ _ _ '輸' (by decide)
          | exact nw4 _ _ _ _ _ '輸' (by decide))
      | cases he
  · intro hlen
    refine ⟨wrongFields 1 label fs.length, ?_, ⟨1, label, fs.length, Or.inl rfl⟩⟩
    unfold parseDrink
    split
    · simp at hlen
    · rfl

theorem parseFood_requires : Requires parseFood 1 := by
  intro label fs
  constructor
  · rintro ⟨e, he, hw⟩ hlen
    obtain ⟨f0, rfl⟩ := List.length_eq_one.mp hlen
    revert hw
    unfold parseFood at he
    dsimp only at he
    repeat' split at he
    all_goals first
      | cases he
  · intro hlen
    refine ⟨wrongFields 1 label fs.length, ?_, ⟨1, label, fs.length, Or.inl rfl⟩⟩
    unfold parseFood
    split
    · simp at hlen
    · rfl

theorem parseExcercise_requires : Requires parseExcercise 4 := by
  intro label fs
  constructor
  · rintro ⟨e, he, hw⟩ hlen
    obtain ⟨f0, f1, f2, f3, rfl⟩ := length_eq_four _ hlen
    revert hw
    unfold parseExcercise at he
    dsimp only at he
    repeat' split at he
    all_goals first
      | (cases he; first
          | exact nw1 _ _ '費' (by decide)
          | exact nw2 _ _ _ '費' (by decide)
          | exact nw3 _ _ _ _ '費' (by decide)
          | exact nw4 _ _ _ _ _ '費' (by decide)
          | exact nw1 _ _ '中' (by decide)
          | exact nw2 _ _ _ '中' (by decide)
          | exact nw3 _ _ _ _ '中' (by decide)
          | exact nw4 _ _ _ _ _ '中' (by decide))
      | cases he
  · intro hlen
    refine ⟨wrongFields 4 label fs.length, ?_, ⟨4, label, fs.length, Or.inl rfl⟩⟩
    unfold parseExcercise
    split
    · simp at hlen
    · rfl

theorem parsePSQI_requires : Requires parsePSQI 7 := by
  intro label fs
  constructor
  · rintro ⟨e, he, hw⟩ hlen
    obtain ⟨f0, f1, f2, f3, f4, f5, f6, rfl⟩ := length_eq_seven _ hlen
    revert hw
    unfold parsePSQI at he
    dsimp only at he
    repeat' split at he
    all_goals first
      | (cases he; first
          | exact nw1 _ _ '輸' (by decide)
          | exact nw2 _ _ _ '輸' (by decide)
          | exact nw3 _ _ _ _ '輸' (by decide)
          | exact nw4 _ _ _ _ _ '輸' (by decide))
      | cases he
  · intro hlen
    refine ⟨wrongFields 7 label fs.length, ?_, ⟨7, label, fs.length, Or.inl rfl⟩⟩
    unfold parsePSQI
    split
    · simp at hlen
    · rfl

theorem parseBSRS5_requires : Requires parseBSRS5 5 := by
  intro label fs
  constructor
  · rintro ⟨e, he, hw⟩ hlen
    obtain ⟨f0, f1, f2, f3, f4, rfl⟩ := length_eq_five _ hlen
    revert hw
    unfold parseBSRS5 at he
    dsimp only at he
    repeat' split at he
    all_goals first
      | (cases he; first
          | exact nw1 _ _ '輸' (by decide)
          | exact nw2 _ _ _ '輸' (by decide)
          | exact nw3 _ _ _ _ '輸' (by decide)
          | exact nw4 _ _ _ _ _ '輸' (by decide))
      | cases he
  · intro hlen
    refine ⟨wrongFields 5 label fs.length, ?_, ⟨5, label, fs.length, Or.inl rfl⟩⟩
    unfold parseBSRS5
    split
    · simp at hlen
    · rfl

theorem parseZeroDiscard_requires : Requires parseZeroDiscard 1 := by
  intro label fs
  constructor
  · rintro ⟨e, he, hw⟩ hlen
    obtain ⟨f0, rfl⟩ := List.length_eq_one.mp hlen
    revert hw
    unfold parseZeroDiscard at he
    dsimp only at he
    repeat' split at he
    all_goals first
      | (cases he; first
          | exact nw1 _ _ '欄' (by decide)
          | exact nw2 _ _ _ '欄' (by decide)
          | exact nw3 _ _ _ _ '欄' (by decide)
          | exact nw4 _ _ _ _ _ '欄' (by decide))
      | cases he
  · intro hlen
    refine ⟨wrongFields 1 label fs.length, ?_, ⟨1, label, fs.length, Or.inl rfl⟩⟩
    unfold parseZeroDiscard
    split
    · simp at hlen
    · rfl

theorem parseGlucoseU_requires : Requires parseGlucoseU 1 := by
  intro label fs
  constructor
  · rintro ⟨e, he, hw⟩ hlen
    obtain ⟨f0, rfl⟩ := List.length_eq_one.mp hlen
    revert hw
    unfold parseGlucoseU at he
    dsimp only at he
    repeat' split at he
    all_goals first
      | (cases he; first
          | exact nw1 _ _ '輸' (by decide)
          | exact nw2 _ _ _ '輸' (by decide)
          | exact nw3 _ _ _ _ '輸' (by decide)
          | exact nw4 _ _ _ _ _ '輸' (by decide))
      | cases he
  · intro hlen
    refine ⟨wrongFieldsShort 1 label fs.length, ?_, ⟨1, label, fs.length, Or.inr rfl⟩⟩
    unfold parseGlucoseU
    split
    · simp at hlen
    · rfl

theorem parseHsCRP_requires : Requires parseHsCRP 2 := by
  intro label fs
  constructor
  · rintro ⟨e, he, hw⟩ hlen
    obtain ⟨f0, f1, rfl⟩ := List.length_eq_two.mp hlen
    revert hw
    unfold parseHsCRP at he
    dsimp only at he
    repeat' split at he
    all_goals first
      | (cases he; first
          | exact nw1 _ _ '輸' (by decide)
          | exact nw2 _ _ _ '輸' (by decide)
          | exact nw3 _ _ _ _ '輸' (by decide)
          | exact nw4 _ _ _ _ _ '輸' (by decide))
      | cases he
  · intro hlen
    refine ⟨wrongFieldsShort 2 label fs.length, ?_, ⟨2, label, fs.length, Or.inr rfl⟩⟩
    unfold parseHsCRP
    split
    · simp at hlen
    · rfl

theorem parseAgatston_requires : Requires parseAgatston 6 := by
  intro label fs
  constructor
  · rintro ⟨e, he, -⟩ hlen
    unfold parseAgatston at he
    rw [if_neg (not_not.mpr hlen)] at he
    cases he
  · intro hlen
    refine ⟨wrongFieldsShort 6 label fs.length, ?_, ⟨6, label, fs.length, Or.inr rfl⟩⟩
    unfold parseAgatston
    rw [if_pos hlen]

theorem wellFed_of_requires (f : String → List String → Except String Value)
    (label name : String) (fields : List String) (n : Nat) (h : Requires f n)
    (hn : fields.length = n) (h1 : 1 ≤ n) : (Operation.mk f label name fields).WellFed := by
  refine ⟨by rw [hn]; exact h1, ?_⟩
  intro label' fs err hlen herr hw
  exact (h label' fs).mp ⟨err, herr, hw⟩ (by rw [hlen]; exact hn)

theorem wellFed_of_ok (f : String → List String → Except String Value)
    (label name : String) (fields : List String)
    (h : ∀ label fs err, f label fs ≠ .error err) (h1 : 1 ≤ fields.length) :
    (Operation.mk f label name fields).WellFed :=
  ⟨h1, fun label' fs err _ herr _ => h label' fs err herr⟩

theorem parseDiseaseHistory_ok (label : String) (fs : List String) (err : String) :
    parseDiseaseHistory label fs ≠ .error err := by
  unfold parseDiseaseHistory
  dsimp only
  split <;> intro h <;> cases h

theorem parseFamilyHistory_ok (label : String) (fs : List String) (err : String) :
    parseFamilyHistory label fs ≠ .error err := by
  unfold parseFamilyHistory
  dsimp only
  split <;> intro h <;> cases h

set_option maxRecDepth 100000 in
set_option maxHeartbeats 4000000 in
theorem operations_wellFed : ∀ op ∈ operations, op.WellFed := by
  unfold operations
  repeat
    first
    | exact fun _ h => absurd h (List.not_mem_nil _)
    | (refine List.forall_mem_cons.mpr ⟨?_, ?_⟩
       · first
         | exact wellFed_of_ok _ _ _ _ parseDiseaseHistory_ok (by decide)
         | exact wellFed_of_ok _ _ _ _ parseFamilyHistory_ok (by decide)
         | exact wellFed_of_requires _ _ _ _ _ parseZeroDiscard_requires rfl (by decide)
         | exact wellFed_of_requires _ _ _ _ _ parsePass_requires rfl (by decide)
         | exact wellFed_of_requires _ _ _ _ _ calculateAge_requires rfl (by decide)
         | exact wellFed_of_requires _ _ _ _ _ parseSex_requires rfl (by decide)
         | exact wellFed_of_requires _ _ _ _ _ parseBMI_requires rfl (by decide)
         | exact wellFed_of_requires _ _ _ _ _ parseGirth_requires rfl (by decide)
         | exact wellFed_of_requires _ _ _ _ _ parseBP_requires rfl (by decide)
         | exact wellFed_of_requires _ _ _ _ _ parseAlcohol_requires rfl (by decide)
         | exact wellFed_of_requires _ _ _ _ _ parseCigarette_requires rfl (by decide)
         | exact wellFed_of_requires _ _ _ _ _ parseBetel_requires rfl (by decide)
         | exact wellFed_of_requires _ _ _ _ _ parseDrink_requires rfl (by decide)
         | exact wellFed_of_requires _ _ _ _ _ parseFood_requires rfl (by decide)
         | exact wellFed_of_requires _ _ _ _ _ parseExcercise_requires rfl (by decide)
         | exact wellFed_of_requires _ _ _ _ _ parsePSQI_requires rfl (by decide)
         | exact wellFed_of_requires _ _ _ _ _ parseBSRS5_requires rfl (by decide)
         | exact wellFed_of_requires _ _ _ _ _ parseGlucoseU_requires rfl (by decide)
         | exact wellFed_of_requires _ _ _ _ _ parseHsCRP_requires rfl (by decide)
         | exact wellFed_of_requires _ _ _ _ _ parseAgatston_requires rfl (by decide))

theorem not_wrongFields_empty : ¬ IsWrongFields "" := by
  intro h
  have := wrongFields_head _ h
  cases this

theorem parsedata_wellFed (op : Operation) (hop : op.WellFed) (m : GoMap Value)
    (data : GoMap String) :
    (parsedata op.parseFunc m data op.colLabel op.colName op.fields).1.ErrorCode ≠ "E010" ∧
      ¬ IsWrongFields
        (parsedata op.parseFunc m data op.colLabel op.colName op.fields).1.ErrorDetail := by
  have hne : op.fields ≠ [] := by
    intro h
    have := hop.1
    rw [h] at this
    simp at this
  have h11 : ("E011" : String) ≠ "E010" := by decide
  have h12 : ("E012" : String) ≠ "E010" := by decide
  have h00 : ("" : String) ≠ "E010" := by decide
  rw [parsedata_eq _ _ _ _ _ _ hne]
  cases firstMissing data op.fields with
  | some c => exact ⟨h11, not_wrongFields_empty⟩
  | none =>
    dsimp only
    cases hp : op.parseFunc op.colLabel (op.fields.map fun c => (data.get? c).getD "") with
    | error err =>
      exact ⟨h12, hop.2 _ _ err (by simp) hp⟩
    | ok v => exact ⟨h00, not_wrongFields_empty⟩

theorem extractdataLoop_wellFed (data : GoMap String) :
    ∀ (ops : List Operation) (r : Result) (m : GoMap Value),
      (∀ op ∈ ops, op.WellFed) → r.ErrorCode ≠ "E010" → ¬ IsWrongFields r.ErrorDetail →
      (extractdataLoop data ops r m).ErrorCode ≠ "E010" ∧
        ¬ IsWrongFields (extractdataLoop data ops r m).ErrorDetail := by
  intro ops
  induction ops with
  | nil =>
    intro r m _ h1 h2
    exact ⟨h1, h2⟩
  | cons op rest ih =>
    intro r m hall _ _
    have hop := parsedata_wellFed op (hall op (List.mem_cons_self _ _)) m data
    simp only [extractdataLoop]
    split
    · exact hop
    · exact ih _ _ (fun o ho => hall o (List.mem_cons_of_mem _ ho)) hop.1 hop.2

/-- C5.  Each parser of the library requires a fixed number of fields
(`calculateAge` 2, `parseSex` 1, `parseBMI` 3, `parseGirth` 1, `parseBP` 2,
`parsePass` 1, `parseAlcohol` 8, `parseCigarette` 4, `parseBetel` 1,
`parseDrink` 1, `parseFood` 1, `parseExcercise` 4, `parsePSQI` 7,
`parseBSRS5` 5, `parseZeroDiscard` 1, `parseGlucoseU` 1, `parseHsCRP` 2,
`parseAgatston` 6): it returns the wrong-number-of-fields error on every
other number of fields and on no list of that length.  Every row of the
table `operations` names at least one field, names exactly the number of
fields its parser requires, and so never draws that error from its parser.
Hence on no record does `extractdata` return the code `E010` or a
wrong-number-of-fields error as `ErrorDetail`. -/
theorem operations_field_counts :
    (Requires calculateAge 2 ∧ Requires parseSex 1 ∧ Requires parseBMI 3 ∧
      Requires parseGirth 1 ∧ Requires parseBP 2 ∧ Requires parsePass 1 ∧
      Requires parseAlcohol 8 ∧ Requires parseCigarette 4 ∧ Requires parseBetel 1 ∧
      Requires parseDrink 1 ∧ Requires parseFood 1 ∧ Requires parseExcercise 4 ∧
      Requires parsePSQI 7 ∧ Requires parseBSRS5 5 ∧ Requires parseZeroDiscard 1 ∧
      Requires parseGlucoseU 1 ∧ Requires parseHsCRP 2 ∧ Requires parseAgatston 6) ∧
      (∀ op ∈ operations, 1 ≤ op.fields.length ∧
        (∀ n, Requires op.parseFunc n → op.fields.length = n) ∧
        ∀ (label : String) (fields : List String) (err : String),
          fields.length = op.fields.length → op.parseFunc label fields = .error err →
          ¬ IsWrongFields err) ∧
      ∀ data : GoMap String,
        (extractdata data).ErrorCode ≠ "E010" ∧
          ¬ IsWrongFields (extractdata data).ErrorDetail := by
  refine ⟨⟨calculateAge_requires, parseSex_requires, parseBMI_requires, parseGirth_requires,
    parseBP_requires, parsePass_requires, parseAlcohol_requires, parseCigarette_requires,
    parseBetel_requires, parseDrink_requires, parseFood_requires, parseExcercise_requires,
    parsePSQI_requires, parseBSRS5_requires, parseZeroDiscard_requires,
    parseGlucoseU_requires, parseHsCRP_requires, parseAgatston_requires⟩, ?_, ?_⟩
  · intro op hop
    have hw := operations_wellFed op hop
    refine ⟨hw.1, ?_, hw.2⟩
    intro n hn
    by_contra hlen
    obtain ⟨err, herr, hwrong⟩ := (hn op.colLabel op.fields).mpr hlen
    exact hw.2 op.colLabel op.fields err rfl herr hwrong
  · intro data
    have h00 : ("" : String) ≠ "E010" := by decide
    exact extractdataLoop_wellFed data operations initResult [] operations_wellFed
      h00 not_wrongFields_empty

/-! ## Properties of the parsers -/

theorem toInt_fin (q : ℚ) :
    (Float64.fin q).toInt = if 0 ≤ q then ⌊q⌋ else ⌈q⌉ := by
  show Int.tdiv q.num q.den = _
  have hden : (0 : ℤ) < q.den := by exact_mod_cast q.den_pos
  by_cases h : 0 ≤ q
  · have hnum : 0 ≤ q.num := Rat.num_nonneg.mpr h
    rw [if_pos h, Int.tdiv_eq_ediv hnum hden.le, Rat.floor_def]
  · have hneg : q < 0 := lt_of_not_ge h
    have hnum : 0 ≤ -q.num := by
      have := Rat.num_neg.mpr hneg
      omega
    have h1 : Int.tdiv q.num q.den = -Int.tdiv (-q.num) q.den := by
      rw [Int.neg_tdiv, neg_neg]
    have h2 : ⌈q⌉ = -⌊-q⌋ := by rw [Int.floor_neg, neg_neg]
    rw [if_neg h, h1, Int.tdiv_eq_ediv hnum hden.le, h2, Rat.floor_def]
    simp

theorem Parse_sec (value : String) (t : time.Time) (h : time.Parse value = some t) :
    ∃ day : Nat, t.sec = 86400 * (day : Int) := by
  unfold time.Parse at h
  split at h
  · split at h
    · split at h
      · rename_i year month day _ _ _ _
        refine ⟨time.daysSinceYearZero year month day, ?_⟩
        cases h
        ring
      · cases h
    · cases h
  · cases h

theorem div_fin_fin (a b : ℚ) (hb : b ≠ 0) :
    (Float64.fin a).div (Float64.fin b) = Float64.fin (a / b) := by
  simp [Float64.div, hb]

/-- A whole number of at most 53 bits is a `float64`. -/
theorem round_int (z : Int) (hz : z.natAbs ≤ 2 ^ 53) :
    (Float64.fin (z : ℚ)).round = Float64.fin (z : ℚ) := by
  have habs : |(z : ℚ)| = (z.natAbs : ℕ) := by
    rw [Nat.cast_natAbs, Int.cast_abs]
  apply round_fixed _ z.natAbs 0 hz (by norm_num)
  · rw [habs, zpow_zero, mul_one]
  · rw [habs]
    have : ((z.natAbs : ℕ) : ℚ) ≤ ((2 ^ 53 : ℕ) : ℚ) := Nat.cast_le.mpr hz
    calc ((z.natAbs : ℕ) : ℚ) ≤ ((2 ^ 53 : ℕ) : ℚ) := this
      _ < 2 ^ 1024 := by norm_num

/-- The whole years in a number of days up to 106751: rounding the quotient
by 365.25 to a `float64` does not change its whole part, because the
quotient is a whole number or at least `1 / 1461` away from the next one. -/
theorem floor_nearest_days (n : Nat) (hn : 0 < n) (hle : n ≤ 106751) :
    ⌊Float64.nearest ((n : ℚ) / 365.25).num.natAbs ((n : ℚ) / 365.25).den⌋ =
      ⌊(n : ℚ) / 365.25⌋ ∧
    Float64.nearest ((n : ℚ) / 365.25).num.natAbs ((n : ℚ) / 365.25).den < 2 ^ 1024 := by
  have hnq : (0 : ℚ) < n := by exact_mod_cast hn
  have hx : (0 : ℚ) < (n : ℚ) / 365.25 := by positivity
  have hxe : (n : ℚ) / 365.25 = 4 * n / 1461 := by
    norm_num
    ring
  have hf0 : 0 ≤ ⌊(n : ℚ) / 365.25⌋ := Int.floor_nonneg.mpr (le_of_lt hx)
  obtain ⟨f, hf⟩ := Int.eq_ofNat_of_zero_le hf0
  have hflo : ((f : ℕ) : ℚ) ≤ (n : ℚ) / 365.25 := by
    have := Int.floor_le ((n : ℚ) / 365.25)
    rw [hf] at this
    exact_mod_cast this
  have hfhi : (n : ℚ) / 365.25 < (f : ℕ) + 1 := by
    have := Int.lt_floor_add_one ((n : ℚ) / 365.25)
    rw [hf] at this
    exact_mod_cast this
  have hnle : (n : ℚ) ≤ 106751 := by exact_mod_cast hle
  have hfsmall : f ≤ 292 := by
    have : ((f : ℕ) : ℚ) < 293 := by
      rw [hxe] at hflo
      have : (4 * (n : ℚ)) / 1461 < 293 := by
        rw [div_lt_iff₀ (by norm_num)]
        linarith
      linarith
    have : f < 293 := by exact_mod_cast this
    omega
  -- the quotient is at least 1 / 1461 below the next whole number
  have hgap : 4 * n + 1 ≤ 1461 * (f + 1) := by
    have h1 : (4 * (n : ℚ)) < 1461 * ((f : ℕ) + 1) := by
      rw [hxe, div_lt_iff₀ (by norm_num)] at hfhi
      linarith
    have h2 : 4 * n < 1461 * (f + 1) := by exact_mod_cast h1
    omega
  have hgapq : (4 * (n : ℚ) + 1) ≤ 1461 * ((f : ℕ) + 1) := by exact_mod_cast hgap
  have hy : (n : ℚ) / 365.25 ≤ ((2048 * (f + 1) - 1 : ℕ) : ℚ) * 2 ^ (-11 : ℤ) := by
    have hsub : ((2048 * (f + 1) - 1 : ℕ) : ℚ) = 2048 * ((f : ℕ) + 1) - 1 := by
      rw [Nat.cast_sub (by omega)]
      push_cast
      ring
    rw [hsub, hxe, div_le_iff₀ (by norm_num)]
    have e11 : (2 : ℚ) ^ (-11 : ℤ) = 1 / 2048 := by norm_num
    rw [e11]
    linarith
  have hypos : (0 : ℚ) < ((2048 * (f + 1) - 1 : ℕ) : ℚ) * 2 ^ (-11 : ℤ) :=
    lt_of_lt_of_le hx hy
  have hyfix := nearest_rat_fixed _ (2048 * (f + 1) - 1) (-11) hypos
    (by
      have : 2048 * (f + 1) - 1 ≤ 2048 * 293 := by omega
      exact le_trans this (by norm_num))
    (by norm_num) rfl
  have hup := nearest_rat_mono _ _ hx hy
  rw [hyfix] at hup
  have hylt : ((2048 * (f + 1) - 1 : ℕ) : ℚ) * 2 ^ (-11 : ℤ) < (f : ℕ) + 1 := by
    have hsub : ((2048 * (f + 1) - 1 : ℕ) : ℚ) = 2048 * ((f : ℕ) + 1) - 1 := by
      rw [Nat.cast_sub (by omega)]
      push_cast
      ring
    have e11 : (2 : ℚ) ^ (-11 : ℤ) = 1 / 2048 := by norm_num
    rw [hsub, e11]
    linarith
  have hlow : ((f : ℕ) : ℚ) ≤
      Float64.nearest ((n : ℚ) / 365.25).num.natAbs ((n : ℚ) / 365.25).den := by
    rcases Nat.eq_zero_or_pos f with h0 | hpos
    · rw [h0]
      exact_mod_cast nearest_nonneg _ _
    · have hfq : (0 : ℚ) < (f : ℕ) := by exact_mod_cast hpos
      have hfix := nearest_rat_fixed ((f : ℕ) : ℚ) f 0 hfq
        (le_trans hfsmall (by norm_num)) (by norm_num) (by rw [zpow_zero, mul_one])
      have := nearest_rat_mono _ _ hfq hflo
      rw [hfix] at this
      exact this
  constructor
  · rw [hf, Int.floor_eq_iff]
    constructor
    · exact_mod_cast hlow
    · have := lt_of_le_of_lt hup hylt
      exact_mod_cast this
  · have h293 : ((f : ℕ) : ℚ) + 1 ≤ 293 := by
      have : (f : ℚ) ≤ 292 := by exact_mod_cast hfsmall
      linarith
    calc Float64.nearest ((n : ℚ) / 365.25).num.natAbs ((n : ℚ) / 365.25).den
        < (f : ℕ) + 1 := lt_of_le_of_lt hup hylt
      _ ≤ 293 := h293
      _ < 2 ^ 1024 := by norm_num

theorem hours_of_days (d : Int) (hd : d.natAbs ≤ 106751) :
    (time.Duration.mk (86400000000000 * d)).Hours = Float64.fin ((24 * d : Int) : ℚ) := by
  have e : (86400000000000 : Int) * d = 3600000000000 * (24 * d) := by ring
  have h0 : (Float64.fin ((0 : Int) : ℚ)).round = Float64.fin 0 := by simp [Float64.round]
  have h1 : ((Float64.fin 0).div (Float64.fin 3600000000000)).round = Float64.fin 0 := by
    simp [Float64.div, Float64.round]
  unfold time.Duration.Hours
  dsimp only
  rw [e, Int.mul_tdiv_cancel_left _ (by norm_num), Int.mul_tmod_right, h0, h1,
    round_int (24 * d) (by rw [Int.natAbs_mul]; simp; omega)]
  show (Float64.fin (((24 * d : Int) : ℚ) + 0)).round = _
  rw [add_zero]
  exact round_int (24 * d) (by rw [Int.natAbs_mul]; simp; omega)

/-- The age `calculateAge` computes from a span of `d` days that fits a
`time.Duration`: the quotient of `d` by 365.25 without its fraction. -/
theorem age_of_days (d : Int) (hd : d.natAbs ≤ 106751) :
    ((((time.Duration.mk (86400000000000 * d)).Hours.div (Float64.fin 24)).round.div
        (Float64.fin 365.25)).round.toInt) =
      if 0 ≤ d then ⌊(d : ℚ) / 365.25⌋ else ⌈(d : ℚ) / 365.25⌉ := by
  have hday : ((Float64.fin ((24 * d : Int) : ℚ)).div (Float64.fin 24)).round =
      Float64.fin (d : ℚ) := by
    rw [div_fin_fin _ _ (by norm_num)]
    have : ((24 * d : Int) : ℚ) / 24 = (d : ℚ) := by
      push_cast
      field_simp
    rw [this]
    exact round_int d (by omega)
  rw [hours_of_days d hd, hday, div_fin_fin _ _ (by norm_num)]
  rcases lt_trichotomy d 0 with hneg | hzero | hpos
  · obtain ⟨n, hn⟩ := Int.exists_eq_neg_ofNat (le_of_lt hneg)
    subst hn
    have hnpos : 0 < n := by omega
    have hnle : n ≤ 106751 := by omega
    have hnq : (0 : ℚ) < n := by exact_mod_cast hnpos
    obtain ⟨hfl, hlt⟩ := floor_nearest_days n hnpos hnle
    have hq : (((-(n : ℤ) : ℤ) : ℚ)) / 365.25 = -((n : ℚ) / 365.25) := by
      push_cast
      ring
    have hqneg : -((n : ℚ) / 365.25) < 0 := by
      have : (0 : ℚ) < (n : ℚ) / 365.25 := by positivity
      linarith
    rw [if_neg (by omega), hq, round_fin _ (ne_of_lt hqneg), Rat.num_neg_eq_neg_num,
      Int.natAbs_neg, Rat.den_neg_eq_den, if_neg (not_le.mpr hlt), if_pos hqneg, toInt_fin]
    have hN := nearest_nonneg ((n : ℚ) / 365.25).num.natAbs ((n : ℚ) / 365.25).den
    split_ifs with h0
    · have hN0 : Float64.nearest ((n : ℚ) / 365.25).num.natAbs ((n : ℚ) / 365.25).den = 0 := by
        linarith
      rw [hN0] at hfl
      rw [hN0, Int.ceil_neg, ← hfl]
      simp
    · rw [Int.ceil_neg, Int.ceil_neg, hfl]
  · subst hzero
    simp [Float64.round, toInt_fin]
  · obtain ⟨n, hn⟩ := Int.eq_ofNat_of_zero_le (le_of_lt hpos)
    subst hn
    have hnpos : 0 < n := by omega
    have hnle : n ≤ 106751 := by omega
    obtain ⟨hfl, hlt⟩ := floor_nearest_days n hnpos hnle
    have hq : (((n : ℤ) : ℚ)) / 365.25 = (n : ℚ) / 365.25 := by push_cast; rfl
    have hqpos : (0 : ℚ) < (n : ℚ) / 365.25 := by
      have : (0 : ℚ) < n := by exact_mod_cast hnpos
      positivity
    rw [if_pos (by omega), hq, round_pos _ hqpos, if_neg (not_le.mpr hlt), toInt_fin,
      if_pos (nearest_nonneg _ _), hfl]

/-- C6, amended.  When both inputs, trimmed, parse as dates, let `d` be the
number of days from the birth date to the checkup date (the two instants
are `86400 * d` seconds apart).  If `d` lies within 106751 days of zero, the
span fits a `time.Duration` and `calculateAge` returns `d / 365.25` rounded
toward zero: its floor when `d` is not negative, its ceiling otherwise.
Beyond that the duration is capped and the age is 292, or -292.  When one of
the two inputs does not parse, `calculateAge` fails.  On `1980/01/01` and
`2020/01/01` it returns 40. -/
theorem calculateAge_days (label f0 f1 : String) :
    (∀ birth checkup : time.Time,
      time.Parse (strings.TrimSpace f0) = some birth →
      time.Parse (strings.TrimSpace f1) = some checkup →
      ∃ d : Int, checkup.sec - birth.sec = 86400 * d ∧
        calculateAge label [f0, f1] = .ok (Value.int
          (if 106751 < d then 292
           else if d < -106751 then -292
           else if 0 ≤ d then ⌊(d : ℚ) / 365.25⌋
           else ⌈(d : ℚ) / 365.25⌉))) ∧
      (time.Parse (strings.TrimSpace f0) = none ∨ time.Parse (strings.TrimSpace f1) = none →
        ∃ err, calculateAge label [f0, f1] = .error err) ∧
      calculateAge label ["1980/01/01", "2020/01/01"] = .ok (Value.int 40) := by
  refine ⟨?_, ?_, ?_⟩
  · intro birth checkup hb hc
    obtain ⟨db, hdb⟩ := Parse_sec _ _ hb
    obtain ⟨dc, hdc⟩ := Parse_sec _ _ hc
    refine ⟨(dc : Int) - db, by rw [hdb, hdc]; ring, ?_⟩
    unfold calculateAge
    simp only [hb, hc]
    congr 2
    have hD : (checkup.sec - birth.sec) * 1000000000 =
        86400000000000 * ((dc : Int) - db) := by
      rw [hdb, hdc]; ring
    unfold time.Time.Sub
    simp only [hD]
    generalize ((dc : Int) - db) = d
    by_cases h1 : 106751 < d
    · have : (2 : Int) ^ 63 ≤ 86400000000000 * d := by norm_num; omega
      rw [if_pos this, if_pos h1]
      decide!
    · by_cases h2 : d < -106751
      · have hn : ¬ (2 : Int) ^ 63 ≤ 86400000000000 * d := by norm_num; omega
        have hm : 86400000000000 * d < -(2 : Int) ^ 63 := by norm_num; omega
        rw [if_neg hn, if_pos hm, if_neg h1, if_pos h2]
        decide!
      · have hn : ¬ (2 : Int) ^ 63 ≤ 86400000000000 * d := by norm_num; omega
        have hm : ¬ 86400000000000 * d < -(2 : Int) ^ 63 := by norm_num; omega
        rw [if_neg hn, if_neg hm, if_neg h1, if_neg h2]
        exact age_of_days d (by omega)
  · intro h
    unfold calculateAge
    rcases h with h | h
    · simp only [h]
      exact ⟨_, rfl⟩
    · cases hb : time.Parse (strings.TrimSpace f0) with
      | none =>
        simp only [hb]
        exact ⟨_, rfl⟩
      | some b =>
        simp only [hb, h]
        exact ⟨_, rfl⟩
  · have hb : time.Parse (strings.TrimSpace "1980/01/01") = some ⟨723180 * 86400⟩ := by
      decide!
    have hc : time.Parse (strings.TrimSpace "2020/01/01") = some ⟨737790 * 86400⟩ := by
      decide!
    unfold calculateAge
    simp only [hb, hc]
    decide!

theorem calculateAge_days_witness :
    ∃ d : Int, (737790 * 86400 : Int) - 723180 * 86400 = 86400 * d ∧
      calculateAge "年齡" [" 1980/01/01", "2020/01/01 "] = .ok (Value.int
        (if 106751 < d then 292
         else if d < -106751 then -292
         else if 0 ≤ d then ⌊(d : ℚ) / 365.25⌋
         else ⌈(d : ℚ) / 365.25⌉)) :=
  (calculateAge_days "年齡" " 1980/01/01" "2020/01/01 ").1 ⟨723180 * 86400⟩ ⟨737790 * 86400⟩
    (by decide!) (by decide!)

/-- C6, as stated, fails.  With the checkup one year before the birth the
days are -365 and the floor of `-365 / 365.25` is -1, yet `calculateAge`
returns 0; with the dates 1020 years apart the days are 372547 and the floor
of `372547 / 365.25` is 1019, yet `calculateAge` returns 292. -/
theorem calculateAge_floor_counterexample :
    time.Parse "2020/01/01" = some ⟨737790 * 86400⟩ ∧
      time.Parse "2019/01/01" = some ⟨737425 * 86400⟩ ∧
      ⌊((737425 - 737790 : Int) : ℚ) / 365.25⌋ = -1 ∧
      calculateAge "年齡" ["2020/01/01", "2019/01/01"] = .ok (Value.int 0) ∧
      time.Parse "1000/01/01" = some ⟨365243 * 86400⟩ ∧
      ⌊((737790 - 365243 : Int) : ℚ) / 365.25⌋ = 1019 ∧
      calculateAge "年齡" ["1000/01/01", "2020/01/01"] = .ok (Value.int 292) := by
  refine ⟨by decide!, by decide!, ?_, by decide!, by decide!, ?_, by decide!⟩
  · rw [Int.floor_eq_iff]; norm_num
  · rw [Int.floor_eq_iff]; norm_num

/-- C7.  On a single input `s`, `parseSex` returns 1 when `s` without its
surrounding white space is exactly 男 (that is, `s` is 男 between two runs
of white space), returns 0 when it is exactly 女, and returns an error for
every other `s`; so 1 and 0 are the only values it returns.  It returns 1 on
男 (also inside white space), 0 on 女, and an error on `unknown` and on the
empty string. -/
theorem parseSex_spec (label s : String) :
    (strings.TrimSpace s = "男" → parseSex label [s] = .ok (Value.int 1)) ∧
      (strings.TrimSpace s = "女" → parseSex label [s] = .ok (Value.int 0)) ∧
      (strings.TrimSpace s ≠ "男" → strings.TrimSpace s ≠ "女" →
        parseSex label [s] =
          .error ("輸出欄位【" ++ label ++ "】無法解析: " ++ strings.TrimSpace s)) ∧
      (∀ v, parseSex label [s] = .ok v → v = Value.int 1 ∨ v = Value.int 0) ∧
      (strings.TrimSpace s = "男" ↔
        ∃ l r : List Char, (∀ c ∈ l, strings.isSpace c = true) ∧
          (∀ c ∈ r, strings.isSpace c = true) ∧ s.data = l ++ ['男'] ++ r) ∧
      (strings.TrimSpace s = "女" ↔
        ∃ l r : List Char, (∀ c ∈ l, strings.isSpace c = true) ∧
          (∀ c ∈ r, strings.isSpace c = true) ∧ s.data = l ++ ['女'] ++ r) ∧
      parseSex label ["男"] = .ok (Value.int 1) ∧
      parseSex label [" 男\n"] = .ok (Value.int 1) ∧
      parseSex label ["女"] = .ok (Value.int 0) ∧
      parseSex label ["unknown"] =
        .error ("輸出欄位【" ++ label ++ "】無法解析: " ++ "unknown") ∧
      parseSex label [""] = .error ("輸出欄位【" ++ label ++ "】無法解析: " ++ "") := by
  have h1 : strings.TrimSpace "男" = "男" := by decide
  have h2 : strings.TrimSpace " 男\n" = "男" := by decide
  have h3 : strings.TrimSpace "女" = "女" := by decide
  have h4 : strings.TrimSpace "unknown" = "unknown" := by decide
  have h5 : strings.TrimSpace "" = "" := by decide
  refine ⟨?_, ?_, ?_, ?_, TrimSpace_eq_char s '男' (by decide),
    TrimSpace_eq_char s '女' (by decide), ?_, ?_, ?_, ?_, ?_⟩
  · intro h
    simp [parseSex, h]
  · intro h
    have hne : strings.TrimSpace s ≠ "男" := by rw [h]; decide
    simp [parseSex, h, hne]
  · intro ha hb
    simp [parseSex, ha, hb]
  · intro v hv
    unfold parseSex at hv
    dsimp only at hv
    split at hv
    · left; cases hv; rfl
    · split at hv
      · right; cases hv; rfl
      · cases hv
  · simp [parseSex, h1]
  · simp [parseSex, h2]
  · simp [parseSex, h3]
  · simp [parseSex, h4]
  · simp [parseSex, h5]

theorem containsChars_iff (s sub : List Char) :
    strings.containsChars s sub = true ↔ sub <:+: s := by
  induction s with
  | nil =>
    cases sub <;> simp [strings.containsChars]
  | cons c cs ih =>
    rw [strings.containsChars, Bool.or_eq_true, ih, List.infix_cons_iff,
      List.isPrefixOf_iff_prefix]

/-- C8.  On every list of inputs, the empty list included, `parseDiseaseHistory`
returns no error: it returns 1 or 0, and it returns 1 exactly when one of
the inputs has one of the keywords 有, 治療, 藥物, 手術 as a block of
consecutive characters. -/
theorem parseDiseaseHistory_spec (label : String) (fields : List String) :
    (parseDiseaseHistory label fields = .ok (Value.int 1) ∨
        parseDiseaseHistory label fields = .ok (Value.int 0)) ∧
      (parseDiseaseHistory label fields = .ok (Value.int 1) ↔
        ∃ field ∈ fields, ∃ keyword ∈ ["有", "治療", "藥物", "手術"],
          keyword.data <:+: field.data) ∧
      parseDiseaseHistory label [] = .ok (Value.int 0) := by
  have hany : (fields.any fun field =>
      ["有", "治療", "藥物", "手術"].any fun keyword => strings.Contains field keyword) = true ↔
      ∃ field ∈ fields, ∃ keyword ∈ ["有", "治療", "藥物", "手術"],
        keyword.data <:+: field.data := by
    simp only [List.any_eq_true, strings.Contains, containsChars_iff]
  unfold parseDiseaseHistory
  dsimp only
  refine ⟨?_, ?_, ?_⟩
  · split
    · left; rfl
    · right; rfl
  · rw [← hany]
    split
    · rename_i h
      exact ⟨fun _ => h, fun _ => rfl⟩
    · rename_i h
      simp only [h]
      constructor
      · intro h'
        cases h'
      · intro h'
        cases h'
  · rfl

theorem gt_fin (a b : ℚ) : (Float64.fin a).gt (Float64.fin b) = decide (b < a) := rfl

theorem le_fin (a b : ℚ) : (Float64.fin a).le (Float64.fin b) = decide (a ≤ b) := by
  simp only [Float64.le, Float64.lt, Float64.eq]
  by_cases h : a ≤ b
  · rcases lt_or_eq_of_le h with h1 | h1 <;> simp [h, h1]
  · have h1 : ¬ a < b := fun h' => h h'.le
    have h2 : ¬ a = b := fun h' => h h'.le
    simp [h, h1, h2]

theorem parseBMI_of_reported (label heightInput weightInput bmiInput : String) (v : ℚ)
    (hval : (strconv.ParseFloat (strings.TrimSpace bmiInput)).val = Float64.fin v)
    (herr : (strconv.ParseFloat (strings.TrimSpace bmiInput)).err = none)
    (hlo : 10 < v) (hhi : v ≤ 60) :
    parseBMI label [heightInput, weightInput, bmiInput] =
      .ok (Value.float (Float64.fin v)) := by
  unfold parseBMI
  simp [herr, hval, gt_fin, le_fin, hlo, hhi]

/-- C9 (the reported BMI goes first).  Whatever the height and the weight
inputs are, when the reported BMI, trimmed, parses as a number `v` with
`10 < v ≤ 60`, `parseBMI` returns `v`; so a reported BMI of `22.5` gives 22.5
for every height and weight input. -/
theorem parseBMI_reported (label heightInput weightInput bmiInput : String) :
    (∀ v : ℚ, (strconv.ParseFloat (strings.TrimSpace bmiInput)).val = Float64.fin v →
        (strconv.ParseFloat (strings.TrimSpace bmiInput)).err = none →
        10 < v → v ≤ 60 →
        parseBMI label [heightInput, weightInput, bmiInput] =
          .ok (Value.float (Float64.fin v))) ∧
      parseBMI label [heightInput, weightInput, "22.5"] =
        .ok (Value.float (Float64.fin 22.5)) :=
  ⟨parseBMI_of_reported label heightInput weightInput bmiInput,
    parseBMI_of_reported label heightInput weightInput "22.5" 22.5 (by decide!) (by decide!)
      (by norm_num) (by norm_num)⟩

theorem parseBMI_reported_witness :
    parseBMI "身體質量指數" ["", "abc", " 22.5 "] =
      .ok (Value.float (Float64.fin (45 / 2))) :=
  (parseBMI_reported "身體質量指數" "" "abc" " 22.5 ").1 (45 / 2) (by decide!) (by decide!)
    (by norm_num) (by norm_num)

/-- A computed BMI in the range `(10, 60]` comes from a height and a weight
that are numbers. -/
theorem calculatedBMI_range (height weight : Float64)
    (hpos : (height.gt (Float64.fin 0) && weight.gt (Float64.fin 0)) = true)
    (hrange : ((calculatedBMI height weight).gt (Float64.fin 10) &&
      (calculatedBMI height weight).le (Float64.fin 60)) = true) :
    ∃ h w : ℚ, height = Float64.fin h ∧ weight = Float64.fin w ∧ 0 < h ∧ 0 < w := by
  cases height with
  | nan => simp [Float64.gt, Float64.lt] at hpos
  | inf hn =>
    exfalso
    cases weight <;>
      simp [calculatedBMI, Float64.div, Float64.round, Float64.gt, Float64.lt, Float64.le,
        Float64.eq] at hrange
    norm_num at hrange
  | fin h =>
    cases weight with
    | nan => simp [Float64.gt, Float64.lt] at hpos
    | inf wn =>
      exfalso
      unfold calculatedBMI at hrange
      generalize ((Float64.fin h).div (Float64.fin 100)).round = x at hrange
      cases x <;>
        simp [Float64.div, Float64.round, Float64.gt, Float64.lt, Float64.le, Float64.eq]
          at hrange
    | fin w =>
      simp only [gt_fin, Bool.and_eq_true, decide_eq_true_eq] at hpos
      exact ⟨h, w, rfl, rfl, hpos.1, hpos.2⟩

/-- The computed BMI of a height between 1 and 1000 and a weight between 1
and 1000 is a number within one part in `2 ^ 50` of
`weight / (height / 100) ^ 2`. -/
theorem calculatedBMI_accuracy (h w : ℚ) (h1 : 1 ≤ h) (h2 : h ≤ 1000) (w1 : 1 ≤ w)
    (w2 : w ≤ 1000) :
    ∃ q : ℚ, calculatedBMI (Float64.fin h) (Float64.fin w) = Float64.fin q ∧
      |q - w / (h / 100) ^ 2| ≤ w / (h / 100) ^ 2 / 2 ^ 50 := by
  have hsmall : (2 : ℚ) ^ (-1022 : ℤ) ≤ 1 / 1000 := by
    rw [zpow_neg, one_div]
    exact inv_anti₀ (by norm_num) (by norm_num)
  have hbig : (10 : ℚ) ^ 8 ≤ 2 ^ 1023 := by norm_num
  have c0 : (0 : ℚ) < 1 - 1 / 2 ^ 53 := by norm_num
  have c1 : (1 : ℚ) - 1 / 2 ^ 53 ≤ 1 := by norm_num
  have c2 : (1 : ℚ) + 1 / 2 ^ 53 ≤ 2 := by norm_num
  have c3 : (1 / 2 : ℚ) ≤ 1 - 1 / 2 ^ 53 := by norm_num
  have ha0 : (0 : ℚ) < h / 100 := div_pos (by linarith) (by norm_num)
  have halo : (1 / 100 : ℚ) ≤ h / 100 := by
    rw [div_le_div_right (by norm_num)]
    exact h1
  have hahi : h / 100 ≤ 10 := by
    rw [div_le_iff₀ (by norm_num)]
    linarith
  obtain ⟨x1, e1, l1, u1⟩ := round_rel (h / 100) (by linarith) (by linarith)
  have x1lo : (1 / 200 : ℚ) ≤ x1 := by nlinarith
  have x1hi : x1 ≤ 20 := by nlinarith
  have x1pos : 0 < x1 := by linarith
  have ylo : (1 / 20 : ℚ) ≤ w / x1 := by
    rw [le_div_iff₀ x1pos]
    linarith
  have yhi : w / x1 ≤ 200000 := by
    rw [div_le_iff₀ x1pos]
    linarith
  have ypos : 0 < w / x1 := by linarith
  obtain ⟨x2, e2, l2, u2⟩ := round_rel (w / x1) (by linarith) (by linarith)
  have x2lo : (1 / 40 : ℚ) ≤ x2 := by nlinarith
  have x2hi : x2 ≤ 400000 := by nlinarith
  have x2pos : 0 < x2 := by linarith
  have zlo : (1 / 800 : ℚ) ≤ x2 / x1 := by
    rw [le_div_iff₀ x1pos]
    linarith
  have zhi : x2 / x1 ≤ 80000000 := by
    rw [div_le_iff₀ x1pos]
    linarith
  have zpos : 0 < x2 / x1 := by linarith
  obtain ⟨x3, e3, l3, u3⟩ := round_rel (x2 / x1) (by linarith) (by linarith)
  refine ⟨x3, ?_, ?_⟩
  · unfold calculatedBMI
    rw [div_fin_fin _ _ (by norm_num), e1, div_fin_fin _ _ (ne_of_gt x1pos), e2,
      div_fin_fin _ _ (ne_of_gt x1pos), e3]
  · have wpos : (0 : ℚ) < w := by linarith
    have hB : (0 : ℚ) < w / (h / 100) ^ 2 := div_pos wpos (pow_pos ha0 2)
    -- the exact value, through the rounded height
    have key : w / (h / 100) ^ 2 * ((h / 100) / x1) ^ 2 = w / x1 / x1 := by
      field_simp
      ring
    -- bounds on the ratio of the exact height to the rounded one
    have rlo : 1 / (1 + 1 / 2 ^ 53) ≤ (h / 100) / x1 := by
      rw [div_le_div_iff (by norm_num) x1pos]
      linarith
    have rhi : (h / 100) / x1 ≤ 1 / (1 - 1 / 2 ^ 53) := by
      rw [div_le_div_iff x1pos c0]
      linarith
    have rpos : (0 : ℚ) < (h / 100) / x1 := div_pos ha0 x1pos
    have r2lo : (1 / (1 + 1 / 2 ^ 53)) ^ 2 ≤ ((h / 100) / x1) ^ 2 :=
      pow_le_pow_left (by positivity) rlo 2
    have r2hi : ((h / 100) / x1) ^ 2 ≤ (1 / (1 - 1 / 2 ^ 53)) ^ 2 :=
      pow_le_pow_left (le_of_lt rpos) rhi 2
    -- the computed value between two multiples of `w / x1 / x1`
    have up : x3 ≤ w / x1 / x1 * (1 + 1 / 2 ^ 53) ^ 2 := by
      have : x2 / x1 ≤ w / x1 * (1 + 1 / 2 ^ 53) / x1 :=
        div_le_div_of_nonneg_right u2 (le_of_lt x1pos)
      calc x3 ≤ x2 / x1 * (1 + 1 / 2 ^ 53) := u3
        _ ≤ w / x1 * (1 + 1 / 2 ^ 53) / x1 * (1 + 1 / 2 ^ 53) :=
          mul_le_mul_of_nonneg_right this (by norm_num)
        _ = w / x1 / x1 * (1 + 1 / 2 ^ 53) ^ 2 := by ring
    have lo : w / x1 / x1 * (1 - 1 / 2 ^ 53) ^ 2 ≤ x3 := by
      have : w / x1 * (1 - 1 / 2 ^ 53) / x1 ≤ x2 / x1 :=
        div_le_div_of_nonneg_right l2 (le_of_lt x1pos)
      calc w / x1 / x1 * (1 - 1 / 2 ^ 53) ^ 2
          = w / x1 * (1 - 1 / 2 ^ 53) / x1 * (1 - 1 / 2 ^ 53) := by ring
        _ ≤ x2 / x1 * (1 - 1 / 2 ^ 53) := mul_le_mul_of_nonneg_right this (le_of_lt c0)
        _ ≤ x3 := l3
    rw [← key] at up lo
    have n1 : (1 / (1 - 1 / 2 ^ 53 : ℚ)) ^ 2 * (1 + 1 / 2 ^ 53) ^ 2 ≤ 1 + 1 / 2 ^ 50 := by
      norm_num
    have n2 : (1 : ℚ) - 1 / 2 ^ 50 ≤ (1 / (1 + 1 / 2 ^ 53 : ℚ)) ^ 2 * (1 - 1 / 2 ^ 53) ^ 2 := by
      norm_num
    have cpos : (0 : ℚ) < (1 + 1 / 2 ^ 53) ^ 2 := by positivity
    have epos : (0 : ℚ) < (1 - 1 / 2 ^ 53) ^ 2 := by positivity
    rw [abs_le]
    constructor
    · have s1 : w / (h / 100) ^ 2 * ((1 / (1 + 1 / 2 ^ 53 : ℚ)) ^ 2 * (1 - 1 / 2 ^ 53) ^ 2) ≤
          w / (h / 100) ^ 2 * (h / 100 / x1) ^ 2 * (1 - 1 / 2 ^ 53) ^ 2 := by
        rw [mul_assoc]
        exact mul_le_mul_of_nonneg_left
          (mul_le_mul_of_nonneg_right r2lo (le_of_lt epos)) (le_of_lt hB)
      have s2 := mul_le_mul_of_nonneg_left n2 (le_of_lt hB)
      have e : w / (h / 100) ^ 2 * (1 - 1 / 2 ^ 50) =
          w / (h / 100) ^ 2 - w / (h / 100) ^ 2 / 2 ^ 50 := by ring
      rw [e] at s2
      linarith
    · have s1 : w / (h / 100) ^ 2 * (h / 100 / x1) ^ 2 * (1 + 1 / 2 ^ 53) ^ 2 ≤
          w / (h / 100) ^ 2 * ((1 / (1 - 1 / 2 ^ 53 : ℚ)) ^ 2 * (1 + 1 / 2 ^ 53) ^ 2) := by
        rw [mul_assoc]
        exact mul_le_mul_of_nonneg_left
          (mul_le_mul_of_nonneg_right r2hi (le_of_lt cpos)) (le_of_lt hB)
      have s2 := mul_le_mul_of_nonneg_left n1 (le_of_lt hB)
      have e : w / (h / 100) ^ 2 * (1 + 1 / 2 ^ 50) =
          w / (h / 100) ^ 2 + w / (h / 100) ^ 2 / 2 ^ 50 := by ring
      rw [e] at s2
      linarith

theorem range_fin (x : Float64) (a b : ℚ)
    (h : (x.gt (Float64.fin a) && x.le (Float64.fin b)) = true) :
    ∃ q : ℚ, x = Float64.fin q ∧ a < q ∧ q ≤ b := by
  cases x with
  | nan => simp [Float64.gt, Float64.lt] at h
  | inf neg => cases neg <;> simp [Float64.gt, Float64.lt, Float64.le, Float64.eq] at h
  | fin q =>
    simp only [gt_fin, le_fin, Bool.and_eq_true, decide_eq_true_eq] at h
    exact ⟨q, rfl, h.1, h.2⟩

theorem parseBMI_fallback (label heightInput weightInput bmiInput : String)
    (hb : (strconv.ParseFloat (strings.TrimSpace bmiInput)).err ≠ none ∨
      ((strconv.ParseFloat (strings.TrimSpace bmiInput)).val.gt (Float64.fin 10) &&
        (strconv.ParseFloat (strings.TrimSpace bmiInput)).val.le (Float64.fin 60)) = false) :
    parseBMI label [heightInput, weightInput, bmiInput] =
      if (strconv.ParseFloat (strings.TrimSpace heightInput)).err ≠ none then
        .error ("輸出欄位【" ++ label ++ "】的身高數據無效: " ++ strings.TrimSpace heightInput)
      else if (strconv.ParseFloat (strings.TrimSpace weightInput)).err ≠ none then
        .error ("輸出欄位【" ++ label ++ "】的體重數據無效: " ++ strings.TrimSpace weightInput)
      else if
          (((strconv.ParseFloat (strings.TrimSpace heightInput)).val.gt (Float64.fin 0) &&
            (strconv.ParseFloat (strings.TrimSpace weightInput)).val.gt (Float64.fin 0)) &&
          ((calculatedBMI (strconv.ParseFloat (strings.TrimSpace heightInput)).val
                (strconv.ParseFloat (strings.TrimSpace weightInput)).val).gt (Float64.fin 10) &&
            (calculatedBMI (strconv.ParseFloat (strings.TrimSpace heightInput)).val
                (strconv.ParseFloat (strings.TrimSpace weightInput)).val).le
              (Float64.fin 60))) = true then
        .ok (Value.float
          (calculatedBMI (strconv.ParseFloat (strings.TrimSpace heightInput)).val
            (strconv.ParseFloat (strings.TrimSpace weightInput)).val))
      else .error ("輸出欄位【" ++ label ++ "】無法計算有效值") := by
  have hbmi : ((if (strconv.ParseFloat (strings.TrimSpace bmiInput)).err ≠ none then
        Float64.fin (-1) else (strconv.ParseFloat (strings.TrimSpace bmiInput)).val).gt
          (Float64.fin 10) &&
      (if (strconv.ParseFloat (strings.TrimSpace bmiInput)).err ≠ none then
        Float64.fin (-1) else (strconv.ParseFloat (strings.TrimSpace bmiInput)).val).le
          (Float64.fin 60)) = false := by
    by_cases herr : (strconv.ParseFloat (strings.TrimSpace bmiInput)).err ≠ none
    · rw [if_pos herr, gt_fin]
      norm_num
    · rw [if_neg herr]
      rcases hb with hb | hb
      · exact absurd hb herr
      · exact hb
  unfold parseBMI
  simp only [hbmi]
  rfl

/-- C10, amended.  Let the reported BMI, trimmed, fail to parse or lie outside
`(10, 60]`.  Then `parseBMI` returns a value exactly when the height and the
weight, trimmed, both parse as numbers `h` and `w` greater than 0 and the
computed BMI, which is `w / (h / 100) / (h / 100)` with each of the three
quotients rounded to a `float64`, is a number in `(10, 60]`; the value is
that number, and in every other case `parseBMI` fails.  On every input, a
value `parseBMI` returns lies in `(10, 60]`.  For a height and a weight
between 1 and 1000 the computed BMI is a number within one part in `2 ^ 50`
of `w / (h / 100) ^ 2`.  With the reported BMI empty:
the height `170` and the weight `65` give 22.491349480968857; the height
`140` and the weight `19.6` give 10.000000000000002, where the quotient of
the decimals is 10; the height `120` and the weight `86.4` give an error,
the computed value being 60.000000000000014, where the quotient of the
decimals is 60. -/
theorem parseBMI_computed (label heightInput weightInput bmiInput : String) :
    ((strconv.ParseFloat (strings.TrimSpace bmiInput)).err ≠ none ∨
        ((strconv.ParseFloat (strings.TrimSpace bmiInput)).val.gt (Float64.fin 10) &&
          (strconv.ParseFloat (strings.TrimSpace bmiInput)).val.le (Float64.fin 60)) = false →
      ∀ v, parseBMI label [heightInput, weightInput, bmiInput] = .ok v ↔
        ∃ h w q : ℚ,
          (strconv.ParseFloat (strings.TrimSpace heightInput)).val = Float64.fin h ∧
          (strconv.ParseFloat (strings.TrimSpace heightInput)).err = none ∧
          (strconv.ParseFloat (strings.TrimSpace weightInput)).val = Float64.fin w ∧
          (strconv.ParseFloat (strings.TrimSpace weightInput)).err = none ∧
          0 < h ∧ 0 < w ∧
          calculatedBMI (Float64.fin h) (Float64.fin w) = Float64.fin q ∧
          10 < q ∧ q ≤ 60 ∧ v = Value.float (Float64.fin q)) ∧
      (∀ v, parseBMI label [heightInput, weightInput, bmiInput] = .ok v →
        ∃ q : ℚ, v = Value.float (Float64.fin q) ∧ 10 < q ∧ q ≤ 60) ∧
      (∀ h w : ℚ, 1 ≤ h → h ≤ 1000 → 1 ≤ w → w ≤ 1000 →
        ∃ q : ℚ, calculatedBMI (Float64.fin h) (Float64.fin w) = Float64.fin q ∧
          |q - w / (h / 100) ^ 2| ≤ w / (h / 100) ^ 2 / 2 ^ 50) ∧
      parseBMI label ["170", "65", ""] =
        .ok (Value.float (Float64.fin (3165376035673467 / 140737488355328))) ∧
      parseBMI label ["140", "19.6", ""] =
        .ok (Value.float (Float64.fin (5629499534213121 / 562949953421312))) ∧
      (strconv.ParseFloat "19.6").val =
        (Float64.fin (19.6 : ℚ)).round ∧
      (19.6 : ℚ) / (140 / 100) ^ 2 = 10 ∧
      calculatedBMI (Float64.fin 120) (strconv.ParseFloat "86.4").val =
        Float64.fin (4222124650659841 / 70368744177664) ∧
      (86.4 : ℚ) / (120 / 100) ^ 2 = 60 ∧
      parseBMI label ["120", "86.4", ""] =
        .error ("輸出欄位【" ++ label ++ "】無法計算有效值") := by
  have key : ∀ hI wI bI : String,
      ((strconv.ParseFloat (strings.TrimSpace bI)).err ≠ none ∨
        ((strconv.ParseFloat (strings.TrimSpace bI)).val.gt (Float64.fin 10) &&
          (strconv.ParseFloat (strings.TrimSpace bI)).val.le (Float64.fin 60)) = false) →
      ∀ v, parseBMI label [hI, wI, bI] = .ok v ↔
        ∃ h w q : ℚ,
          (strconv.ParseFloat (strings.TrimSpace hI)).val = Float64.fin h ∧
          (strconv.ParseFloat (strings.TrimSpace hI)).err = none ∧
          (strconv.ParseFloat (strings.TrimSpace wI)).val = Float64.fin w ∧
          (strconv.ParseFloat (strings.TrimSpace wI)).err = none ∧
          0 < h ∧ 0 < w ∧
          calculatedBMI (Float64.fin h) (Float64.fin w) = Float64.fin q ∧
          10 < q ∧ q ≤ 60 ∧ v = Value.float (Float64.fin q) := by
    intro hI wI bI hb v
    rw [parseBMI_fallback label hI wI bI hb]
    constructor
    · intro hv
      split at hv
      · cases hv
      · rename_i hherr
        split at hv
        · cases hv
        · rename_i hwerr
          split at hv
          · rename_i hcond
            rw [Bool.and_eq_true] at hcond
            obtain ⟨h, w, hh, hw, hhpos, hwpos⟩ := calculatedBMI_range _ _ hcond.1 hcond.2
            obtain ⟨q, hq, hlo, hhi⟩ := range_fin _ _ _ hcond.2
            rw [hq] at hv
            rw [hh, hw] at hq
            cases hv
            exact ⟨h, w, q, hh, not_not.mp hherr, hw, not_not.mp hwerr, hhpos, hwpos, hq,
              hlo, hhi, rfl⟩
          · cases hv
    · rintro ⟨h, w, q, hh, hherr, hw, hwerr, hhpos, hwpos, hq, hlo, hhi, rfl⟩
      rw [if_neg (not_not.mpr hherr), if_neg (not_not.mpr hwerr), hh, hw, hq]
      simp [gt_fin, le_fin, hhpos, hwpos, hlo, hhi]
  have hempty : (strconv.ParseFloat (strings.TrimSpace "")).err ≠ none := by decide!
  refine ⟨key heightInput weightInput bmiInput, ?_, calculatedBMI_accuracy, ?_, ?_, by decide!,
    by norm_num, by decide!, by norm_num, ?_⟩
  · intro v hv
    by_cases hb : (strconv.ParseFloat (strings.TrimSpace bmiInput)).err ≠ none ∨
        ((strconv.ParseFloat (strings.TrimSpace bmiInput)).val.gt (Float64.fin 10) &&
          (strconv.ParseFloat (strings.TrimSpace bmiInput)).val.le (Float64.fin 60)) = false
    · obtain ⟨h, w, q, -, -, -, -, -, -, -, hlo, hhi, rfl⟩ :=
        (key heightInput weightInput bmiInput hb v).mp hv
      exact ⟨_, rfl, hlo, hhi⟩
    · push_neg at hb
      obtain ⟨herr, hrange⟩ := hb
      obtain ⟨q, hq, hlo, hhi⟩ := range_fin _ _ _ (Bool.eq_true_of_not_eq_false hrange)
      have := parseBMI_of_reported label heightInput weightInput bmiInput q hq herr hlo hhi
      rw [this] at hv
      cases hv
      exact ⟨q, rfl, hlo, hhi⟩
  · exact (key "170" "65" "" (Or.inl hempty) _).mpr
      ⟨170, 65, _, by decide!, by decide!, by decide!, by decide!, by norm_num, by norm_num,
        by decide!, by norm_num, by norm_num, rfl⟩
  · exact (key "140" "19.6" "" (Or.inl hempty) _).mpr
      ⟨140, 2758454771764429 / 140737488355328, _, by decide!, by decide!, by decide!,
        by decide!, by norm_num, by norm_num, by decide!, by norm_num, by norm_num, rfl⟩
  · rw [parseBMI_fallback label "120" "86.4" "" (Or.inl hempty)]
    have h1 : (strconv.ParseFloat (strings.TrimSpace "120")).err = none := by decide!
    have h2 : (strconv.ParseFloat (strings.TrimSpace "86.4")).err = none := by decide!
    have h3 : (calculatedBMI (strconv.ParseFloat (strings.TrimSpace "120")).val
        (strconv.ParseFloat (strings.TrimSpace "86.4")).val).le (Float64.fin 60) = false := by
      decide!
    rw [if_neg (not_not.mpr h1), if_neg (not_not.mpr h2), h3]
    simp

theorem parseBMI_computed_witness :
    ∀ v, parseBMI "身體質量指數" [" 170", "65 ", "9"] = .ok v ↔
      ∃ h w q : ℚ,
        (strconv.ParseFloat (strings.TrimSpace " 170")).val = Float64.fin h ∧
        (strconv.ParseFloat (strings.TrimSpace " 170")).err = none ∧
        (strconv.ParseFloat (strings.TrimSpace "65 ")).val = Float64.fin w ∧
        (strconv.ParseFloat (strings.TrimSpace "65 ")).err = none ∧
        0 < h ∧ 0 < w ∧
        calculatedBMI (Float64.fin h) (Float64.fin w) = Float64.fin q ∧
        10 < q ∧ q ≤ 60 ∧ v = Value.float (Float64.fin q) :=
  (parseBMI_computed "身體質量指數" " 170" "65 " "9").1 (Or.inr (by decide!))

/-- C10, as stated, fails.  The reported BMI is empty and does not parse; the
height `-170` and the weight `65` both parse, and `65 / (-170 / 100) ^ 2`
lies in `(10, 60]`, as does the value Go computes for it,
22.491349480968857; yet `parseBMI` fails, because the height is not greater
than 0. -/
theorem parseBMI_computed_counterexample :
    (strconv.ParseFloat (strings.TrimSpace "")).err ≠ none ∧
      (strconv.ParseFloat (strings.TrimSpace "-170")).val = Float64.fin (-170) ∧
      (strconv.ParseFloat (strings.TrimSpace "-170")).err = none ∧
      (strconv.ParseFloat (strings.TrimSpace "65")).val = Float64.fin 65 ∧
      (strconv.ParseFloat (strings.TrimSpace "65")).err = none ∧
      (10 : ℚ) < 65 / (-170 / 100) ^ 2 ∧ (65 : ℚ) / (-170 / 100) ^ 2 ≤ 60 ∧
      calculatedBMI (Float64.fin (-170)) (Float64.fin 65) =
        Float64.fin (3165376035673467 / 140737488355328) ∧
      parseBMI "身體質量指數" ["-170", "65", ""] = .error "輸出欄位【身體質量指數】無法計算有效值" := by
  refine ⟨by decide!, by decide!, by decide!, by decide!, by decide!, by norm_num,
    by norm_num, by decide!, by decide!⟩

/-! ## Blood pressure, habits and category scores -/

theorem bpSide_round (input : String) : (bpSide input).round = bpSide input := by
  unfold bpSide
  split_ifs
  · simp [Float64.round]
  · exact ParseFloat_round _

theorem parseBP_eq (label right left : String) :
    parseBP label [right, left] =
      if (bpSide right).gt (Float64.fin 0) && (bpSide left).gt (Float64.fin 0) then
        .ok (Value.float (averageBP (bpSide right) (bpSide left)))
      else if (bpSide right).gt (Float64.fin 0) then .ok (Value.float (bpSide right))
      else if (bpSide left).gt (Float64.fin 0) then .ok (Value.float (bpSide left))
      else .error ("無有效的" ++ label ++ "數據") := rfl

theorem averageBP_fin (a b : ℚ) (hab : 0 < a + b) :
    averageBP (Float64.fin a) (Float64.fin b) =
      if 2 ^ 1024 ≤ Float64.nearest (a + b).num.natAbs (a + b).den then Float64.inf false
      else (Float64.fin (Float64.nearest (a + b).num.natAbs (a + b).den / 2)).round := by
  unfold averageBP
  rw [show (Float64.fin a).add (Float64.fin b) = Float64.fin (a + b) from rfl, round_pos _ hab]
  split_ifs
  · rfl
  · rw [div_fin_fin _ _ (by norm_num)]

/-- The average of two `float64` above 0: the positive infinity when their
sum rounds to it, and otherwise a number between the two. -/
theorem averageBP_between (a b : ℚ) (ha : 0 < a) (hb : 0 < b)
    (hra : (Float64.fin a).round = Float64.fin a)
    (hrb : (Float64.fin b).round = Float64.fin b) :
    ((Float64.fin (a + b)).round = Float64.inf false ∧
        averageBP (Float64.fin a) (Float64.fin b) = Float64.inf false) ∨
      ∃ q : ℚ, averageBP (Float64.fin a) (Float64.fin b) = Float64.fin q ∧
        min a b ≤ q ∧ q ≤ max a b := by
  have hab : 0 < a + b := add_pos ha hb
  have hmin : 0 < min a b := lt_min ha hb
  have hmax : 0 < max a b := lt_max_of_lt_left ha
  have fmin : ∃ (m : Nat) (k : Int), m ≤ 2 ^ 53 ∧ -1074 ≤ k ∧ min a b = m * 2 ^ k ∧
      min a b < 2 ^ 1024 ∧ Float64.nearest (min a b).num.natAbs (min a b).den = min a b := by
    rcases min_choice a b with h | h <;> rw [h]
    · exact mantissa_of_round a ha hra
    · exact mantissa_of_round b hb hrb
  have fmax : ∃ (m : Nat) (k : Int), m ≤ 2 ^ 53 ∧ -1074 ≤ k ∧ max a b = m * 2 ^ k ∧
      max a b < 2 ^ 1024 ∧ Float64.nearest (max a b).num.natAbs (max a b).den = max a b := by
    rcases max_choice a b with h | h <;> rw [h]
    · exact mantissa_of_round a ha hra
    · exact mantissa_of_round b hb hrb
  obtain ⟨m1, k1, hm1, hk1, e1, -, n1⟩ := fmin
  obtain ⟨m2, k2, hm2, hk2, e2, lt2, n2⟩ := fmax
  have h20 : (2 : ℚ) ≠ 0 := by norm_num
  have d1 : Float64.nearest (2 * min a b).num.natAbs (2 * min a b).den = 2 * min a b :=
    nearest_rat_fixed _ m1 (k1 + 1) (by positivity) hm1 (by omega)
      (by rw [e1, zpow_add₀ h20, zpow_one]; ring)
  have d2 : Float64.nearest (2 * max a b).num.natAbs (2 * max a b).den = 2 * max a b :=
    nearest_rat_fixed _ m2 (k2 + 1) (by positivity) hm2 (by omega)
      (by rw [e2, zpow_add₀ h20, zpow_one]; ring)
  have hlo : 2 * min a b ≤ a + b := by
    have := min_le_left a b
    have := min_le_right a b
    linarith
  have hhi : a + b ≤ 2 * max a b := by
    have := le_max_left a b
    have := le_max_right a b
    linarith
  have s1 := nearest_rat_mono _ _ (by positivity) hlo
  have s2 := nearest_rat_mono _ _ hab hhi
  rw [d1] at s1
  rw [d2] at s2
  rw [averageBP_fin a b hab, round_pos _ hab]
  generalize Float64.nearest (a + b).num.natAbs (a + b).den = N at s1 s2
  by_cases hbig : (2 : ℚ) ^ 1024 ≤ N
  · left
    rw [if_pos hbig, if_pos hbig]
    exact ⟨rfl, rfl⟩
  · right
    rw [if_neg hbig]
    have hN2 : 0 < N / 2 := by linarith
    have t1 := nearest_rat_mono (min a b) (N / 2) hmin (by linarith)
    have t2 := nearest_rat_mono (N / 2) (max a b) hN2 (by linarith)
    rw [n1] at t1
    rw [n2] at t2
    rw [round_pos _ hN2, if_neg (not_le.mpr (lt_of_le_of_lt t2 lt2))]
    exact ⟨_, rfl, t1, t2⟩

/-- The average of two `float64` from 1 on with a sum up to `2 ^ 1023` is
within one part in `2 ^ 51` of the exact average. -/
theorem averageBP_accuracy (a b : ℚ) (ha : 1 ≤ a) (hb : 1 ≤ b) (hsum : a + b ≤ 2 ^ 1023)
    (hra : (Float64.fin a).round = Float64.fin a)
    (hrb : (Float64.fin b).round = Float64.fin b) :
    ∃ q : ℚ, averageBP (Float64.fin a) (Float64.fin b) = Float64.fin q ∧
      min a b ≤ q ∧ q ≤ max a b ∧ |q - (a + b) / 2| ≤ (a + b) / 2 / 2 ^ 51 := by
  have ha0 : 0 < a := lt_of_lt_of_le one_pos ha
  have hb0 : 0 < b := lt_of_lt_of_le one_pos hb
  have hab : 0 < a + b := add_pos ha0 hb0
  have hsmall : (2 : ℚ) ^ (-1022 : ℤ) ≤ 1 := by
    rw [zpow_neg]
    exact inv_le_one_of_one_le₀ (by norm_num)
  have top : Float64.nearest ((2 : ℚ) ^ 1023).num.natAbs ((2 : ℚ) ^ 1023).den = 2 ^ 1023 :=
    nearest_rat_fixed _ 1 1023 (by positivity) (by norm_num) (by norm_num) (by norm_num)
  have one : Float64.nearest (1 : ℚ).num.natAbs (1 : ℚ).den = 1 :=
    nearest_rat_fixed _ 1 0 (by positivity) (by norm_num) (by norm_num) (by norm_num)
  have s2 := nearest_rat_mono _ _ hab hsum
  have s1 := nearest_rat_mono 1 (a + b) one_pos (by linarith)
  rw [top] at s2
  rw [one] at s1
  have herr := nearest_rel_error (a + b) (by linarith)
  rcases averageBP_between a b ha0 hb0 hra hrb with ⟨hinf, -⟩ | ⟨q, hq, hlo, hhi⟩
  · exfalso
    rw [round_pos _ hab, if_neg (not_le.mpr (lt_of_le_of_lt s2 (by norm_num)))] at hinf
    cases hinf
  · refine ⟨q, hq, hlo, hhi, ?_⟩
    rw [averageBP_fin a b hab, if_neg (not_le.mpr (lt_of_le_of_lt s2 (by norm_num)))] at hq
    generalize Float64.nearest (a + b).num.natAbs (a + b).den = N at s1 s2 herr hq
    have hN2 : 0 < N / 2 := by linarith
    have hNlo : (2 : ℚ) ^ (-1022 : ℤ) ≤ N / 2 := by
      have : (2 : ℚ) ^ (-1022 : ℤ) ≤ 1 / 2 := by
        rw [zpow_neg, one_div]
        exact inv_anti₀ (by norm_num) (by norm_num)
      have hmin1 : 1 ≤ min a b := le_min ha hb
      have hq1 : q ≤ max a b := hhi
      rw [round_pos _ hN2] at hq
      split_ifs at hq with hb2
      have hqN : Float64.nearest (N / 2).num.natAbs (N / 2).den = q := Float64.fin.inj hq
      by_contra hlt
      have hlt' : N / 2 < 1 := lt_of_lt_of_le (not_le.mp hlt) (by linarith)
      have := nearest_rat_mono (N / 2) 1 hN2 (le_of_lt hlt')
      rw [one, hqN] at this
      have hN1 : 1 ≤ N := s1
      have hqge : 1 ≤ q := le_trans hmin1 hlo
      have hexact : q = 1 := le_antisymm this hqge
      linarith
    have herr2 := nearest_rel_error (N / 2) hNlo
    rw [round_pos _ hN2] at hq
    split_ifs at hq with hb2
    have hqN : Float64.nearest (N / 2).num.natAbs (N / 2).den = q := Float64.fin.inj hq
    rw [hqN] at herr2
    rw [abs_le] at herr herr2 ⊢
    have e53 : (2 : ℚ) ^ 53 = 9007199254740992 := by norm_num
    have e51 : (2 : ℚ) ^ 51 = 2251799813685248 := by norm_num
    rw [e53] at herr herr2
    rw [e51]
    obtain ⟨a1, a2⟩ := herr
    obtain ⟨b1, b2⟩ := herr2
    constructor <;> linarith

/-- C11, amended.  Count a side of a blood pressure as 0 when its trimmed
input does not parse or is blank.  When both sides are greater than 0,
`parseBP` returns `(rightBP + leftBP) / 2` as Go computes it: the sum
rounded to a `float64`, halved, and rounded again.  For two sides that are
numbers this is the positive infinity when the sum rounds to it, and
otherwise a number between the two sides; for two sides from 1 on with a
sum up to `2 ^ 1023` it is a number within one part in `2 ^ 51` of the exact
average.  When exactly one side is greater than 0, `parseBP` returns that
side, and when neither is, an error.  So `140` and `120` give 130, `0` and
`120` give 120, `0` and `0` give an error, and `142.2` and `114.1` give
128.14999999999998. -/
theorem parseBP_spec (label right left : String) :
    ((bpSide right).gt (Float64.fin 0) = true → (bpSide left).gt (Float64.fin 0) = true →
        parseBP label [right, left] =
          .ok (Value.float (averageBP (bpSide right) (bpSide left)))) ∧
      (∀ a b : ℚ, bpSide right = Float64.fin a → bpSide left = Float64.fin b →
        0 < a → 0 < b →
        ((Float64.fin (a + b)).round = Float64.inf false ∧
          parseBP label [right, left] = .ok (Value.float (Float64.inf false))) ∨
        ∃ q : ℚ, parseBP label [right, left] = .ok (Value.float (Float64.fin q)) ∧
          min a b ≤ q ∧ q ≤ max a b) ∧
      (∀ a b : ℚ, bpSide right = Float64.fin a → bpSide left = Float64.fin b →
        1 ≤ a → 1 ≤ b → a + b ≤ 2 ^ 1023 →
        ∃ q : ℚ, parseBP label [right, left] = .ok (Value.float (Float64.fin q)) ∧
          min a b ≤ q ∧ q ≤ max a b ∧ |q - (a + b) / 2| ≤ (a + b) / 2 / 2 ^ 51) ∧
      ((bpSide right).gt (Float64.fin 0) = true → (bpSide left).gt (Float64.fin 0) = false →
        parseBP label [right, left] = .ok (Value.float (bpSide right))) ∧
      ((bpSide right).gt (Float64.fin 0) = false → (bpSide left).gt (Float64.fin 0) = true →
        parseBP label [right, left] = .ok (Value.float (bpSide left))) ∧
      ((bpSide right).gt (Float64.fin 0) = false → (bpSide left).gt (Float64.fin 0) = false →
        parseBP label [right, left] = .error ("無有效的" ++ label ++ "數據")) ∧
      parseBP label ["140", "120"] = .ok (Value.float (Float64.fin 130)) ∧
      parseBP label ["0", "120"] = .ok (Value.float (Float64.fin 120)) ∧
      parseBP label ["0", "0"] = .error ("無有效的" ++ label ++ "數據") ∧
      bpSide "142.2" = (Float64.fin 142.2).round ∧
      bpSide "114.1" = (Float64.fin 114.1).round ∧
      parseBP label ["142.2", "114.1"] =
        .ok (Value.float (Float64.fin (1127219320795955 / 8796093022208))) ∧
      (1127219320795955 : ℚ) / 8796093022208 < (142.2 + 114.1) / 2 := by
  have both : ∀ (r l : String) (a b : ℚ), bpSide r = Float64.fin a →
      bpSide l = Float64.fin b → 0 < a → 0 < b →
      parseBP label [r, l] = .ok (Value.float (averageBP (Float64.fin a) (Float64.fin b))) := by
    intro r l a b ha hb ha0 hb0
    rw [parseBP_eq, ha, hb]
    simp [gt_fin, ha0, hb0]
  have h140 : bpSide "140" = Float64.fin 140 := by decide!
  have h120 : bpSide "120" = Float64.fin 120 := by decide!
  have h0 : bpSide "0" = Float64.fin 0 := by decide!
  have h1422 : bpSide "142.2" = Float64.fin (2501608855515955 / 17592186044416) := by decide!
  have h1141 : bpSide "114.1" = Float64.fin (4014536855335731 / 35184372088832) := by decide!
  refine ⟨?_, ?_, ?_, ?_, ?_, ?_, ?_, ?_, ?_, by decide!, by decide!, ?_, by norm_num⟩
  · intro hr hl
    rw [parseBP_eq, hr, hl]
    rfl
  · intro a b ha hb ha0 hb0
    have hra : (Float64.fin a).round = Float64.fin a := by rw [← ha]; exact bpSide_round _
    have hrb : (Float64.fin b).round = Float64.fin b := by rw [← hb]; exact bpSide_round _
    rw [both right left a b ha hb ha0 hb0]
    rcases averageBP_between a b ha0 hb0 hra hrb with ⟨h1, h2⟩ | ⟨q, hq, hlo, hhi⟩
    · left
      rw [h2]
      exact ⟨h1, rfl⟩
    · right
      rw [hq]
      exact ⟨q, rfl, hlo, hhi⟩
  · intro a b ha hb ha1 hb1 hsum
    have hra : (Float64.fin a).round = Float64.fin a := by rw [← ha]; exact bpSide_round _
    have hrb : (Float64.fin b).round = Float64.fin b := by rw [← hb]; exact bpSide_round _
    rw [both right left a b ha hb (lt_of_lt_of_le one_pos ha1) (lt_of_lt_of_le one_pos hb1)]
    obtain ⟨q, hq, hlo, hhi, hacc⟩ := averageBP_accuracy a b ha1 hb1 hsum hra hrb
    rw [hq]
    exact ⟨q, rfl, hlo, hhi, hacc⟩
  · intro hr hl
    rw [parseBP_eq, hr, hl]
    rfl
  · intro hr hl
    rw [parseBP_eq, hr, hl]
    rfl
  · intro hr hl
    rw [parseBP_eq, hr, hl]
    rfl
  · rw [both "140" "120" 140 120 h140 h120 (by norm_num) (by norm_num)]
    exact congrArg (fun x => Except.ok (Value.float x)) (by decide!)
  · rw [parseBP_eq, h0, h120]
    simp [gt_fin]
  · rw [parseBP_eq, h0]
    simp [gt_fin]
  · rw [both "142.2" "114.1" _ _ h1422 h1141 (by norm_num) (by norm_num)]
    exact congrArg (fun x => Except.ok (Value.float x)) (by decide!)

/-- C11, as stated, fails.  The two sides `1e308` and `1e308` are the same
`float64`, which is also their average; yet `parseBP` returns the positive
infinity, because the sum of the two is too large for a `float64`. -/
theorem parseBP_average_counterexample :
    bpSide "1e308" = Float64.fin (156575653125701 * 2 ^ 976) ∧
      (0 : ℚ) < 156575653125701 * 2 ^ 976 ∧
      ((156575653125701 * 2 ^ 976 + 156575653125701 * 2 ^ 976 : ℚ)) / 2 =
        156575653125701 * 2 ^ 976 ∧
      parseBP "收縮壓" ["1e308", "1e308"] = .ok (Value.float (Float64.inf false)) ∧
      parseBP "收縮壓" ["1e308", "1e308"] ≠
        .ok (Value.float (Float64.fin (156575653125701 * 2 ^ 976))) := by
  refine ⟨by decide!, by positivity, by ring, by decide!, by decide!⟩

theorem parseAlcohol_eq (label f0 f1 f2 f3 f4 f5 f6 f7 : String) :
    parseAlcohol label [f0, f1, f2, f3, f4, f5, f6, f7] =
      if (if ([f1, f2, f3, f4, f5, f6, f7].map strings.TrimSpace).any
            (fun day => decide (day ≠ "0" ∧ day ≠ "")) then false
          else decide (strings.TrimSpace f0 ≠ "0" ∧ strings.TrimSpace f0 ≠ "")) = false then
        .ok (Value.int 2)
      else if strings.Contains (strings.TrimSpace f0) "社交飲酒" then .ok (Value.int 1)
      else if strings.Contains (strings.TrimSpace f0) "無飲酒" then .ok (Value.int 0)
      else .error ("輸出欄位【" ++ label ++ "】數據無效") := by
  unfold parseAlcohol
  dsimp only
  cases h : (if ([f1, f2, f3, f4, f5, f6, f7].map strings.TrimSpace).any
      (fun day => decide (day ≠ "0" ∧ day ≠ "")) then false
    else decide (strings.TrimSpace f0 ≠ "0" ∧ strings.TrimSpace f0 ≠ "")) <;> simp

theorem any_days_iff (days : List String) :
    (days.map strings.TrimSpace).any (fun day => decide (day ≠ "0" ∧ day ≠ "")) = true ↔
      ∃ d ∈ days, ¬ noDays d := by
  simp only [List.any_map, List.any_eq_true, Function.comp, decide_eq_true_eq, noDays]
  constructor
  · rintro ⟨d, hd, h0, he⟩
    exact ⟨d, hd, fun h => h.elim he h0⟩
  · rintro ⟨d, hd, h⟩
    exact ⟨d, hd, fun h0 => h (Or.inr h0), fun he => h (Or.inl he)⟩

/-- C12, on the code.  With the frequency and the seven day counts trimmed:
`parseAlcohol` returns 2 when some day count is neither blank nor `0`.  When
every day count is blank or `0` it also returns 2 if the frequency is blank
or `0`; otherwise it returns 1 if the frequency contains 社交飲酒, else 0 if
it contains 無飲酒, else an error.  On eight blank inputs it returns 2. -/
theorem parseAlcohol_cases (label f0 f1 f2 f3 f4 f5 f6 f7 : String) :
    ((∃ d ∈ [f1, f2, f3, f4, f5, f6, f7], ¬ noDays d) →
        parseAlcohol label [f0, f1, f2, f3, f4, f5, f6, f7] = .ok (Value.int 2)) ∧
      ((∀ d ∈ [f1, f2, f3, f4, f5, f6, f7], noDays d) →
        (noDays f0 → parseAlcohol label [f0, f1, f2, f3, f4, f5, f6, f7] = .ok (Value.int 2)) ∧
        (¬ noDays f0 →
          parseAlcohol label [f0, f1, f2, f3, f4, f5, f6, f7] =
            if strings.Contains (strings.TrimSpace f0) "社交飲酒" then .ok (Value.int 1)
            else if strings.Contains (strings.TrimSpace f0) "無飲酒" then .ok (Value.int 0)
            else .error ("輸出欄位【" ++ label ++ "】數據無效"))) ∧
      parseAlcohol label ["", "", "", "", "", "", "", ""] = .ok (Value.int 2) := by
  have hall : ∀ g0 g1 g2 g3 g4 g5 g6 g7 : String,
      (∀ d ∈ [g1, g2, g3, g4, g5, g6, g7], noDays d) → noDays g0 →
      parseAlcohol label [g0, g1, g2, g3, g4, g5, g6, g7] = .ok (Value.int 2) := by
    intro g0 g1 g2 g3 g4 g5 g6 g7 hd h0
    have hany : ¬ (([g1, g2, g3, g4, g5, g6, g7].map strings.TrimSpace).any
        (fun day => decide (day ≠ "0" ∧ day ≠ "")) = true) := by
      rw [any_days_iff]
      rintro ⟨d, hmem, hn⟩
      exact hn (hd d hmem)
    have hf : decide (strings.TrimSpace g0 ≠ "0" ∧ strings.TrimSpace g0 ≠ "") = false := by
      rw [decide_eq_false_iff_not]
      rintro ⟨a, b⟩
      exact h0.elim b a
    rw [parseAlcohol_eq, if_neg hany, hf]
    rfl
  refine ⟨?_, ?_, ?_⟩
  · intro h
    rw [parseAlcohol_eq, if_pos ((any_days_iff _).mpr h)]
    rfl
  · intro hd
    refine ⟨hall f0 f1 f2 f3 f4 f5 f6 f7 hd, ?_⟩
    intro h0
    have hany : ¬ (([f1, f2, f3, f4, f5, f6, f7].map strings.TrimSpace).any
        (fun day => decide (day ≠ "0" ∧ day ≠ "")) = true) := by
      rw [any_days_iff]
      rintro ⟨d, hmem, hn⟩
      exact hn (hd d hmem)
    have hf : decide (strings.TrimSpace f0 ≠ "0" ∧ strings.TrimSpace f0 ≠ "") = true := by
      rw [decide_eq_true_eq]
      exact ⟨fun a => h0 (Or.inr a), fun b => h0 (Or.inl b)⟩
    rw [parseAlcohol_eq, if_neg hany, hf]
    simp
  · exact hall "" "" "" "" "" "" "" ""
      (fun d hd => by
        simp only [List.mem_cons, List.mem_singleton, List.not_mem_nil, or_false,
          or_self] at hd
        subst hd
        exact Or.inl (by decide))
      (Or.inl (by decide))

/-- C13.  With the four inputs trimmed, and a field saying no when it is
blank or the marker 不抽: `parseCigarette` returns 2 when the current amount
or the years smoked does not say no; otherwise 1 when the years quit or the
prior amount does not say no; otherwise, all four saying no, 0. -/
theorem parseCigarette_spec (label f0 f1 f2 f3 : String) :
    (¬ notSmoking f0 ∨ ¬ notSmoking f1 →
        parseCigarette label [f0, f1, f2, f3] = .ok (Value.int 2)) ∧
      (notSmoking f0 → notSmoking f1 → ¬ notSmoking f2 ∨ ¬ notSmoking f3 →
        parseCigarette label [f0, f1, f2, f3] = .ok (Value.int 1)) ∧
      (notSmoking f0 → notSmoking f1 → notSmoking f2 → notSmoking f3 →
        parseCigarette label [f0, f1, f2, f3] = .ok (Value.int 0)) ∧
      parseCigarette label ["", " 不抽 ", "", "不抽"] = .ok (Value.int 0) ∧
      parseCigarette label ["不抽", "", "3年", ""] = .ok (Value.int 1) ∧
      parseCigarette label ["10支", "", "3年", ""] = .ok (Value.int 2) := by
  have key : ∀ g0 g1 g2 g3 : String,
      (¬ notSmoking g0 ∨ ¬ notSmoking g1 →
        parseCigarette label [g0, g1, g2, g3] = .ok (Value.int 2)) ∧
      (notSmoking g0 → notSmoking g1 → ¬ notSmoking g2 ∨ ¬ notSmoking g3 →
        parseCigarette label [g0, g1, g2, g3] = .ok (Value.int 1)) ∧
      (notSmoking g0 → notSmoking g1 → notSmoking g2 → notSmoking g3 →
        parseCigarette label [g0, g1, g2, g3] = .ok (Value.int 0)) := by
    intro g0 g1 g2 g3
    unfold parseCigarette notSmoking
    dsimp only
    refine ⟨?_, ?_, ?_⟩
    · intro h
      rw [if_pos]
      rcases h with h | h
      · left
        exact ⟨fun a => h (Or.inr a), fun b => h (Or.inl b)⟩
      · right
        exact ⟨fun a => h (Or.inr a), fun b => h (Or.inl b)⟩
    · intro h0 h1 h
      rw [if_neg, if_pos]
      · rcases h with h | h
        · left
          exact ⟨fun a => h (Or.inr a), fun b => h (Or.inl b)⟩
        · right
          exact ⟨fun a => h (Or.inr a), fun b => h (Or.inl b)⟩
      · rintro (⟨a, b⟩ | ⟨a, b⟩)
        · exact h0.elim b a
        · exact h1.elim b a
    · intro h0 h1 h2 h3
      rw [if_neg, if_neg, if_pos]
      · exact ⟨h0.symm, h1.symm, h2.symm, h3.symm⟩
      · rintro (⟨a, b⟩ | ⟨a, b⟩)
        · exact h2.elim b a
        · exact h3.elim b a
      · rintro (⟨a, b⟩ | ⟨a, b⟩)
        · exact h0.elim b a
        · exact h1.elim b a
  refine ⟨(key f0 f1 f2 f3).1, (key f0 f1 f2 f3).2.1, (key f0 f1 f2 f3).2.2, ?_, ?_, ?_⟩
  · exact (key "" " 不抽 " "" "不抽").2.2 (Or.inl (by decide)) (Or.inr (by decide))
      (Or.inl (by decide)) (Or.inr (by decide))
  · exact (key "不抽" "" "3年" "").2.1 (Or.inr (by decide)) (Or.inl (by decide))
      (Or.inl (by unfold notSmoking; decide))
  · exact (key "10支" "" "3年" "").1 (Or.inl (by unfold notSmoking; decide))

/-- C14, on the code.  `parseBetel` returns 0 when its input, trimmed, is blank
or the marker 不嚼, and 1 otherwise.  `parseDrink` does not trim: it returns
0 when its input is empty or exactly the marker 不喝, and 1 otherwise.
Neither fails on a single input.  So on a blank of white space, and on its
marker inside white space, `parseBetel` returns 0 and `parseDrink`
returns 1. -/
theorem parseBetel_parseDrink_cases (label s : String) :
    (strings.TrimSpace s = "" ∨ strings.TrimSpace s = "不嚼" →
        parseBetel label [s] = .ok (Value.int 0)) ∧
      (strings.TrimSpace s ≠ "" → strings.TrimSpace s ≠ "不嚼" →
        parseBetel label [s] = .ok (Value.int 1)) ∧
      (s = "" ∨ s = "不喝" → parseDrink label [s] = .ok (Value.int 0)) ∧
      (s ≠ "" → s ≠ "不喝" → parseDrink label [s] = .ok (Value.int 1)) ∧
      parseBetel label [" "] = .ok (Value.int 0) ∧
      parseBetel label [" 不嚼 "] = .ok (Value.int 0) ∧
      parseDrink label [""] = .ok (Value.int 0) ∧
      parseDrink label ["不喝"] = .ok (Value.int 0) ∧
      parseDrink label [" "] = .ok (Value.int 1) ∧
      parseDrink label [" 不喝 "] = .ok (Value.int 1) := by
  have betel0 : ∀ t : String, strings.TrimSpace t = "" ∨ strings.TrimSpace t = "不嚼" →
      parseBetel label [t] = .ok (Value.int 0) := by
    intro t h
    unfold parseBetel
    dsimp only
    rw [if_neg (fun hn => h.elim hn.2 hn.1), if_pos h.symm]
  have drink0 : ∀ t : String, t = "" ∨ t = "不喝" → parseDrink label [t] = .ok (Value.int 0) := by
    intro t h
    unfold parseDrink
    dsimp only
    rw [if_neg (fun hn => h.elim hn.2 hn.1), if_pos h.symm]
  have drink1 : ∀ t : String, t ≠ "" → t ≠ "不喝" → parseDrink label [t] = .ok (Value.int 1) := by
    intro t h1 h2
    unfold parseDrink
    dsimp only
    rw [if_pos ⟨h2, h1⟩]
  refine ⟨betel0 s, ?_, drink0 s, drink1 s, ?_, ?_, ?_, ?_, ?_, ?_⟩
  · intro h1 h2
    unfold parseBetel
    dsimp only
    rw [if_pos ⟨h2, h1⟩]
  · exact betel0 " " (Or.inl (by decide))
  · exact betel0 " 不嚼 " (Or.inr (by decide))
  · exact drink0 "" (Or.inl rfl)
  · exact drink0 "不喝" (Or.inr rfl)
  · exact drink1 " " (by decide) (by decide)
  · exact drink1 " 不喝 " (by decide) (by decide)

/-- C18.  For categories and scores of equal length, `convertToScore` returns
the score at the smallest index whose category occurs in the response as a
block of consecutive characters, and it returns an error exactly when no
category occurs in the response; the error quotes the response. -/
theorem convertToScore_spec (response : String) (categories : List String)
    (scores : List Int) (hlen : categories.length = scores.length) :
    (∀ (i : Nat) (hi : i < categories.length),
        (categories.get ⟨i, hi⟩).data <:+: response.data →
        (∀ (j : Nat) (hj : j < categories.length), j < i →
          ¬ (categories.get ⟨j, hj⟩).data <:+: response.data) →
        convertToScore response categories scores (le_of_eq hlen) =
          .ok (scores.get ⟨i, hlen ▸ hi⟩)) ∧
      ((∃ err, convertToScore response categories scores (le_of_eq hlen) = .error err) ↔
        ∀ c ∈ categories, ¬ c.data <:+: response.data) ∧
      ((∀ c ∈ categories, ¬ c.data <:+: response.data) →
        convertToScore response categories scores (le_of_eq hlen) =
          .error ("無法解析回應: " ++ response)) := by
  induction categories generalizing scores with
  | nil =>
    refine ⟨fun i hi => absurd hi (Nat.not_lt_zero _), ?_, fun _ => rfl⟩
    exact ⟨fun _ c hc => absurd hc (List.not_mem_nil _), fun _ => ⟨_, rfl⟩⟩
  | cons c cs ih =>
    cases scores with
    | nil => simp at hlen
    | cons sc ss =>
      have hlen' : cs.length = ss.length := by simpa using hlen
      obtain ⟨ih1, ih2, ih3⟩ := ih ss hlen'
      by_cases hc : strings.Contains response c = true
      · have hinf : c.data <:+: response.data := (containsChars_iff _ _).mp hc
        have hval : convertToScore response (c :: cs) (sc :: ss) (le_of_eq hlen) = .ok sc := by
          simp only [convertToScore, hc, if_true]
        refine ⟨?_, ?_, ?_⟩
        · intro i hi _ hmin
          cases i with
          | zero => exact hval
          | succ k => exact absurd hinf (hmin 0 (by simp) (by omega))
        · rw [hval]
          constructor
          · rintro ⟨err, h⟩
            cases h
          · intro h
            exact absurd hinf (h c (List.mem_cons_self _ _))
        · intro h
          exact absurd hinf (h c (List.mem_cons_self _ _))
      · have hninf : ¬ c.data <:+: response.data := fun h => hc ((containsChars_iff _ _).mpr h)
        have hstep : convertToScore response (c :: cs) (sc :: ss) (le_of_eq hlen) =
            convertToScore response cs ss (le_of_eq hlen') := by
          simp only [convertToScore, hc]
          rfl
        rw [hstep]
        refine ⟨?_, ?_, ?_⟩
        · intro i hi hin hmin
          cases i with
          | zero => exact absurd hin hninf
          | succ k =>
            have hk : k < cs.length := by simpa using hi
            exact ih1 k hk hin (fun j hj hjk => hmin (j + 1) (by simpa using hj) (by omega))
        · rw [ih2]
          constructor
          · intro h x hx
            rcases List.mem_cons.mp hx with rfl | hx'
            · exact hninf
            · exact h x hx'
          · intro h x hx
            exact h x (List.mem_cons_of_mem _ hx)
        · intro h
          exact ih3 fun x hx => h x (List.mem_cons_of_mem _ hx)

theorem convertToScore_spec_witness :
    (∀ (i : Nat) (hi : i < ["非常厲害", "厲害"].length),
        (["非常厲害", "厲害"].get ⟨i, hi⟩).data <:+: "厲害".data →
        (∀ (j : Nat) (hj : j < ["非常厲害", "厲害"].length), j < i →
          ¬ (["非常厲害", "厲害"].get ⟨j, hj⟩).data <:+: "厲害".data) →
        convertToScore "厲害" ["非常厲害", "厲害"] [4, 3] (le_of_eq rfl) =
          .ok (([4, 3] : List Int).get ⟨i, (rfl : ["非常厲害", "厲害"].length = 2) ▸ hi⟩)) ∧
      ((∃ err, convertToScore "厲害" ["非常厲害", "厲害"] [4, 3] (le_of_eq rfl) = .error err) ↔
        ∀ c ∈ ["非常厲害", "厲害"], ¬ c.data <:+: "厲害".data) ∧
      ((∀ c ∈ ["非常厲害", "厲害"], ¬ c.data <:+: "厲害".data) →
        convertToScore "厲害" ["非常厲害", "厲害"] [4, 3] (le_of_eq rfl) =
          .error ("無法解析回應: " ++ "厲害")) :=
  convertToScore_spec "厲害" ["非常厲害", "厲害"] [4, 3] rfl

/-! ## Trimming, integers and patterns -/

theorem dropWhile_eq_self_of_head (p : Char → Bool) (l : List Char)
    (h : ∀ c, l.head? = some c → p c = false) : l.dropWhile p = l := by
  cases l with
  | nil => rfl
  | cons a t => exact dropWhile_head p a t (h a rfl)

theorem head_dropWhile_not (p : Char → Bool) (l : List Char) :
    ∀ c, (l.dropWhile p).head? = some c → p c = false := by
  induction l with
  | nil => intro c h; cases h
  | cons a t ih =>
    intro c h
    by_cases ha : p a = true
    · rw [List.dropWhile_cons, if_pos ha] at h
      exact ih c h
    · rw [List.dropWhile_cons, if_neg ha] at h
      cases h
      simpa using ha

/-- Trimming a trimmed text changes nothing. -/
theorem trimChars_idem (cs : List Char) :
    strings.trimChars (strings.trimChars cs) = strings.trimChars cs := by
  unfold strings.trimChars
  have hu := head_dropWhile_not strings.isSpace cs
  generalize cs.dropWhile strings.isSpace = u at hu
  have hv : ((u.reverse.dropWhile strings.isSpace).reverse).dropWhile strings.isSpace =
      (u.reverse.dropWhile strings.isSpace).reverse := by
    apply dropWhile_eq_self_of_head
    intro c hc
    obtain ⟨w, hw⟩ := List.dropWhile_suffix (l := u.reverse) strings.isSpace
    have hu' : u = (u.reverse.dropWhile strings.isSpace).reverse ++ w.reverse := by
      have := congrArg List.reverse hw
      rw [List.reverse_append, List.reverse_reverse] at this
      exact this.symm
    apply hu
    rw [hu']
    generalize (u.reverse.dropWhile strings.isSpace).reverse = v at hc
    cases v with
    | nil => cases hc
    | cons a t => exact hc
  rw [hv, List.reverse_reverse]
  congr 1
  exact dropWhile_eq_self_of_head _ _ (head_dropWhile_not _ _)

theorem TrimSpace_idem (s : String) :
    strings.TrimSpace (strings.TrimSpace s) = strings.TrimSpace s := by
  unfold strings.TrimSpace
  exact congrArg String.mk (trimChars_idem s.data)

theorem str2Day_trim (s : String) : str2Day (strings.TrimSpace s) = str2Day s := by
  unfold str2Day
  rw [TrimSpace_idem]

theorem str2Min_trim (s : String) : str2Min (strings.TrimSpace s) = str2Min s := by
  unfold str2Min
  rw [TrimSpace_idem]

theorem wrap_modEq (x : Int) : int64.wrap x ≡ x [ZMOD 2 ^ 64] := by
  unfold int64.wrap Int.ModEq
  omega

theorem wrap_congr (x y : Int) (h : x ≡ y [ZMOD 2 ^ 64]) : int64.wrap x = int64.wrap y := by
  unfold int64.wrap
  unfold Int.ModEq at h
  omega

theorem wrap_of_range (x : Int) (hlo : -(2 ^ 63) ≤ x) (hhi : x < 2 ^ 63) : int64.wrap x = x := by
  unfold int64.wrap
  omega

theorem wrap_range (x : Int) : -(2 ^ 63) ≤ int64.wrap x ∧ int64.wrap x < 2 ^ 63 := by
  unfold int64.wrap
  omega

/-- The sum of products of `parseExcercise` is the exact one, reduced to an
`int`. -/
theorem excercise_total (a b c d : Int) :
    int64.add (int64.mul (int64.mul a b) 2) (int64.mul c d) =
      int64.wrap (a * b * 2 + c * d) := by
  unfold int64.add int64.mul
  apply wrap_congr
  exact Int.ModEq.add (((wrap_modEq _).trans ((wrap_modEq _).mul_right 2))) (wrap_modEq _)

theorem digitVal_isSome (c : Char) :
    (strconv.digitVal false c).isSome = regexp.isDigit c := by
  unfold strconv.digitVal regexp.isDigit
  by_cases h : 48 ≤ c.toNat ∧ c.toNat ≤ 57
  · simp [h]
  · simp [h]

theorem decimal_fold_some (cs : List Char) (acc : Option Nat) (n : Nat)
    (h : cs.foldl (fun acc c => acc.bind fun n =>
      (strconv.digitVal false c).map fun d => n * 10 + d) acc = some n) :
    acc.isSome = true ∧ ∀ c ∈ cs, regexp.isDigit c = true := by
  induction cs generalizing acc with
  | nil =>
    simp only [List.foldl_nil] at h
    simp [h]
  | cons c cs ih =>
    rw [List.foldl_cons] at h
    obtain ⟨h1, h2⟩ := ih _ h
    cases acc with
    | none => simp at h1
    | some a =>
      refine ⟨rfl, ?_⟩
      intro x hx
      rcases List.mem_cons.mp hx with rfl | hx
      · rw [← digitVal_isSome]
        cases hd : strconv.digitVal false x with
        | none => simp [hd] at h1
        | some d => rfl
      · exact h2 x hx

/-- A text that `decimal` reads is a non-empty run of digits. -/
theorem decimal_some (ds : List Char) (n : Nat) (h : strconv.decimal ds = some n) :
    ds ≠ [] ∧ ∀ c ∈ ds, regexp.isDigit c = true := by
  cases ds with
  | nil => cases h
  | cons c cs => exact ⟨List.cons_ne_nil _ _, (decimal_fold_some _ _ n h).2⟩

theorem digit_not_sign (c : Char) (h : regexp.isDigit c = true) : ¬ (c = '+' ∨ c = '-') := by
  rintro (rfl | rfl) <;> revert h <;> decide

/-- `strconv.Atoi` on a run of digits: the number, or the largest `int` and
an error when the number does not fit. -/
theorem Atoi_digits (ds : List Char) (n : Nat) (h : strconv.decimal ds = some n) :
    (strconv.Atoi ⟨ds⟩).val = min (n : Int) (2 ^ 63 - 1) ∧
      ((strconv.Atoi ⟨ds⟩).err = none ↔ n < 2 ^ 63) := by
  cases ds with
  | nil => cases h
  | cons c cs =>
    have hc : regexp.isDigit c = true := (decimal_some _ n h).2 c (List.mem_cons_self _ _)
    have hs := digit_not_sign c hc
    have hm : c ≠ '-' := fun e => hs (Or.inr e)
    unfold strconv.Atoi
    simp only [strconv.dropSign, if_neg hs, h, if_neg hm]
    have h0 : ¬ ((n : Int) < -(2 ^ 63)) := by omega
    rw [if_neg h0]
    by_cases hn : (2 : Int) ^ 63 ≤ n
    · rw [if_pos hn]
      refine ⟨by simp only []; omega, ?_⟩
      simp only [false_iff, reduceCtorEq]
      omega
    · rw [if_neg hn]
      refine ⟨by simp only []; omega, ?_⟩
      simp only [true_iff]
      omega

/-- `strconv.Atoi` fails on a text that starts with a digit and has a
character that is not a digit. -/
theorem Atoi_not_digits (c : Char) (cs : List Char) (x : Char) (hc : regexp.isDigit c = true)
    (hx : x ∈ c :: cs) (hnd : regexp.isDigit x = false) :
    (strconv.Atoi ⟨c :: cs⟩).err ≠ none := by
  have hs := digit_not_sign c hc
  have hd : strconv.decimal (c :: cs) = none := by
    cases hdec : strconv.decimal (c :: cs) with
    | none => rfl
    | some n =>
      have := (decimal_some _ n hdec).2 x hx
      rw [hnd] at this
      cases this
  unfold strconv.Atoi
  simp only [strconv.dropSign, if_neg hs, hd]
  simp

theorem leftmost_map {α β : Type} (m : List Char → Option α) (f : α → β) (s : List Char) :
    regexp.leftmost (fun t => (m t).map f) s = (regexp.leftmost m s).map f := by
  induction s with
  | nil => rfl
  | cons c cs ih =>
    simp only [regexp.leftmost]
    cases m (c :: cs) with
    | none => simpa using ih
    | some r => rfl

theorem leftmost_head {α : Type} (m : List Char → Option α) (s : List Char) (r : α)
    (h : m s = some r) : regexp.leftmost m s = some r := by
  cases s with
  | nil => exact h
  | cons c cs => simp only [regexp.leftmost, h]

/-- A prefix at none of whose positions the pattern matches is skipped. -/
theorem leftmost_skip {α : Type} (m : List Char → Option α) (pre t : List Char)
    (h : ∀ p, p <:+ pre → p ≠ [] → m (p ++ t) = none) :
    regexp.leftmost m (pre ++ t) = regexp.leftmost m t := by
  induction pre with
  | nil => rfl
  | cons c cs ih =>
    have h1 := h (c :: cs) (List.suffix_refl _) (List.cons_ne_nil _ _)
    rw [List.cons_append] at h1 ⊢
    simp only [regexp.leftmost, h1]
    exact ih fun p hp hne => h p (hp.trans (List.suffix_cons _ _)) hne

theorem leftmost_eq_none {α : Type} (m : List Char → Option α) (s : List Char) :
    regexp.leftmost m s = none ↔ ∀ t, t <:+ s → m t = none := by
  induction s with
  | nil =>
    simp only [regexp.leftmost, List.suffix_nil]
    exact ⟨fun h t ht => ht ▸ h, fun h => h [] rfl⟩
  | cons c cs ih =>
    simp only [regexp.leftmost]
    constructor
    · intro h t ht
      cases hm : m (c :: cs) with
      | some r => rw [hm] at h; cases h
      | none =>
        rw [hm] at h
        rcases List.suffix_cons_iff.mp ht with rfl | ht
        · exact hm
        · exact ih.mp h t ht
    · intro h
      rw [h (c :: cs) (List.suffix_refl _)]
      exact ih.mpr fun t ht => h t (ht.trans (List.suffix_cons _ _))

theorem takeWhile_append_stop (p : Char → Bool) (ds : List Char) (x : Char) (rest : List Char)
    (hds : ∀ c ∈ ds, p c = true) (hx : p x = false) :
    (ds ++ x :: rest).takeWhile p = ds ∧ (ds ++ x :: rest).dropWhile p = x :: rest := by
  induction ds with
  | nil => simp [List.takeWhile_cons, List.dropWhile_cons, hx]
  | cons a t ih =>
    have ha := hds a (List.mem_cons_self _ _)
    obtain ⟨i1, i2⟩ := ih fun c hc => hds c (List.mem_cons_of_mem _ hc)
    simp [List.takeWhile_cons, List.dropWhile_cons, ha, i1, i2]

theorem literal_append (lit rest : List Char) : regexp.literal lit (lit ++ rest) = some rest := by
  unfold regexp.literal
  rw [if_pos (List.isPrefixOf_iff_prefix.mpr (List.prefix_append _ _))]
  simp

theorem literal_some (lit s rest : List Char) (h : regexp.literal lit s = some rest) :
    s = lit ++ rest := by
  unfold regexp.literal at h
  by_cases hp : lit.isPrefixOf s = true
  · rw [if_pos hp] at h
    obtain ⟨t, ht⟩ := List.isPrefixOf_iff_prefix.mp hp
    cases h
    rw [← ht]
    simp
  · rw [if_neg hp] at h
    cases h

/-- A run of digits, then the literal: the pattern matches at the start. -/
theorem digitsThen_digits (x : Char) (lit ds rest : List Char) (hne : ds ≠ [])
    (hds : ∀ c ∈ ds, regexp.isDigit c = true) (hx : regexp.isDigit x = false) :
    regexp.digitsThen (x :: lit) (ds ++ (x :: lit) ++ rest) = some (ds, rest) := by
  obtain ⟨h1, h2⟩ := takeWhile_append_stop regexp.isDigit ds x (lit ++ rest) hds hx
  unfold regexp.digitsThen
  rw [List.append_assoc, List.cons_append]
  simp only [h1, h2, if_neg hne]
  rw [← List.cons_append, literal_append]
  rfl

/-- What a match of the pattern at the start says of the text. -/
theorem digitsThen_some (lit s ds rest : List Char)
    (h : regexp.digitsThen lit s = some (ds, rest)) :
    ds ≠ [] ∧ (∀ c ∈ ds, regexp.isDigit c = true) ∧ ds = s.takeWhile regexp.isDigit ∧
      s = ds ++ lit ++ rest := by
  unfold regexp.digitsThen at h
  by_cases hne : s.takeWhile regexp.isDigit = []
  · simp only [hne, if_true] at h
    cases h
  · simp only [if_neg hne] at h
    cases hl : regexp.literal lit (s.dropWhile regexp.isDigit) with
    | none => rw [hl] at h; cases h
    | some r =>
      rw [hl] at h
      simp only [Option.map_some'] at h
      cases h
      refine ⟨hne, fun c hc => List.mem_takeWhile_imp hc, rfl, ?_⟩
      rw [List.append_assoc, ← literal_some _ _ _ hl, List.takeWhile_append_dropWhile]

theorem getLast_split (l : List Char) (h : l ≠ []) : ∃ q d, l = q ++ [d] :=
  ⟨l.dropLast, l.getLast h, (List.dropLast_append_getLast h).symm⟩

/-- The pattern `(\d+)` followed by a literal without digits matches
somewhere exactly when a digit stands immediately before the literal. -/
theorem leftmost_digitsThen_isSome (x : Char) (lit s : List Char)
    (hx : regexp.isDigit x = false) :
    (∃ r, regexp.leftmost (regexp.digitsThen (x :: lit)) s = some r) ↔
      ∃ d, regexp.isDigit d = true ∧ (d :: x :: lit) <:+: s := by
  constructor
  · rintro ⟨r, hr⟩
    have hnone : ¬ ∀ t, t <:+ s → regexp.digitsThen (x :: lit) t = none := by
      intro hall
      rw [(leftmost_eq_none _ _).mpr hall] at hr
      cases hr
    push_neg at hnone
    obtain ⟨t, hts, hm⟩ := hnone
    cases hdt : regexp.digitsThen (x :: lit) t with
    | none => exact absurd hdt hm
    | some r' =>
      obtain ⟨ds, rest⟩ := r'
      obtain ⟨hne, hds, -, ht⟩ := digitsThen_some _ _ _ _ hdt
      obtain ⟨q, d, hq⟩ := getLast_split ds hne
      refine ⟨d, hds d (by rw [hq]; simp), ?_⟩
      obtain ⟨a, ha⟩ := hts
      refine ⟨a ++ q, rest, ?_⟩
      rw [← ha, ht, hq]
      simp
  · rintro ⟨d, hd, a, b, hab⟩
    have hm : regexp.digitsThen (x :: lit) ([d] ++ (x :: lit) ++ b) = some ([d], b) :=
      digitsThen_digits x lit [d] b (List.cons_ne_nil _ _)
        (fun c hc => by rw [List.mem_singleton.mp hc]; exact hd) hx
    cases hl : regexp.leftmost (regexp.digitsThen (x :: lit)) s with
    | some r => exact ⟨r, rfl⟩
    | none =>
      have := (leftmost_eq_none _ _).mp hl ([d] ++ (x :: lit) ++ b)
        ⟨a, by rw [← hab]; simp⟩
      rw [hm] at this
      cases this

/-- The leftmost match of `(\d+)` followed by a literal without digits: the
first run of digits that stands immediately before the literal. -/
theorem leftmost_digitsThen_first (x : Char) (lit pre ds post : List Char)
    (hx : ∀ c ∈ x :: lit, regexp.isDigit c = false) (hne : ds ≠ [])
    (hds : ∀ c ∈ ds, regexp.isDigit c = true)
    (hlast : ∀ c, pre.getLast? = some c → regexp.isDigit c = false)
    (hpre : ¬ ∃ d, regexp.isDigit d = true ∧ (d :: x :: lit) <:+: pre) :
    regexp.leftmost (regexp.digitsThen (x :: lit)) (pre ++ (ds ++ (x :: lit) ++ post)) =
      some (ds, post) := by
  have hx0 : regexp.isDigit x = false := hx x (List.mem_cons_self _ _)
  rw [leftmost_skip]
  · exact leftmost_head _ _ _ (digitsThen_digits x lit ds post hne hds hx0)
  · intro p hp hpne
    cases hdt : regexp.digitsThen (x :: lit) (p ++ (ds ++ (x :: lit) ++ post)) with
    | none => rfl
    | some r =>
      exfalso
      obtain ⟨ds', rest'⟩ := r
      obtain ⟨hne', hds', htw, heq⟩ := digitsThen_some _ _ _ _ hdt
      by_cases hall : ∀ c ∈ p, regexp.isDigit c = true
      · obtain ⟨q, d, hq⟩ := getLast_split p hpne
        obtain ⟨a, ha⟩ := hp
        have hl : pre.getLast? = some d := by
          rw [← ha, hq, ← List.append_assoc]
          simp
        have := hlast d hl
        rw [hall d (by rw [hq]; simp)] at this
        cases this
      · push_neg at hall
        have hsplit := List.takeWhile_append_dropWhile regexp.isDigit p
        have hdrop : ∃ y p2, p.dropWhile regexp.isDigit = y :: p2 ∧ regexp.isDigit y = false := by
          cases hd : p.dropWhile regexp.isDigit with
          | nil =>
            obtain ⟨c, hc, hcn⟩ := hall
            have : ∀ c ∈ p, regexp.isDigit c = true := by
              rw [List.dropWhile_eq_nil_iff] at hd
              exact hd
            exact absurd (this c hc) hcn
          | cons y p2 =>
            exact ⟨y, p2, rfl, head_dropWhile_not regexp.isDigit p y (by rw [hd]; rfl)⟩
        obtain ⟨y, p2, hd, hy⟩ := hdrop
        rw [hd] at hsplit
        have htake := takeWhile_append_stop regexp.isDigit (p.takeWhile regexp.isDigit) y
          (p2 ++ (ds ++ (x :: lit) ++ post)) (fun c hc => List.mem_takeWhile_imp hc) hy
        have hp' : p ++ (ds ++ (x :: lit) ++ post) =
            p.takeWhile regexp.isDigit ++ y :: (p2 ++ (ds ++ (x :: lit) ++ post)) := by
          nth_rewrite 1 [← hsplit]
          simp
        rw [hp'] at htw heq
        rw [htake.1] at htw
        rw [htw] at heq hne'
        simp only [List.append_assoc] at heq
        have heq2 := List.append_cancel_left heq
        have heq3 : (y :: p2) ++ (ds ++ (x :: lit) ++ post) = (x :: lit) ++ rest' := by
          simpa using heq2
        rcases List.append_eq_append_iff.mp heq3 with ⟨a', h1, h2⟩ | ⟨c', h1, h2⟩
        · cases a' with
          | nil =>
            rw [List.append_nil] at h1
            obtain ⟨q, d, hq⟩ := getLast_split _ hne'
            apply hpre
            refine ⟨d, List.mem_takeWhile_imp (p := regexp.isDigit) (l := p)
              (by rw [hq]; simp), ?_⟩
            obtain ⟨a, ha⟩ := hp
            refine ⟨a ++ q, [], ?_⟩
            rw [← ha, ← hsplit, hq, h1]
            simp
          | cons z a'' =>
            have hz : z ∈ x :: lit := by rw [h1]; simp
            have hzd := hx z hz
            cases ds with
            | nil => exact hne rfl
            | cons e ds2 =>
              have he := hds e (List.mem_cons_self _ _)
              simp only [List.cons_append, List.cons.injEq] at h2
              rw [h2.1, hzd] at he
              cases he
        · obtain ⟨q, d, hq⟩ := getLast_split _ hne'
          apply hpre
          refine ⟨d, List.mem_takeWhile_imp (p := regexp.isDigit) (l := p)
            (by rw [hq]; simp), ?_⟩
          obtain ⟨a, ha⟩ := hp
          refine ⟨a ++ q, c', ?_⟩
          rw [← ha, ← hsplit, hq, h1]
          simp

/-! ## Days, minutes and exercise -/

theorem string_ne_empty_of_data (t : String) (c : Char) (cs : List Char)
    (h : t.data = c :: cs) : t ≠ "" := by
  intro e
  rw [e] at h
  cases h

theorem DayPattern_eq (t : List Char) :
    DayPattern t = (regexp.leftmost (regexp.digitsThen ['天']) t).map fun r => ⟨r.1⟩ :=
  leftmost_map _ _ _

theorem DayPattern_isSome (t : List Char) :
    (∃ d, DayPattern t = some d) ↔ digitBefore "天" t := by
  rw [DayPattern_eq]
  have h := leftmost_digitsThen_isSome '天' [] t (by decide)
  unfold digitBefore
  rw [show "天".data = ['天'] from rfl, ← h]
  cases regexp.leftmost (regexp.digitsThen ['天']) t with
  | none => simp
  | some r => simp

/-- The first run of digits that stands immediately before 天 is what
`str2Day` reads in a text that is not blank and not an integer. -/
theorem str2Day_first (s : String) (pre ds post : List Char) (n : Nat)
    (herr : (strconv.Atoi (strings.TrimSpace s)).err ≠ none)
    (ht : (strings.TrimSpace s).data = pre ++ (ds ++ "天".data ++ post))
    (hn : strconv.decimal ds = some n)
    (hlast : ∀ c, pre.getLast? = some c → regexp.isDigit c = false)
    (hpre : ¬ digitBefore "天" pre) :
    str2Day s = .ok (min (n : Int) (2 ^ 63 - 1)) := by
  obtain ⟨hne, hds⟩ := decimal_some ds n hn
  have hnb : strings.TrimSpace s ≠ "" := by
    intro e
    rw [e] at ht
    cases pre with
    | nil =>
      cases ds with
      | nil => exact hne rfl
      | cons c cs => cases ht
    | cons c cs => cases ht
  have hm : DayPattern (strings.TrimSpace s).data = some ⟨ds⟩ := by
    rw [DayPattern_eq, ht, show "天".data = ['天'] from rfl,
      leftmost_digitsThen_first '天' [] pre ds post (by decide) hne hds hlast hpre]
    rfl
  unfold str2Day
  simp only [if_neg hnb, if_neg herr, hm, (Atoi_digits ds n hn).1]

/-- C16, amended.  With `t` the trimmed input, `str2Day` returns 0 when `t`
is empty and the integer when `strconv.Atoi` reads `t`, in particular the
number `n` when `t` is a run of decimal digits of value `n` below 2 ^ 63.
When `t` is a run of decimal digits followed by 天, it returns the value of
the digits, and the largest `int` when that value does not fit.  The same
holds when the run and 天 stand anywhere in a `t` that is not an integer:
the first run of digits immediately before a 天 is read.  It fails exactly
when `t` is not empty, is not an integer and has no digit immediately
before a 天, and the error quotes `t`. -/
theorem str2Day_spec (s : String) :
    (strings.TrimSpace s = "" → str2Day s = .ok 0) ∧
      (strings.TrimSpace s ≠ "" → (strconv.Atoi (strings.TrimSpace s)).err = none →
        str2Day s = .ok (strconv.Atoi (strings.TrimSpace s)).val) ∧
      (∀ ds n, strconv.decimal ds = some n → n < 2 ^ 63 →
        (strings.TrimSpace s).data = ds → str2Day s = .ok (n : Int)) ∧
      (∀ ds n, strconv.decimal ds = some n →
        (strings.TrimSpace s).data = ds ++ "天".data →
        str2Day s = .ok (min (n : Int) (2 ^ 63 - 1))) ∧
      (∀ pre ds post n, (strconv.Atoi (strings.TrimSpace s)).err ≠ none →
        (strings.TrimSpace s).data = pre ++ (ds ++ "天".data ++ post) →
        strconv.decimal ds = some n →
        (∀ c, pre.getLast? = some c → regexp.isDigit c = false) →
        ¬ digitBefore "天" pre →
        str2Day s = .ok (min (n : Int) (2 ^ 63 - 1))) ∧
      ((∃ err, str2Day s = .error err) ↔
        strings.TrimSpace s ≠ "" ∧ (strconv.Atoi (strings.TrimSpace s)).err ≠ none ∧
          ¬ digitBefore "天" (strings.TrimSpace s).data) ∧
      (∀ err, str2Day s = .error err →
        err = "無法解析時間字串(天): " ++ strings.TrimSpace s) ∧
      str2Day " " = .ok 0 ∧ str2Day " 7 " = .ok 7 ∧ str2Day "3天" = .ok 3 ∧
      str2Day "三天" = .error "無法解析時間字串(天): 三天" := by
  refine ⟨?_, ?_, ?_, ?_, ?_, ?_, ?_, by decide, by decide, by decide, by decide⟩
  · intro h
    unfold str2Day
    simp only [h, if_true]
  · intro h1 h2
    unfold str2Day
    simp only [if_neg h1, h2, if_true]
  · intro ds n hn hlt ht
    obtain ⟨hne, hds⟩ := decimal_some ds n hn
    have hts : strings.TrimSpace s = ⟨ds⟩ := by
      rw [← ht]
    have hnb : strings.TrimSpace s ≠ "" := by
      cases ds with
      | nil => exact absurd rfl hne
      | cons c cs => exact string_ne_empty_of_data _ c cs ht
    obtain ⟨hv, he⟩ := Atoi_digits ds n hn
    have hmin : min (n : Int) (2 ^ 63 - 1) = n := by
      have : (n : Int) < 2 ^ 63 := by exact_mod_cast hlt
      omega
    rw [hmin] at hv
    rw [hts] at hnb
    unfold str2Day
    simp only [hts, if_neg hnb, he.mpr hlt, if_true, hv]
  · intro ds n hn ht
    obtain ⟨hne, hds⟩ := decimal_some ds n hn
    have herr : (strconv.Atoi (strings.TrimSpace s)).err ≠ none := by
      have hts : strings.TrimSpace s = ⟨ds ++ "天".data⟩ := by
        rw [← ht]
      rw [hts]
      cases ds with
      | nil => exact absurd rfl hne
      | cons c cs =>
        exact Atoi_not_digits c (cs ++ "天".data) '天' (hds c (List.mem_cons_self _ _))
          (by simp [show "天".data = ['天'] from rfl]) (by decide)
    refine str2Day_first s [] ds [] n herr (by simpa using ht) hn ?_ ?_
    · intro c hc
      cases hc
    · rintro ⟨d, -, hd⟩
      simp at hd
  · intro pre ds post n herr ht hn hlast hpre
    exact str2Day_first s pre ds post n herr ht hn hlast hpre
  · unfold str2Day
    by_cases h1 : strings.TrimSpace s = ""
    · simp [h1]
    · by_cases h2 : (strconv.Atoi (strings.TrimSpace s)).err = none
      · simp [h1, h2]
      · simp only [if_neg h1, if_neg h2, ← DayPattern_isSome]
        cases DayPattern (strings.TrimSpace s).data with
        | none => simp [h1, h2]
        | some d => simp
  · intro err
    unfold str2Day
    by_cases h1 : strings.TrimSpace s = ""
    · simp [h1]
    · by_cases h2 : (strconv.Atoi (strings.TrimSpace s)).err = none
      · simp [h1, h2]
      · simp only [if_neg h1, if_neg h2]
        cases DayPattern (strings.TrimSpace s).data with
        | none =>
          intro h
          cases h
          rfl
        | some d =>
          intro h
          cases h

/-- C16, counterexample.  The text `abc5天xyz` is not blank, is not an
integer and is not a decimal number followed by 天, yet `str2Day` returns 5
for it; and `9223372036854775808天` is a decimal number followed by 天 for
which `str2Day` returns another number, 9223372036854775807. -/
theorem str2Day_embedded_counterexample :
    ¬ countForm "天" "abc5天xyz" ∧ str2Day "abc5天xyz" = .ok 5 ∧
      strconv.decimal "9223372036854775808".data = some 9223372036854775808 ∧
      str2Day "9223372036854775808天" = .ok 9223372036854775807 := by
  refine ⟨?_, by decide, by decide, by decide⟩
  have ht : (strings.TrimSpace "abc5天xyz").data = ['a', 'b', 'c', '5', '天', 'x', 'y', 'z'] := by
    decide
  rintro (h | h | ⟨ds, n, -, h⟩)
  · revert h
    decide
  · revert h
    decide
  · rw [ht] at h
    have := congrArg List.getLast? h
    simp [show "天".data = ['天'] from rfl] at this

theorem hourPattern_eq (t : List Char) :
    hourPattern t = (regexp.leftmost (regexp.digitsThen ['小', '時']) t).map fun r => ⟨r.1⟩ :=
  leftmost_map _ _ _

theorem minutePattern_eq (t : List Char) :
    minutePattern t = (regexp.leftmost (regexp.digitsThen ['分', '鐘']) t).map fun r => ⟨r.1⟩ :=
  leftmost_map _ _ _

theorem hourPattern_isSome (t : List Char) :
    (∃ h, hourPattern t = some h) ↔ digitBefore "小時" t := by
  rw [hourPattern_eq]
  have h := leftmost_digitsThen_isSome '小' ['時'] t (by decide)
  unfold digitBefore
  rw [show "小時".data = ['小', '時'] from rfl, ← h]
  cases regexp.leftmost (regexp.digitsThen ['小', '時']) t with
  | none => simp
  | some r => simp

theorem minutePattern_isSome (t : List Char) :
    (∃ m, minutePattern t = some m) ↔ digitBefore "分鐘" t := by
  rw [minutePattern_eq]
  have h := leftmost_digitsThen_isSome '分' ['鐘'] t (by decide)
  unfold digitBefore
  rw [show "分鐘".data = ['分', '鐘'] from rfl, ← h]
  cases regexp.leftmost (regexp.digitsThen ['分', '鐘']) t with
  | none => simp
  | some r => simp

/-- Where `(\d+)小時` does not match, `(\d+)小時(\d+)?分鐘?` does not
either. -/
theorem hourMinutePattern_none (t : List Char) (h : hourPattern t = none) :
    hourMinutePattern t = none := by
  unfold hourPattern at h
  unfold hourMinutePattern
  rw [leftmost_eq_none] at h ⊢
  intro u hu
  have hd := h u hu
  cases hdt : regexp.digitsThen "小時".data u with
  | none => simp only []
  | some r =>
    rw [hdt] at hd
    cases hd

theorem not_digitBefore_of_not_mem (unit : String) (x : Char) (t : List Char)
    (hx : x ∈ unit.data) (ht : x ∉ t) : ¬ digitBefore unit t := by
  rintro ⟨d, -, hd⟩
  exact ht (hd.subset (List.mem_cons_of_mem _ hx))

/-- The three patterns on the form `H小時M分鐘`. -/
theorem hourMinutePattern_exact (hs ms : List Char) (h m : Nat)
    (hh : strconv.decimal hs = some h) (hm : strconv.decimal ms = some m) :
    hourMinutePattern (hs ++ "小時".data ++ ms ++ "分鐘".data) = some (⟨hs⟩, ⟨ms⟩) := by
  obtain ⟨hne, hds⟩ := decimal_some hs h hh
  obtain ⟨mne, mds⟩ := decimal_some ms m hm
  unfold hourMinutePattern
  apply leftmost_head
  have h1 : regexp.digitsThen "小時".data (hs ++ "小時".data ++ ms ++ "分鐘".data) =
      some (hs, ms ++ "分鐘".data) := by
    rw [List.append_assoc (hs ++ "小時".data)]
    exact digitsThen_digits '小' ['時'] hs (ms ++ "分鐘".data) hne hds (by decide)
  obtain ⟨h2, h3⟩ := takeWhile_append_stop regexp.isDigit ms '分' ['鐘'] mds (by decide)
  simp only [h1]
  rw [h2, h3]
  rfl

/-- The three patterns on the form `H小時`. -/
theorem hourPattern_exact (hs : List Char) (h : Nat) (hh : strconv.decimal hs = some h) :
    hourMinutePattern (hs ++ "小時".data) = none ∧
      hourPattern (hs ++ "小時".data) = some ⟨hs⟩ := by
  obtain ⟨hne, hds⟩ := decimal_some hs h hh
  constructor
  · unfold hourMinutePattern
    rw [leftmost_skip]
    · decide
    · intro p hp hpne
      have h1 : regexp.digitsThen "小時".data (p ++ "小時".data) = some (p, []) := by
        have := digitsThen_digits '小' ['時'] p [] hpne
          (fun c hc => hds c (hp.subset hc)) (by decide)
        rw [List.append_nil] at this
        exact this
      simp only [h1]
      rfl
  · rw [hourPattern_eq]
    have h1 : regexp.digitsThen ['小', '時'] (hs ++ "小時".data) = some (hs, []) := by
      have := digitsThen_digits '小' ['時'] hs [] hne hds (by decide)
      rw [List.append_nil] at this
      exact this
    rw [leftmost_head _ _ _ h1]
    rfl

/-- The three patterns on the form `M分鐘`. -/
theorem minutePattern_exact (ms : List Char) (m : Nat) (hm : strconv.decimal ms = some m) :
    hourMinutePattern (ms ++ "分鐘".data) = none ∧ hourPattern (ms ++ "分鐘".data) = none ∧
      minutePattern (ms ++ "分鐘".data) = some ⟨ms⟩ := by
  obtain ⟨mne, mds⟩ := decimal_some ms m hm
  have hno : hourPattern (ms ++ "分鐘".data) = none := by
    cases hp : hourPattern (ms ++ "分鐘".data) with
    | none => rfl
    | some r =>
      exfalso
      refine not_digitBefore_of_not_mem "小時" '小' _ (by decide) ?_
        ((hourPattern_isSome _).mp ⟨r, hp⟩)
      intro hmem
      rcases List.mem_append.mp hmem with hmem | hmem
      · have := mds _ hmem
        revert this
        decide
      · revert hmem
        decide
  refine ⟨hourMinutePattern_none _ hno, hno, ?_⟩
  rw [minutePattern_eq]
  have h1 : regexp.digitsThen ['分', '鐘'] (ms ++ "分鐘".data) = some (ms, []) := by
    have := digitsThen_digits '分' ['鐘'] ms [] mne mds (by decide)
    rw [List.append_nil] at this
    exact this
  rw [leftmost_head _ _ _ h1]
  rfl

theorem Atoi_digits_lt (ds : List Char) (n : Nat) (h : strconv.decimal ds = some n)
    (hlt : n < 2 ^ 63) :
    (strconv.Atoi ⟨ds⟩).val = n ∧ (strconv.Atoi ⟨ds⟩).err = none := by
  obtain ⟨hv, he⟩ := Atoi_digits ds n h
  refine ⟨?_, he.mpr hlt⟩
  rw [hv]
  have : (n : Int) < 2 ^ 63 := by exact_mod_cast hlt
  omega

/-- `strconv.Atoi` fails on a run of digits followed by a text that does
not start with a digit. -/
theorem Atoi_digits_then (ds : List Char) (n : Nat) (x : Char) (rest : List Char)
    (h : strconv.decimal ds = some n) (hx : regexp.isDigit x = false) :
    (strconv.Atoi ⟨ds ++ x :: rest⟩).err ≠ none := by
  obtain ⟨hne, hds⟩ := decimal_some ds n h
  cases ds with
  | nil => exact absurd rfl hne
  | cons c cs =>
    exact Atoi_not_digits c (cs ++ x :: rest) x (hds c (List.mem_cons_self _ _))
      (by simp) hx

theorem str2Min_eq (s : String) :
    str2Min s =
      if strings.TrimSpace s = "" then .ok 0
      else if (strconv.Atoi (strings.TrimSpace s)).err = none then
        .ok (strconv.Atoi (strings.TrimSpace s)).val
      else
        match hourMinutePattern (strings.TrimSpace s).data with
        | some (h, m) =>
          .ok (int64.add (int64.mul (strconv.Atoi h).val 60)
            (if m ≠ "" then (strconv.Atoi m).val else 0))
        | none =>
          match hourPattern (strings.TrimSpace s).data with
          | some h => .ok (int64.mul (strconv.Atoi h).val 60)
          | none =>
            match minutePattern (strings.TrimSpace s).data with
            | some m => .ok (strconv.Atoi m).val
            | none => .error ("無法解析時間字串(分鐘): " ++ strings.TrimSpace s) := rfl

theorem string_ne_empty_of_append (t : String) (ds rest : List Char) (hne : ds ≠ [])
    (h : t.data = ds ++ rest) : t ≠ "" := by
  cases ds with
  | nil => exact absurd rfl hne
  | cons c cs => exact string_ne_empty_of_data t c (cs ++ rest) h

/-- C17, amended.  With `t` the trimmed input, `str2Min` returns 0 when `t`
is empty and the integer when `strconv.Atoi` reads `t`, in particular the
number `n` when `t` is a run of decimal digits of value `n` below 2 ^ 63.
It returns `H * 60 + M` for `H小時M分鐘`, `H * 60` for `H小時` and `M` for
`M分鐘`, with `H` and `M` runs of decimal digits, when that number is below
2 ^ 63.  It fails exactly when `t` is not empty, is not an integer and has
no digit immediately before 小時 nor before 分鐘, and the error quotes
`t`. -/
theorem str2Min_spec (s : String) :
    (strings.TrimSpace s = "" → str2Min s = .ok 0) ∧
      (strings.TrimSpace s ≠ "" → (strconv.Atoi (strings.TrimSpace s)).err = none →
        str2Min s = .ok (strconv.Atoi (strings.TrimSpace s)).val) ∧
      (∀ ds n, strconv.decimal ds = some n → n < 2 ^ 63 →
        (strings.TrimSpace s).data = ds → str2Min s = .ok (n : Int)) ∧
      (∀ hs ms h m, strconv.decimal hs = some h → strconv.decimal ms = some m →
        h * 60 + m < 2 ^ 63 →
        (strings.TrimSpace s).data = hs ++ "小時".data ++ ms ++ "分鐘".data →
        str2Min s = .ok ((h : Int) * 60 + m)) ∧
      (∀ hs h, strconv.decimal hs = some h → h * 60 < 2 ^ 63 →
        (strings.TrimSpace s).data = hs ++ "小時".data →
        str2Min s = .ok ((h : Int) * 60)) ∧
      (∀ ms m, strconv.decimal ms = some m → m < 2 ^ 63 →
        (strings.TrimSpace s).data = ms ++ "分鐘".data →
        str2Min s = .ok (m : Int)) ∧
      ((∃ err, str2Min s = .error err) ↔
        strings.TrimSpace s ≠ "" ∧ (strconv.Atoi (strings.TrimSpace s)).err ≠ none ∧
          ¬ digitBefore "小時" (strings.TrimSpace s).data ∧
          ¬ digitBefore "分鐘" (strings.TrimSpace s).data) ∧
      (∀ err, str2Min s = .error err →
        err = "無法解析時間字串(分鐘): " ++ strings.TrimSpace s) ∧
      str2Min " " = .ok 0 ∧ str2Min "45" = .ok 45 ∧ str2Min "1小時30分鐘" = .ok 90 ∧
      str2Min "2小時" = .ok 120 ∧ str2Min "30分鐘" = .ok 30 ∧
      str2Min "半小時" = .error "無法解析時間字串(分鐘): 半小時" := by
  refine ⟨?_, ?_, ?_, ?_, ?_, ?_, ?_, ?_, by decide, by decide, by decide, by decide,
    by decide, by decide⟩
  · intro h
    rw [str2Min_eq, if_pos h]
  · intro h1 h2
    rw [str2Min_eq, if_neg h1, if_pos h2]
  · intro ds n hn hlt ht
    obtain ⟨hne, -⟩ := decimal_some ds n hn
    have hnb := string_ne_empty_of_append (strings.TrimSpace s) ds [] hne
      (by rw [List.append_nil]; exact ht)
    have hts : strings.TrimSpace s = ⟨ds⟩ := by
      rw [← ht]
    obtain ⟨hv, he⟩ := Atoi_digits_lt ds n hn hlt
    rw [str2Min_eq, if_neg hnb, hts, if_pos he, hv]
  · intro hs ms h m hh hm hlt ht
    obtain ⟨hne, -⟩ := decimal_some hs h hh
    obtain ⟨mne, -⟩ := decimal_some ms m hm
    have hnb := string_ne_empty_of_append (strings.TrimSpace s) hs
      ("小時".data ++ (ms ++ "分鐘".data)) hne (by rw [ht]; simp only [List.append_assoc])
    have herr : (strconv.Atoi (strings.TrimSpace s)).err ≠ none := by
      have hts : strings.TrimSpace s = ⟨hs ++ '小' :: ('時' :: (ms ++ "分鐘".data))⟩ := by
        have : (strings.TrimSpace s).data = hs ++ '小' :: ('時' :: (ms ++ "分鐘".data)) := by
          rw [ht, show "小時".data = ['小', '時'] from rfl]
          simp
        rw [← this]
      rw [hts]
      exact Atoi_digits_then hs h '小' _ hh (by decide)
    have hms : (⟨ms⟩ : String) ≠ "" := by
      intro e
      exact mne (congrArg String.data e)
    obtain ⟨hv1, -⟩ := Atoi_digits_lt hs h hh (by omega)
    obtain ⟨hv2, -⟩ := Atoi_digits_lt ms m hm (by omega)
    rw [str2Min_eq, if_neg hnb, if_neg herr, ht, hourMinutePattern_exact hs ms h m hh hm]
    simp only [if_pos hms, hv1, hv2]
    unfold int64.add int64.mul
    have hlt' : (h : Int) * 60 + m < 2 ^ 63 := by exact_mod_cast hlt
    rw [wrap_of_range ((h : Int) * 60) (by omega) (by omega),
      wrap_of_range _ (by omega) hlt']
  · intro hs h hh hlt ht
    obtain ⟨hne, -⟩ := decimal_some hs h hh
    have hnb := string_ne_empty_of_append (strings.TrimSpace s) hs _ hne ht
    have herr : (strconv.Atoi (strings.TrimSpace s)).err ≠ none := by
      have hts : strings.TrimSpace s = ⟨hs ++ '小' :: ['時']⟩ := by
        rw [← show (strings.TrimSpace s).data = hs ++ '小' :: ['時'] from ht]
      rw [hts]
      exact Atoi_digits_then hs h '小' _ hh (by decide)
    obtain ⟨hv1, -⟩ := Atoi_digits_lt hs h hh (by omega)
    obtain ⟨p1, p2⟩ := hourPattern_exact hs h hh
    rw [str2Min_eq, if_neg hnb, if_neg herr, ht, p1]
    simp only [p2, hv1]
    unfold int64.mul
    have hlt' : (h : Int) * 60 < 2 ^ 63 := by exact_mod_cast hlt
    rw [wrap_of_range _ (by omega) hlt']
  · intro ms m hm hlt ht
    obtain ⟨mne, -⟩ := decimal_some ms m hm
    have hnb := string_ne_empty_of_append (strings.TrimSpace s) ms _ mne ht
    have herr : (strconv.Atoi (strings.TrimSpace s)).err ≠ none := by
      have hts : strings.TrimSpace s = ⟨ms ++ '分' :: ['鐘']⟩ := by
        rw [← show (strings.TrimSpace s).data = ms ++ '分' :: ['鐘'] from ht]
      rw [hts]
      exact Atoi_digits_then ms m '分' _ hm (by decide)
    obtain ⟨hv1, -⟩ := Atoi_digits_lt ms m hm hlt
    obtain ⟨p1, p2, p3⟩ := minutePattern_exact ms m hm
    rw [str2Min_eq, if_neg hnb, if_neg herr, ht, p1]
    simp only [p2, p3, hv1]
  · rw [str2Min_eq]
    by_cases h1 : strings.TrimSpace s = ""
    · simp [h1]
    · by_cases h2 : (strconv.Atoi (strings.TrimSpace s)).err = none
      · simp [h1, h2]
      · simp only [if_neg h1, if_neg h2, ← hourPattern_isSome, ← minutePattern_isSome]
        cases hhm : hourMinutePattern (strings.TrimSpace s).data with
        | some r =>
          have hh : hourPattern (strings.TrimSpace s).data ≠ none := by
            intro e
            rw [hourMinutePattern_none _ e] at hhm
            cases hhm
          cases hp : hourPattern (strings.TrimSpace s).data with
          | none => exact absurd hp hh
          | some x => simp
        | none =>
          cases hourPattern (strings.TrimSpace s).data with
          | some x => simp
          | none =>
            cases minutePattern (strings.TrimSpace s).data with
            | some y => simp
            | none => simp [h1, h2]
  · intro err
    rw [str2Min_eq]
    by_cases h1 : strings.TrimSpace s = ""
    · simp [h1]
    · by_cases h2 : (strconv.Atoi (strings.TrimSpace s)).err = none
      · simp [h1, h2]
      · simp only [if_neg h1, if_neg h2]
        cases hourMinutePattern (strings.TrimSpace s).data with
        | some r => intro h; cases h
        | none =>
          cases hourPattern (strings.TrimSpace s).data with
          | some x => intro h; cases h
          | none =>
            cases minutePattern (strings.TrimSpace s).data with
            | some y => intro h; cases h
            | none =>
              intro h
              cases h
              rfl

/-- The last character of a text of one of the forms of `str2Min`, when it
is not blank and not an integer, is 時 or 鐘. -/
theorem durationForm_last (s : String) (h : durationForm s) :
    strings.TrimSpace s = "" ∨ (strconv.Atoi (strings.TrimSpace s)).err = none ∨
      (strings.TrimSpace s).data.getLast? = some '時' ∨
      (strings.TrimSpace s).data.getLast? = some '鐘' := by
  rcases h with (h | h | ⟨ds, n, -, h⟩) | (h | h | ⟨ds, n, -, h⟩) | ⟨hs, ms, a, b, -, -, h⟩
  · exact Or.inl h
  · exact Or.inr (Or.inl h)
  · right; right; left
    rw [h, show "小時".data = ['小'] ++ ['時'] from rfl, ← List.append_assoc]
    exact List.getLast?_concat _
  · exact Or.inl h
  · exact Or.inr (Or.inl h)
  · right; right; right
    rw [h, show "分鐘".data = ['分'] ++ ['鐘'] from rfl, ← List.append_assoc]
    exact List.getLast?_concat _
  · right; right; right
    rw [h, show "分鐘".data = ['分'] ++ ['鐘'] from rfl, ← List.append_assoc]
    exact List.getLast?_concat _

/-- C17, counterexample.  The texts `約2小時左右` and `2小時30分` are not
blank, not integers and of none of the forms `H小時M分鐘`, `H小時`, `M分鐘`,
yet `str2Min` returns 120 and 150 for them. -/
theorem str2Min_embedded_counterexample :
    ¬ durationForm "約2小時左右" ∧ str2Min "約2小時左右" = .ok 120 ∧
      ¬ durationForm "2小時30分" ∧ str2Min "2小時30分" = .ok 150 := by
  refine ⟨fun h => ?_, by decide, fun h => ?_, by decide⟩
  · rcases durationForm_last _ h with h | h | h | h <;> revert h <;> decide
  · rcases durationForm_last _ h with h | h | h | h <;> revert h <;> decide

/-- C15, amended.  On four inputs `parseExcercise` returns a value exactly
when `str2Day` does on both day inputs and `str2Min` does on both duration
inputs.  The value is then `days * minutes * 2 + days * minutes` computed
in `int`, that is, reduced to 64 bits, and it is the exact number whenever
that number fits in an `int`.  The first sub-parse that fails, in the order
vigorous days, vigorous duration, moderate days, moderate duration, is the
one reported, with the trimmed input and the error of the sub-parse. -/
theorem parseExcercise_spec (label f0 f1 f2 f3 : String) :
    ((∃ v, parseExcercise label [f0, f1, f2, f3] = .ok v) ↔
        (∃ a, str2Day f0 = .ok a) ∧ (∃ b, str2Min f1 = .ok b) ∧
        (∃ c, str2Day f2 = .ok c) ∧ (∃ d, str2Min f3 = .ok d)) ∧
      (∀ a b c d : Int, str2Day f0 = .ok a → str2Min f1 = .ok b →
        str2Day f2 = .ok c → str2Min f3 = .ok d →
        parseExcercise label [f0, f1, f2, f3] =
            .ok (Value.int (int64.wrap (a * b * 2 + c * d))) ∧
          (-(2 ^ 63) ≤ a * b * 2 + c * d → a * b * 2 + c * d < 2 ^ 63 →
            parseExcercise label [f0, f1, f2, f3] =
              .ok (Value.int (a * b * 2 + c * d)))) ∧
      (∀ err, str2Day f0 = .error err →
        parseExcercise label [f0, f1, f2, f3] =
          .error ("費力活動天數【" ++ strings.TrimSpace f0 ++ "】無法轉換為數字: " ++ err)) ∧
      (∀ a err, str2Day f0 = .ok a → str2Min f1 = .error err →
        parseExcercise label [f0, f1, f2, f3] =
          .error ("費力活動時間【" ++ strings.TrimSpace f1 ++ "】無法轉換為數字: " ++ err)) ∧
      (∀ a b err, str2Day f0 = .ok a → str2Min f1 = .ok b → str2Day f2 = .error err →
        parseExcercise label [f0, f1, f2, f3] =
          .error ("中等費力活動天數【" ++ strings.TrimSpace f2 ++ "】無法轉換為數字: " ++ err)) ∧
      (∀ a b c err, str2Day f0 = .ok a → str2Min f1 = .ok b → str2Day f2 = .ok c →
        str2Min f3 = .error err →
        parseExcercise label [f0, f1, f2, f3] =
          .error ("中等費力活動時間【" ++ strings.TrimSpace f3 ++ "】無法轉換為數字: " ++ err)) ∧
      parseExcercise label ["3天", "1小時30分鐘", " 2 ", ""] = .ok (Value.int 540) := by
  have hex : parseExcercise label ["3天", "1小時30分鐘", " 2 ", ""] = .ok (Value.int 540) := by
    have h0 : str2Day (strings.TrimSpace "3天") = .ok 3 := by decide
    have h1 : str2Min (strings.TrimSpace "1小時30分鐘") = .ok 90 := by decide
    have h2 : str2Day (strings.TrimSpace " 2 ") = .ok 2 := by decide
    have h3 : str2Min (strings.TrimSpace "") = .ok 0 := by decide
    simp only [parseExcercise, h0, h1, h2, h3]
    decide
  simp only [parseExcercise, str2Day_trim, str2Min_trim, excercise_total] at hex ⊢
  refine ⟨?_, ?_, ?_, ?_, ?_, ?_, hex⟩
  · cases str2Day f0 <;> cases str2Min f1 <;> cases str2Day f2 <;> cases str2Min f3 <;> simp
  · intro a b c d h0 h1 h2 h3
    rw [h0, h1, h2, h3]
    refine ⟨rfl, fun hlo hhi => ?_⟩
    simp only [wrap_of_range _ hlo hhi]
  · intro err h0
    rw [h0]
  · intro a err h0 h1
    rw [h0, h1]
  · intro a b err h0 h1 h2
    rw [h0, h1, h2]
  · intro a b c err h0 h1 h2 h3
    rw [h0, h1, h2, h3]

/-- C15, counterexample.  Vigorous activity on 4611686018427387904 days for
one minute: the four sub-parses succeed and the claimed total is 2 ^ 63,
but `parseExcercise` returns -(2 ^ 63). -/
theorem parseExcercise_overflow_counterexample :
    str2Day "4611686018427387904" = .ok 4611686018427387904 ∧
      str2Min "1" = .ok 1 ∧ str2Day "0" = .ok 0 ∧ str2Min "0" = .ok 0 ∧
      parseExcercise "每週運動量" ["4611686018427387904", "1", "0", "0"] =
        .ok (Value.int (-9223372036854775808)) ∧
      parseExcercise "每週運動量" ["4611686018427387904", "1", "0", "0"] ≠
        .ok (Value.int (4611686018427387904 * 1 * 2 + 0 * 0)) := by
  refine ⟨by decide!, by decide!, by decide!, by decide!, by decide!, by decide!⟩

/-! ## Questionnaires -/

theorem convertToScore_eq (response : String) (categories : List String)
    (scores : List Int) (h : categories.length ≤ scores.length) :
    convertToScore response categories scores h =
      match firstScore response categories scores with
      | some score => .ok score
      | none => .error ("無法解析回應: " ++ response) := by
  induction categories generalizing scores with
  | nil => rfl
  | cons c cs ih =>
    cases scores with
    | nil => simp at h
    | cons sc ss =>
      by_cases hc : strings.Contains response c = true
      · simp [convertToScore, firstScore, hc]
      · have hc' : strings.Contains response c = false := by simpa using hc
        have := ih ss (by simpa using h)
        simp only [convertToScore, hc, firstScore, List.zip_cons_cons, List.find?_cons, hc']
        simpa [firstScore] using this

theorem firstScore_isSome_iff (answer : String) (categories : List String)
    (scores : List Int) (h : categories.length ≤ scores.length) :
    (∃ s, firstScore answer categories scores = some s) ↔
      ∃ c ∈ categories, c.data <:+: answer.data := by
  induction categories generalizing scores with
  | nil => simp [firstScore]
  | cons c cs ih =>
    cases scores with
    | nil => simp at h
    | cons sc ss =>
      by_cases hc : strings.Contains answer c = true
      · have hinf : c.data <:+: answer.data := (containsChars_iff _ _).mp hc
        simp only [firstScore, List.zip_cons_cons, List.find?_cons, hc, Option.map_some']
        exact ⟨fun _ => ⟨c, List.mem_cons_self _ _, hinf⟩, fun _ => ⟨sc, rfl⟩⟩
      · have hc' : strings.Contains answer c = false := by simpa using hc
        have hninf : ¬ c.data <:+: answer.data := fun h => hc ((containsChars_iff _ _).mpr h)
        have := ih ss (by simpa using h)
        simp only [firstScore, List.zip_cons_cons, List.find?_cons, hc']
        simp only [firstScore] at this
        rw [this]
        constructor
        · rintro ⟨x, hx, hin⟩
          exact ⟨x, List.mem_cons_of_mem _ hx, hin⟩
        · rintro ⟨x, hx, hin⟩
          rcases List.mem_cons.mp hx with rfl | hx'
          · exact absurd hin hninf
          · exact ⟨x, hx', hin⟩

theorem firstScore_mem (answer : String) (categories : List String) (scores : List Int)
    (s : Int) (h : firstScore answer categories scores = some s) : s ∈ scores := by
  unfold firstScore at h
  cases hf : (categories.zip scores).find? (fun p => strings.Contains answer p.1) with
  | none => rw [hf] at h; cases h
  | some p =>
    rw [hf] at h
    cases h
    exact (List.of_mem_zip (List.mem_of_find?_eq_some hf)).2

theorem question_message (label : String) (n : Nat) (lit err : String)
    (h : "】第" ++ fmt.d n ++ "題錯誤: " = lit) :
    "輸出欄位【" ++ label ++ "】第" ++ fmt.d n ++ "題錯誤: " ++ err =
      "輸出欄位【" ++ label ++ lit ++ err := by
  rw [← h]
  simp only [String.append_assoc]

theorem parsePSQI_eq_scoreAnswers (label f0 f1 f2 f3 f4 f5 f6 : String) :
    parsePSQI label [f0, f1, f2, f3, f4, f5, f6] =
      scoreAnswers label [3, 2, 1, 0] psqiCategories [f0, f1, f2, f3, f4, f5, f6] 1 0 := by
  unfold parsePSQI psqiCategories
  simp only [scoreAnswers, convertToScore_eq]
  cases firstScore f0 ["少於5小時", "5-6小時", "6-7小時", "7小時以上"] [3, 2, 1, 0] with
  | none => exact congrArg _ (question_message label 1 _ _ (by decide)).symm
  | some s0 =>
    cases firstScore f1 ["61分鐘以上", "31-60分鐘", "15-30分鐘", "少於15分鐘"] [3, 2, 1, 0] with
    | none => exact congrArg _ (question_message label 2 _ _ (by decide)).symm
    | some s1 =>
      cases firstScore f2 ["少於65%", "65-74%", "75-84%", "85%以上"] [3, 2, 1, 0] with
      | none => exact congrArg _ (question_message label 3 _ _ (by decide)).symm
      | some s2 =>
        cases firstScore f3 ["每週3次以上", "每週1-2次", "每週少於一次", "從未如此"] [3, 2, 1, 0] with
        | none => exact congrArg _ (question_message label 4 _ _ (by decide)).symm
        | some s3 =>
          cases firstScore f4 ["非常不好", "不好", "好", "非常好"] [3, 2, 1, 0] with
          | none => exact congrArg _ (question_message label 5 _ _ (by decide)).symm
          | some s4 =>
            cases firstScore f5 ["每週3次以上", "每週1-2次", "每週少於一次", "從未如此"]
                [3, 2, 1, 0] with
            | none => exact congrArg _ (question_message label 6 _ _ (by decide)).symm
            | some s5 =>
              cases firstScore f6 ["每週3次以上", "每週1-2次", "每週少於一次", "從未如此"]
                  [3, 2, 1, 0] with
              | none => exact congrArg _ (question_message label 7 _ _ (by decide)).symm
              | some s6 => rfl

theorem parseBSRS5_eq_scoreAnswers (label f0 f1 f2 f3 f4 : String) :
    parseBSRS5 label [f0, f1, f2, f3, f4] =
      scoreAnswers label [4, 3, 2, 1, 0] bsrs5Categories [f0, f1, f2, f3, f4] 1 0 := by
  unfold parseBSRS5 bsrs5Categories
  simp only [scoreAnswers, convertToScore_eq, List.replicate]
  cases firstScore f0 ["非常厲害", "厲害", "中等", "輕微", "沒有"] [4, 3, 2, 1, 0] with
  | none => exact congrArg _ (question_message label 1 _ _ (by decide)).symm
  | some s0 =>
    cases firstScore f1 ["非常厲害", "厲害", "中等", "輕微", "沒有"] [4, 3, 2, 1, 0] with
    | none => exact congrArg _ (question_message label 2 _ _ (by decide)).symm
    | some s1 =>
      cases firstScore f2 ["非常厲害", "厲害", "中等", "輕微", "沒有"] [4, 3, 2, 1, 0] with
      | none => exact congrArg _ (question_message label 3 _ _ (by decide)).symm
      | some s2 =>
        cases firstScore f3 ["非常厲害", "厲害", "中等", "輕微", "沒有"] [4, 3, 2, 1, 0] with
        | none => exact congrArg _ (question_message label 4 _ _ (by decide)).symm
        | some s3 =>
          cases firstScore f4 ["非常厲害", "厲害", "中等", "輕微", "沒有"] [4, 3, 2, 1, 0] with
          | none => exact congrArg _ (question_message label 5 _ _ (by decide)).symm
          | some s4 => rfl

theorem answered_zero (categories : List String) (questions : List (List String))
    (answer : String) (answers : List String) :
    Answered (categories :: questions) (answer :: answers) 0 ↔
      ∃ c ∈ categories, c.data <:+: answer.data := by
  unfold Answered
  constructor
  · rintro ⟨cats, a, hq, ha, h⟩
    simp only [List.get?_cons_zero, Option.some.injEq] at hq ha
    subst hq
    subst ha
    exact h
  · intro h
    exact ⟨categories, answer, rfl, rfl, h⟩

theorem answered_succ (categories : List String) (questions : List (List String))
    (answer : String) (answers : List String) (i : Nat) :
    Answered (categories :: questions) (answer :: answers) (i + 1) ↔
      Answered questions answers i := by
  unfold Answered
  simp only [List.get?_cons_succ]

theorem scoreAnswers_spec (label : String) (scores : List Int) :
    ∀ (questions : List (List String)) (answers : List String) (n : Nat) (total : Int),
      questions.length = answers.length →
      (∀ categories ∈ questions, categories.length ≤ scores.length) →
      ((∃ v, scoreAnswers label scores questions answers n total = .ok v) ↔
          ∀ i, i < questions.length → Answered questions answers i) ∧
        (∀ i, i < questions.length → ¬ Answered questions answers i →
          (∀ j, j < i → Answered questions answers j) →
          scoreAnswers label scores questions answers n total =
            .error ("輸出欄位【" ++ label ++ "】第" ++ fmt.d (n + i) ++ "題錯誤: " ++
              ("無法解析回應: " ++ answers.getD i ""))) ∧
        (∀ v, scoreAnswers label scores questions answers n total = .ok v →
          ∃ ss : List Int, ss.length = questions.length ∧ (∀ s ∈ ss, s ∈ scores) ∧
            (∀ i, i < questions.length → ∃ categories answer,
              questions.get? i = some categories ∧ answers.get? i = some answer ∧
              firstScore answer categories scores = some (ss.getD i 0)) ∧
            v = Value.int (total + ss.sum)) := by
  intro questions
  induction questions with
  | nil =>
    intro answers n total hlen _
    cases answers with
    | cons a as => simp at hlen
    | nil =>
      refine ⟨⟨fun _ i hi => absurd hi (Nat.not_lt_zero _), fun _ => ⟨_, rfl⟩⟩,
        fun i hi => absurd hi (Nat.not_lt_zero _), ?_⟩
      intro v hv
      simp only [scoreAnswers] at hv
      cases hv
      exact ⟨[], rfl, fun s hs => absurd hs (List.not_mem_nil _),
        fun i hi => absurd hi (Nat.not_lt_zero _), by simp⟩
  | cons cats qs ih =>
    intro answers n total hlen hsc
    cases answers with
    | nil => simp at hlen
    | cons a as =>
      have hlen' : qs.length = as.length := by simpa using hlen
      have hsc' : ∀ c ∈ qs, c.length ≤ scores.length :=
        fun c hc => hsc c (List.mem_cons_of_mem _ hc)
      have hcats : cats.length ≤ scores.length := hsc cats (List.mem_cons_self _ _)
      cases hfs : firstScore a cats scores with
      | none =>
        have hno : ¬ ∃ c ∈ cats, c.data <:+: a.data := by
          rw [← firstScore_isSome_iff a cats scores hcats, hfs]
          simp
        have hval : scoreAnswers label scores (cats :: qs) (a :: as) n total =
            .error ("輸出欄位【" ++ label ++ "】第" ++ fmt.d n ++ "題錯誤: " ++
              ("無法解析回應: " ++ a)) := by
          simp only [scoreAnswers, hfs]
        refine ⟨?_, ?_, ?_⟩
        · rw [hval]
          constructor
          · rintro ⟨v, hv⟩
            cases hv
          · intro h
            exact absurd ((answered_zero _ _ _ _).mp (h 0 (by simp))) hno
        · intro i hi hni hbefore
          cases i with
          | zero => exact hval
          | succ k => exact absurd ((answered_zero _ _ _ _).mp (hbefore 0 (by omega))) hno
        · intro v hv
          rw [hval] at hv
          cases hv
      | some s =>
        have hyes : ∃ c ∈ cats, c.data <:+: a.data :=
          (firstScore_isSome_iff a cats scores hcats).mp ⟨s, hfs⟩
        have hstep : scoreAnswers label scores (cats :: qs) (a :: as) n total =
            scoreAnswers label scores qs as (n + 1) (total + s) := by
          simp only [scoreAnswers, hfs]
        obtain ⟨ih1, ih2, ih3⟩ := ih as (n + 1) (total + s) hlen' hsc'
        rw [hstep]
        refine ⟨?_, ?_, ?_⟩
        · rw [ih1]
          constructor
          · intro h i hi
            cases i with
            | zero => exact (answered_zero _ _ _ _).mpr hyes
            | succ k =>
              exact (answered_succ _ _ _ _ _).mpr (h k (by simpa using hi))
          · intro h i hi
            exact (answered_succ _ _ _ _ _).mp (h (i + 1) (by simpa using hi))
        · intro i hi hni hbefore
          cases i with
          | zero => exact absurd ((answered_zero _ _ _ _).mpr hyes) hni
          | succ k =>
            have := ih2 k (by simpa using hi)
              (fun h => hni ((answered_succ _ _ _ _ _).mpr h))
              (fun j hj => (answered_succ _ _ _ _ _).mp (hbefore (j + 1) (by omega)))
            rw [this]
            have hn : n + 1 + k = n + (k + 1) := by omega
            rw [hn]
            rfl
        · intro v hv
          obtain ⟨ss, hss, hmem, hget, hv'⟩ := ih3 v hv
          refine ⟨s :: ss, by simp [hss], ?_, ?_, ?_⟩
          · intro x hx
            rcases List.mem_cons.mp hx with rfl | hx'
            · exact firstScore_mem _ _ _ _ hfs
            · exact hmem x hx'
          · intro i hi
            cases i with
            | zero => exact ⟨cats, a, rfl, rfl, hfs⟩
            | succ k => exact hget k (by simpa using hi)
          · rw [hv']
            simp [add_assoc]

theorem sum_bounds (ss : List Int) (hi : Int) (h : ∀ s ∈ ss, 0 ≤ s ∧ s ≤ hi) :
    0 ≤ ss.sum ∧ ss.sum ≤ hi * ss.length := by
  induction ss with
  | nil => simp
  | cons s rest ih =>
    have hs := h s (List.mem_cons_self _ _)
    have hr := ih fun x hx => h x (List.mem_cons_of_mem _ hx)
    simp only [List.sum_cons, List.length_cons, Nat.cast_add, Nat.cast_one]
    constructor
    · omega
    · have : hi * ((rest.length : Int) + 1) = hi * rest.length + hi := by ring
      rw [this]
      omega

/-- C19.  On seven answers, `parsePSQI` returns a value exactly when every
answer contains a category of its own question.  The value is then the sum
of seven scores, one per question: the score paired with the first category
of the question that the answer contains, each from 0 to 3, so the sum lies
from 0 to 21.  When question `i + 1` is the first whose answer contains no
category of its list, the error names the number `i + 1` and quotes that
answer.  The seven worst answers give 21. -/
theorem parsePSQI_spec (label f0 f1 f2 f3 f4 f5 f6 : String) :
    ((∃ v, parsePSQI label [f0, f1, f2, f3, f4, f5, f6] = .ok v) ↔
        ∀ i, i < 7 → Answered psqiCategories [f0, f1, f2, f3, f4, f5, f6] i) ∧
      (∀ v, parsePSQI label [f0, f1, f2, f3, f4, f5, f6] = .ok v →
        ∃ ss : List Int, ss.length = 7 ∧ (∀ s ∈ ss, 0 ≤ s ∧ s ≤ 3) ∧
          (∀ i, i < 7 → ∃ categories answer,
            psqiCategories.get? i = some categories ∧
            [f0, f1, f2, f3, f4, f5, f6].get? i = some answer ∧
            firstScore answer categories [3, 2, 1, 0] = some (ss.getD i 0)) ∧
          v = Value.int ss.sum ∧ 0 ≤ ss.sum ∧ ss.sum ≤ 21) ∧
      (∀ i, i < 7 → ¬ Answered psqiCategories [f0, f1, f2, f3, f4, f5, f6] i →
        (∀ j, j < i → Answered psqiCategories [f0, f1, f2, f3, f4, f5, f6] j) →
        parsePSQI label [f0, f1, f2, f3, f4, f5, f6] =
          .error ("輸出欄位【" ++ label ++ "】第" ++ fmt.d (i + 1) ++ "題錯誤: " ++
            ("無法解析回應: " ++ [f0, f1, f2, f3, f4, f5, f6].getD i ""))) ∧
      parsePSQI label ["少於5小時", "61分鐘以上", "少於65%", "每週3次以上", "非常不好",
        "每週3次以上", "每週3次以上"] = .ok (Value.int 21) := by
  have hsc : ∀ categories ∈ psqiCategories, categories.length ≤ ([3, 2, 1, 0] : List Int).length := by
    decide
  obtain ⟨g1, g2, g3⟩ := scoreAnswers_spec label [3, 2, 1, 0] psqiCategories
    [f0, f1, f2, f3, f4, f5, f6] 1 0 rfl hsc
  rw [parsePSQI_eq_scoreAnswers]
  refine ⟨g1, ?_, ?_, ?_⟩
  · intro v hv
    obtain ⟨ss, hlen, hmem, hget, hval⟩ := g3 v hv
    have hb : ∀ s ∈ ss, 0 ≤ s ∧ s ≤ 3 := by
      intro s hs
      have := hmem s hs
      simp only [List.mem_cons, List.mem_singleton, List.not_mem_nil, or_false] at this
      omega
    have hsum := sum_bounds ss 3 hb
    have hlen' : ss.length = 7 := hlen
    rw [hlen'] at hsum
    refine ⟨ss, hlen', hb, hget, by simpa using hval, hsum.1, by simpa using hsum.2⟩
  · intro i hi hni hbefore
    have := g2 i hi hni hbefore
    rw [this, Nat.add_comm 1 i]
  · have h1 : firstScore "少於5小時" ["少於5小時", "5-6小時", "6-7小時", "7小時以上"]
        [3, 2, 1, 0] = some 3 := by decide
    have h2 : firstScore "61分鐘以上" ["61分鐘以上", "31-60分鐘", "15-30分鐘", "少於15分鐘"]
        [3, 2, 1, 0] = some 3 := by decide
    have h3 : firstScore "少於65%" ["少於65%", "65-74%", "75-84%", "85%以上"]
        [3, 2, 1, 0] = some 3 := by decide
    have h4 : firstScore "每週3次以上" ["每週3次以上", "每週1-2次", "每週少於一次", "從未如此"]
        [3, 2, 1, 0] = some 3 := by decide
    have h5 : firstScore "非常不好" ["非常不好", "不好", "好", "非常好"]
        [3, 2, 1, 0] = some 3 := by decide
    rw [parsePSQI_eq_scoreAnswers]
    simp [scoreAnswers, psqiCategories, h1, h2, h3, h4, h5]

/-- C20.  On five answers, `parseBSRS5` scores each answer by the first of
非常厲害 (4), 厲害 (3), 中等 (2), 輕微 (1), 沒有 (0) that the answer contains
and returns the sum of the five scores, which lies from 0 to 20.  It fails
exactly when some answer contains none of the five categories; when
question `i + 1` is the first such, the error names the number `i + 1` and
quotes that answer.  Five times 非常厲害 gives 20. -/
theorem parseBSRS5_spec (label f0 f1 f2 f3 f4 : String) :
    ((∃ v, parseBSRS5 label [f0, f1, f2, f3, f4] = .ok v) ↔
        ∀ i, i < 5 → Answered bsrs5Categories [f0, f1, f2, f3, f4] i) ∧
      ((∃ err, parseBSRS5 label [f0, f1, f2, f3, f4] = .error err) ↔
        ∃ answer ∈ [f0, f1, f2, f3, f4],
          ∀ c ∈ ["非常厲害", "厲害", "中等", "輕微", "沒有"], ¬ c.data <:+: answer.data) ∧
      (∀ v, parseBSRS5 label [f0, f1, f2, f3, f4] = .ok v →
        ∃ ss : List Int, ss.length = 5 ∧ (∀ s ∈ ss, 0 ≤ s ∧ s ≤ 4) ∧
          (∀ i, i < 5 → ∃ answer, [f0, f1, f2, f3, f4].get? i = some answer ∧
            firstScore answer ["非常厲害", "厲害", "中等", "輕微", "沒有"] [4, 3, 2, 1, 0] =
              some (ss.getD i 0)) ∧
          v = Value.int ss.sum ∧ 0 ≤ ss.sum ∧ ss.sum ≤ 20) ∧
      (∀ i, i < 5 → ¬ Answered bsrs5Categories [f0, f1, f2, f3, f4] i →
        (∀ j, j < i → Answered bsrs5Categories [f0, f1, f2, f3, f4] j) →
        parseBSRS5 label [f0, f1, f2, f3, f4] =
          .error ("輸出欄位【" ++ label ++ "】第" ++ fmt.d (i + 1) ++ "題錯誤: " ++
            ("無法解析回應: " ++ [f0, f1, f2, f3, f4].getD i ""))) ∧
      parseBSRS5 label ["非常厲害", "非常厲害", "非常厲害", "非常厲害", "非常厲害"] =
        .ok (Value.int 20) := by
  have hsc : ∀ categories ∈ bsrs5Categories,
      categories.length ≤ ([4, 3, 2, 1, 0] : List Int).length := by
    decide
  obtain ⟨g1, g2, g3⟩ := scoreAnswers_spec label [4, 3, 2, 1, 0] bsrs5Categories
    [f0, f1, f2, f3, f4] 1 0 rfl hsc
  have hans : ∀ i, i < 5 → (Answered bsrs5Categories [f0, f1, f2, f3, f4] i ↔
      ∃ answer, [f0, f1, f2, f3, f4].get? i = some answer ∧
        ∃ c ∈ ["非常厲害", "厲害", "中等", "輕微", "沒有"], c.data <:+: answer.data) := by
    intro i hi
    have hq : bsrs5Categories.get? i = some ["非常厲害", "厲害", "中等", "輕微", "沒有"] := by
      interval_cases i <;> rfl
    unfold Answered
    constructor
    · rintro ⟨cats, a, hc, ha, h⟩
      rw [hq] at hc
      cases hc
      exact ⟨a, ha, h⟩
    · rintro ⟨a, ha, h⟩
      exact ⟨_, a, hq, ha, h⟩
  rw [parseBSRS5_eq_scoreAnswers]
  refine ⟨g1, ?_, ?_, ?_, ?_⟩
  · have hne : (∃ err, scoreAnswers label [4, 3, 2, 1, 0] bsrs5Categories
        [f0, f1, f2, f3, f4] 1 0 = .error err) ↔
        ¬ ∃ v, scoreAnswers label [4, 3, 2, 1, 0] bsrs5Categories
          [f0, f1, f2, f3, f4] 1 0 = .ok v := by
      cases scoreAnswers label [4, 3, 2, 1, 0] bsrs5Categories [f0, f1, f2, f3, f4] 1 0 with
      | error e => simp
      | ok v => simp
    rw [hne, g1]
    constructor
    · intro h
      push_neg at h
      obtain ⟨i, hi, hni⟩ := h
      have hlt : i < [f0, f1, f2, f3, f4].length := hi
      have ha : [f0, f1, f2, f3, f4].get? i = some ([f0, f1, f2, f3, f4].get ⟨i, hlt⟩) :=
        List.get?_eq_get hlt
      refine ⟨_, List.get_mem _ i hlt, fun c hc hin => ?_⟩
      exact hni ((hans i hi).mpr ⟨_, ha, c, hc, hin⟩)
    · rintro ⟨a, hmem, hno⟩ hall
      obtain ⟨i, hi⟩ := List.get?_of_mem hmem
      have hlt : i < 5 := by
        by_contra hge
        have : [f0, f1, f2, f3, f4].get? i = none := List.get?_eq_none.mpr (by simp; omega)
        rw [this] at hi
        cases hi
      obtain ⟨a', ha', c, hc, hin⟩ := (hans i hlt).mp (hall i hlt)
      rw [hi] at ha'
      cases ha'
      exact hno c hc hin
  · intro v hv
    obtain ⟨ss, hlen, hmem, hget, hval⟩ := g3 v hv
    have hb : ∀ s ∈ ss, 0 ≤ s ∧ s ≤ 4 := by
      intro s hs
      have := hmem s hs
      simp only [List.mem_cons, List.mem_singleton, List.not_mem_nil, or_false] at this
      omega
    have hsum := sum_bounds ss 4 hb
    have hlen' : ss.length = 5 := hlen
    rw [hlen'] at hsum
    refine ⟨ss, hlen', hb, ?_, by simpa using hval, hsum.1, by simpa using hsum.2⟩
    intro i hi
    obtain ⟨cats, a, hc, ha, hf⟩ := hget i hi
    have hq : bsrs5Categories.get? i = some ["非常厲害", "厲害", "中等", "輕微", "沒有"] := by
      interval_cases i <;> rfl
    rw [hq] at hc
    cases hc
    exact ⟨a, ha, hf⟩
  · intro i hi hni hbefore
    have := g2 i hi hni hbefore
    rw [this, Nat.add_comm 1 i]
  · have h1 : firstScore "非常厲害" ["非常厲害", "厲害", "中等", "輕微", "沒有"]
        [4, 3, 2, 1, 0] = some 4 := by decide
    rw [parseBSRS5_eq_scoreAnswers]
    simp [scoreAnswers, bsrs5Categories, h1]


/-! ## Laboratory values -/

theorem eq_fin_zero (x : Float64) : x.eq (Float64.fin 0) = true ↔ x = Float64.fin 0 := by
  cases x with
  | fin q => simp [Float64.eq]
  | inf neg => simp [Float64.eq]
  | nan => simp [Float64.eq]

/-- C21.  On a single input `parseZeroDiscard` fails when `strconv.ParseFloat`
does not read the input as a number, fails when the number read is 0, and
otherwise returns the number read.  So a value it returns is never 0.  The
input `0` is an error and `5.2` gives 5.2, that is, the `float64` nearest
to it. -/
theorem parseZeroDiscard_spec (label s : String) :
    ((strconv.ParseFloat s).err ≠ none →
        parseZeroDiscard label [s] =
          .error ("欄位【" ++ label ++ "】中的數據無法轉換為浮點數: " ++ s)) ∧
      ((strconv.ParseFloat s).err = none → (strconv.ParseFloat s).val = Float64.fin 0 →
        parseZeroDiscard label [s] = .error ("欄位【" ++ label ++ "】數據為0，未採用")) ∧
      ((strconv.ParseFloat s).err = none → (strconv.ParseFloat s).val ≠ Float64.fin 0 →
        parseZeroDiscard label [s] = .ok (Value.float (strconv.ParseFloat s).val)) ∧
      (∀ v, parseZeroDiscard label [s] = .ok v →
        v = Value.float (strconv.ParseFloat s).val ∧ v ≠ Value.float (Float64.fin 0) ∧
          (strconv.ParseFloat s).err = none) ∧
      parseZeroDiscard label ["0"] = .error ("欄位【" ++ label ++ "】數據為0，未採用") ∧
      parseZeroDiscard label ["5.2"] = .ok (Value.float (Float64.fin 5.2).round) := by
  have main : ∀ t : String,
      ((strconv.ParseFloat t).err ≠ none →
        parseZeroDiscard label [t] =
          .error ("欄位【" ++ label ++ "】中的數據無法轉換為浮點數: " ++ t)) ∧
      ((strconv.ParseFloat t).err = none → (strconv.ParseFloat t).val = Float64.fin 0 →
        parseZeroDiscard label [t] = .error ("欄位【" ++ label ++ "】數據為0，未採用")) ∧
      ((strconv.ParseFloat t).err = none → (strconv.ParseFloat t).val ≠ Float64.fin 0 →
        parseZeroDiscard label [t] = .ok (Value.float (strconv.ParseFloat t).val)) := by
    intro t
    unfold parseZeroDiscard
    dsimp only
    refine ⟨fun h => ?_, fun h hz => ?_, fun h hz => ?_⟩
    · rw [if_pos h]
    · rw [if_neg (not_not.mpr h), if_pos ((eq_fin_zero _).mpr hz)]
    · rw [if_neg (not_not.mpr h), if_neg (fun e => hz ((eq_fin_zero _).mp e))]
  obtain ⟨m1, m2, m3⟩ := main s
  refine ⟨m1, m2, m3, ?_, ?_, ?_⟩
  · intro v hv
    by_cases he : (strconv.ParseFloat s).err = none
    · by_cases hz : (strconv.ParseFloat s).val = Float64.fin 0
      · rw [m2 he hz] at hv
        cases hv
      · rw [m3 he hz] at hv
        cases hv
        exact ⟨rfl, fun e => hz (Value.float.inj e), he⟩
    · rw [m1 he] at hv
      cases hv
  · exact (main "0").2.1 (by decide!) (by decide!)
  · have h := (main "5.2").2.2 (by decide!) (by decide!)
    rw [h, show (strconv.ParseFloat "5.2").val = (Float64.fin 5.2).round from by decide!]

/-- C22.  On a single input `parseGlucoseU` applies its rules in this order:
the input contains `2+`, `3+` or `4+`, which gives 3; else it contains `1+`,
which gives 2; else it contains `+-`, or the same with a slash between the
two signs, which gives 1; else it contains `normal` or `NORMAL`, or is `0`
or `-`, which gives 0; else it fails.  A value it returns is one of 0, 1, 2, 3.  The input `1+ glucose`
gives 2 and `normal` gives 0. -/
theorem parseGlucoseU_spec (label s : String) :
    ("2+".data <:+: s.data ∨ "3+".data <:+: s.data ∨ "4+".data <:+: s.data →
        parseGlucoseU label [s] = .ok (Value.int 3)) ∧
      (¬ ("2+".data <:+: s.data ∨ "3+".data <:+: s.data ∨ "4+".data <:+: s.data) →
        ("1+".data <:+: s.data → parseGlucoseU label [s] = .ok (Value.int 2)) ∧
        (¬ "1+".data <:+: s.data →
          ("+/-".data <:+: s.data ∨ "+-".data <:+: s.data →
            parseGlucoseU label [s] = .ok (Value.int 1)) ∧
          (¬ ("+/-".data <:+: s.data ∨ "+-".data <:+: s.data) →
            ("normal".data <:+: s.data ∨ "NORMAL".data <:+: s.data ∨ s = "0" ∨ s = "-" →
              parseGlucoseU label [s] = .ok (Value.int 0)) ∧
            (¬ ("normal".data <:+: s.data ∨ "NORMAL".data <:+: s.data ∨ s = "0" ∨ s = "-") →
              parseGlucoseU label [s] = .error ("輸出欄位【" ++ label ++ "】數據無效"))))) ∧
      (∀ v, parseGlucoseU label [s] = .ok v →
        v = Value.int 0 ∨ v = Value.int 1 ∨ v = Value.int 2 ∨ v = Value.int 3) ∧
      parseGlucoseU label ["1+ glucose"] = .ok (Value.int 2) ∧
      parseGlucoseU label ["normal"] = .ok (Value.int 0) := by
  have c2 : "2+".data <:+: s.data ↔ strings.Contains s "2+" = true :=
    (containsChars_iff _ _).symm
  have c3 : "3+".data <:+: s.data ↔ strings.Contains s "3+" = true :=
    (containsChars_iff _ _).symm
  have c4 : "4+".data <:+: s.data ↔ strings.Contains s "4+" = true :=
    (containsChars_iff _ _).symm
  have c1 : "1+".data <:+: s.data ↔ strings.Contains s "1+" = true :=
    (containsChars_iff _ _).symm
  have cs : "+/-".data <:+: s.data ↔ strings.Contains s "+/-" = true :=
    (containsChars_iff _ _).symm
  have cm : "+-".data <:+: s.data ↔ strings.Contains s "+-" = true :=
    (containsChars_iff _ _).symm
  have cn : "normal".data <:+: s.data ↔ strings.Contains s "normal" = true :=
    (containsChars_iff _ _).symm
  have cN : "NORMAL".data <:+: s.data ↔ strings.Contains s "NORMAL" = true :=
    (containsChars_iff _ _).symm
  rw [c2, c3, c4, c1, cs, cm, cn, cN]
  have e1 : strings.Contains "1+ glucose" "2+" = false := by decide
  have e2 : strings.Contains "1+ glucose" "3+" = false := by decide
  have e3 : strings.Contains "1+ glucose" "4+" = false := by decide
  have e4 : strings.Contains "1+ glucose" "1+" = true := by decide
  have n1 : strings.Contains "normal" "2+" = false := by decide
  have n2 : strings.Contains "normal" "3+" = false := by decide
  have n3 : strings.Contains "normal" "4+" = false := by decide
  have n4 : strings.Contains "normal" "1+" = false := by decide
  have n5 : strings.Contains "normal" "+/-" = false := by decide
  have n6 : strings.Contains "normal" "+-" = false := by decide
  have n7 : strings.Contains "normal" "normal" = true := by decide
  refine ⟨?_, ?_, ?_, ?_, ?_⟩
  · intro h
    simp only [parseGlucoseU, ← Bool.or_eq_true] at h ⊢
    rw [Bool.or_assoc, if_pos h]
  · intro h
    have h' : (strings.Contains s "2+" || strings.Contains s "3+" ||
        strings.Contains s "4+") ≠ true := by
      rw [Bool.or_assoc]
      simpa only [ne_eq, Bool.or_eq_true] using h
    simp only [parseGlucoseU, if_neg h']
    refine ⟨fun h1 => ?_, fun h1 => ?_⟩
    · rw [if_pos h1]
    · rw [if_neg h1]
      refine ⟨fun h2 => ?_, fun h2 => ?_⟩
      · rw [if_pos (by simpa only [Bool.or_eq_true] using h2)]
      · rw [if_neg (by simpa only [Bool.or_eq_true] using h2)]
        refine ⟨fun h3 => ?_, fun h3 => ?_⟩
        · rw [if_pos]
          simpa [or_assoc] using h3
        · rw [if_neg]
          simpa [or_assoc] using h3
  · intro v
    simp only [parseGlucoseU]
    split_ifs <;> intro hv <;> cases hv <;> simp
  · simp [parseGlucoseU, e1, e2, e3, e4]
  · simp [parseGlucoseU, n1, n2, n3, n4, n5, n6, n7]

theorem parseHsCRP_eq (label primary fallback : String) :
    parseHsCRP label [primary, fallback] =
      if strings.TrimSpace primary ≠ "" ∧ strings.TrimSpace primary ≠ "0" then
        if strings.TrimSpace primary = "<0.01" ∨ strings.TrimSpace primary = "&lt;0.01" then
          .ok (Value.float (Float64.fin 0.005).round)
        else if strings.TrimSpace primary = "<0.02" ∨
            strings.TrimSpace primary = "&lt;0.02" then
          .ok (Value.float (Float64.fin 0.01).round)
        else
          match (strconv.ParseFloat (strings.TrimSpace primary)).err with
          | some err =>
            .error ("輸出欄位【" ++ label ++ "】第1個輸入無法轉換為浮點數: " ++ err)
          | none => .ok (Value.float (strconv.ParseFloat (strings.TrimSpace primary)).val)
      else if strings.TrimSpace fallback ≠ "" ∧ strings.TrimSpace fallback ≠ "0" then
        if strings.TrimSpace fallback = "<0.01" then .ok (Value.float (Float64.fin 0.005).round)
        else if strings.TrimSpace fallback = "<0.02" then
          .ok (Value.float (Float64.fin 0.01).round)
        else
          match (strconv.ParseFloat (strings.TrimSpace primary)).err with
          | some err =>
            .error ("輸出欄位【" ++ label ++ "】第2個輸入無法轉換為浮點數: " ++ err)
          | none => .ok (Value.float (strconv.ParseFloat (strings.TrimSpace primary)).val)
      else .error ("輸出欄位【" ++ label ++ "】數據無效") := rfl

theorem usable_iff (input : String) :
    (strings.TrimSpace input ≠ "" ∧ strings.TrimSpace input ≠ "0") ↔ ¬ hsCRPUnusable input := by
  unfold hsCRPUnusable
  exact not_or.symm

/-- C23.  When the primary input of `parseHsCRP`, trimmed, is neither blank nor
`0`, the result is decided by the primary alone: `<0.01`, also written with
`&lt;`, gives 0.005; `<0.02`, also written with `&lt;`, gives 0.01; any other
primary gives the number `strconv.ParseFloat` reads, and an error when it
reads none.  When both inputs, trimmed, are blank or `0`, `parseHsCRP`
fails. -/
theorem parseHsCRP_primary (label primary fallback : String) :
    (¬ hsCRPUnusable primary →
        (∀ other, parseHsCRP label [primary, fallback] = parseHsCRP label [primary, other]) ∧
        (strings.TrimSpace primary = "<0.01" ∨ strings.TrimSpace primary = "&lt;0.01" →
          parseHsCRP label [primary, fallback] = .ok (Value.float (Float64.fin 0.005).round)) ∧
        (strings.TrimSpace primary = "<0.02" ∨ strings.TrimSpace primary = "&lt;0.02" →
          parseHsCRP label [primary, fallback] = .ok (Value.float (Float64.fin 0.01).round)) ∧
        (strings.TrimSpace primary ≠ "<0.01" → strings.TrimSpace primary ≠ "&lt;0.01" →
          strings.TrimSpace primary ≠ "<0.02" → strings.TrimSpace primary ≠ "&lt;0.02" →
          ((strconv.ParseFloat (strings.TrimSpace primary)).err = none →
            parseHsCRP label [primary, fallback] =
              .ok (Value.float (strconv.ParseFloat (strings.TrimSpace primary)).val)) ∧
          (∀ err, (strconv.ParseFloat (strings.TrimSpace primary)).err = some err →
            parseHsCRP label [primary, fallback] =
              .error ("輸出欄位【" ++ label ++ "】第1個輸入無法轉換為浮點數: " ++ err)))) ∧
      (hsCRPUnusable primary → hsCRPUnusable fallback →
        parseHsCRP label [primary, fallback] = .error ("輸出欄位【" ++ label ++ "】數據無效")) ∧
      parseHsCRP label [" <0.01 ", "7"] = .ok (Value.float (Float64.fin 0.005).round) ∧
      parseHsCRP label ["&lt;0.02", ""] = .ok (Value.float (Float64.fin 0.01).round) ∧
      parseHsCRP label ["1.5", "abc"] = .ok (Value.float (Float64.fin 1.5)) ∧
      parseHsCRP label ["0", " "] = .error ("輸出欄位【" ++ label ++ "】數據無效") := by
  have main : ∀ p f : String, ¬ hsCRPUnusable p →
      parseHsCRP label [p, f] =
        if strings.TrimSpace p = "<0.01" ∨ strings.TrimSpace p = "&lt;0.01" then
          .ok (Value.float (Float64.fin 0.005).round)
        else if strings.TrimSpace p = "<0.02" ∨ strings.TrimSpace p = "&lt;0.02" then
          .ok (Value.float (Float64.fin 0.01).round)
        else
          match (strconv.ParseFloat (strings.TrimSpace p)).err with
          | some err =>
            .error ("輸出欄位【" ++ label ++ "】第1個輸入無法轉換為浮點數: " ++ err)
          | none => .ok (Value.float (strconv.ParseFloat (strings.TrimSpace p)).val) := by
    intro p f hp
    rw [parseHsCRP_eq, if_pos ((usable_iff p).mpr hp)]
  have hboth : ∀ p f : String, hsCRPUnusable p → hsCRPUnusable f →
      parseHsCRP label [p, f] = .error ("輸出欄位【" ++ label ++ "】數據無效") := by
    intro p f hp hf
    rw [parseHsCRP_eq, if_neg (fun h => (usable_iff p).mp h hp),
      if_neg (fun h => (usable_iff f).mp h hf)]
  refine ⟨fun hp => ⟨fun other => ?_, fun h => ?_, fun h => ?_, fun h1 h2 h3 h4 => ⟨fun he => ?_,
    fun err he => ?_⟩⟩, hboth primary fallback, ?_, ?_, ?_, ?_⟩
  · rw [main primary fallback hp, main primary other hp]
  · rw [main primary fallback hp, if_pos h]
  · have hn : ¬ (strings.TrimSpace primary = "<0.01" ∨ strings.TrimSpace primary = "&lt;0.01") := by
      rintro (e | e) <;> rcases h with h | h <;> rw [e] at h <;> revert h <;> decide
    rw [main primary fallback hp, if_neg hn, if_pos h]
  · rw [main primary fallback hp, if_neg (by rintro (e | e) <;> contradiction),
      if_neg (by rintro (e | e) <;> contradiction), he]
  · rw [main primary fallback hp, if_neg (by rintro (e | e) <;> contradiction),
      if_neg (by rintro (e | e) <;> contradiction), he]
  · rw [main " <0.01 " "7" (by unfold hsCRPUnusable; decide), if_pos (by decide)]
  · rw [main "&lt;0.02" "" (by unfold hsCRPUnusable; decide), if_neg (by decide),
      if_pos (by decide)]
  · rw [main "1.5" "abc" (by unfold hsCRPUnusable; decide), if_neg (by decide),
      if_neg (by decide),
      show (strconv.ParseFloat (strings.TrimSpace "1.5")).err = none from by decide!,
      show (strconv.ParseFloat (strings.TrimSpace "1.5")).val = Float64.fin 1.5 from by decide!]
  · exact hboth "0" " " (by unfold hsCRPUnusable; decide) (by unfold hsCRPUnusable; decide)

/-- C24, on the code.  When the primary input of `parseHsCRP`, trimmed, is
blank or `0` and the fallback, trimmed, is neither: the fallback `<0.01`
gives 0.005 and `<0.02` gives 0.01; for any other fallback, the forms with
`&lt;` included, the code parses the primary, not the fallback, so the
result is an error when the primary is blank and the number 0 when the
primary is `0`.  A blank primary with the fallback `1.5` is an error, and
the primary `0` with the fallback `1.5` gives 0. -/
theorem parseHsCRP_fallback_cases (label primary fallback : String) :
    (hsCRPUnusable primary → ¬ hsCRPUnusable fallback →
        (strings.TrimSpace fallback = "<0.01" →
          parseHsCRP label [primary, fallback] = .ok (Value.float (Float64.fin 0.005).round)) ∧
        (strings.TrimSpace fallback = "<0.02" →
          parseHsCRP label [primary, fallback] = .ok (Value.float (Float64.fin 0.01).round)) ∧
        (strings.TrimSpace fallback ≠ "<0.01" → strings.TrimSpace fallback ≠ "<0.02" →
          (strings.TrimSpace primary = "" →
            parseHsCRP label [primary, fallback] =
              .error ("輸出欄位【" ++ label ++ "】第2個輸入無法轉換為浮點數: " ++
                strconv.numError "ParseFloat" "" "invalid syntax")) ∧
          (strings.TrimSpace primary = "0" →
            parseHsCRP label [primary, fallback] = .ok (Value.float (Float64.fin 0))))) ∧
      parseHsCRP label ["", "1.5"] =
        .error ("輸出欄位【" ++ label ++ "】第2個輸入無法轉換為浮點數: " ++
          "strconv.ParseFloat: parsing \"\": invalid syntax") ∧
      parseHsCRP label ["0", "1.5"] = .ok (Value.float (Float64.fin 0)) ∧
      parseHsCRP label ["", "&lt;0.01"] =
        .error ("輸出欄位【" ++ label ++ "】第2個輸入無法轉換為浮點數: " ++
          "strconv.ParseFloat: parsing \"\": invalid syntax") ∧
      (strconv.ParseFloat "1.5").val = Float64.fin 1.5 := by
  have main : ∀ p f : String, hsCRPUnusable p → ¬ hsCRPUnusable f →
      parseHsCRP label [p, f] =
        if strings.TrimSpace f = "<0.01" then .ok (Value.float (Float64.fin 0.005).round)
        else if strings.TrimSpace f = "<0.02" then .ok (Value.float (Float64.fin 0.01).round)
        else
          match (strconv.ParseFloat (strings.TrimSpace p)).err with
          | some err =>
            .error ("輸出欄位【" ++ label ++ "】第2個輸入無法轉換為浮點數: " ++ err)
          | none => .ok (Value.float (strconv.ParseFloat (strings.TrimSpace p)).val) := by
    intro p f hp hf
    rw [parseHsCRP_eq, if_neg (fun h => (usable_iff p).mp h hp),
      if_pos ((usable_iff f).mpr hf)]
  have hblank : (strconv.ParseFloat "").err =
      some (strconv.numError "ParseFloat" "" "invalid syntax") := by decide!
  have hzero : (strconv.ParseFloat "0").err = none := by decide!
  have hzero' : (strconv.ParseFloat "0").val = Float64.fin 0 := by decide!
  have hmsg : strconv.numError "ParseFloat" "" "invalid syntax" =
      "strconv.ParseFloat: parsing \"\": invalid syntax" := by decide
  have other : ∀ p f : String, hsCRPUnusable p → ¬ hsCRPUnusable f →
      strings.TrimSpace f ≠ "<0.01" → strings.TrimSpace f ≠ "<0.02" →
      (strings.TrimSpace p = "" →
        parseHsCRP label [p, f] =
          .error ("輸出欄位【" ++ label ++ "】第2個輸入無法轉換為浮點數: " ++
            strconv.numError "ParseFloat" "" "invalid syntax")) ∧
      (strings.TrimSpace p = "0" →
        parseHsCRP label [p, f] = .ok (Value.float (Float64.fin 0))) := by
    intro p f hp hf h1 h2
    rw [main p f hp hf, if_neg h1, if_neg h2]
    refine ⟨fun e => ?_, fun e => ?_⟩
    · rw [e, hblank]
    · rw [e, hzero, hzero']
  refine ⟨fun hp hf => ⟨fun h => ?_, fun h => ?_, other primary fallback hp hf⟩, ?_, ?_, ?_,
    by decide!⟩
  · rw [main primary fallback hp hf, if_pos h]
  · rw [main primary fallback hp hf, if_neg (by rw [h]; decide), if_pos h]
  · rw [← hmsg]
    exact (other "" "1.5" (by unfold hsCRPUnusable; decide) (by unfold hsCRPUnusable; decide)
      (by decide) (by decide)).1 (by decide)
  · exact (other "0" "1.5" (by unfold hsCRPUnusable; decide) (by unfold hsCRPUnusable; decide)
      (by decide) (by decide)).2 (by decide)
  · rw [← hmsg]
    exact (other "" "&lt;0.01" (by unfold hsCRPUnusable; decide)
      (by unfold hsCRPUnusable; decide) (by decide) (by decide)).1 (by decide)

/-! ## The categories of the sleep questionnaire -/

/-- C28, on the code.  The score of `parsePSQI` is the sum of the scores of the
seven answers, each scored by the first category of its question that it
contains.  An answer that is exactly a category of its question gets the
score listed at the position of that category, 3, 2, 1, 0 in the order of
the list, with one exception: in question 5 the answer 非常好 contains the
category 好, listed before it, and scores 1 instead of 0.  So the seven best
answers give 1. -/
theorem parsePSQI_category_scores (label : String) :
    (∀ (f0 f1 f2 f3 f4 f5 f6 : String) (s0 s1 s2 s3 s4 s5 s6 : Int),
        firstScore f0 (psqiCategories.getD 0 []) [3, 2, 1, 0] = some s0 →
        firstScore f1 (psqiCategories.getD 1 []) [3, 2, 1, 0] = some s1 →
        firstScore f2 (psqiCategories.getD 2 []) [3, 2, 1, 0] = some s2 →
        firstScore f3 (psqiCategories.getD 3 []) [3, 2, 1, 0] = some s3 →
        firstScore f4 (psqiCategories.getD 4 []) [3, 2, 1, 0] = some s4 →
        firstScore f5 (psqiCategories.getD 5 []) [3, 2, 1, 0] = some s5 →
        firstScore f6 (psqiCategories.getD 6 []) [3, 2, 1, 0] = some s6 →
        parsePSQI label [f0, f1, f2, f3, f4, f5, f6] =
          .ok (Value.int (s0 + s1 + s2 + s3 + s4 + s5 + s6))) ∧
      (∀ i, i < 7 → ∀ j, j < 4 →
        firstScore ((psqiCategories.getD i []).getD j "") (psqiCategories.getD i [])
            [3, 2, 1, 0] =
          some (if i = 4 ∧ j = 3 then 1 else 3 - (j : Int))) ∧
      psqiCategories.getD 4 [] = ["非常不好", "不好", "好", "非常好"] ∧
      firstScore "非常好" ["非常不好", "不好", "好", "非常好"] [3, 2, 1, 0] = some 1 ∧
      parsePSQI label ["7小時以上", "少於15分鐘", "85%以上", "從未如此", "非常好", "從未如此",
        "從未如此"] = .ok (Value.int 1) := by
  have sum : ∀ (f0 f1 f2 f3 f4 f5 f6 : String) (s0 s1 s2 s3 s4 s5 s6 : Int),
      firstScore f0 (psqiCategories.getD 0 []) [3, 2, 1, 0] = some s0 →
      firstScore f1 (psqiCategories.getD 1 []) [3, 2, 1, 0] = some s1 →
      firstScore f2 (psqiCategories.getD 2 []) [3, 2, 1, 0] = some s2 →
      firstScore f3 (psqiCategories.getD 3 []) [3, 2, 1, 0] = some s3 →
      firstScore f4 (psqiCategories.getD 4 []) [3, 2, 1, 0] = some s4 →
      firstScore f5 (psqiCategories.getD 5 []) [3, 2, 1, 0] = some s5 →
      firstScore f6 (psqiCategories.getD 6 []) [3, 2, 1, 0] = some s6 →
      parsePSQI label [f0, f1, f2, f3, f4, f5, f6] =
        .ok (Value.int (s0 + s1 + s2 + s3 + s4 + s5 + s6)) := by
    intro f0 f1 f2 f3 f4 f5 f6 s0 s1 s2 s3 s4 s5 s6 h0 h1 h2 h3 h4 h5 h6
    simp only [psqiCategories, List.getD_cons_zero, List.getD_cons_succ] at h0 h1 h2 h3 h4 h5 h6
    rw [parsePSQI_eq_scoreAnswers]
    simp only [scoreAnswers, psqiCategories, h0, h1, h2, h3, h4, h5, h6, zero_add]
  have table : ∀ i, i < 7 → ∀ j, j < 4 →
      firstScore ((psqiCategories.getD i []).getD j "") (psqiCategories.getD i [])
          [3, 2, 1, 0] =
        some (if i = 4 ∧ j = 3 then 1 else 3 - (j : Int)) := by
    decide
  refine ⟨sum, table, rfl, by decide, ?_⟩
  have := sum "7小時以上" "少於15分鐘" "85%以上" "從未如此" "非常好" "從未如此" "從未如此" 0 0 0 0 1 0 0
    (by decide) (by decide) (by decide) (by decide) (by decide) (by decide) (by decide)
  simpa using this

/-! ## The Agatston score -/

theorem parseAgatston_eq (label : String) (fields : List String) (h : fields.length = 6) :
    parseAgatston label fields =
      .ok (Value.float
        (if (totalArteryScore (arteryScores fields)).gt (maxAgatstonScore (arteryScores fields))
          then totalArteryScore (arteryScores fields)
          else maxAgatstonScore (arteryScores fields))) := by
  unfold parseAgatston
  rw [if_neg (not_not.mpr h)]
  rfl

/-- The scores stored by one pass of `collectScores`: the matches of the
pieces, stored one after the other. -/
theorem collectScores_eq (pattern : List Char → Option (String × String))
    (lines : List (List Char)) (scores : GoMap Float64) :
    collectScores pattern lines scores =
      (lines.filterMap pattern).foldl storeMatch scores := by
  induction lines generalizing scores with
  | nil => rfl
  | cons line lines ih =>
    rw [collectScores]
    cases hp : pattern line with
    | none =>
      simp only [List.filterMap_cons, hp]
      exact ih scores
    | some km =>
      obtain ⟨key, num⟩ := km
      simp only [List.filterMap_cons, hp, List.foldl_cons]
      exact ih _

theorem collectFields_snd (fields : List String) (maps : GoMap Float64 × GoMap Float64) :
    (collectFields fields maps).2 =
      (arteryMatches fields).foldl storeMatch maps.2 := by
  induction fields generalizing maps with
  | nil => rfl
  | cons field fields ih =>
    obtain ⟨a, b⟩ := maps
    rw [collectFields, ih]
    simp only [collectScores_eq, arteryMatches, reportSegments, List.flatMap_cons,
      List.filterMap_append, List.foldl_append]

/-- The map of artery scores is the artery matches stored in reading
order. -/
theorem arteryScores_eq (fields : List String) :
    arteryScores fields =
      (arteryMatches fields).foldl storeMatch [] :=
  collectFields_snd fields ([], [])

theorem keys_set_mem {α : Type} (m : GoMap α) (k : String) (v : α) (h : k ∈ m.keys) :
    (m.set k v).keys = m.keys := by
  induction m with
  | nil => simp [GoMap.keys] at h
  | cons e rest ih =>
    obtain ⟨k', v'⟩ := e
    by_cases hk : k' = k
    · simp [GoMap.set, GoMap.keys, hk]
    · have hr : k ∈ GoMap.keys rest := by
        simp only [GoMap.keys, List.map_cons, List.mem_cons] at h
        rcases h with h | h
        · exact absurd h.symm hk
        · exact h
      have := ih hr
      simp only [GoMap.keys] at this
      simp [GoMap.set, GoMap.keys, hk, this]

theorem keys_set_nodup {α : Type} (m : GoMap α) (k : String) (v : α) (h : m.keys.Nodup) :
    (m.set k v).keys.Nodup := by
  by_cases hk : k ∈ m.keys
  · rw [keys_set_mem m k v hk]
    exact h
  · rw [keys_set_of_not_mem m k v hk]
    exact List.Nodup.append h (List.nodup_singleton k) (by simpa using hk)

theorem mem_keys_set {α : Type} (m : GoMap α) (k : String) (v : α) (x : String) :
    x ∈ (m.set k v).keys ↔ x ∈ m.keys ∨ x = k := by
  by_cases hk : k ∈ m.keys
  · rw [keys_set_mem m k v hk]
    constructor
    · exact Or.inl
    · rintro (h | h)
      · exact h
      · rw [h]; exact hk
  · rw [keys_set_of_not_mem m k v hk]
    simp

/-- A map filled by successive stores: the value under a key is that of the
last store under it, and the value it had before when there is none. -/
theorem get?_foldl_set (ms : List (String × String)) (m : GoMap Float64) (k : String) :
    (ms.foldl storeMatch m).get? k =
      match ms.reverse.find? fun km => km.1 = k with
      | some km => some (strconv.ParseFloat km.2).val
      | none => m.get? k := by
  induction ms generalizing m with
  | nil => rfl
  | cons km ms ih =>
    rw [List.foldl_cons, ih, List.reverse_cons, List.find?_append]
    cases hf : ms.reverse.find? fun km => km.1 = k with
    | some x => rfl
    | none =>
      simp only [Option.none_or, List.find?_cons, List.find?_nil]
      by_cases hk : km.1 = k
      · simp only [hk, decide_True]
        rw [← hk]
        exact get?_set_self _ _ _
      · simp only [hk, decide_False]
        exact get?_set_ne _ _ _ _ (fun e => hk e.symm)

theorem keys_foldl_set_nodup (ms : List (String × String)) (m : GoMap Float64)
    (h : m.keys.Nodup) :
    (ms.foldl storeMatch m).keys.Nodup := by
  induction ms generalizing m with
  | nil => exact h
  | cons km ms ih => exact ih _ (keys_set_nodup m _ _ h)

theorem mem_keys_foldl_set (ms : List (String × String)) (m : GoMap Float64) (x : String) :
    x ∈ (ms.foldl storeMatch m).keys ↔
      x ∈ m.keys ∨ ∃ km ∈ ms, km.1 = x := by
  induction ms generalizing m with
  | nil => simp
  | cons km ms ih =>
    rw [List.foldl_cons, ih, storeMatch, mem_keys_set]
    simp only [List.mem_cons, exists_eq_or_imp]
    constructor
    · rintro ((h | h) | h)
      · exact Or.inl h
      · exact Or.inr (Or.inl h.symm)
      · exact Or.inr (Or.inr h)
    · rintro (h | h | h)
      · exact Or.inl (Or.inl h)
      · exact Or.inl (Or.inr h.symm)
      · exact Or.inr h

theorem leftmost_some {α : Type} (m : List Char → Option α) (s : List Char) (r : α)
    (h : regexp.leftmost m s = some r) : ∃ t, t <:+ s ∧ m t = some r := by
  induction s with
  | nil => exact ⟨[], List.suffix_refl _, h⟩
  | cons c cs ih =>
    simp only [regexp.leftmost] at h
    cases hm : m (c :: cs) with
    | some r' =>
      rw [hm] at h
      exact ⟨c :: cs, List.suffix_refl _, hm.trans h⟩
    | none =>
      rw [hm] at h
      obtain ⟨t, ht, hr⟩ := ih h
      exact ⟨t, ht.trans (List.suffix_cons _ _), hr⟩

theorem alternatives_mem (alts : List String) (s : List Char) (a : String) (rest : List Char)
    (h : regexp.alternatives alts s = some (a, rest)) : a ∈ alts := by
  induction alts with
  | nil => cases h
  | cons b alts ih =>
    simp only [regexp.alternatives] at h
    cases hl : regexp.literal b.data s with
    | some tail =>
      rw [hl] at h
      cases h
      exact List.mem_cons_self _ _
    | none =>
      rw [hl] at h
      exact List.mem_cons_of_mem _ (ih h)

/-- A text matched by `[0-9]+(?:\.[0-9]+)?` starts with a digit. -/
theorem number_head (s num rest : List Char) (h : regexp.number s = some (num, rest)) :
    ∃ c cs, num = c :: cs ∧ regexp.isDigit c = true := by
  unfold regexp.number at h
  by_cases hne : s.takeWhile regexp.isDigit = []
  · simp only [hne, if_true] at h
    cases h
  · simp only [if_neg hne] at h
    have hhead : ∃ c cs, s.takeWhile regexp.isDigit = c :: cs ∧ regexp.isDigit c = true := by
      cases hd : s.takeWhile regexp.isDigit with
      | nil => exact absurd hd hne
      | cons c cs =>
        exact ⟨c, cs, rfl, List.mem_takeWhile_imp (p := regexp.isDigit) (l := s)
          (by rw [hd]; exact List.mem_cons_self _ _)⟩
    obtain ⟨c, cs, hd, hc⟩ := hhead
    rw [hd] at h
    split at h
    · split at h
      · cases h
        exact ⟨c, cs ++ _, rfl, hc⟩
      · cases h
        exact ⟨c, cs, rfl, hc⟩
    · cases h
      exact ⟨c, cs, rfl, hc⟩

/-- What a match of `arteryRegex` holds: one of the four artery names, and a
text that starts with a digit. -/
theorem arteryRegex_some (s : List Char) (artery num : String)
    (h : arteryRegex s = some (artery, num)) :
    artery ∈ ["LM", "LAD", "LCX", "RCA"] ∧
      ∃ c cs, num.data = c :: cs ∧ regexp.isDigit c = true := by
  unfold arteryRegex at h
  obtain ⟨t, -, ht⟩ := leftmost_some _ _ _ h
  split at ht
  · cases ht
  · split at ht
    · cases ht
    · rename_i a r1 ha
      split at ht
      · cases ht
      · split at ht
        · cases ht
        · rename_i n r2 hn
          cases ht
          exact ⟨alternatives_mem _ _ _ _ ha, number_head _ _ _ hn⟩

theorem lower_digit (c : Char) (h : regexp.isDigit c = true) : strconv.lower c = c := by
  unfold strconv.lower
  unfold regexp.isDigit at h
  rw [if_neg]
  have := of_decide_eq_true h
  omega

theorem special_digit (c : Char) (cs : List Char) (h : regexp.isDigit c = true) :
    strconv.special (c :: cs) = none := by
  have hhead : ∀ x : Char, regexp.isDigit x = false → ∀ l : List Char,
      (c :: cs).map strconv.lower ≠ x :: l := by
    intro x hx l e
    rw [List.map_cons, lower_digit c h] at e
    have := (List.cons.inj e).1
    rw [this, hx] at h
    cases h
  unfold strconv.special
  simp only [show "inf".data = 'i' :: ['n', 'f'] from rfl,
    show "infinity".data = 'i' :: ['n', 'f', 'i', 'n', 'i', 't', 'y'] from rfl,
    show "+inf".data = '+' :: ['i', 'n', 'f'] from rfl,
    show "+infinity".data = '+' :: ['i', 'n', 'f', 'i', 'n', 'i', 't', 'y'] from rfl,
    show "-inf".data = '-' :: ['i', 'n', 'f'] from rfl,
    show "-infinity".data = '-' :: ['i', 'n', 'f', 'i', 'n', 'i', 't', 'y'] from rfl,
    show "nan".data = 'n' :: ['a', 'n'] from rfl,
    hhead 'i' (by decide), hhead '+' (by decide), hhead '-' (by decide), hhead 'n' (by decide),
    or_self, if_false]

theorem readFloat_neg (c : Char) (cs : List Char) (p : strconv.Parsed)
    (h : strconv.readFloat (c :: cs) = some p) : p.neg = decide (c = '-') := by
  unfold strconv.readFloat at h
  dsimp only at h
  repeat' split at h
  all_goals first
    | (cases h; rfl)
    | cases h

/-- The number `strconv.ParseFloat` reads in a text that starts with a digit
is not below 0. -/
theorem ParseFloat_nonneg (s : String) (c : Char) (cs : List Char) (hs : s.data = c :: cs)
    (hc : regexp.isDigit c = true) : (strconv.ParseFloat s).val.NonNeg := by
  have hneg : decide (c = '-') = false := by
    have := digit_not_sign c hc
    simp only [decide_eq_false_iff_not]
    exact fun e => this (Or.inr e)
  unfold strconv.ParseFloat
  rw [hs, special_digit c cs hc]
  dsimp only
  cases hr : strconv.readFloat (c :: cs) with
  | none => exact le_refl (0 : ℚ)
  | some p =>
    have hp : p.neg = false := (readFloat_neg c cs p hr).trans hneg
    dsimp only
    split_ifs
    · exact hp
    · exact le_refl (0 : ℚ)
    · refine round_nonneg (Float64.fin p.value) ?_
      show 0 ≤ p.value
      unfold strconv.Parsed.value
      rw [hp]
      simp only [Bool.false_eq_true, if_false, one_mul]
      apply mul_nonneg (Nat.cast_nonneg _)
      apply zpow_nonneg
      split_ifs <;> norm_num

theorem mem_set {α : Type} (m : GoMap α) (k : String) (v : α) (e : String × α)
    (h : e ∈ m.set k v) : e ∈ m ∨ e = (k, v) := by
  induction m with
  | nil =>
    simp only [GoMap.set, List.mem_singleton] at h
    exact Or.inr h
  | cons x rest ih =>
    obtain ⟨k', v'⟩ := x
    by_cases hk : k' = k
    · simp only [GoMap.set, hk, if_true, List.mem_cons] at h
      rcases h with h | h
      · exact Or.inr h
      · exact Or.inl (List.mem_cons_of_mem _ h)
    · simp only [GoMap.set, hk, if_false, List.mem_cons] at h
      rcases h with h | h
      · exact Or.inl (h ▸ List.mem_cons_self _ _)
      · rcases ih h with h | h
        · exact Or.inl (List.mem_cons_of_mem _ h)
        · exact Or.inr h

/-- Every entry of a map filled by successive stores was in the map before
or is the store of one of the matches. -/
theorem mem_foldl_storeMatch (ms : List (String × String)) (m : GoMap Float64)
    (e : String × Float64) (h : e ∈ ms.foldl storeMatch m) :
    e ∈ m ∨ ∃ km ∈ ms, e = (km.1, (strconv.ParseFloat km.2).val) := by
  induction ms generalizing m with
  | nil => exact Or.inl h
  | cons km ms ih =>
    rw [List.foldl_cons] at h
    rcases ih _ h with h | ⟨x, hx, he⟩
    · rcases mem_set _ _ _ _ h with h | h
      · exact Or.inl h
      · exact Or.inr ⟨km, List.mem_cons_self _ _, h⟩
    · exact Or.inr ⟨x, List.mem_cons_of_mem _ hx, he⟩

/-- Every entry of the map of artery scores is the store of an artery
match. -/
theorem arteryScores_mem (fields : List String) (e : String × Float64)
    (h : e ∈ arteryScores fields) :
    ∃ m ∈ arteryMatches fields, e = (m.1, (strconv.ParseFloat m.2).val) := by
  rw [arteryScores_eq] at h
  rcases mem_foldl_storeMatch _ _ _ h with h | h
  · cases h
  · exact h

theorem arteryMatches_mem (fields : List String) (m : String × String)
    (h : m ∈ arteryMatches fields) :
    m.1 ∈ ["LM", "LAD", "LCX", "RCA"] ∧ (strconv.ParseFloat m.2).val.NonNeg := by
  unfold arteryMatches at h
  obtain ⟨seg, -, hseg⟩ := List.mem_filterMap.mp h
  obtain ⟨artery, num⟩ := m
  obtain ⟨ha, c, cs, hnum, hc⟩ := arteryRegex_some seg artery num hseg
  exact ⟨ha, ParseFloat_nonneg num c cs hnum hc⟩

/-- The sub-scores are numbers not below 0. -/
theorem arteryScores_nonneg (fields : List String) (e : String × Float64)
    (h : e ∈ arteryScores fields) : e.2.NonNeg := by
  obtain ⟨m, hm, he⟩ := arteryScores_mem fields e h
  rw [he]
  exact (arteryMatches_mem fields m hm).2

/-- The loop that keeps the largest sub-score gives the same on two entries
taken in either order, when neither is below 0. -/
theorem largest_comm (x y z : Float64) (hx : x.NonNeg) (hy : y.NonNeg) :
    (if y.gt (if x.gt z then x else z) then y else if x.gt z then x else z) =
      (if x.gt (if y.gt z then y else z) then x else if y.gt z then y else z) := by
  cases x with
  | nan => exact absurd hx (by simp [Float64.NonNeg])
  | inf nx =>
    have : nx = false := hx
    subst this
    cases y with
    | nan => exact absurd hy (by simp [Float64.NonNeg])
    | inf ny =>
      have : ny = false := hy
      subst this
      rfl
    | fin q =>
      cases z with
      | nan => simp [Float64.gt, Float64.lt]
      | inf nz => cases nz <;> simp [Float64.gt, Float64.lt]
      | fin r => by_cases h : r < q <;> simp [Float64.gt, Float64.lt, h]
  | fin p =>
    cases y with
    | nan => exact absurd hy (by simp [Float64.NonNeg])
    | inf ny =>
      have : ny = false := hy
      subst this
      cases z with
      | nan => simp [Float64.gt, Float64.lt]
      | inf nz => cases nz <;> simp [Float64.gt, Float64.lt]
      | fin r => by_cases h : r < p <;> simp [Float64.gt, Float64.lt, h]
    | fin q =>
      cases z with
      | nan => simp [Float64.gt, Float64.lt]
      | inf nz =>
        cases nz
        · simp [Float64.gt, Float64.lt]
        · simp only [Float64.gt, Float64.lt, if_true]
          by_cases h : p < q
          · have h' : ¬ q < p := not_lt.mpr (le_of_lt h)
            simp [h, h']
          · by_cases h' : q < p
            · simp [h, h']
            · have : p = q := le_antisymm (not_lt.mp h') (not_lt.mp h)
              simp [this]
      | fin r =>
        simp only [Float64.gt, Float64.lt]
        by_cases h1 : r < p <;> by_cases h2 : r < q <;> by_cases h3 : p < q <;>
          by_cases h4 : q < p <;> simp [h1, h2, h3, h4] <;> linarith

/-- The largest sub-score does not depend on the order in which the map is
visited. -/
theorem largest_perm (l l' : GoMap Float64) (h : l.Perm l') (hl : ∀ e ∈ l, e.2.NonNeg) :
    l.foldl (fun best entry => if entry.2.gt best then entry.2 else best) (Float64.fin 0) =
      l'.foldl (fun best entry => if entry.2.gt best then entry.2 else best) (Float64.fin 0) :=
  List.Perm.foldl_eq' h
    (fun x hx y hy z => largest_comm x.2 y.2 z (hl x hx) (hl y hy)) _

theorem parseAgatstonIn_eq (sumOrder maxOrder : GoMap Float64 → GoMap Float64) (label : String)
    (fields : List String) (h : fields.length = 6) :
    parseAgatstonIn sumOrder maxOrder label fields =
      .ok (Value.float
        (if (totalArteryScore (sumOrder (arteryScores fields))).gt
            (maxAgatstonScore (maxOrder (arteryScores fields)))
          then totalArteryScore (sumOrder (arteryScores fields))
          else maxAgatstonScore (maxOrder (arteryScores fields)))) := by
  unfold parseAgatstonIn
  rw [if_neg (not_not.mpr h)]
  rfl

/-- The function `parseAgatston` is `parseAgatstonIn` with both loops in the
order stored. -/
theorem parseAgatston_eq_In (label : String) (fields : List String) :
    parseAgatston label fields = parseAgatstonIn id id label fields := rfl

theorem lt_trans_false (a b c : Float64) (ha : a.NonNeg) (hb : b.NonNeg) (hc : c.NonNeg)
    (h1 : a.lt b = false) (h2 : b.lt c = false) : a.lt c = false := by
  cases a with
  | nan => exact absurd ha (by simp [Float64.NonNeg])
  | inf na =>
    have : na = false := ha
    subst this
    cases c <;> rfl
  | fin x =>
    cases b with
    | nan => exact absurd hb (by simp [Float64.NonNeg])
    | inf nb =>
      have : nb = false := hb
      subst this
      simp [Float64.lt] at h1
    | fin y =>
      cases c with
      | nan => rfl
      | inf nc =>
        have : nc = false := hc
        subst this
        simp [Float64.lt] at h2
      | fin z =>
        simp only [Float64.lt, decide_eq_false_iff_not, not_lt] at h1 h2 ⊢
        exact le_trans h2 h1

theorem eq_of_lt_false (a b : Float64) (ha : a.NonNeg) (hb : b.NonNeg)
    (h1 : a.lt b = false) (h2 : b.lt a = false) : a = b := by
  cases a with
  | nan => exact absurd ha (by simp [Float64.NonNeg])
  | inf na =>
    have : na = false := ha
    subst this
    cases b with
    | nan => exact absurd hb (by simp [Float64.NonNeg])
    | inf nb =>
      have : nb = false := hb
      subst this
      rfl
    | fin y => simp [Float64.lt] at h2
  | fin x =>
    cases b with
    | nan => exact absurd hb (by simp [Float64.NonNeg])
    | inf nb =>
      have : nb = false := hb
      subst this
      simp [Float64.lt] at h1
    | fin y =>
      simp only [Float64.lt, decide_eq_false_iff_not, not_lt] at h1 h2
      rw [le_antisymm h2 h1]

theorem lt_self_false (x : Float64) : x.lt x = false := by
  cases x with
  | nan => rfl
  | inf n => cases n <;> rfl
  | fin x => simp [Float64.lt]

theorem lt_false_of_gt (x b : Float64) (hx : x.NonNeg) (hb : b.NonNeg) (h : x.gt b = true) :
    x.lt b = false := by
  cases x with
  | nan => exact absurd hx (by simp [Float64.NonNeg])
  | inf n =>
    have : n = false := hx
    subst this
    cases b with
    | nan => rfl
    | inf m => cases m <;> rfl
    | fin y => rfl
  | fin x =>
    cases b with
    | nan => exact absurd hb (by simp [Float64.NonNeg])
    | inf m =>
      have : m = false := hb
      subst this
      simp [Float64.gt, Float64.lt] at h
    | fin y =>
      simp only [Float64.gt, Float64.lt, decide_eq_true_eq] at h
      simp [Float64.lt, le_of_lt h]

theorem add_nonneg_float (t s : Float64) (ht : t.NonNeg) (hs : s.NonNeg) : (t.add s).NonNeg := by
  cases t with
  | nan => exact absurd ht (by simp [Float64.NonNeg])
  | inf nt =>
    have : nt = false := ht
    subst this
    cases s with
    | nan => exact absurd hs (by simp [Float64.NonNeg])
    | inf ns =>
      have : ns = false := hs
      subst this
      rfl
    | fin y => rfl
  | fin x =>
    cases s with
    | nan => exact absurd hs (by simp [Float64.NonNeg])
    | inf ns => exact hs
    | fin y => exact add_nonneg (show 0 ≤ x from ht) (show 0 ≤ y from hs)

/-- A sum of two `float64` not below 0 is not below the first. -/
theorem round_add_ge_left (t s : Float64) (ht : t.NonNeg) (hs : s.NonNeg) (hrt : t.round = t) :
    (t.add s).round.lt t = false := by
  cases t with
  | nan => exact absurd ht (by simp [Float64.NonNeg])
  | inf nt =>
    have : nt = false := ht
    subst this
    cases s with
    | nan => exact absurd hs (by simp [Float64.NonNeg])
    | inf ns =>
      have : ns = false := hs
      subst this
      rfl
    | fin y => rfl
  | fin x =>
    cases s with
    | nan => exact absurd hs (by simp [Float64.NonNeg])
    | inf ns =>
      have : ns = false := hs
      subst this
      rfl
    | fin y =>
      have hx : 0 ≤ x := ht
      have hy : 0 ≤ y := hs
      have := round_mono x (x + y) hx (by linarith)
      rw [hrt] at this
      exact this

/-- A sum of two `float64` not below 0 is not below the second. -/
theorem round_add_ge_right (t s : Float64) (ht : t.NonNeg) (hs : s.NonNeg) (hrs : s.round = s) :
    (t.add s).round.lt s = false := by
  cases s with
  | nan => exact absurd hs (by simp [Float64.NonNeg])
  | inf ns =>
    have : ns = false := hs
    subst this
    cases t with
    | nan => exact absurd ht (by simp [Float64.NonNeg])
    | inf nt =>
      have : nt = false := ht
      subst this
      rfl
    | fin y => rfl
  | fin y =>
    cases t with
    | nan => exact absurd ht (by simp [Float64.NonNeg])
    | inf nt =>
      have : nt = false := ht
      subst this
      rfl
    | fin x =>
      have hx : 0 ≤ x := ht
      have hy : 0 ≤ y := hs
      have := round_mono y (x + y) hy (by linarith)
      rw [hrs] at this
      exact this

/-- The loop of the sum over `float64` not below 0: the total is a
`float64` not below 0, not below what it started from, and not below any
of the numbers added. -/
theorem total_ge (l : GoMap Float64) (t : Float64) (ht : t.NonNeg) (hrt : t.round = t)
    (hl : ∀ e ∈ l, e.2.NonNeg ∧ e.2.round = e.2) :
    (l.foldl (fun total entry => (total.add entry.2).round) t).NonNeg ∧
      (l.foldl (fun total entry => (total.add entry.2).round) t).round =
        l.foldl (fun total entry => (total.add entry.2).round) t ∧
      (l.foldl (fun total entry => (total.add entry.2).round) t).lt t = false ∧
      ∀ e ∈ l, (l.foldl (fun total entry => (total.add entry.2).round) t).lt e.2 = false := by
  induction l generalizing t with
  | nil =>
    exact ⟨ht, hrt, lt_self_false t, fun e he => absurd he (List.not_mem_nil e)⟩
  | cons e rest ih =>
    obtain ⟨he1, he2⟩ := hl e (List.mem_cons_self _ _)
    have hnn : ((t.add e.2).round).NonNeg := round_nonneg _ (add_nonneg_float t e.2 ht he1)
    obtain ⟨i1, i2, i3, i4⟩ := ih ((t.add e.2).round) hnn (round_round _)
      (fun x hx => hl x (List.mem_cons_of_mem _ hx))
    rw [List.foldl_cons]
    refine ⟨i1, i2, ?_, ?_⟩
    · exact lt_trans_false _ _ _ i1 hnn ht i3 (round_add_ge_left t e.2 ht he1 hrt)
    · intro x hx
      rcases List.mem_cons.mp hx with hxe | hxr
      · rw [hxe]
        exact lt_trans_false _ _ _ i1 hnn he1 i3 (round_add_ge_right t e.2 ht he1 he2)
      · exact i4 x hxr

/-- The loop of the largest: what it keeps is what it started from or one of
the numbers seen. -/
theorem largest_mem (l : GoMap Float64) (b : Float64) :
    l.foldl (fun best entry => if entry.2.gt best then entry.2 else best) b = b ∨
      ∃ e ∈ l, l.foldl (fun best entry => if entry.2.gt best then entry.2 else best) b = e.2 := by
  induction l generalizing b with
  | nil => exact Or.inl rfl
  | cons e rest ih =>
    rw [List.foldl_cons]
    rcases ih (if e.2.gt b then e.2 else b) with h | ⟨x, hx, h⟩
    · rw [h]
      split_ifs
      · exact Or.inr ⟨e, List.mem_cons_self _ _, rfl⟩
      · exact Or.inl rfl
    · exact Or.inr ⟨x, List.mem_cons_of_mem _ hx, h⟩

/-- The loop of the largest over `float64` not below 0: what it keeps is not
below what it started from nor below any of the numbers seen. -/
theorem largest_ge (l : GoMap Float64) (b : Float64) (hb : b.NonNeg)
    (hl : ∀ e ∈ l, e.2.NonNeg) :
    (l.foldl (fun best entry => if entry.2.gt best then entry.2 else best) b).NonNeg ∧
      (l.foldl (fun best entry => if entry.2.gt best then entry.2 else best) b).lt b = false ∧
      ∀ e ∈ l,
        (l.foldl (fun best entry => if entry.2.gt best then entry.2 else best) b).lt e.2 =
          false := by
  induction l generalizing b with
  | nil =>
    exact ⟨hb, lt_self_false b, fun e he => absurd he (List.not_mem_nil e)⟩
  | cons e rest ih =>
    have he := hl e (List.mem_cons_self _ _)
    have hnn : (if e.2.gt b then e.2 else b).NonNeg := by
      split_ifs
      · exact he
      · exact hb
    have hgb : (if e.2.gt b then e.2 else b).lt b = false := by
      split_ifs with h
      · exact lt_false_of_gt e.2 b he hb h
      · exact lt_self_false b
    have hge : (if e.2.gt b then e.2 else b).lt e.2 = false := by
      split_ifs with h
      · exact lt_self_false e.2
      · exact Bool.eq_false_iff.mpr h
    obtain ⟨i1, i2, i3⟩ := ih (if e.2.gt b then e.2 else b) hnn
      (fun x hx => hl x (List.mem_cons_of_mem _ hx))
    rw [List.foldl_cons]
    refine ⟨i1, lt_trans_false _ _ _ i1 hnn hb i2 hgb, ?_⟩
    intro x hx
    rcases List.mem_cons.mp hx with hxe | hxr
    · rw [hxe]
      exact lt_trans_false _ _ _ i1 hnn he i2 hge
    · exact i3 x hxr

/-- The sub-scores are `float64` not below 0. -/
theorem arteryScores_value (fields : List String) (e : String × Float64)
    (h : e ∈ arteryScores fields) : e.2.NonNeg ∧ e.2.round = e.2 := by
  refine ⟨arteryScores_nonneg fields e h, ?_⟩
  obtain ⟨m, -, he⟩ := arteryScores_mem fields e h
  rw [he]
  exact ParseFloat_round _

/-- The comparison of `parseAgatston` keeps the sum, in whatever orders the
two loops visit the map: the sum is not below any of the sub-scores, so it
is not below the largest. -/
theorem final_eq_total (scores sums maxs : GoMap Float64) (hs : sums.Perm scores)
    (hm : maxs.Perm scores) (hnn : ∀ e ∈ scores, e.2.NonNeg ∧ e.2.round = e.2) :
    (if (totalArteryScore sums).gt (maxAgatstonScore maxs) then totalArteryScore sums
      else maxAgatstonScore maxs) = totalArteryScore sums ∧
      (totalArteryScore sums).NonNeg ∧
      (totalArteryScore sums).lt (maxAgatstonScore maxs) = false ∧
      ∀ e ∈ scores, (totalArteryScore sums).lt e.2 = false := by
  have h0 : (Float64.fin 0).round = Float64.fin 0 := by simp [Float64.round]
  have z0 : (Float64.fin 0).NonNeg := le_refl (0 : ℚ)
  obtain ⟨t1, -, t3, t4⟩ := total_ge sums (Float64.fin 0) z0 h0
    (fun e he => hnn e (hs.subset he))
  obtain ⟨l1, -, -⟩ := largest_ge maxs (Float64.fin 0) z0
    (fun e he => (hnn e (hm.subset he)).1)
  have hle : (totalArteryScore sums).lt (maxAgatstonScore maxs) = false := by
    unfold totalArteryScore maxAgatstonScore
    rcases largest_mem maxs (Float64.fin 0) with h | ⟨e, he, h⟩
    · rw [h]
      exact t3
    · rw [h]
      exact t4 e (hs.symm.subset (hm.subset he))
  refine ⟨?_, t1, hle, fun e he => t4 e (hs.symm.subset he)⟩
  split_ifs with hgt
  · rfl
  · have : (maxAgatstonScore maxs).lt (totalArteryScore sums) = false :=
      Bool.eq_false_iff.mpr hgt
    exact (eq_of_lt_false _ _ t1 l1 hle this).symm

theorem exactSum_nonneg (k : Nat) (l : GoMap Float64)
    (hall : ∀ e ∈ l, ∃ n : Nat, e.2 = Float64.fin ((n : ℚ) / 2 ^ k)) : 0 ≤ exactSum l := by
  unfold exactSum
  apply List.sum_nonneg
  intro x hx
  obtain ⟨e, he, rfl⟩ := List.mem_map.mp hx
  obtain ⟨n, hn⟩ := hall e he
  rw [hn]
  positivity

theorem exactSum_cons (e : String × Float64) (l : GoMap Float64) (q : ℚ)
    (h : e.2 = Float64.fin q) : exactSum (e :: l) = q + exactSum l := by
  unfold exactSum
  rw [List.map_cons, List.sum_cons, h]

theorem exactSum_perm (l l' : GoMap Float64) (h : l.Perm l') : exactSum l = exactSum l' := by
  unfold exactSum
  exact (h.map _).sum_eq

/-- The loop of the sum over sub-scores that are whole numbers of units
`2 ^ (-k)`: while the exact sum has at most 53 bits, no addition rounds and
the total is the exact sum. -/
theorem total_dyadic (k : Nat) (hk : k ≤ 1074) (l : GoMap Float64) (t : Nat)
    (hall : ∀ e ∈ l, ∃ n : Nat, e.2 = Float64.fin ((n : ℚ) / 2 ^ k))
    (hsum : (t : ℚ) / 2 ^ k + exactSum l ≤ 2 ^ 53 / 2 ^ k) :
    l.foldl (fun total entry => (total.add entry.2).round) (Float64.fin ((t : ℚ) / 2 ^ k)) =
      Float64.fin ((t : ℚ) / 2 ^ k + exactSum l) := by
  have hpow : (0 : ℚ) < 2 ^ k := by positivity
  induction l generalizing t with
  | nil => simp [exactSum]
  | cons e rest ih =>
    obtain ⟨n, hn⟩ := hall e (List.mem_cons_self _ _)
    have hrest : ∀ x ∈ rest, ∃ n : Nat, x.2 = Float64.fin ((n : ℚ) / 2 ^ k) :=
      fun x hx => hall x (List.mem_cons_of_mem _ hx)
    have hnonneg := exactSum_nonneg k rest hrest
    rw [exactSum_cons e rest _ hn] at hsum ⊢
    have hstep : ((Float64.fin ((t : ℚ) / 2 ^ k)).add e.2).round =
        Float64.fin (((t + n : ℕ) : ℚ) / 2 ^ k) := by
      rw [hn]
      show (Float64.fin ((t : ℚ) / 2 ^ k + (n : ℚ) / 2 ^ k)).round = _
      have he : (t : ℚ) / 2 ^ k + (n : ℚ) / 2 ^ k = ((t + n : ℕ) : ℚ) / 2 ^ k := by
        push_cast
        ring
      rw [he]
      have hq0 : (0 : ℚ) ≤ ((t + n : ℕ) : ℚ) / 2 ^ k := by positivity
      have hle : ((t + n : ℕ) : ℚ) / 2 ^ k ≤ 2 ^ 53 / 2 ^ k := by
        rw [← he]
        linarith
      have hle' : ((t + n : ℕ) : ℚ) ≤ ((2 ^ 53 : ℕ) : ℚ) := by
        have := (div_le_div_right hpow).mp hle
        rw [Nat.cast_pow, Nat.cast_ofNat]
        exact this
      apply round_fixed _ (t + n) (-(k : ℤ)) (Nat.cast_le.mp hle') (by omega)
      · rw [abs_of_nonneg hq0, zpow_neg, zpow_natCast]
        rfl
      · rw [abs_of_nonneg hq0]
        calc ((t + n : ℕ) : ℚ) / 2 ^ k ≤ 2 ^ 53 / 2 ^ k := hle
          _ ≤ 2 ^ 53 := div_le_self (by positivity) (one_le_pow₀ (by norm_num))
          _ < 2 ^ 1024 := by norm_num
    rw [List.foldl_cons, hstep, ih (t + n) hrest (by push_cast; rw [add_div]; linarith)]
    congr 1
    push_cast
    ring

theorem artery_step (name : String) (digits : List Char) (c : Char) (cs : List Char)
    (hname : name.data = c :: cs) (hc : regexp.isSpace c = false)
    (halt : ∀ tail : List Char, regexp.alternatives ["LM", "LAD", "LCX", "RCA"]
      (name.data ++ tail) = some (name, tail))
    (hne : digits ≠ []) (hd : ∀ c ∈ digits, regexp.isDigit c = true) :
    arteryRegex ('*' :: ' ' :: (name.data ++ ':' :: ' ' :: digits)) =
      some (name, String.mk digits) := by
  obtain ⟨d, ds, rfl⟩ := List.exists_cons_of_ne_nil hne
  have hd0 : regexp.isDigit d = true := hd d (List.mem_cons_self _ _)
  have hsp : regexp.isSpace d = false := by
    unfold regexp.isDigit at hd0
    have := of_decide_eq_true hd0
    unfold regexp.isSpace
    simp only [Bool.or_eq_false_iff, beq_eq_false_iff_ne, ne_eq]
    omega
  have htake : (d :: ds).takeWhile regexp.isDigit = d :: ds :=
    List.takeWhile_eq_self_iff.mpr hd
  have hdrop : (d :: ds).dropWhile regexp.isDigit = [] :=
    List.dropWhile_eq_nil_iff.mpr hd
  have hnum : regexp.number (d :: ds) = some (d :: ds, []) := by
    unfold regexp.number
    simp only [htake, hdrop]
    simp
  have hdw : (' ' :: d :: ds).dropWhile regexp.isSpace = d :: ds := by
    rw [List.dropWhile_cons_of_pos (by decide), List.dropWhile_cons_of_neg (by simp [hsp])]
  have hdw2 : (' ' :: (name.data ++ ':' :: ' ' :: d :: ds)).dropWhile regexp.isSpace =
      name.data ++ ':' :: ' ' :: d :: ds := by
    rw [List.dropWhile_cons_of_pos (by decide), hname, List.cons_append,
      List.dropWhile_cons_of_neg (by simp [hc])]
  have hstar : regexp.literal ['*'] ('*' :: ' ' :: (name.data ++ ':' :: ' ' :: d :: ds)) =
      some (' ' :: (name.data ++ ':' :: ' ' :: d :: ds)) := by
    simp [regexp.literal]
  have hcolon : regexp.literal [':'] (':' :: ' ' :: d :: ds) = some (' ' :: d :: ds) := by
    simp [regexp.literal]
  unfold arteryRegex
  rw [regexp.leftmost]
  simp only [hstar, hdw2, halt, hcolon, hdw, hnum]

/-- The pattern of the artery scores matches each of the four names: a star,
a space, the name, a colon, a space and a number written in digits are
matched as that artery with that number. -/
theorem arteryRegex_matches (artery : String) (digits : List Char)
    (ha : artery ∈ ["LM", "LAD", "LCX", "RCA"]) (hne : digits ≠ [])
    (hd : ∀ c ∈ digits, regexp.isDigit c = true) :
    arteryRegex ('*' :: ' ' :: (artery.data ++ ':' :: ' ' :: digits)) =
      some (artery, String.mk digits) := by
  simp only [List.mem_cons, List.mem_singleton, List.not_mem_nil, or_false] at ha
  rcases ha with rfl | rfl | rfl | rfl
  · exact artery_step "LM" digits 'L' ['M'] rfl (by decide)
      (fun tail => by simp [regexp.alternatives, regexp.literal]) hne hd
  · exact artery_step "LAD" digits 'L' ['A', 'D'] rfl (by decide)
      (fun tail => by simp [regexp.alternatives, regexp.literal]) hne hd
  · exact artery_step "LCX" digits 'L' ['C', 'X'] rfl (by decide)
      (fun tail => by simp [regexp.alternatives, regexp.literal]) hne hd
  · exact artery_step "RCA" digits 'R' ['C', 'A'] rfl (by decide)
      (fun tail => by simp [regexp.alternatives, regexp.literal]) hne hd

theorem parseAgatston_of_scores (label : String) (fields : List String)
    (scores : GoMap Float64) (v : Float64) (h6 : fields.length = 6)
    (hs : arteryScores fields = scores)
    (hv : (if (totalArteryScore scores).gt (maxAgatstonScore scores) then totalArteryScore scores
      else maxAgatstonScore scores) = v) :
    parseAgatston label fields = .ok (Value.float v) := by
  rw [parseAgatston_eq label fields h6, hs, hv]

theorem arteryScores_get? (fields : List String) (artery : String) :
    (arteryScores fields).get? artery = retainedScore fields artery := by
  rw [arteryScores_eq, get?_foldl_set]
  unfold retainedScore
  cases (arteryMatches fields).reverse.find? fun km => km.1 = artery with
  | some km => rfl
  | none => rfl

theorem arteryScores_keys (fields : List String) :
    (arteryScores fields).keys.Nodup ∧
      ∀ artery, artery ∈ (arteryScores fields).keys ↔
        ∃ m ∈ arteryMatches fields, m.1 = artery := by
  rw [arteryScores_eq]
  refine ⟨keys_foldl_set_nodup _ _ List.nodup_nil, fun artery => ?_⟩
  rw [mem_keys_foldl_set]
  simp [GoMap.keys]

/-- The result of `parseAgatstonIn` is the sum of the sub-scores in the order
the loop of the sum visits them. -/
theorem parseAgatstonIn_total (sumOrder maxOrder : GoMap Float64 → GoMap Float64)
    (hsum : IsVisitOrder sumOrder) (hmax : IsVisitOrder maxOrder) (label : String)
    (fields : List String) (h : fields.length = 6) :
    parseAgatstonIn sumOrder maxOrder label fields =
      .ok (Value.float (totalArteryScore (sumOrder (arteryScores fields)))) := by
  rw [parseAgatstonIn_eq sumOrder maxOrder label fields h,
    (final_eq_total (arteryScores fields) _ _ (hsum _) (hmax _) (arteryScores_value fields)).1]

/-- The result of `parseAgatstonIn` on sub-scores that are whole numbers of
units `2 ^ (-k)` with an exact sum of at most 53 bits: the exact sum, in
every order. -/
theorem parseAgatstonIn_dyadic (sumOrder maxOrder : GoMap Float64 → GoMap Float64)
    (hsum : IsVisitOrder sumOrder) (hmax : IsVisitOrder maxOrder) (label : String)
    (fields : List String) (h : fields.length = 6) (k : Nat) (hk : k ≤ 1074)
    (hall : ∀ e ∈ arteryScores fields, ∃ n : Nat, e.2 = Float64.fin ((n : ℚ) / 2 ^ k))
    (hs : exactSum (arteryScores fields) ≤ 2 ^ 53 / 2 ^ k) :
    totalArteryScore (sumOrder (arteryScores fields)) =
        Float64.fin (exactSum (arteryScores fields)) ∧
      parseAgatstonIn sumOrder maxOrder label fields =
        .ok (Value.float (Float64.fin (exactSum (arteryScores fields)))) := by
  have ht : totalArteryScore (sumOrder (arteryScores fields)) =
      Float64.fin (exactSum (arteryScores fields)) := by
    have := total_dyadic k hk (sumOrder (arteryScores fields)) 0
      (fun e he => hall e ((hsum _).subset he))
      (by rw [exactSum_perm _ _ (hsum _)]; simpa using hs)
    rw [exactSum_perm _ _ (hsum _)] at this
    unfold totalArteryScore
    simpa using this
  exact ⟨ht, by rw [parseAgatstonIn_total sumOrder maxOrder hsum hmax label fields h, ht]⟩

/-- C25.  On six report texts `parseAgatston` never fails, in whatever orders
its two loops visit the map of artery scores.  It returns the greater of the
sum of the artery sub-scores and the largest of them: the sum as Go adds
them, every partial sum rounded to a `float64`, in the order the map is
visited; the largest is the same in every order, it is not below any
sub-score, and it is one of them, or 0 when there is none.  When the
sub-scores are whole numbers, or whole numbers of halves, quarters and so
on, and their exact sum has at most 53 bits, no addition rounds and the sum
is the exact one.  The sub-scores are the entries of the map of artery
scores: each stands under one of LM, LAD, LCX, RCA and is the number of a
match of that artery in the six texts, every artery matched has its entry,
and each of the four names is matched.  Without any artery match the result
is 0; the matches LAD 120 and LCX 30 give 150, and the matches LM 1, LAD 2,
LCX 3 and RCA 4 give 10. -/
theorem parseAgatston_spec (sumOrder maxOrder : GoMap Float64 → GoMap Float64)
    (hsum : IsVisitOrder sumOrder) (hmax : IsVisitOrder maxOrder)
    (label f0 f1 f2 f3 f4 f5 : String) :
    parseAgatstonIn sumOrder maxOrder label [f0, f1, f2, f3, f4, f5] =
        .ok (Value.float
          (if (totalArteryScore (sumOrder (arteryScores [f0, f1, f2, f3, f4, f5]))).gt
              (maxAgatstonScore (arteryScores [f0, f1, f2, f3, f4, f5]))
            then totalArteryScore (sumOrder (arteryScores [f0, f1, f2, f3, f4, f5]))
            else maxAgatstonScore (arteryScores [f0, f1, f2, f3, f4, f5]))) ∧
      maxAgatstonScore (maxOrder (arteryScores [f0, f1, f2, f3, f4, f5])) =
        maxAgatstonScore (arteryScores [f0, f1, f2, f3, f4, f5]) ∧
      (∀ e ∈ arteryScores [f0, f1, f2, f3, f4, f5],
        (maxAgatstonScore (arteryScores [f0, f1, f2, f3, f4, f5])).lt e.2 = false) ∧
      (maxAgatstonScore (arteryScores [f0, f1, f2, f3, f4, f5]) = Float64.fin 0 ∨
        ∃ e ∈ arteryScores [f0, f1, f2, f3, f4, f5],
          maxAgatstonScore (arteryScores [f0, f1, f2, f3, f4, f5]) = e.2) ∧
      (∀ k : Nat, k ≤ 1074 →
        (∀ e ∈ arteryScores [f0, f1, f2, f3, f4, f5],
          ∃ n : Nat, e.2 = Float64.fin ((n : ℚ) / 2 ^ k)) →
        exactSum (arteryScores [f0, f1, f2, f3, f4, f5]) ≤ 2 ^ 53 / 2 ^ k →
        totalArteryScore (sumOrder (arteryScores [f0, f1, f2, f3, f4, f5])) =
          Float64.fin (exactSum (arteryScores [f0, f1, f2, f3, f4, f5]))) ∧
      (∀ e ∈ arteryScores [f0, f1, f2, f3, f4, f5],
        e.1 ∈ ["LM", "LAD", "LCX", "RCA"] ∧
          ∃ m ∈ arteryMatches [f0, f1, f2, f3, f4, f5],
            m.1 = e.1 ∧ e.2 = (strconv.ParseFloat m.2).val) ∧
      (∀ m ∈ arteryMatches [f0, f1, f2, f3, f4, f5],
        m.1 ∈ (arteryScores [f0, f1, f2, f3, f4, f5]).keys) ∧
      (∀ artery ∈ ["LM", "LAD", "LCX", "RCA"], ∀ digits : List Char, digits ≠ [] →
        (∀ c ∈ digits, regexp.isDigit c = true) →
        arteryRegex ('*' :: ' ' :: (artery.data ++ ':' :: ' ' :: digits)) =
          some (artery, String.mk digits)) ∧
      (arteryMatches [f0, f1, f2, f3, f4, f5] = [] →
        parseAgatstonIn sumOrder maxOrder label [f0, f1, f2, f3, f4, f5] =
          .ok (Value.float (Float64.fin 0))) ∧
      parseAgatston label ["* LAD: 120, * LCX: 30", "", "", "", "", ""] =
        .ok (Value.float (Float64.fin 150)) ∧
      parseAgatstonIn sumOrder maxOrder label ["* LAD: 120, * LCX: 30", "", "", "", "", ""] =
        .ok (Value.float (Float64.fin 150)) ∧
      arteryMatches ["* LM: 1, * LAD: 2", "* LCX: 3", "", "* RCA: 4", "", ""] =
        [("LM", "1"), ("LAD", "2"), ("LCX", "3"), ("RCA", "4")] ∧
      parseAgatstonIn sumOrder maxOrder label
          ["* LM: 1, * LAD: 2", "* LCX: 3", "", "* RCA: 4", "", ""] =
        .ok (Value.float (Float64.fin 10)) := by
  have hval := arteryScores_value [f0, f1, f2, f3, f4, f5]
  have hperm := largest_perm _ _ (hmax (arteryScores [f0, f1, f2, f3, f4, f5]))
    (fun e he => (hval e ((hmax _).subset he)).1)
  have hmaxeq : maxAgatstonScore (maxOrder (arteryScores [f0, f1, f2, f3, f4, f5])) =
      maxAgatstonScore (arteryScores [f0, f1, f2, f3, f4, f5]) := hperm
  obtain ⟨-, -, l3⟩ := largest_ge (arteryScores [f0, f1, f2, f3, f4, f5]) (Float64.fin 0)
    (le_refl (0 : ℚ)) (fun e he => (hval e he).1)
  refine ⟨?_, hmaxeq, l3, largest_mem _ _, ?_, ?_, ?_,
    fun artery ha digits => arteryRegex_matches artery digits ha, ?_, ?_, ?_,
    by decide, ?_⟩
  · rw [parseAgatstonIn_eq sumOrder maxOrder label [f0, f1, f2, f3, f4, f5] rfl, hmaxeq]
  · intro k hk hall hs
    exact (parseAgatstonIn_dyadic sumOrder maxOrder hsum hmax label [f0, f1, f2, f3, f4, f5] rfl
      k hk hall hs).1
  · intro e he
    obtain ⟨m, hm, hem⟩ := arteryScores_mem _ e he
    refine ⟨?_, m, hm, ?_, ?_⟩
    · rw [hem]
      exact (arteryMatches_mem _ m hm).1
    · rw [hem]
    · rw [hem]
  · intro m hm
    exact ((arteryScores_keys [f0, f1, f2, f3, f4, f5]).2 m.1).mpr ⟨m, hm, rfl⟩
  · intro hnone
    have hs : arteryScores [f0, f1, f2, f3, f4, f5] = [] := by
      rw [arteryScores_eq, hnone]
      rfl
    have := (parseAgatstonIn_dyadic sumOrder maxOrder hsum hmax label
      [f0, f1, f2, f3, f4, f5] rfl 0 (by norm_num)
      (by rw [hs]; intro e he; exact absurd he (List.not_mem_nil e))
      (by rw [hs]; simp [exactSum])).2
    rw [this, hs]
    rfl
  · exact parseAgatston_of_scores label _
      [("LAD", Float64.fin 120), ("LCX", Float64.fin 30)] _ rfl (by decide!) (by decide!)
  · have hs : arteryScores ["* LAD: 120, * LCX: 30", "", "", "", "", ""] =
        [("LAD", Float64.fin 120), ("LCX", Float64.fin 30)] := by decide!
    have := (parseAgatstonIn_dyadic sumOrder maxOrder hsum hmax label
      ["* LAD: 120, * LCX: 30", "", "", "", "", ""] rfl 0 (by norm_num)
      (by
        rw [hs]
        intro e he
        simp only [List.mem_cons, List.mem_singleton, List.not_mem_nil, or_false] at he
        rcases he with rfl | rfl
        · exact ⟨120, by norm_num⟩
        · exact ⟨30, by norm_num⟩)
      (by rw [hs]; norm_num [exactSum])).2
    rw [this, hs]
    norm_num [exactSum]
  · have hs : arteryScores ["* LM: 1, * LAD: 2", "* LCX: 3", "", "* RCA: 4", "", ""] =
        [("LM", Float64.fin 1), ("LAD", Float64.fin 2), ("LCX", Float64.fin 3),
          ("RCA", Float64.fin 4)] := by decide!
    have := (parseAgatstonIn_dyadic sumOrder maxOrder hsum hmax label
      ["* LM: 1, * LAD: 2", "* LCX: 3", "", "* RCA: 4", "", ""] rfl 0 (by norm_num)
      (by
        rw [hs]
        intro e he
        simp only [List.mem_cons, List.mem_singleton, List.not_mem_nil, or_false] at he
        rcases he with rfl | rfl | rfl | rfl
        · exact ⟨1, by norm_num⟩
        · exact ⟨2, by norm_num⟩
        · exact ⟨3, by norm_num⟩
        · exact ⟨4, by norm_num⟩)
      (by rw [hs]; norm_num [exactSum])).2
    rw [this, hs]
    norm_num [exactSum]

theorem parseAgatston_spec_witness :
    IsVisitOrder fromSecond ∧ IsVisitOrder List.reverse ∧
      parseAgatstonIn fromSecond List.reverse "冠狀動脈鈣化指數"
          ["* LM: 1, * LAD: 2", "* LCX: 3", "", "* RCA: 4", "", ""] =
        .ok (Value.float (Float64.fin 10)) :=
  ⟨fun m => List.rotate_perm m 1, fun m => List.reverse_perm m,
    (parseAgatston_spec fromSecond List.reverse (fun m => List.rotate_perm m 1)
      (fun m => List.reverse_perm m) "冠狀動脈鈣化指數" "" "" "" "" "" "").2.2.2.2.2.2.2.2.2.2.2.2⟩

/-- C29.  On six report texts the result of `parseAgatston` is the sum of
the sub-scores retained in the map of artery scores, as Go adds them: every
partial sum rounded to a `float64`, in the order the map is visited, whatever
that order is.  Every sub-score is a number not below 0, or the positive
infinity when the digits are too many for a `float64`; so the sum is not
below 0, not below any sub-score and not below the largest of them, and
the comparison of the two keeps the sum.  When the sub-scores are whole
numbers of units `2 ^ (-k)` and their exact sum has at most 53 bits, the
result is their exact sum: so LM 10, LAD 120.5 and RCA 0 give 130.5. -/
theorem parseAgatston_sum (sumOrder maxOrder : GoMap Float64 → GoMap Float64)
    (hsum : IsVisitOrder sumOrder) (hmax : IsVisitOrder maxOrder)
    (label f0 f1 f2 f3 f4 f5 : String) :
    parseAgatstonIn sumOrder maxOrder label [f0, f1, f2, f3, f4, f5] =
        .ok (Value.float (totalArteryScore (sumOrder (arteryScores [f0, f1, f2, f3, f4, f5])))) ∧
      parseAgatston label [f0, f1, f2, f3, f4, f5] =
        .ok (Value.float (totalArteryScore (arteryScores [f0, f1, f2, f3, f4, f5]))) ∧
      (∀ e ∈ arteryScores [f0, f1, f2, f3, f4, f5], e.2.NonNeg) ∧
      (totalArteryScore (sumOrder (arteryScores [f0, f1, f2, f3, f4, f5]))).NonNeg ∧
      (totalArteryScore (sumOrder (arteryScores [f0, f1, f2, f3, f4, f5]))).lt
        (maxAgatstonScore (maxOrder (arteryScores [f0, f1, f2, f3, f4, f5]))) = false ∧
      (∀ e ∈ arteryScores [f0, f1, f2, f3, f4, f5],
        (totalArteryScore (sumOrder (arteryScores [f0, f1, f2, f3, f4, f5]))).lt e.2 = false) ∧
      (∀ k : Nat, k ≤ 1074 →
        (∀ e ∈ arteryScores [f0, f1, f2, f3, f4, f5],
          ∃ n : Nat, e.2 = Float64.fin ((n : ℚ) / 2 ^ k)) →
        exactSum (arteryScores [f0, f1, f2, f3, f4, f5]) ≤ 2 ^ 53 / 2 ^ k →
        0 ≤ exactSum (arteryScores [f0, f1, f2, f3, f4, f5]) ∧
          parseAgatstonIn sumOrder maxOrder label [f0, f1, f2, f3, f4, f5] =
            .ok (Value.float (Float64.fin (exactSum (arteryScores [f0, f1, f2, f3, f4, f5]))))) ∧
      parseAgatston label ["* LM: 10, * LAD: 120.5", "* RCA: 0", "", "", "", ""] =
        .ok (Value.float (Float64.fin 130.5)) ∧
      parseAgatstonIn sumOrder maxOrder label
          ["* LM: 10, * LAD: 120.5", "* RCA: 0", "", "", "", ""] =
        .ok (Value.float (Float64.fin 130.5)) := by
  have hval := arteryScores_value [f0, f1, f2, f3, f4, f5]
  obtain ⟨-, h2, h3, h4⟩ := final_eq_total (arteryScores [f0, f1, f2, f3, f4, f5]) _ _
    (hsum _) (hmax _) hval
  have hplain : parseAgatston label [f0, f1, f2, f3, f4, f5] =
      .ok (Value.float (totalArteryScore (arteryScores [f0, f1, f2, f3, f4, f5]))) := by
    rw [parseAgatston_eq label [f0, f1, f2, f3, f4, f5] rfl,
      (final_eq_total _ _ _ (List.Perm.refl _) (List.Perm.refl _) hval).1]
  refine ⟨parseAgatstonIn_total sumOrder maxOrder hsum hmax label _ rfl, hplain,
    fun e he => (hval e he).1, h2, h3, h4, ?_, ?_, ?_⟩
  · intro k hk hall hs
    exact ⟨exactSum_nonneg k _ hall,
      (parseAgatstonIn_dyadic sumOrder maxOrder hsum hmax label [f0, f1, f2, f3, f4, f5] rfl
        k hk hall hs).2⟩
  · exact parseAgatston_of_scores label _
      [("LM", Float64.fin 10), ("LAD", Float64.fin 120.5), ("RCA", Float64.fin 0)] _ rfl
      (by decide!) (by decide!)
  · have hs : arteryScores ["* LM: 10, * LAD: 120.5", "* RCA: 0", "", "", "", ""] =
        [("LM", Float64.fin 10), ("LAD", Float64.fin 120.5), ("RCA", Float64.fin 0)] := by
      decide!
    have := (parseAgatstonIn_dyadic sumOrder maxOrder hsum hmax label
      ["* LM: 10, * LAD: 120.5", "* RCA: 0", "", "", "", ""] rfl 1 (by norm_num)
      (by
        rw [hs]
        intro e he
        simp only [List.mem_cons, List.mem_singleton, List.not_mem_nil, or_false] at he
        rcases he with rfl | rfl | rfl
        · exact ⟨20, by norm_num⟩
        · exact ⟨241, by norm_num⟩
        · exact ⟨0, by norm_num⟩)
      (by rw [hs]; norm_num [exactSum])).2
    rw [this, hs]
    norm_num [exactSum]

theorem parseAgatston_sum_witness :
    IsVisitOrder List.reverse ∧ IsVisitOrder fromSecond ∧
      parseAgatstonIn List.reverse fromSecond "冠狀動脈鈣化指數"
          ["* LM: 10, * LAD: 120.5", "* RCA: 0", "", "", "", ""] =
        .ok (Value.float (Float64.fin 130.5)) :=
  ⟨fun m => List.reverse_perm m, fun m => List.rotate_perm m 1,
    (parseAgatston_sum List.reverse fromSecond (fun m => List.reverse_perm m)
      (fun m => List.rotate_perm m 1) "冠狀動脈鈣化指數" "" "" "" "" "" "").2.2.2.2.2.2.2.2⟩

/-- C30.  The map of artery scores of `parseAgatston` holds one sub-score
for each artery matched: the number of the last match of that artery in
reading order, field after field and piece after piece between commas.
The result is the sum of these sub-scores, so an earlier match of the same
artery is replaced, not added: LAD 100 then LAD 20 give 20, in one text or
in two, and LAD 100, LCX 5, then LAD 20 give 25. -/
theorem parseAgatston_last_match (label f0 f1 f2 f3 f4 f5 : String) :
    (∀ artery, (arteryScores [f0, f1, f2, f3, f4, f5]).get? artery =
        retainedScore [f0, f1, f2, f3, f4, f5] artery) ∧
      (arteryScores [f0, f1, f2, f3, f4, f5]).keys.Nodup ∧
      (∀ artery, artery ∈ (arteryScores [f0, f1, f2, f3, f4, f5]).keys ↔
        ∃ m ∈ arteryMatches [f0, f1, f2, f3, f4, f5], m.1 = artery) ∧
      parseAgatston label [f0, f1, f2, f3, f4, f5] =
        .ok (Value.float (totalArteryScore (arteryScores [f0, f1, f2, f3, f4, f5]))) ∧
      arteryMatches ["* LAD: 100, * LAD: 20", "", "", "", "", ""] =
        [("LAD", "100"), ("LAD", "20")] ∧
      parseAgatston label ["* LAD: 100, * LAD: 20", "", "", "", "", ""] =
        .ok (Value.float (Float64.fin 20)) ∧
      parseAgatston label ["* LAD: 100", "", "* LAD: 20", "", "", ""] =
        .ok (Value.float (Float64.fin 20)) ∧
      parseAgatston label ["* LAD: 100, * LCX: 5", "* LAD: 20", "", "", "", ""] =
        .ok (Value.float (Float64.fin 25)) := by
  obtain ⟨hk1, hk2⟩ := arteryScores_keys [f0, f1, f2, f3, f4, f5]
  refine ⟨arteryScores_get? _, hk1, hk2, ?_, by decide, ?_, ?_, ?_⟩
  · rw [parseAgatston_eq label [f0, f1, f2, f3, f4, f5] rfl,
      (final_eq_total _ _ _ (List.Perm.refl _) (List.Perm.refl _)
        (arteryScores_value [f0, f1, f2, f3, f4, f5])).1]
  · exact parseAgatston_of_scores label _ [("LAD", Float64.fin 20)] _ rfl (by decide!)
      (by decide!)
  · exact parseAgatston_of_scores label _ [("LAD", Float64.fin 20)] _ rfl (by decide!)
      (by decide!)
  · exact parseAgatston_of_scores label _ [("LAD", Float64.fin 20), ("LCX", Float64.fin 5)] _
      rfl (by decide!) (by decide!)

/-! ## Determinism -/

theorem keys_set_congr {α : Type} (m m' : GoMap α) (k : String) (v v' : α)
    (h : m.keys = m'.keys) : (m.set k v).keys = (m'.set k v').keys := by
  by_cases hk : k ∈ m.keys
  · rw [keys_set_mem m k v hk, keys_set_mem m' k v' (h ▸ hk), h]
  · rw [keys_set_of_not_mem m k v hk, keys_set_of_not_mem m' k v' (h ▸ hk), h]

/-- One step of the loop of `extractdata` on two rules that differ at most by
a value under `key`: the same result, and maps that still differ at most
under `key`. -/
theorem parsedata_sameButValue (key : String) (op op' : Operation) (data : GoMap String)
    (m m' : GoMap Value) (hop : SameButValue key op op') (hk : m.keys = m'.keys)
    (hv : ∀ k, k ≠ key → m.get? k = m'.get? k) :
    (parsedata op.parseFunc m data op.colLabel op.colName op.fields).1 =
        (parsedata op'.parseFunc m' data op'.colLabel op'.colName op'.fields).1 ∧
      (parsedata op.parseFunc m data op.colLabel op.colName op.fields).2.keys =
        (parsedata op'.parseFunc m' data op'.colLabel op'.colName op'.fields).2.keys ∧
      ∀ k, k ≠ key →
        (parsedata op.parseFunc m data op.colLabel op.colName op.fields).2.get? k =
          (parsedata op'.parseFunc m' data op'.colLabel op'.colName op'.fields).2.get? k := by
  obtain ⟨hl, hn, hf, hp⟩ := hop
  rw [← hl, ← hn, ← hf]
  unfold parsedata
  by_cases hlen : op.fields.length < 1
  · rw [if_pos hlen, if_pos hlen]
    exact ⟨rfl, hk, hv⟩
  · rw [if_neg hlen, if_neg hlen]
    cases hfv : fieldValues data op.fields with
    | error colName => exact ⟨rfl, hk, hv⟩
    | ok vals =>
      dsimp only
      rcases hp vals with he | ⟨hkey, v, v', h1, h2⟩
      · rw [← he]
        cases hparse : op.parseFunc op.colLabel vals with
        | error err => exact ⟨rfl, hk, hv⟩
        | ok v =>
          refine ⟨rfl, keys_set_congr m m' _ v v hk, fun k hkne => ?_⟩
          by_cases hkn : k = op.colName
          · rw [hkn, get?_set_self, get?_set_self]
          · rw [get?_set_ne _ _ _ _ hkn, get?_set_ne _ _ _ _ hkn]
            exact hv k hkne
      · rw [h1, h2]
        refine ⟨rfl, keys_set_congr m m' _ v v' hk, fun k hkne => ?_⟩
        have hkn : k ≠ op.colName := by rw [hkey]; exact hkne
        rw [get?_set_ne _ _ _ _ hkn, get?_set_ne _ _ _ _ hkn]
        exact hv k hkne

/-- The loop of `extractdata` over two tables whose rules differ at most by a
value under `key`: the same error fields, the same keys, and the same value
under every key but `key`. -/
theorem extractdataLoop_sameButValue (key : String) (data : GoMap String) :
    ∀ (ops ops' : List Operation) (r r' : Result) (m m' : GoMap Value),
      List.Forall₂ (SameButValue key) ops ops' →
      r.Error = r'.Error → r.ErrorCode = r'.ErrorCode → r.ErrorDetail = r'.ErrorDetail →
      m.keys = m'.keys → (∀ k, k ≠ key → m.get? k = m'.get? k) →
      (extractdataLoop data ops r m).Error = (extractdataLoop data ops' r' m').Error ∧
      (extractdataLoop data ops r m).ErrorCode = (extractdataLoop data ops' r' m').ErrorCode ∧
      (extractdataLoop data ops r m).ErrorDetail =
        (extractdataLoop data ops' r' m').ErrorDetail ∧
      (extractdataLoop data ops r m).Data.keys = (extractdataLoop data ops' r' m').Data.keys ∧
      ∀ k, k ≠ key →
        (extractdataLoop data ops r m).Data.get? k =
          (extractdataLoop data ops' r' m').Data.get? k := by
  intro ops ops' r r' m m' hops
  induction hops generalizing r r' m m' with
  | nil =>
    intro h1 h2 h3 hk hv
    exact ⟨h1, h2, h3, hk, hv⟩
  | @cons op op' rest rest' hop _ ih =>
    intro h1 h2 h3 hk hv
    obtain ⟨s1, s2, s3⟩ := parsedata_sameButValue key op op' data m m' hop hk hv
    simp only [extractdataLoop]
    rw [← s1]
    by_cases herr : (parsedata op.parseFunc m data op.colLabel op.colName op.fields).1.Error ≠ ""
    · rw [if_pos herr, if_pos herr]
      have hd := congrArg Result.Data s1
      rw [s1]
      exact ⟨rfl, rfl, rfl, rfl, fun _ _ => rfl⟩
    · rw [if_neg herr, if_neg herr]
      exact ih _ _ _ _ rfl rfl rfl s2 s3

theorem parseAgatstonIn_cases (o1 o2 o1' o2' : GoMap Float64 → GoMap Float64)
    (label : String) (vals : List String) :
    parseAgatstonIn o1 o2 label vals = parseAgatstonIn o1' o2' label vals ∨
      ∃ v v', parseAgatstonIn o1 o2 label vals = .ok v ∧
        parseAgatstonIn o1' o2' label vals = .ok v' := by
  unfold parseAgatstonIn
  by_cases h : vals.length ≠ 6
  · left
    rw [if_pos h, if_pos h]
  · right
    rw [if_neg h, if_neg h]
    exact ⟨_, _, rfl, rfl⟩

theorem operationsIn_sameButValue (o1 o2 o1' o2' : GoMap Float64 → GoMap Float64) :
    List.Forall₂ (SameButValue "Agatston_score") (operationsIn o1 o2) (operationsIn o1' o2') := by
  unfold operationsIn
  rw [List.forall₂_map_left_iff, List.forall₂_map_right_iff]
  apply List.forall₂_same.mpr
  intro op _
  by_cases h : op.colName = "Agatston_score"
  · rw [if_pos h, if_pos h]
    refine ⟨rfl, rfl, rfl, fun vals => ?_⟩
    rcases parseAgatstonIn_cases o1 o2 o1' o2' op.colLabel vals with he | he
    · exact Or.inl he
    · exact Or.inr ⟨h, he⟩
  · rw [if_neg h, if_neg h]
    exact ⟨rfl, rfl, rfl, fun vals => Or.inl rfl⟩

/-- The order of the loop that keeps the largest sub-score does not change
the result of `parseAgatstonIn`. -/
theorem parseAgatstonIn_maxOrder (sumOrder maxOrder maxOrder' : GoMap Float64 → GoMap Float64)
    (h : IsVisitOrder maxOrder) (h' : IsVisitOrder maxOrder') :
    parseAgatstonIn sumOrder maxOrder = parseAgatstonIn sumOrder maxOrder' := by
  funext label fields
  unfold parseAgatstonIn
  by_cases hlen : fields.length ≠ 6
  · rw [if_pos hlen, if_pos hlen]
  · rw [if_neg hlen, if_neg hlen]
    dsimp only
    have hperm := (h (collectFields fields ([], [])).2).trans
      (h' (collectFields fields ([], [])).2).symm
    have hnn : ∀ e ∈ maxOrder (collectFields fields ([], [])).2, e.2.NonNeg := by
      intro e he
      exact arteryScores_nonneg fields e ((h _).subset he)
    rw [largest_perm _ _ hperm hnn]

theorem fieldValues_set (data : GoMap String) (key value : String) (fields : List String)
    (h : key ∉ fields) : fieldValues (data.set key value) fields = fieldValues data fields := by
  induction fields with
  | nil => rfl
  | cons f rest ih =>
    have hf : f ≠ key := fun e => h (e ▸ List.mem_cons_self _ _)
    have hrest : key ∉ rest := fun hm => h (List.mem_cons_of_mem _ hm)
    simp only [fieldValues, get?_set_ne data key f value hf, ih hrest]

set_option maxRecDepth 100000 in
/-- The rule of the Agatston score in the table: its label and its six
fields; no other rule reads the first of them. -/
theorem operations_agatston :
    (∃ op ∈ operations, op.colName = "Agatston_score") ∧
      (∀ op ∈ operations, op.colName = "Agatston_score" →
        op.colLabel = "冠狀動脈鈣化指數" ∧
          op.fields = ["PACS_相關影像檢查-Chest CT", "PACS_相關影像檢查-MDCT",
            "PACS_相關影像檢查-低輻射64切電腦斷層冠狀動脈血管攝影",
            "PACS_相關影像檢查-Low dose Coronary CT Angiography",
            "PACS_相關影像檢查-calcium score", "PACS_相關影像檢查-心臟鈣化指數"]) ∧
      ∀ op ∈ operations, op.colName ≠ "Agatston_score" →
        "PACS_相關影像檢查-Chest CT" ∉ op.fields := by
  decide

theorem threeArteries_fields :
    fieldValues threeArteries ["PACS_相關影像檢查-Chest CT", "PACS_相關影像檢查-MDCT",
        "PACS_相關影像檢查-低輻射64切電腦斷層冠狀動脈血管攝影",
        "PACS_相關影像檢查-Low dose Coronary CT Angiography",
        "PACS_相關影像檢查-calcium score", "PACS_相關影像檢查-心臟鈣化指數"] =
      .ok ["* LM: 0.1, * LAD: 0.2, * LCX: 0.3", "", "", "", "", ""] := by
  decide!

theorem operationsIn_colName (o1 o2 : GoMap Float64 → GoMap Float64) :
    (operationsIn o1 o2).map (fun op => op.colName) = operations.map fun op => op.colName := by
  unfold operationsIn
  rw [List.map_map]
  apply List.map_congr_left
  intro op _
  simp only [Function.comp]
  split_ifs <;> rfl

theorem parseAgatstonIn_ok (o1 o2 : GoMap Float64 → GoMap Float64) (label : String)
    (fields : List String) (h : fields.length = 6) :
    ∃ v, parseAgatstonIn o1 o2 label fields = .ok v := by
  unfold parseAgatstonIn
  rw [if_neg (not_not.mpr h)]
  exact ⟨_, rfl⟩

/-- Every rule succeeds on the record `threeArteries`, in whatever order the
map of artery scores is visited. -/
theorem threeArteries_succeeds (o1 o2 : GoMap Float64 → GoMap Float64) :
    ∀ op ∈ operationsIn o1 o2, op.Succeeds threeArteries := by
  intro op hop
  unfold operationsIn at hop
  obtain ⟨op0, hmem, rfl⟩ := List.mem_map.mp hop
  obtain ⟨-, hrow, hother⟩ := operations_agatston
  by_cases hname : op0.colName = "Agatston_score"
  · rw [if_pos hname]
    obtain ⟨-, hfields⟩ := hrow op0 hmem hname
    refine ⟨by rw [hfields]; exact List.cons_ne_nil _ _, ?_⟩
    dsimp only
    rw [hfields]
    obtain ⟨v, hv⟩ := parseAgatstonIn_ok o1 o2 op0.colLabel
      ["* LM: 0.1, * LAD: 0.2, * LCX: 0.3", "", "", "", "", ""] rfl
    exact ⟨_, v, threeArteries_fields, hv⟩
  · rw [if_neg hname]
    obtain ⟨hne, vals, v, hfv, hv⟩ := (succeeds_iff op0 fullRecord).mpr
      (fullRecord_succeeds op0 hmem)
    refine ⟨hne, vals, v, ?_, hv⟩
    unfold threeArteries
    rw [fieldValues_set _ _ _ _ (hother op0 hmem hname)]
    exact hfv

/-- On the record `threeArteries` the value under `Agatston_score` is what
`parseAgatstonIn` returns on the six report texts. -/
theorem threeArteries_score (o1 o2 : GoMap Float64 → GoMap Float64) (v : Value)
    (hv : parseAgatstonIn o1 o2 "冠狀動脈鈣化指數"
      ["* LM: 0.1, * LAD: 0.2, * LCX: 0.3", "", "", "", "", ""] = .ok v) :
    (extractdataIn o1 o2 threeArteries).Error = "" ∧
      (extractdataIn o1 o2 threeArteries).Data.get? "Agatston_score" = some v := by
  have hnodup : (GoMap.keys ([] : GoMap Value) ++
      (operationsIn o1 o2).map fun op => op.colName).Nodup := by
    rw [operationsIn_colName]
    simpa [GoMap.keys] using operations_colName_nodup
  obtain ⟨h1, -, -, -, -, h6⟩ := extractdataLoop_success threeArteries (operationsIn o1 o2)
    initResult [] (threeArteries_succeeds o1 o2) hnodup rfl rfl rfl
  refine ⟨h1, ?_⟩
  obtain ⟨⟨op0, hmem, hname⟩, hrow, -⟩ := operations_agatston
  obtain ⟨hlabel, hfields⟩ := hrow op0 hmem hname
  have hin : Operation.mk (parseAgatstonIn o1 o2) op0.colLabel op0.colName op0.fields ∈
      operationsIn o1 o2 := by
    unfold operationsIn
    refine List.mem_map.mpr ⟨op0, hmem, ?_⟩
    rw [if_pos hname]
  have := h6 _ hin ["* LM: 0.1, * LAD: 0.2, * LCX: 0.3", "", "", "", "", ""] v
    (by
      dsimp only
      rw [hfields]
      exact threeArteries_fields)
    (by
      dsimp only
      rw [hlabel]
      exact hv)
  dsimp only at this
  rw [hname] at this
  exact this

/-- C26, amended.  Two evaluations of `extractdata` on the same record, each
with its own orders of visiting the map of artery scores, return the same
`Error`, `ErrorCode` and `ErrorDetail`, a `Data` with the same keys, and the
same value under every key but `Agatston_score`.  The order of the loop
that keeps the largest sub-score never matters: when the two evaluations
sum the sub-scores in the same order, they return the same result. -/
theorem extractdata_determinism (sumOrder maxOrder sumOrder' maxOrder' :
    GoMap Float64 → GoMap Float64) (dataJSON : GoMap String) :
    (extractdataIn sumOrder maxOrder dataJSON).Error =
        (extractdataIn sumOrder' maxOrder' dataJSON).Error ∧
      (extractdataIn sumOrder maxOrder dataJSON).ErrorCode =
        (extractdataIn sumOrder' maxOrder' dataJSON).ErrorCode ∧
      (extractdataIn sumOrder maxOrder dataJSON).ErrorDetail =
        (extractdataIn sumOrder' maxOrder' dataJSON).ErrorDetail ∧
      (extractdataIn sumOrder maxOrder dataJSON).Data.keys =
        (extractdataIn sumOrder' maxOrder' dataJSON).Data.keys ∧
      (∀ k, k ≠ "Agatston_score" →
        (extractdataIn sumOrder maxOrder dataJSON).Data.get? k =
          (extractdataIn sumOrder' maxOrder' dataJSON).Data.get? k) ∧
      (IsVisitOrder maxOrder → IsVisitOrder maxOrder' → sumOrder = sumOrder' →
        extractdataIn sumOrder maxOrder dataJSON =
          extractdataIn sumOrder' maxOrder' dataJSON) := by
  obtain ⟨h1, h2, h3, h4, h5⟩ := extractdataLoop_sameButValue "Agatston_score" dataJSON
    (operationsIn sumOrder maxOrder) (operationsIn sumOrder' maxOrder') initResult initResult
    [] [] (operationsIn_sameButValue sumOrder maxOrder sumOrder' maxOrder') rfl rfl rfl rfl
    (fun _ _ => rfl)
  refine ⟨h1, h2, h3, h4, h5, fun hm hm' hs => ?_⟩
  unfold extractdataIn operationsIn
  rw [hs, parseAgatstonIn_maxOrder sumOrder' maxOrder maxOrder' hm hm']

/-- C26, counterexample.  A record with the artery sub-scores LM 0.1, LAD 0.2
and LCX 0.3 on which every rule succeeds: summed in the order stored the
Agatston score is 0.6000000000000001, summed from the second entry on it is
0.6, so two evaluations of `extractdata` differ. -/
theorem extractdata_order_counterexample :
    IsVisitOrder id ∧ IsVisitOrder fromSecond ∧
      (extractdataIn id id threeArteries).Error = "" ∧
      (extractdataIn fromSecond id threeArteries).Error = "" ∧
      (extractdataIn id id threeArteries).Data.get? "Agatston_score" =
        some (Value.float (Float64.fin (1351079888211149 / 2251799813685248))) ∧
      (extractdataIn fromSecond id threeArteries).Data.get? "Agatston_score" =
        some (Value.float (Float64.fin (5404319552844595 / 9007199254740992))) ∧
      extractdataIn id id threeArteries ≠ extractdataIn fromSecond id threeArteries := by
  have h1 := threeArteries_score id id
    (Value.float (Float64.fin (1351079888211149 / 2251799813685248))) (by decide!)
  have h2 := threeArteries_score fromSecond id
    (Value.float (Float64.fin (5404319552844595 / 9007199254740992))) (by decide!)
  refine ⟨fun m => List.Perm.refl m, fun m => List.rotate_perm m 1, h1.1, h2.1, h1.2, h2.2,
    fun e => ?_⟩
  have := h1.2
  rw [e, h2.2] at this
  revert this
  decide!


/-! ## `parseCigarette` on four inputs -/

/-- C31.  On four inputs `parseCigarette` returns one of the classes 0, 1, 2
and never an error: when the first two tests of the function fail, each of
the four trimmed inputs is blank or the marker 不抽, which is the third
test, so the last branch, the error 數據無效, is never reached.  The only
error `parseCigarette` returns, on any list of inputs, is the error of a
wrong number of inputs, and it returns it exactly when the inputs are not
four. -/
theorem parseCigarette_total (label : String) (fields : List String) :
    (∀ f0 f1 f2 f3 : String,
        parseCigarette label [f0, f1, f2, f3] = .ok (Value.int 0) ∨
        parseCigarette label [f0, f1, f2, f3] = .ok (Value.int 1) ∨
        parseCigarette label [f0, f1, f2, f3] = .ok (Value.int 2)) ∧
      (∀ a b c d : String,
        ¬ ((a ≠ "不抽" ∧ a ≠ "") ∨ (b ≠ "不抽" ∧ b ≠ "")) →
        ¬ ((c ≠ "不抽" ∧ c ≠ "") ∨ (d ≠ "不抽" ∧ d ≠ "")) →
        (a = "不抽" ∨ a = "") ∧ (b = "不抽" ∨ b = "") ∧ (c = "不抽" ∨ c = "") ∧
          (d = "不抽" ∨ d = "")) ∧
      (fields.length = 4 →
        parseCigarette label fields = .ok (Value.int 0) ∨
        parseCigarette label fields = .ok (Value.int 1) ∨
        parseCigarette label fields = .ok (Value.int 2)) ∧
      (fields.length ≠ 4 →
        parseCigarette label fields = .error (wrongFields 4 label fields.length)) ∧
      (∀ err, parseCigarette label fields = .error err →
        fields.length ≠ 4 ∧ err = wrongFields 4 label fields.length ∧
          err ≠ "輸出欄位【" ++ label ++ "】數據無效") := by
  have hreach : ∀ a b c d : String,
      ¬ ((a ≠ "不抽" ∧ a ≠ "") ∨ (b ≠ "不抽" ∧ b ≠ "")) →
      ¬ ((c ≠ "不抽" ∧ c ≠ "") ∨ (d ≠ "不抽" ∧ d ≠ "")) →
      (a = "不抽" ∨ a = "") ∧ (b = "不抽" ∨ b = "") ∧ (c = "不抽" ∨ c = "") ∧
        (d = "不抽" ∨ d = "") := by
    intro a b c d h1 h2
    simp only [not_or, not_and_or, not_not] at h1 h2
    exact ⟨h1.1, h1.2, h2.1, h2.2⟩
  have hfour : ∀ f0 f1 f2 f3 : String,
      parseCigarette label [f0, f1, f2, f3] = .ok (Value.int 0) ∨
      parseCigarette label [f0, f1, f2, f3] = .ok (Value.int 1) ∨
      parseCigarette label [f0, f1, f2, f3] = .ok (Value.int 2) := by
    intro f0 f1 f2 f3
    unfold parseCigarette
    dsimp only
    by_cases h1 : (strings.TrimSpace f0 ≠ "不抽" ∧ strings.TrimSpace f0 ≠ "") ∨
        (strings.TrimSpace f1 ≠ "不抽" ∧ strings.TrimSpace f1 ≠ "")
    · rw [if_pos h1]
      exact Or.inr (Or.inr rfl)
    · rw [if_neg h1]
      by_cases h2 : (strings.TrimSpace f2 ≠ "不抽" ∧ strings.TrimSpace f2 ≠ "") ∨
          (strings.TrimSpace f3 ≠ "不抽" ∧ strings.TrimSpace f3 ≠ "")
      · rw [if_pos h2]
        exact Or.inr (Or.inl rfl)
      · rw [if_neg h2, if_pos (hreach _ _ _ _ h1 h2)]
        exact Or.inl rfl
  have hother : fields.length ≠ 4 →
      parseCigarette label fields = .error (wrongFields 4 label fields.length) := by
    intro hlen
    unfold parseCigarette
    split
    · exact absurd rfl hlen
    · rfl
  have hmsg : wrongFields 4 label fields.length ≠ "輸出欄位【" ++ label ++ "】數據無效" := by
    intro e
    have h1 := wrongFields_head _ ⟨4, label, fields.length, Or.inl e.symm⟩
    have h2 : ("輸出欄位【" ++ label ++ "】數據無效").data.head? = some '輸' :=
      head_append _ _ _ (head_append _ _ _ (by decide))
    rw [h2] at h1
    revert h1
    decide
  refine ⟨hfour, hreach, ?_, hother, ?_⟩
  · intro hlen
    obtain ⟨f0, f1, f2, f3, rfl⟩ := length_eq_four fields hlen
    exact hfour f0 f1 f2 f3
  · intro err herr
    by_cases hlen : fields.length = 4
    · obtain ⟨f0, f1, f2, f3, rfl⟩ := length_eq_four fields hlen
      rcases hfour f0 f1 f2 f3 with h | h | h <;> rw [h] at herr <;> cases herr
    · rw [hother hlen] at herr
      cases herr
      exact ⟨hlen, rfl, hmsg⟩

/-! ## The reads of slices -/

theorem index_zero {α : Type} (a : α) (l : List α) : checked.index (a :: l) 0 = some a := rfl

theorem index_succ {α : Type} (a : α) (l : List α) (i : Nat) :
    checked.index (a :: l) (i + 1) = checked.index l i := rfl

theorem index_drop {α : Type} (l : List α) (i : Nat) (a : α) (tl : List α)
    (h : l.drop i = a :: tl) : checked.index l i = some a := by
  unfold checked.index
  induction l generalizing i with
  | nil => simp at h
  | cons x xs ih =>
    cases i with
    | zero =>
      simp only [List.drop_zero, List.cons.injEq] at h
      rw [h.1]
      rfl
    | succ k => exact ih k h

/-- The read `scores[i]` of `convertToScore` is in range when there are at
least as many scores as categories: the loop with the read returns what the
loop without it returns. -/
theorem convertToScoreFrom_eq (response : String) (scores : List Int) :
    ∀ (categories : List String) (i : Nat)
      (h : categories.length ≤ (scores.drop i).length),
      checked.convertToScoreFrom response scores categories i =
        some (convertToScore response categories (scores.drop i) h) := by
  intro categories
  induction categories with
  | nil =>
    intro i h
    rfl
  | cons c cs ih =>
    intro i h
    have hex : ∃ s tl, scores.drop i = s :: tl := by
      cases hd : scores.drop i with
      | nil => rw [hd] at h; simp at h
      | cons s tl => exact ⟨s, tl, rfl⟩
    obtain ⟨s, tl, hd⟩ := hex
    have htl : scores.drop (i + 1) = tl := by
      have := congrArg (List.drop 1) hd
      rw [List.drop_drop] at this
      simpa [Nat.add_comm] using this
    have key : ∀ (l : List Int) (_ : scores.drop i = l) (h' : (c :: cs).length ≤ l.length),
        convertToScore response (c :: cs) (scores.drop i) h =
          convertToScore response (c :: cs) l h' := by
      intro l hl h'
      subst hl
      rfl
    have h' : (c :: cs).length ≤ (s :: tl).length := by rw [← hd]; exact h
    rw [key (s :: tl) hd h']
    unfold checked.convertToScoreFrom convertToScore
    by_cases hc : strings.Contains response c = true
    · rw [if_pos hc, if_pos hc, index_drop scores i s tl hd]
      rfl
    · rw [if_neg hc, if_neg hc]
      have h2 : cs.length ≤ (scores.drop (i + 1)).length := by
        rw [htl]
        simpa using h'
      rw [ih (i + 1) h2]
      congr 1
      have key2 : ∀ (l : List Int) (_ : scores.drop (i + 1) = l) (h3 : cs.length ≤ l.length),
          convertToScore response cs (scores.drop (i + 1)) h2 =
            convertToScore response cs l h3 := by
        intro l hl h3
        subst hl
        rfl
      exact key2 tl htl _

theorem convertToScore_checked (response : String) (categories : List String)
    (scores : List Int) (h : categories.length ≤ scores.length) :
    checked.convertToScore response categories scores =
      some (convertToScore response categories scores h) :=
  convertToScoreFrom_eq response scores categories 0 h

theorem digitsThenSubmatch_eq (lit : String) (s : List Char) :
    checked.digitsThenSubmatch lit s =
      match regexp.leftmost (regexp.digitsThen lit.data) s with
      | some r => [String.mk (r.1 ++ lit.data), String.mk r.1]
      | none => [] := by
  unfold checked.digitsThenSubmatch
  rw [leftmost_map]
  cases regexp.leftmost (regexp.digitsThen lit.data) s <;> rfl

/-- The strings of a match of `(\d+)小時(\d+)?分鐘?` are three, and the second
and third are the groups of `hourMinutePattern`. -/
theorem hourMinuteSubmatch_eq (s : List Char) :
    (hourMinutePattern s = none ∧ checked.hourMinuteSubmatch s = []) ∨
      ∃ whole hours minutes, hourMinutePattern s = some (hours, minutes) ∧
        checked.hourMinuteSubmatch s = [whole, hours, minutes] := by
  have hmap : hourMinutePattern s =
      (regexp.leftmost (fun t =>
        match regexp.digitsThen "小時".data t with
        | none => none
        | some (hours, rest) =>
          match regexp.literal "分".data (rest.dropWhile regexp.isDigit) with
          | none => none
          | some after =>
            let minutes := rest.takeWhile regexp.isDigit
            let bell := if (regexp.literal "鐘".data after).isSome then "鐘".data else []
            some [String.mk (hours ++ "小時".data ++ minutes ++ "分".data ++ bell),
              String.mk hours, String.mk minutes]) s).map
        fun l => (l.getD 1 "", l.getD 2 "") := by
    rw [← leftmost_map]
    unfold hourMinutePattern
    congr 1
    funext t
    cases regexp.digitsThen "小時".data t with
    | none => rfl
    | some r =>
      obtain ⟨hours, rest⟩ := r
      dsimp only
      cases regexp.literal "分".data (rest.dropWhile regexp.isDigit) with
      | none => rfl
      | some after => rfl
  unfold checked.hourMinuteSubmatch
  rw [hmap]
  cases hl : regexp.leftmost (fun t =>
        match regexp.digitsThen "小時".data t with
        | none => none
        | some (hours, rest) =>
          match regexp.literal "分".data (rest.dropWhile regexp.isDigit) with
          | none => none
          | some after =>
            let minutes := rest.takeWhile regexp.isDigit
            let bell := if (regexp.literal "鐘".data after).isSome then "鐘".data else []
            some [String.mk (hours ++ "小時".data ++ minutes ++ "分".data ++ bell),
              String.mk hours, String.mk minutes]) s with
  | none => exact Or.inl ⟨rfl, rfl⟩
  | some l =>
    right
    obtain ⟨t, -, ht⟩ := leftmost_some _ _ _ hl
    split at ht
    · cases ht
    · split at ht
      · cases ht
      · cases ht
        exact ⟨_, _, _, rfl, rfl⟩

/-- The strings of a match of `arteryRegex` are three, and the second and
third are the groups of `arteryRegex`. -/
theorem arterySubmatch_eq (s : List Char) :
    (arteryRegex s = none ∧ checked.arterySubmatch s = []) ∨
      ∃ whole artery number, arteryRegex s = some (artery, number) ∧
        checked.arterySubmatch s = [whole, artery, number] := by
  have hmap : arteryRegex s =
      (regexp.leftmost (fun t =>
        match regexp.literal ['*'] t with
        | none => none
        | some rest =>
          match regexp.alternatives ["LM", "LAD", "LCX", "RCA"]
              (rest.dropWhile regexp.isSpace) with
          | none => none
          | some (artery, rest2) =>
            match regexp.literal [':'] rest2 with
            | none => none
            | some rest3 =>
              match regexp.number (rest3.dropWhile regexp.isSpace) with
              | none => none
              | some (num, _) =>
                some [String.mk ('*' :: (rest.takeWhile regexp.isSpace ++ artery.data ++
                    ':' :: (rest3.takeWhile regexp.isSpace ++ num))),
                  artery, String.mk num]) s).map
        fun l => (l.getD 1 "", l.getD 2 "") := by
    rw [← leftmost_map]
    unfold arteryRegex
    congr 1
    funext t
    cases regexp.literal ['*'] t with
    | none => rfl
    | some rest =>
      dsimp only
      cases regexp.alternatives ["LM", "LAD", "LCX", "RCA"]
          (rest.dropWhile regexp.isSpace) with
      | none => rfl
      | some r =>
        obtain ⟨artery, rest2⟩ := r
        dsimp only
        cases regexp.literal [':'] rest2 with
        | none => rfl
        | some rest3 =>
          dsimp only
          cases regexp.number (rest3.dropWhile regexp.isSpace) with
          | none => rfl
          | some n =>
            obtain ⟨num, tail⟩ := n
            rfl
  unfold checked.arterySubmatch
  rw [hmap]
  cases hl : regexp.leftmost (fun t =>
        match regexp.literal ['*'] t with
        | none => none
        | some rest =>
          match regexp.alternatives ["LM", "LAD", "LCX", "RCA"]
              (rest.dropWhile regexp.isSpace) with
          | none => none
          | some (artery, rest2) =>
            match regexp.literal [':'] rest2 with
            | none => none
            | some rest3 =>
              match regexp.number (rest3.dropWhile regexp.isSpace) with
              | none => none
              | some (num, _) =>
                some [String.mk ('*' :: (rest.takeWhile regexp.isSpace ++ artery.data ++
                    ':' :: (rest3.takeWhile regexp.isSpace ++ num))),
                  artery, String.mk num]) s with
  | none => exact Or.inl ⟨rfl, rfl⟩
  | some l =>
    right
    obtain ⟨t, -, ht⟩ := leftmost_some _ _ _ hl
    split at ht
    · cases ht
    · split at ht
      · cases ht
      · split at ht
        · cases ht
        · split at ht
          · cases ht
          · cases ht
            exact ⟨_, _, _, rfl, rfl⟩

/-- The reads `matches[1]` and `matches[2]` of `str2Min` are in range. -/
theorem str2Min_checked (s : String) : checked.str2Min s = some (str2Min s) := by
  unfold checked.str2Min
  rw [str2Min_eq]
  dsimp only
  by_cases h1 : strings.TrimSpace s = ""
  · rw [if_pos h1, if_pos h1]
  · rw [if_neg h1, if_neg h1]
    by_cases h2 : (strconv.Atoi (strings.TrimSpace s)).err = none
    · rw [if_pos h2, if_pos h2]
    · rw [if_neg h2, if_neg h2]
      rcases hourMinuteSubmatch_eq (strings.TrimSpace s).data with
        ⟨hp, hm⟩ | ⟨whole, hours, minutes, hp, hm⟩
      · rw [hp, hm, if_neg (not_not.mpr rfl)]
        dsimp only
        rw [digitsThenSubmatch_eq, hourPattern_eq]
        cases regexp.leftmost (regexp.digitsThen "小時".data) (strings.TrimSpace s).data with
        | some r => rfl
        | none =>
          dsimp only
          rw [if_neg (not_not.mpr rfl), digitsThenSubmatch_eq, minutePattern_eq]
          cases regexp.leftmost (regexp.digitsThen "分鐘".data) (strings.TrimSpace s).data with
          | some r => rfl
          | none => rfl
      · rw [hp, hm, if_pos (List.cons_ne_nil _ _)]
        by_cases hmin : minutes ≠ ""
        · simp [checked.index, hmin]
        · simp [checked.index, hmin]

/-- The read `matches[1]` of `str2Day` is in range. -/
theorem str2Day_checked (s : String) : checked.str2Day s = some (str2Day s) := by
  unfold checked.str2Day str2Day
  dsimp only
  by_cases h1 : strings.TrimSpace s = ""
  · rw [if_pos h1, if_pos h1]
  · rw [if_neg h1, if_neg h1]
    by_cases h2 : (strconv.Atoi (strings.TrimSpace s)).err = none
    · rw [if_pos h2, if_pos h2]
    · rw [if_neg h2, if_neg h2, digitsThenSubmatch_eq, DayPattern_eq]
      cases regexp.leftmost (regexp.digitsThen "天".data) (strings.TrimSpace s).data with
      | some r => rfl
      | none => rfl

/-- The reads `matches[0]` and `matches[1]` of the first inner loop of
`parseAgatston` are in range. -/
theorem collectScores_agatston (lines : List (List Char)) (scores : GoMap Float64) :
    checked.collectScores checked.agatstonSubmatch 0 1 lines scores =
      some (collectScores agatstonRegex lines scores) := by
  induction lines generalizing scores with
  | nil => rfl
  | cons line lines ih =>
    unfold checked.collectScores collectScores checked.agatstonSubmatch
    cases agatstonRegex line with
    | none => exact ih scores
    | some r =>
      obtain ⟨whole, number⟩ := r
      exact ih _

/-- The reads `matches[1]` and `matches[2]` of the second inner loop of
`parseAgatston` are in range. -/
theorem collectScores_artery (lines : List (List Char)) (scores : GoMap Float64) :
    checked.collectScores checked.arterySubmatch 1 2 lines scores =
      some (collectScores arteryRegex lines scores) := by
  induction lines generalizing scores with
  | nil => rfl
  | cons line lines ih =>
    unfold checked.collectScores collectScores
    rcases arterySubmatch_eq line with ⟨hp, hm⟩ | ⟨whole, artery, number, hp, hm⟩
    · rw [hp, hm]
      exact ih scores
    · rw [hp, hm]
      exact ih _

theorem collectFields_checked (fields : List String) (maps : GoMap Float64 × GoMap Float64) :
    checked.collectFields fields maps = some (collectFields fields maps) := by
  induction fields generalizing maps with
  | nil => rfl
  | cons field fields ih =>
    obtain ⟨a, b⟩ := maps
    unfold checked.collectFields collectFields
    rw [collectScores_agatston, collectScores_artery]
    exact ih _

theorem parseAgatston_checked (label : String) (fields : List String) :
    checked.parseAgatston label fields = some (parseAgatston label fields) := by
  unfold checked.parseAgatston parseAgatston
  by_cases h : fields.length ≠ 6
  · rw [if_pos h, if_pos h]
  · rw [if_neg h, if_neg h, collectFields_checked]
    rfl

theorem length_eq_one_list (l : List String) (h : l.length = 1) : ∃ f0, l = [f0] :=
  List.length_eq_one.mp h

theorem length_eq_two_list (l : List String) (h : l.length = 2) : ∃ f0 f1, l = [f0, f1] :=
  List.length_eq_two.mp h

theorem length_eq_three_list (l : List String) (h : l.length = 3) :
    ∃ f0 f1 f2, l = [f0, f1, f2] :=
  List.length_eq_three.mp h

/-- The reads of `fields` in `calculateAge` are in range. -/
theorem calculateAge_checked (label : String) (fields : List String) :
    checked.calculateAge label fields = some (calculateAge label fields) := by
  unfold checked.calculateAge
  by_cases h : fields.length ≠ 2
  · rw [if_pos h]
    congr 1
    unfold calculateAge
    split
    · exact absurd rfl h
    · rfl
  · rw [if_neg h]
    obtain ⟨f0, f1, rfl⟩ := length_eq_two_list fields (not_not.mp h)
    rfl

/-- The read of `fields` in `parseSex` is in range. -/
theorem parseSex_checked (label : String) (fields : List String) :
    checked.parseSex label fields = some (parseSex label fields) := by
  unfold checked.parseSex
  by_cases h : fields.length ≠ 1
  · rw [if_pos h]
    congr 1
    unfold parseSex
    split
    · exact absurd rfl h
    · rfl
  · rw [if_neg h]
    obtain ⟨f0, rfl⟩ := length_eq_one_list fields (not_not.mp h)
    rfl

/-- The reads of `fields` in `parseBMI` are in range. -/
theorem parseBMI_checked (label : String) (fields : List String) :
    checked.parseBMI label fields = some (parseBMI label fields) := by
  unfold checked.parseBMI
  by_cases h : fields.length ≠ 3
  · rw [if_pos h]
    congr 1
    unfold parseBMI
    split
    · exact absurd rfl h
    · rfl
  · rw [if_neg h]
    obtain ⟨f0, f1, f2, rfl⟩ := length_eq_three_list fields (not_not.mp h)
    rfl

/-- The read of `fields` in `parseGirth` is in range. -/
theorem parseGirth_checked (label : String) (fields : List String) :
    checked.parseGirth label fields = some (parseGirth label fields) := by
  unfold checked.parseGirth
  by_cases h : fields.length ≠ 1
  · rw [if_pos h]
    congr 1
    unfold parseGirth
    split
    · exact absurd rfl h
    · rfl
  · rw [if_neg h]
    obtain ⟨f0, rfl⟩ := length_eq_one_list fields (not_not.mp h)
    rfl

/-- The reads of `fields` in `parseBP` are in range. -/
theorem parseBP_checked (label : String) (fields : List String) :
    checked.parseBP label fields = some (parseBP label fields) := by
  unfold checked.parseBP
  by_cases h : fields.length ≠ 2
  · rw [if_pos h]
    congr 1
    unfold parseBP
    split
    · exact absurd rfl h
    · rfl
  · rw [if_neg h]
    obtain ⟨f0, f1, rfl⟩ := length_eq_two_list fields (not_not.mp h)
    rfl

/-- The read of `fields` in `parsePass` is in range. -/
theorem parsePass_checked (label : String) (fields : List String) :
    checked.parsePass label fields = some (parsePass label fields) := by
  unfold checked.parsePass
  by_cases h : fields.length ≠ 1
  · rw [if_pos h]
    congr 1
    unfold parsePass
    split
    · exact absurd rfl h
    · rfl
  · rw [if_neg h]
    obtain ⟨f0, rfl⟩ := length_eq_one_list fields (not_not.mp h)
    rfl

/-- The reads of `fields` in `parseCigarette` are in range. -/
theorem parseCigarette_checked (label : String) (fields : List String) :
    checked.parseCigarette label fields = some (parseCigarette label fields) := by
  unfold checked.parseCigarette
  by_cases h : fields.length ≠ 4
  · rw [if_pos h]
    congr 1
    unfold parseCigarette
    split
    · exact absurd rfl h
    · rfl
  · rw [if_neg h]
    obtain ⟨f0, f1, f2, f3, rfl⟩ := length_eq_four fields (not_not.mp h)
    rfl

/-- The read of `fields` in `parseBetel` is in range. -/
theorem parseBetel_checked (label : String) (fields : List String) :
    checked.parseBetel label fields = some (parseBetel label fields) := by
  unfold checked.parseBetel
  by_cases h : fields.length ≠ 1
  · rw [if_pos h]
    congr 1
    unfold parseBetel
    split
    · exact absurd rfl h
    · rfl
  · rw [if_neg h]
    obtain ⟨f0, rfl⟩ := length_eq_one_list fields (not_not.mp h)
    rfl

/-- The read of `fields` in `parseDrink` is in range. -/
theorem parseDrink_checked (label : String) (fields : List String) :
    checked.parseDrink label fields = some (parseDrink label fields) := by
  unfold checked.parseDrink
  by_cases h : fields.length ≠ 1
  · rw [if_pos h]
    congr 1
    unfold parseDrink
    split
    · exact absurd rfl h
    · rfl
  · rw [if_neg h]
    obtain ⟨f0, rfl⟩ := length_eq_one_list fields (not_not.mp h)
    rfl

/-- The read of `fields` in `parseFood` is in range. -/
theorem parseFood_checked (label : String) (fields : List String) :
    checked.parseFood label fields = some (parseFood label fields) := by
  unfold checked.parseFood
  by_cases h : fields.length ≠ 1
  · rw [if_pos h]
    congr 1
    unfold parseFood
    split
    · exact absurd rfl h
    · rfl
  · rw [if_neg h]
    obtain ⟨f0, rfl⟩ := length_eq_one_list fields (not_not.mp h)
    rfl

/-- The read of `fields` in `parseGlucoseU` is in range. -/
theorem parseGlucoseU_checked (label : String) (fields : List String) :
    checked.parseGlucoseU label fields = some (parseGlucoseU label fields) := by
  unfold checked.parseGlucoseU
  by_cases h : fields.length ≠ 1
  · rw [if_pos h]
    congr 1
    unfold parseGlucoseU
    split
    · exact absurd rfl h
    · rfl
  · rw [if_neg h]
    obtain ⟨f0, rfl⟩ := length_eq_one_list fields (not_not.mp h)
    rfl

/-- The reads of `fields` in `parseHsCRP` are in range. -/
theorem parseHsCRP_checked (label : String) (fields : List String) :
    checked.parseHsCRP label fields = some (parseHsCRP label fields) := by
  unfold checked.parseHsCRP
  by_cases h : fields.length ≠ 2
  · rw [if_pos h]
    congr 1
    unfold parseHsCRP
    split
    · exact absurd rfl h
    · rfl
  · rw [if_neg h]
    obtain ⟨f0, f1, rfl⟩ := length_eq_two_list fields (not_not.mp h)
    rfl

/-- The two reads of `fields[0]` in `parseZeroDiscard` are in range. -/
theorem parseZeroDiscard_checked (label : String) (fields : List String) :
    checked.parseZeroDiscard label fields = some (parseZeroDiscard label fields) := by
  unfold checked.parseZeroDiscard
  by_cases h : fields.length ≠ 1
  · rw [if_pos h]
    congr 1
    unfold parseZeroDiscard
    split
    · exact absurd rfl h
    · rfl
  · rw [if_neg h]
    obtain ⟨f0, rfl⟩ := length_eq_one_list fields (not_not.mp h)
    by_cases he : (strconv.ParseFloat f0).err ≠ none
    · simp [checked.index, parseZeroDiscard, he]
    · simp [checked.index, he]

/-- The read `fields[0]`, the slice `fields[1:]` and the reads
`daysOfWeek[key]` in `parseAlcohol` are in range. -/
theorem parseAlcohol_checked (label : String) (fields : List String) :
    checked.parseAlcohol label fields = some (parseAlcohol label fields) := by
  unfold checked.parseAlcohol
  by_cases h : fields.length ≠ 8
  · rw [if_pos h]
    congr 1
    unfold parseAlcohol
    split
    · exact absurd rfl h
    · rfl
  · rw [if_neg h]
    obtain ⟨f0, f1, f2, f3, f4, f5, f6, f7, rfl⟩ := length_eq_eight fields (not_not.mp h)
    rfl

/-- The reads of `fields` in `parseExcercise` are in range, and so are the
reads in its calls of `str2Day` and `str2Min`. -/
theorem parseExcercise_checked (label : String) (fields : List String) :
    checked.parseExcercise label fields = some (parseExcercise label fields) := by
  unfold checked.parseExcercise
  by_cases h : fields.length ≠ 4
  · rw [if_pos h]
    congr 1
    unfold parseExcercise
    split
    · exact absurd rfl h
    · rfl
  · rw [if_neg h]
    obtain ⟨f0, f1, f2, f3, rfl⟩ := length_eq_four fields (not_not.mp h)
    simp only [index_zero, index_succ, str2Day_checked, str2Min_checked, parseExcercise,
      Option.bind_eq_bind, Option.some_bind, Option.pure_def, bind_pure_comp]
    cases str2Day (strings.TrimSpace f0) with
    | error e => rfl
    | ok a =>
      cases str2Min (strings.TrimSpace f1) with
      | error e => rfl
      | ok b =>
        cases str2Day (strings.TrimSpace f2) with
        | error e => rfl
        | ok c =>
          cases str2Min (strings.TrimSpace f3) with
          | error e => rfl
          | ok d => rfl

/-- The reads of `fields` in `parsePSQI` are in range, and so is the read
`scores[i]` in each of its calls of `convertToScore`. -/
theorem parsePSQI_checked (label : String) (fields : List String) :
    checked.parsePSQI label fields = some (parsePSQI label fields) := by
  unfold checked.parsePSQI
  by_cases h : fields.length ≠ 7
  · rw [if_pos h]
    congr 1
    unfold parsePSQI
    split
    · exact absurd rfl h
    · rfl
  · rw [if_neg h]
    obtain ⟨f0, f1, f2, f3, f4, f5, f6, rfl⟩ := length_eq_seven fields (not_not.mp h)
    simp (disch := decide) only [index_zero, index_succ, parsePSQI, convertToScore_checked]
    generalize convertToScore f0 _ _ _ = r0
    generalize convertToScore f1 _ _ _ = r1
    generalize convertToScore f2 _ _ _ = r2
    generalize convertToScore f3 _ _ _ = r3
    generalize convertToScore f4 _ _ _ = r4
    generalize convertToScore f5 _ _ _ = r5
    generalize convertToScore f6 _ _ _ = r6
    cases r0 <;> cases r1 <;> cases r2 <;> cases r3 <;> cases r4 <;> cases r5 <;> cases r6 <;> rfl

/-- The reads of `fields` in `parseBSRS5` are in range, and so is the read
`scores[i]` in each of its calls of `convertToScore`. -/
theorem parseBSRS5_checked (label : String) (fields : List String) :
    checked.parseBSRS5 label fields = some (parseBSRS5 label fields) := by
  unfold checked.parseBSRS5
  by_cases h : fields.length ≠ 5
  · rw [if_pos h]
    congr 1
    unfold parseBSRS5
    split
    · exact absurd rfl h
    · rfl
  · rw [if_neg h]
    obtain ⟨f0, f1, f2, f3, f4, rfl⟩ := length_eq_five fields (not_not.mp h)
    simp (disch := decide) only [index_zero, index_succ, parseBSRS5, convertToScore_checked]
    generalize convertToScore f0 _ _ _ = r0
    generalize convertToScore f1 _ _ _ = r1
    generalize convertToScore f2 _ _ _ = r2
    generalize convertToScore f3 _ _ _ = r3
    generalize convertToScore f4 _ _ _ = r4
    cases r0 <;> cases r1 <;> cases r2 <;> cases r3 <;> cases r4 <;> rfl

/-- Every parser of the library, with its reads checked, returns what its
embedding returns: no read of it is out of range. -/
theorem ParserName.checked_eq (name : ParserName) (label : String) (fields : List String) :
    name.checked label fields = some (name.run label fields) := by
  cases name
  · exact calculateAge_checked label fields
  · exact parseSex_checked label fields
  · rfl
  · rfl
  · exact parseBMI_checked label fields
  · exact parseGirth_checked label fields
  · exact parseBP_checked label fields
  · exact parsePass_checked label fields
  · exact parseAlcohol_checked label fields
  · exact parseCigarette_checked label fields
  · exact parseBetel_checked label fields
  · exact parseDrink_checked label fields
  · exact parseFood_checked label fields
  · exact parseExcercise_checked label fields
  · exact parsePSQI_checked label fields
  · exact parseBSRS5_checked label fields
  · exact parseZeroDiscard_checked label fields
  · exact parseGlucoseU_checked label fields
  · exact parseHsCRP_checked label fields
  · exact parseAgatston_checked label fields

/-- A call of `parsedata` around a parser that never panics does not panic. -/
theorem parsedata_checked
    (parsefunction : String → List String → Option (Except String Value))
    (plain : String → List String → Except String Value)
    (h : ∀ label fields, parsefunction label fields = some (plain label fields))
    (parsedJSON : GoMap Value) (data : GoMap String)
    (modelcollabel modelcolname : String) (defusedcolname : List String) :
    checked.parsedata parsefunction parsedJSON data modelcollabel modelcolname defusedcolname =
      some (parsedata plain parsedJSON data modelcollabel modelcolname defusedcolname) := by
  unfold checked.parsedata parsedata
  by_cases hlen : defusedcolname.length < 1
  · rw [if_pos hlen, if_pos hlen]
  · rw [if_neg hlen, if_neg hlen]
    cases fieldValues data defusedcolname with
    | error colName => rfl
    | ok vals =>
      simp only [h]
      cases plain modelcollabel vals <;> rfl

/-- The loop of `extractdata` over rows whose parsers never panic does not
panic. -/
theorem extractdataLoop_checked (data : GoMap String) (rows : List checked.Operation)
    (ops : List Operation) (h : List.Forall₂ Refines rows ops) :
    ∀ (result : Result) (parsedJSON : GoMap Value),
      checked.extractdataLoop data rows result parsedJSON =
        some (extractdataLoop data ops result parsedJSON) := by
  induction h with
  | nil => intro result parsedJSON; rfl
  | @cons row op rows ops hrow _ ih =>
    intro result parsedJSON
    obtain ⟨hlabel, hname, hfields, hparse⟩ := hrow
    unfold checked.extractdataLoop extractdataLoop
    rw [parsedata_checked row.parseFunc op.parseFunc hparse, hlabel, hname, hfields]
    simp only [Option.bind_eq_bind, Option.some_bind, Option.pure_def]
    split
    · rfl
    · exact ih _ _

/-- The first column of the table `operations` is `operationParsers`. -/
theorem operations_parsers :
    operations.map (fun op => op.parseFunc) = operationParsers.map ParserName.run := rfl

/-- Rows built from the names of the parsers of a table stand for the rows
of the table. -/
theorem refines_of_parsers : ∀ (names : List ParserName) (ops : List Operation),
    ops.map (fun op => op.parseFunc) = names.map ParserName.run →
    List.Forall₂ Refines
      (List.zipWith
        (fun name op => checked.Operation.mk name.checked op.colLabel op.colName op.fields)
        names ops) ops
  | [], [], _ => List.Forall₂.nil
  | [], _ :: _, h => by cases h
  | _ :: _, [], h => by cases h
  | name :: names, op :: ops, h => by
    simp only [List.map_cons, List.cons.injEq] at h
    refine List.Forall₂.cons ⟨rfl, rfl, rfl, ?_⟩ (refines_of_parsers names ops h.2)
    intro label fields
    show name.checked label fields = some (op.parseFunc label fields)
    rw [h.1, ParserName.checked_eq]

/-- The table with checked parsers stands for `operations`, row by row. -/
theorem checked_operations_refine : List.Forall₂ Refines checked.operations operations :=
  refines_of_parsers operationParsers operations operations_parsers

/-- The lengths of the lists `FindStringSubmatch` returns. -/
theorem digitsThenSubmatch_length (lit : String) (s : List Char) :
    checked.digitsThenSubmatch lit s = [] ∨ (checked.digitsThenSubmatch lit s).length = 2 := by
  rw [digitsThenSubmatch_eq]
  cases regexp.leftmost (regexp.digitsThen lit.data) s with
  | none => exact Or.inl rfl
  | some r => exact Or.inr rfl

/-- A parser that asks for `numFields` fields returns an error, before any
read, when it is given another number of them. -/
theorem ParserName.checked_wrong_number (name : ParserName) (n : Nat)
    (hn : name.numFields = some n) (label : String) (fields : List String)
    (h : fields.length ≠ n) : ∃ err, name.checked label fields = some (.error err) := by
  cases name <;> simp only [ParserName.numFields, Option.some.injEq] at hn <;>
    first
    | exact absurd hn (by simp)
    | (subst hn
       first
       | exact ⟨_, if_pos h⟩)

theorem hourMinuteSubmatch_length (s : List Char) :
    checked.hourMinuteSubmatch s = [] ∨ (checked.hourMinuteSubmatch s).length = 3 := by
  rcases hourMinuteSubmatch_eq s with ⟨_, hm⟩ | ⟨whole, hours, minutes, _, hm⟩
  · exact Or.inl hm
  · exact Or.inr (by rw [hm]; rfl)

theorem agatstonSubmatch_length (s : List Char) :
    checked.agatstonSubmatch s = [] ∨ (checked.agatstonSubmatch s).length = 2 := by
  unfold checked.agatstonSubmatch
  cases agatstonRegex s with
  | none => exact Or.inl rfl
  | some r => exact Or.inr rfl

theorem arterySubmatch_length (s : List Char) :
    checked.arterySubmatch s = [] ∨ (checked.arterySubmatch s).length = 3 := by
  rcases arterySubmatch_eq s with ⟨_, hm⟩ | ⟨whole, artery, number, _, hm⟩
  · exact Or.inl hm
  · exact Or.inr (by rw [hm]; rfl)

/-- C32.  No read of a slice of `extractdata` is out of range.  In the
embedding `checked`, where a read `xs[i]` outside the slice ends the run
with a panic (`none`), `extractdata` over the table `operations` returns,
on every record, the `Result` of its embedding `extractdata` and no panic.
The reasons: every parser of the table returns without a panic on every
label and every list of fields; a parser that indexes `fields` returns its
error on a wrong number of fields, before any read; `convertToScore` does
not panic when it has a score for every category (a read of `scores[i]`
would panic otherwise, as with two categories and one score), and the
questionnaires call it with lists of equal length; the lists returned by
`FindStringSubmatch` are empty or hold the whole match and every group of
the pattern, and the time parsers and the two loops of `parseAgatston` read
no further. -/
theorem extractdata_no_index_fault (dataJSON : GoMap String) :
    checked.extractdata dataJSON = some (extractdata dataJSON) ∧
    (∀ (name : ParserName) (label : String) (fields : List String),
      name.checked label fields = some (name.run label fields)) ∧
    operations.map (fun op => op.parseFunc) = operationParsers.map ParserName.run ∧
    (∀ (name : ParserName) (n : Nat), name.numFields = some n →
      ∀ (label : String) (fields : List String), fields.length ≠ n →
        ∃ err, name.checked label fields = some (.error err)) ∧
    (∀ (response : String) (categories : List String) (scores : List Int)
      (h : categories.length ≤ scores.length),
      checked.convertToScore response categories scores =
        some (convertToScore response categories scores h)) ∧
    checked.convertToScore "b" ["a", "b"] [1] = none ∧
    (∀ label fields, checked.parsePSQI label fields = some (parsePSQI label fields)) ∧
    (∀ label fields, checked.parseBSRS5 label fields = some (parseBSRS5 label fields)) ∧
    (∀ timeStr, checked.str2Min timeStr = some (str2Min timeStr)) ∧
    (∀ timeStr, checked.str2Day timeStr = some (str2Day timeStr)) ∧
    (∀ fields maps, checked.collectFields fields maps = some (collectFields fields maps)) ∧
    (∀ lit s, checked.digitsThenSubmatch lit s = [] ∨
      (checked.digitsThenSubmatch lit s).length = 2) ∧
    (∀ s, checked.hourMinuteSubmatch s = [] ∨ (checked.hourMinuteSubmatch s).length = 3) ∧
    (∀ s, checked.agatstonSubmatch s = [] ∨ (checked.agatstonSubmatch s).length = 2) ∧
    (∀ s, checked.arterySubmatch s = [] ∨ (checked.arterySubmatch s).length = 3) ∧
    checked.index ([] : List String) 0 = none ∧
    checked.index ["a", "b"] 2 = none ∧
    checked.parsedata (fun _ fields => (checked.index fields 1).map fun _ => .ok (Value.int 0))
      [] [("k", "v")] "l" "n" ["k"] = none := by
  refine ⟨extractdataLoop_checked dataJSON _ _ checked_operations_refine _ _,
    ParserName.checked_eq, operations_parsers, ParserName.checked_wrong_number,
    convertToScore_checked, by decide, parsePSQI_checked, parseBSRS5_checked,
    str2Min_checked, str2Day_checked, collectFields_checked, digitsThenSubmatch_length,
    hourMinuteSubmatch_length, agatstonSubmatch_length, arterySubmatch_length,
    rfl, rfl, by decide⟩

end ParserXml
